import Mathlib

/-!
# Geometry command engine of ntremu (`src/gpu.c`)

A shallow embedding of the command FIFO, the matrix stacks, the vertex and
polygon assemblers and the wireframe renderer of `gpu.c`, followed by theorems
about them.

Conventions of the embedding.

* `float` is an arbitrary type `F` carrying the operations the code uses
  (`0`, `1`, `+`, `-`, `*`, `/`, conversion from `int`, and `FloatOps` for the
  conversion to `int`, `fabsf` and `>`).  No law is assumed of them: theorems
  about computed matrices and vertices state the value through the operations
  of `F`, in the order the code applies them.  Only the theorems on the decoding
  of vertex coordinates ask for a `Field`; the quotients they state are held
  exactly by a binary floating-point format.
* `F32` is the instance of `float` used to evaluate the code on inputs where
  rounding matters: IEEE 754 binary32, every operation rounded on its own to
  the nearest value, ties to even.  The rationals are the instance used where
  it does not.
* C arrays are total functions from indices; the element count travels in the
  same field the C code keeps it in.
* A `vec4*` held by a polygon is the index of the vertex inside `vertexram`
  (`none` for `NULL`); the index is an `Int` because the code forms
  `&vertexram[n_verts - 3]` without checking `n_verts`.
* The constants declared by the headers `gpu.h`, `io.h` and `nds.h` (opcode
  numbers, mode numbers, capacities, bit-field widths) are parameters of the
  development, collected in `Hdr`; `ndsHdr` is the instance used in examples.
* The counters `cmd_fifosize`, `param_fifosize`, `params_pending`, `n_verts`,
  `n_polys`, `cur_vtx_ct` are naturals; loops carry their iteration bound as an
  argument (`unpack_u32` and `drain_terminates` show the bounds are enough).
-/

namespace NtrGpu

/-- Constants declared by `gpu.h`, `io.h` and `nds.h`: opcode bytes, matrix and
polygon mode numbers, store capacities, screen size and the widths of the
`gxstat` bit-fields the engine writes. -/
structure Hdr where
  MTX_MODE : Nat
  MTX_PUSH : Nat
  MTX_POP : Nat
  MTX_STORE : Nat
  MTX_RESTORE : Nat
  MTX_IDENTITY : Nat
  MTX_LOAD_44 : Nat
  MTX_LOAD_43 : Nat
  MTX_MULT_44 : Nat
  MTX_MULT_43 : Nat
  MTX_MULT_33 : Nat
  MTX_SCALE : Nat
  MTX_TRANS : Nat
  VTX_16 : Nat
  VTX_10 : Nat
  VTX_XY : Nat
  VTX_XZ : Nat
  VTX_YZ : Nat
  VTX_DIFF : Nat
  BEGIN_VTXS : Nat
  END_VTXS : Nat
  SWAP_BUFFERS : Nat
  BOX_TEST : Nat
  POS_TEST : Nat
  MM_PROJ : Nat
  MM_POS : Nat
  MM_POSVEC : Nat
  POLY_TRIS : Nat
  POLY_QUADS : Nat
  POLY_TRI_STRIP : Nat
  POLY_QUAD_STRIP : Nat
  MAX_VTX : Nat
  MAX_POLY : Nat
  NDS_SCREEN_W : Nat
  NDS_SCREEN_H : Nat
  gxfifo_size_bits : Nat
  mtxstk_size_bits : Nat
  projstk_size_bits : Nat

/-- The `case` labels of the opcode `switch` of `gxcmd_execute`, in source order. -/
def Hdr.opcodes (K : Hdr) : List Nat :=
  [K.MTX_MODE, K.MTX_PUSH, K.MTX_POP, K.MTX_STORE, K.MTX_RESTORE, K.MTX_IDENTITY,
   K.MTX_LOAD_44, K.MTX_LOAD_43, K.MTX_MULT_44, K.MTX_MULT_43, K.MTX_MULT_33,
   K.MTX_SCALE, K.MTX_TRANS, K.VTX_16, K.VTX_10, K.VTX_XY, K.VTX_XZ, K.VTX_YZ,
   K.VTX_DIFF, K.BEGIN_VTXS, K.END_VTXS, K.SWAP_BUFFERS, K.BOX_TEST, K.POS_TEST]

/-- What C demands of the labels of one `switch`: they are pairwise different.
Stated for the opcode switch, the matrix-mode switches and the polygon-mode
switch.  (Later label on the left, to match `cmd = LABEL` tests.) -/
def Hdr.Distinct (K : Hdr) : Prop :=
  K.opcodes.Pairwise (fun a b => b ≠ a) ∧
  [K.MM_PROJ, K.MM_POS, K.MM_POSVEC].Pairwise (fun a b => b ≠ a) ∧
  [K.POLY_TRIS, K.POLY_QUADS, K.POLY_TRI_STRIP, K.POLY_QUAD_STRIP].Pairwise (fun a b => b ≠ a)

instance (K : Hdr) : Decidable K.Distinct := by
  unfold Hdr.Distinct; infer_instance

/-- The operations on `float` that are not ring operations. -/
class FloatOps (F : Type) where
  /-- Conversion `(int) x`. -/
  toInt : F → Int
  /-- The function `fabsf`. -/
  fabsf : F → F
  /-- The comparison `x > y`. -/
  gt : F → F → Bool

abbrev Vec4 (F : Type) := Fin 4 → F

abbrev Mat4 (F : Type) := Fin 4 → Fin 4 → F

/-- One entry of `polygonram`: four vertex pointers, as indices into `vertexram`. -/
structure Poly where
  p0 : Option Int
  p1 : Option Int
  p2 : Option Int
  p3 : Option Int
deriving DecidableEq

/-- The fields of `GPU` and of `gpu->master->io9` that `gpu.c` reads or writes. -/
@[ext]
structure GPU (F : Type) where
  cmd_fifo : Nat → Nat
  cmd_fifosize : Nat
  param_fifo : Nat → Nat
  param_fifosize : Nat
  params_pending : Nat
  mtx_mode : Nat
  projmtx : Mat4 F
  posmtx : Mat4 F
  vecmtx : Mat4 F
  clipmtx : Mat4 F
  projmtx_stk : Nat → Mat4 F
  posmtx_stk : Nat → Mat4 F
  vecmtx_stk : Nat → Mat4 F
  projstk_size : Nat
  mtxstk_size : Nat
  cur_vtx : Vec4 F
  cur_vtx_ct : Nat
  poly_mode : Nat
  vertexram : Nat → Vec4 F
  n_verts : Nat
  polygonram : Nat → Poly
  n_polys : Nat
  screen : Nat → Nat → Nat
  /-- Field `io9.gxstat.boxtest`. -/
  boxtest : Bool
  /-- Field `io9.gxstat.mtxstk_size`. -/
  stat_mtxstk_size : Nat
  /-- Field `io9.gxstat.projstk_size`. -/
  stat_projstk_size : Nat
  /-- Field `io9.gxstat.mtxstk_error`. -/
  mtxstk_error : Bool
  /-- Field `io9.gxstat.gxfifo_size`. -/
  gxfifo_size : Nat
  /-- Field `io9.gxstat.gxfifo_half`. -/
  gxfifo_half : Bool
  /-- Field `io9.gxstat.gxfifo_empty`. -/
  gxfifo_empty : Bool
  /-- Field `io9.gxstat.irq_half`. -/
  irq_half : Bool
  /-- Field `io9.gxstat.irq_empty`. -/
  irq_empty : Bool
  /-- Field `io9.ifl.gxfifo`. -/
  ifl_gxfifo : Bool
  /-- Field `io9.clipmtx_result`. -/
  clipmtx_result : Fin 4 → Fin 4 → Int
  /-- Field `io9.vecmtx_result`. -/
  vecmtx_result : Fin 3 → Fin 3 → Int
  /-- Field `io9.pos_result`. -/
  pos_result : Fin 4 → Int

/-! ## Machine integers -/

/-- Storing `x` into an unsigned bit-field of `w` bits. -/
def wrapU (w : Nat) (x : Int) : Nat := (x % 2 ^ w).toNat

/-- The cast `(s32) x` of a `u32`. -/
def s32 (x : Nat) : Int :=
  if x % 4294967296 < 2147483648 then ((x % 4294967296 : Nat) : Int)
  else ((x % 4294967296 : Nat) : Int) - 4294967296

/-- Left shift `x << n` of an `s32`, two's complement. -/
def shl32 (x : Int) (n : Nat) : Int := s32 ((x * 2 ^ n) % 4294967296).toNat

/-- Right shift `x >> n` of an `s32` (arithmetic). -/
def sar32 (x : Int) (n : Nat) : Int := x / 2 ^ n

/-- The table `cmd_parms[8][16]`; missing initialisers are zero. -/
def cmd_parms : List (List Nat) :=
  [[0],
   [1, 0, 1, 1, 1, 0, 16, 12, 16, 12, 9, 3, 3],
   [1, 1, 1, 2, 1, 1, 1, 1, 1, 1, 1, 1],
   [1, 1, 1, 1, 32],
   [1, 0],
   [1],
   [1],
   [3, 2, 1]]

/-- The lines `h = cmd >> 4; l = cmd & 0xf; nparms = 0; if (h < 8) nparms =
cmd_parms[h][l];` for a `u8 cmd`. -/
def nparms (cmd : Nat) : Nat :=
  let h := cmd >>> 4
  let l := cmd &&& 0xf
  if h < 8 then (cmd_parms.getD h []).getD l 0 else 0

section Engine

variable {F : Type} [Zero F] [One F] [Add F] [Sub F] [Mul F] [Div F] [IntCast F] [FloatOps F]

/-! ## Matrix arithmetic -/

/-- Function `matmul(src, dst)`: the new value of `*dst`; each entry is the sum
accumulated from `0` over `k = 0..3` of `dst[i][k] * src[k][j]`. -/
def matmul (src dst : Mat4 F) : Mat4 F :=
  fun i j => 0 + dst i 0 * src 0 j + dst i 1 * src 1 j + dst i 2 * src 2 j + dst i 3 * src 3 j

/-- Function `vecmul(src, dst)`: the new value of `*dst`. -/
def vecmul (src : Mat4 F) (dst : Vec4 F) : Vec4 F :=
  fun i => 0 + src i 0 * dst 0 + src i 1 * dst 1 + src i 2 * dst 2 + src i 3 * dst 3

/-- Function `update_mtxs`. -/
def update_mtxs (s : GPU F) : GPU F :=
  let clip := matmul s.posmtx s.projmtx
  { s with
    clipmtx := clip
    clipmtx_result := fun j i => FloatOps.toInt (clip i j * ((4096 : Int) : F))
    vecmtx_result := fun j i =>
      FloatOps.toInt (s.vecmtx i.castSucc j.castSucc * ((4096 : Int) : F)) }

/-! ## Vertex and polygon assembly -/

/-- Function `add_poly`; the arguments are the vertex indices the pointers
designate. -/
def add_poly (K : Hdr) (s : GPU F) (p0 p1 p2 p3 : Option Int) : GPU F :=
  if s.n_polys = K.MAX_POLY then s
  else
    { s with
      polygonram := Function.update s.polygonram s.n_polys ⟨p0, p1, p2, p3⟩
      n_polys := s.n_polys + 1 }

/-- Function `add_vtx`. -/
def add_vtx (K : Hdr) (s : GPU F) : GPU F :=
  if s.n_verts = K.MAX_VTX then s
  else
    let s1 : GPU F :=
      { s with
        vertexram := Function.update s.vertexram s.n_verts (vecmul s.clipmtx s.cur_vtx)
        n_verts := s.n_verts + 1
        cur_vtx_ct := s.cur_vtx_ct + 1 }
    let n : Int := (s1.n_verts : Int)
    if s1.poly_mode = K.POLY_TRIS then
      if s1.cur_vtx_ct % 3 = 0 then
        add_poly K s1 (some (n - 3)) (some (n - 2)) (some (n - 1)) none
      else s1
    else if s1.poly_mode = K.POLY_QUADS then
      if s1.cur_vtx_ct % 4 = 0 then
        add_poly K s1 (some (n - 4)) (some (n - 3)) (some (n - 2)) (some (n - 1))
      else s1
    else if s1.poly_mode = K.POLY_TRI_STRIP then
      if s1.cur_vtx_ct ≥ 3 then
        if s1.cur_vtx_ct &&& 1 ≠ 0 then
          add_poly K s1 (some (n - 3)) (some (n - 2)) (some (n - 1)) none
        else
          add_poly K s1 (some (n - 2)) (some (n - 3)) (some (n - 1)) none
      else s1
    else if s1.poly_mode = K.POLY_QUAD_STRIP then
      if s1.cur_vtx_ct ≥ 4 ∧ ¬ (s1.cur_vtx_ct &&& 1 ≠ 0) then
        add_poly K s1 (some (n - 2)) (some (n - 4)) (some (n - 3)) (some (n - 1))
      else s1
    else s1

/-! ## Operand decoding -/

/-- The expression `(s32) p / (float) (1 << 12)`. -/
def fix12 (p : Nat) : F := ((s32 p : Int) : F) / ((4096 : Int) : F)

/-- The expression `x / (float) (1 << 28)` for an `s32` value `x`. -/
def fix28 (x : Int) : F := ((x : Int) : F) / ((268435456 : Int) : F)

/-- The expression `((s32) (p & 0xffff) << 16)`. -/
def lo16 (p : Nat) : Int := shl32 (s32 (p &&& 0xffff)) 16

/-- The expression `(s32) (p & 0xffff0000)`. -/
def hi16 (p : Nat) : Int := s32 (p &&& 0xffff0000)

/-- The operand of `MTX_LOAD_44` and `MTX_MULT_44`. -/
def operand44 (pf : Nat → Nat) : Mat4 F :=
  fun i j => fix12 (pf (4 * j.val + i.val))

/-- The operand of `MTX_LOAD_43` and `MTX_MULT_43`: rows 0..2 from the
parameters, then `m.p[3][0] = m.p[3][1] = m.p[3][2] = 0; m.p[3][3] = 1`. -/
def operand43 (pf : Nat → Nat) : Mat4 F :=
  fun i j =>
    if i.val < 3 then fix12 (pf (3 * j.val + i.val))
    else if j.val < 3 then 0 else 1

/-- The operand of `MTX_MULT_33`: the 3x3 block from the parameters, zero last
row and last column, `m.p[3][3] = 1`. -/
def operand33 (pf : Nat → Nat) : Mat4 F :=
  fun i j =>
    if i.val < 3 ∧ j.val < 3 then fix12 (pf (3 * j.val + i.val))
    else if i.val = 3 ∧ j.val = 3 then 1 else 0

/-- The matrix built by `MTX_IDENTITY`. -/
def identity : Mat4 F := fun i j => if i = j then 1 else 0

/-- The matrix built by `MTX_SCALE`. -/
def operandScale (pf : Nat → Nat) : Mat4 F :=
  fun i j =>
    if i = j then (if i.val < 3 then fix12 (pf i.val) else 1) else 0

/-- The matrix built by `MTX_TRANS`. -/
def operandTrans (pf : Nat → Nat) : Mat4 F :=
  fun i j =>
    if i = j then 1
    else if j.val = 3 then fix12 (pf i.val) else 0

/-- The mode switch of `MTX_IDENTITY`, `MTX_LOAD_44` and `MTX_LOAD_43`. -/
def load_cur (K : Hdr) (s : GPU F) (m : Mat4 F) : GPU F :=
  if s.mtx_mode = K.MM_PROJ then { s with projmtx := m }
  else if s.mtx_mode = K.MM_POS then { s with posmtx := m }
  else if s.mtx_mode = K.MM_POSVEC then { s with posmtx := m, vecmtx := m }
  else s

/-- The mode switch of `MTX_MULT_44`, `MTX_MULT_43`, `MTX_MULT_33` and
`MTX_TRANS`. -/
def mult_cur (K : Hdr) (s : GPU F) (m : Mat4 F) : GPU F :=
  if s.mtx_mode = K.MM_PROJ then { s with projmtx := matmul m s.projmtx }
  else if s.mtx_mode = K.MM_POS then { s with posmtx := matmul m s.posmtx }
  else if s.mtx_mode = K.MM_POSVEC then
    { s with posmtx := matmul m s.posmtx, vecmtx := matmul m s.vecmtx }
  else s

/-- The mode switch of `MTX_SCALE`. -/
def scale_cur (K : Hdr) (s : GPU F) (m : Mat4 F) : GPU F :=
  if s.mtx_mode = K.MM_PROJ then { s with projmtx := matmul m s.projmtx }
  else if s.mtx_mode = K.MM_POS ∨ s.mtx_mode = K.MM_POSVEC then
    { s with posmtx := matmul m s.posmtx }
  else s

/-! ## Rendering -/

/-- Dereference of a vertex pointer held by a polygon.  The code dereferences
only pointers it made from `vertexram`; `NULL` and negative offsets, which C
leaves undefined, read the zero vector and element 0. -/
def deref (s : GPU F) (r : Option Int) : Vec4 F :=
  match r with
  | some i => s.vertexram i.toNat
  | none => fun _ => 0

/-- The statement `if (sx < 0 || sx >= NDS_SCREEN_W || sy < 0 || sy >=
NDS_SCREEN_H) continue; gpu->screen[sy][sx] = 0x801f;`. -/
def plot (K : Hdr) (scr : Nat → Nat → Nat) (sx sy : Int) : Nat → Nat → Nat :=
  if sx < 0 ∨ sx ≥ (K.NDS_SCREEN_W : Int) ∨ sy < 0 ∨ sy ≥ (K.NDS_SCREEN_H : Int) then scr
  else Function.update scr sy.toNat (Function.update (scr sy.toNat) sx.toNat 0x801f)

/-- The loop `for (int y = y0; y <= y1; y++, x += m)` of `render_line`, with
the number of iterations left as first argument. -/
def line_by_y (K : Hdr) : Nat → Int → F → F → (Nat → Nat → Nat) → (Nat → Nat → Nat)
  | 0, _, _, _, scr => scr
  | n + 1, y, x, m, scr => line_by_y K n (y + 1) (x + m) m (plot K scr (FloatOps.toInt x) y)

/-- The loop `for (int x = x0; x <= x1; x++, y += m)` of `render_line`, with
the number of iterations left as first argument. -/
def line_by_x (K : Hdr) : Nat → Int → F → F → (Nat → Nat → Nat) → (Nat → Nat → Nat)
  | 0, _, _, _, scr => scr
  | n + 1, x, y, m, scr => line_by_x K n (x + 1) (y + m) m (plot K scr x (FloatOps.toInt y))

/-- The rejection test of `render_line` on the pixel coordinates of the two
endpoints; both `y` are compared with `NDS_SCREEN_W`, as in the source. -/
def line_rejected (K : Hdr) (x0 y0 x1 y1 : Int) : Prop :=
  (x0 < 0 ∨ x0 > (K.NDS_SCREEN_W : Int) ∨ y0 < 0 ∨ y0 > (K.NDS_SCREEN_W : Int)) ∧
  (x1 < 0 ∨ x1 > (K.NDS_SCREEN_W : Int) ∨ y1 < 0 ∨ y1 > (K.NDS_SCREEN_W : Int))

instance (K : Hdr) (x0 y0 x1 y1 : Int) : Decidable (line_rejected K x0 y0 x1 y1) := by
  unfold line_rejected; infer_instance

/-- Function `render_line`, on the screen buffer. -/
def render_line (K : Hdr) (scr : Nat → Nat → Nat) (v0 v1 : Vec4 F) : Nat → Nat → Nat :=
  let w0 := v0 3
  let x0 : Int :=
    FloatOps.toInt ((v0 0 / w0 + 1) * ((K.NDS_SCREEN_W : Int) : F) / ((2 : Int) : F))
  let y0 : Int :=
    FloatOps.toInt ((1 - v0 1 / w0) * ((K.NDS_SCREEN_H : Int) : F) / ((2 : Int) : F))
  let w1 := v1 3
  let x1 : Int :=
    FloatOps.toInt ((v1 0 / w1 + 1) * ((K.NDS_SCREEN_W : Int) : F) / ((2 : Int) : F))
  let y1 : Int :=
    FloatOps.toInt ((1 - v1 1 / w1) * ((K.NDS_SCREEN_H : Int) : F) / ((2 : Int) : F))
  if line_rejected K x0 y0 x1 y1 then scr
  else
    let m : F := ((y1 - y0 : Int) : F) / ((x1 - x0 : Int) : F)
    if FloatOps.gt (FloatOps.fabsf m) (1 : F) then
      let m := (1 : F) / m
      let ya := if y0 > y1 then y1 else y0
      let yb := if y0 > y1 then y0 else y1
      let xa := if y0 > y1 then x1 else x0
      line_by_y K (yb - ya + 1).toNat ya ((xa : Int) : F) m scr
    else
      let xa := if x0 > x1 then x1 else x0
      let xb := if x0 > x1 then x0 else x1
      let ya := if x0 > x1 then y1 else y0
      line_by_x K (xb - xa + 1).toNat xa ((ya : Int) : F) m scr

/-- One iteration of the polygon loop of `gpu_render`. -/
def render_poly (K : Hdr) (s : GPU F) (scr : Nat → Nat → Nat) (q : Poly) : Nat → Nat → Nat :=
  let scr1 := render_line K scr (deref s q.p0) (deref s q.p1)
  let scr2 := render_line K scr1 (deref s q.p1) (deref s q.p2)
  if q.p3.isSome then
    let scr3 := render_line K scr2 (deref s q.p2) (deref s q.p3)
    render_line K scr3 (deref s q.p3) (deref s q.p0)
  else
    render_line K scr2 (deref s q.p2) (deref s q.p0)

/-- Function `gpu_render`: clear the screen, then draw polygons `0 .. n_polys - 1`. -/
def gpu_render (K : Hdr) (s : GPU F) : GPU F :=
  { s with
    screen := (List.range s.n_polys).foldl (fun scr i => render_poly K s scr (s.polygonram i))
      (fun _ _ => 0) }

/-! ## Command execution -/

/-- Case `MTX_PUSH` of `gxcmd_execute`. -/
def mtx_push (K : Hdr) (s : GPU F) : GPU F :=
  if s.mtx_mode = K.MM_PROJ then
    let s1 : GPU F :=
      if s.projstk_size = 1 then { s with mtxstk_error := true }
      else
        { s with
          projmtx_stk := Function.update s.projmtx_stk s.projstk_size s.projmtx
          projstk_size := s.projstk_size + 1 }
    { s1 with stat_projstk_size := wrapU K.projstk_size_bits s1.projstk_size }
  else if s.mtx_mode = K.MM_POS ∨ s.mtx_mode = K.MM_POSVEC then
    let s1 : GPU F :=
      if s.mtxstk_size = 31 then { s with mtxstk_error := true }
      else
        { s with
          posmtx_stk := Function.update s.posmtx_stk s.mtxstk_size s.posmtx
          vecmtx_stk := Function.update s.vecmtx_stk s.mtxstk_size s.vecmtx
          mtxstk_size := s.mtxstk_size + 1 }
    { s1 with stat_mtxstk_size := wrapU K.mtxstk_size_bits s1.mtxstk_size }
  else s

/-- The expression `(s32) p << 26 >> 26`: the low six bits of `p`, sign-extended. -/
def pop_count (p : Nat) : Int := sar32 (shl32 (s32 p) 26) 26

/-- Case `MTX_POP` of `gxcmd_execute`.  The two statements `mtxstk_size -= n;
mtxstk_size &= 31;` leave the residue of `mtxstk_size - n` modulo 32 whatever
the width and signedness of the field. -/
def mtx_pop (K : Hdr) (s : GPU F) : GPU F :=
  if s.mtx_mode = K.MM_PROJ then
    { s with
      projstk_size := 0
      projmtx := s.projmtx_stk 0
      stat_projstk_size := wrapU K.projstk_size_bits 0 }
  else if s.mtx_mode = K.MM_POS ∨ s.mtx_mode = K.MM_POSVEC then
    let d : Nat := (((s.mtxstk_size : Int) - pop_count (s.param_fifo 0)) % 32).toNat
    { s with
      mtxstk_size := d
      posmtx := s.posmtx_stk d
      vecmtx := s.vecmtx_stk d
      stat_mtxstk_size := wrapU K.mtxstk_size_bits d }
  else s

/-- Case `MTX_STORE` of `gxcmd_execute`. -/
def mtx_store (K : Hdr) (s : GPU F) : GPU F :=
  if s.mtx_mode = K.MM_PROJ then
    { s with projmtx_stk := Function.update s.projmtx_stk 0 s.projmtx }
  else if s.mtx_mode = K.MM_POS ∨ s.mtx_mode = K.MM_POSVEC then
    let i := s.param_fifo 0 &&& 31
    { s with
      posmtx_stk := Function.update s.posmtx_stk i s.posmtx
      vecmtx_stk := Function.update s.vecmtx_stk i s.vecmtx }
  else s

/-- Case `MTX_RESTORE` of `gxcmd_execute`. -/
def mtx_restore (K : Hdr) (s : GPU F) : GPU F :=
  if s.mtx_mode = K.MM_PROJ then { s with projmtx := s.projmtx_stk 0 }
  else if s.mtx_mode = K.MM_POS ∨ s.mtx_mode = K.MM_POSVEC then
    let i := s.param_fifo 0 &&& 31
    { s with posmtx := s.posmtx_stk i, vecmtx := s.vecmtx_stk i }
  else s

/-- The assignment `cur_vtx.p[i] = x`. -/
def set_vtx (s : GPU F) (i : Fin 4) (x : F) : GPU F :=
  { s with cur_vtx := Function.update s.cur_vtx i x }

/-- Case `POS_TEST` of `gxcmd_execute`. -/
def pos_test (s : GPU F) : GPU F :=
  let p0 := s.param_fifo 0
  let p1 := s.param_fifo 1
  let s1 := set_vtx (set_vtx (set_vtx (set_vtx s 0 (fix28 (lo16 p0))) 1 (fix28 (hi16 p0)))
    2 (fix28 (lo16 p1))) 3 1
  let s2 := update_mtxs s1
  let pos := vecmul s2.clipmtx s2.cur_vtx
  { s2 with pos_result := fun i => FloatOps.toInt (pos i * ((4096 : Int) : F)) }

/-- Case `VTX_16` of `gxcmd_execute`. -/
def vtx_16 (K : Hdr) (s : GPU F) : GPU F :=
  add_vtx K (set_vtx (set_vtx (set_vtx (set_vtx s
    0 (fix28 (lo16 (s.param_fifo 0))))
    1 (fix28 (hi16 (s.param_fifo 0))))
    2 (fix28 (lo16 (s.param_fifo 1))))
    3 1)

/-- Case `VTX_10` of `gxcmd_execute`. -/
def vtx_10 (K : Hdr) (s : GPU F) : GPU F :=
  add_vtx K (set_vtx (set_vtx (set_vtx (set_vtx s
    0 (fix28 (shl32 (s32 (s.param_fifo 0 &&& 0x3ff)) 22)))
    1 (fix28 (shl32 (s32 (s.param_fifo 0 &&& (0x3ff <<< 10))) 12)))
    2 (fix28 (shl32 (s32 (s.param_fifo 0 &&& (0x3ff <<< 20))) 2)))
    3 1)

/-- Case `VTX_XY` of `gxcmd_execute`. -/
def vtx_xy (K : Hdr) (s : GPU F) : GPU F :=
  add_vtx K (set_vtx (set_vtx s
    0 (fix28 (lo16 (s.param_fifo 0))))
    1 (fix28 (hi16 (s.param_fifo 0))))

/-- Case `VTX_XZ` of `gxcmd_execute`. -/
def vtx_xz (K : Hdr) (s : GPU F) : GPU F :=
  add_vtx K (set_vtx (set_vtx s
    0 (fix28 (lo16 (s.param_fifo 0))))
    2 (fix28 (hi16 (s.param_fifo 0))))

/-- Case `VTX_YZ` of `gxcmd_execute`. -/
def vtx_yz (K : Hdr) (s : GPU F) : GPU F :=
  add_vtx K (set_vtx (set_vtx s
    1 (fix28 (lo16 (s.param_fifo 0))))
    2 (fix28 (hi16 (s.param_fifo 0))))

/-- Case `VTX_DIFF` of `gxcmd_execute`. -/
def vtx_diff (K : Hdr) (s : GPU F) : GPU F :=
  add_vtx K (set_vtx (set_vtx (set_vtx (set_vtx s
    0 (s.cur_vtx 0 + fix28 (sar32 (shl32 (s32 (s.param_fifo 0 &&& 0x3ff)) 22) 6)))
    1 (s.cur_vtx 1 + fix28 (sar32 (shl32 (s32 (s.param_fifo 0 &&& (0x3ff <<< 10))) 12) 6)))
    2 (s.cur_vtx 2 + fix28 (sar32 (shl32 (s32 (s.param_fifo 0 &&& (0x3ff <<< 20))) 2) 6)))
    3 1)

/-- Case `BEGIN_VTXS` of `gxcmd_execute`. -/
def begin_vtxs (s : GPU F) : GPU F :=
  { update_mtxs s with cur_vtx_ct := 0, poly_mode := s.param_fifo 0 &&& 3 }

/-- Case `SWAP_BUFFERS` of `gxcmd_execute`. -/
def swap_buffers (K : Hdr) (s : GPU F) : GPU F :=
  { gpu_render K s with n_verts := 0, n_polys := 0 }

/-- The `switch (cmd)` of `gxcmd_execute`. -/
def gxcmd_switch (K : Hdr) (cmd : Nat) (s : GPU F) : GPU F :=
  if cmd = K.MTX_MODE then { s with mtx_mode := s.param_fifo 0 &&& 3 }
  else if cmd = K.MTX_PUSH then mtx_push K s
  else if cmd = K.MTX_POP then mtx_pop K s
  else if cmd = K.MTX_STORE then mtx_store K s
  else if cmd = K.MTX_RESTORE then mtx_restore K s
  else if cmd = K.MTX_IDENTITY then load_cur K s identity
  else if cmd = K.MTX_LOAD_44 then load_cur K s (operand44 s.param_fifo)
  else if cmd = K.MTX_LOAD_43 then load_cur K s (operand43 s.param_fifo)
  else if cmd = K.MTX_MULT_44 then mult_cur K s (operand44 s.param_fifo)
  else if cmd = K.MTX_MULT_43 then mult_cur K s (operand43 s.param_fifo)
  else if cmd = K.MTX_MULT_33 then mult_cur K s (operand33 s.param_fifo)
  else if cmd = K.MTX_SCALE then scale_cur K s (operandScale s.param_fifo)
  else if cmd = K.MTX_TRANS then mult_cur K s (operandTrans s.param_fifo)
  else if cmd = K.VTX_16 then vtx_16 K s
  else if cmd = K.VTX_10 then vtx_10 K s
  else if cmd = K.VTX_XY then vtx_xy K s
  else if cmd = K.VTX_XZ then vtx_xz K s
  else if cmd = K.VTX_YZ then vtx_yz K s
  else if cmd = K.VTX_DIFF then vtx_diff K s
  else if cmd = K.BEGIN_VTXS then begin_vtxs s
  else if cmd = K.END_VTXS then s
  else if cmd = K.SWAP_BUFFERS then swap_buffers K s
  else if cmd = K.BOX_TEST then { s with boxtest := true }
  else if cmd = K.POS_TEST then pos_test s
  else s

/-- The tail of `gxcmd_execute`: the executed opcode and its `nparms`
parameters leave the queues, the rest moves to the front, and
`gxstat.gxfifo_size` drops by `nparms` or, when that is zero, by one.  The
counters are naturals: the code is only run with `cmd_fifosize >= 1`, and with
`param_fifosize >= nparms` on every state `gxfifo_write` builds. -/
def gxcmd_dequeue (K : Hdr) (cmd : Nat) (s : GPU F) : GPU F :=
  let n := nparms cmd
  let csize := s.cmd_fifosize - 1
  let psize := s.param_fifosize - n
  { s with
    cmd_fifosize := csize
    param_fifosize := psize
    cmd_fifo := fun i => if i < csize then s.cmd_fifo (i + 1) else s.cmd_fifo i
    param_fifo :=
      if n ≠ 0 then fun i => if i < psize then s.param_fifo (i + n) else s.param_fifo i
      else s.param_fifo
    gxfifo_size :=
      if n ≠ 0 then wrapU K.gxfifo_size_bits ((s.gxfifo_size : Int) - (n : Int))
      else wrapU K.gxfifo_size_bits ((s.gxfifo_size : Int) - 1) }

/-- Function `gxcmd_execute`; `cmd` is the `u8` read from `cmd_fifo[0]`. -/
def gxcmd_execute (K : Hdr) (s : GPU F) : GPU F :=
  let cmd := s.cmd_fifo 0 % 256
  gxcmd_dequeue K cmd (gxcmd_switch K cmd s)

/-! ## Command submission -/

/-- The loop `while (command) { ... command >>= 8; }` of `gxfifo_write`, with
the number of bytes left in the word as first argument. -/
def unpack (K : Hdr) : Nat → Nat → GPU F → GPU F
  | 0, _, s => s
  | fuel + 1, command, s =>
    if command = 0 then s
    else
      let cmd := command % 256
      let n := nparms cmd
      unpack K fuel (command >>> 8)
        { s with
          cmd_fifo := Function.update s.cmd_fifo s.cmd_fifosize cmd
          cmd_fifosize := s.cmd_fifosize + 1
          params_pending := s.params_pending + n
          gxfifo_size :=
            if n = 0 then wrapU K.gxfifo_size_bits ((s.gxfifo_size : Int) + 1)
            else s.gxfifo_size }

/-- The loop `while (gpu->cmd_fifosize) gxcmd_execute(gpu);`, with a bound on
the number of iterations as first argument. -/
def drain (K : Hdr) : Nat → GPU F → GPU F
  | 0, s => s
  | fuel + 1, s => if s.cmd_fifosize = 0 then s else drain K fuel (gxcmd_execute K s)

/-- The first `if` of `gxfifo_write`: queue a parameter or unpack opcodes. -/
def gxfifo_enqueue (K : Hdr) (s : GPU F) (command : Nat) : GPU F :=
  if s.params_pending ≠ 0 then
    { s with
      param_fifo := Function.update s.param_fifo s.param_fifosize command
      param_fifosize := s.param_fifosize + 1
      params_pending := s.params_pending - 1
      gxfifo_size := wrapU K.gxfifo_size_bits ((s.gxfifo_size : Int) + 1) }
  else unpack K 4 command s

/-- The last three assignments of `gxfifo_write`. -/
def gxfifo_flags (s : GPU F) : GPU F :=
  let empty : Bool := if s.gxfifo_size ≠ 0 then false else true
  let half : Bool := if s.gxfifo_size < 128 then true else false
  { s with
    gxfifo_empty := empty
    gxfifo_half := half
    ifl_gxfifo := (s.irq_empty && empty) || (s.irq_half && half) }

/-- Function `gxfifo_write`; the argument is reduced to a `u32`. -/
def gxfifo_write (K : Hdr) (s : GPU F) (command : Nat) : GPU F :=
  let s1 := gxfifo_enqueue K s (command % 4294967296)
  let s2 := if s1.params_pending = 0 then drain K s1.cmd_fifosize s1 else s1
  gxfifo_flags s2

end Engine

/-! ## Auxiliary notions for the theorems -/

section Aux

variable {F : Type}

/-- The command queue, the parameter queue and the fill-level and interrupt
fields of `t` are those of `s`. -/
def SameQueue (s t : GPU F) : Prop :=
  t.cmd_fifo = s.cmd_fifo ∧ t.cmd_fifosize = s.cmd_fifosize ∧
  t.param_fifo = s.param_fifo ∧ t.param_fifosize = s.param_fifosize ∧
  t.params_pending = s.params_pending ∧ t.gxfifo_size = s.gxfifo_size ∧
  t.gxfifo_empty = s.gxfifo_empty ∧ t.gxfifo_half = s.gxfifo_half ∧
  t.ifl_gxfifo = s.ifl_gxfifo ∧
  t.irq_empty = s.irq_empty ∧ t.irq_half = s.irq_half

end Aux

/-! ## Concrete instances, used in examples -/

/-- A header instance: the command numbers, mode numbers, capacities and
`GXSTAT` field widths of the DS geometry engine. -/
def ndsHdr : Hdr where
  MTX_MODE := 0x10
  MTX_PUSH := 0x11
  MTX_POP := 0x12
  MTX_STORE := 0x13
  MTX_RESTORE := 0x14
  MTX_IDENTITY := 0x15
  MTX_LOAD_44 := 0x16
  MTX_LOAD_43 := 0x17
  MTX_MULT_44 := 0x18
  MTX_MULT_43 := 0x19
  MTX_MULT_33 := 0x1a
  MTX_SCALE := 0x1b
  MTX_TRANS := 0x1c
  VTX_16 := 0x23
  VTX_10 := 0x24
  VTX_XY := 0x25
  VTX_XZ := 0x26
  VTX_YZ := 0x27
  VTX_DIFF := 0x28
  BEGIN_VTXS := 0x40
  END_VTXS := 0x41
  SWAP_BUFFERS := 0x50
  BOX_TEST := 0x70
  POS_TEST := 0x71
  MM_PROJ := 0
  MM_POS := 1
  MM_POSVEC := 2
  POLY_TRIS := 0
  POLY_QUADS := 1
  POLY_TRI_STRIP := 2
  POLY_QUAD_STRIP := 3
  MAX_VTX := 6144
  MAX_POLY := 2048
  NDS_SCREEN_W := 256
  NDS_SCREEN_H := 192
  gxfifo_size_bits := 9
  mtxstk_size_bits := 5
  projstk_size_bits := 1

/-- Exact rational arithmetic as an instance of the `float` operations:
conversion to `int` truncates toward zero. -/
instance : FloatOps ℚ where
  toInt x := Int.tdiv x.num x.den
  fabsf x := |x|
  gt x y := decide (x > y)

/-! ### The binary32 instance of `float`

The C type `float` as IEEE 754 binary32 with the default rounding: the result
of `+`, `-`, `*`, `/` and of the conversion from `int` is the exact result
rounded to the nearest representable value, ties to the even significand; each
operation is rounded on its own (no fused multiply-add, no excess precision). -/

/-- Values of the C type `float`, taken as IEEE 754 binary32: a finite value
`(-1)^neg * m * 2^e`, an infinity, or a NaN.  The operations below give finite
values in normal form: `m < 2^24`, `-149 ≤ e ≤ 104`, and `2^23 ≤ m` unless
`e = -149`; zero is `m = 0`, `e = -149`, with a sign. -/
inductive F32 where
  | fin (neg : Bool) (m : Nat) (e : Int)
  | inf (neg : Bool)
  | nan
deriving DecidableEq

/-- The number of binary digits of `n`, counted in at most `fuel` steps. -/
def F32.digits : Nat → Nat → Nat
  | 0, _ => 0
  | fuel + 1, n => if n = 0 then 0 else F32.digits fuel (n / 2) + 1

/-- The binary32 value nearest to the real number `(-1)^neg * (n / d) * 2^k`,
for `d > 0`, ties going to the even significand (the rounding the arithmetic
of `float` applies to every result); magnitudes from `2^128` on give an
infinity. -/
def F32.round (neg : Bool) (n d : Nat) (k : Int) : F32 :=
  if n = 0 then F32.fin neg 0 (-149)
  else
    let l0 : Int := (F32.digits n n : Int) - (F32.digits d d : Int)
    let l : Int := if n * 2 ^ F32.digits d d < d * 2 ^ F32.digits n n then l0 - 1 else l0
    let e : Int := max (l + k - 23) (-149)
    let num : Nat := n * 2 ^ (k - e).toNat
    let den : Nat := d * 2 ^ (e - k).toNat
    let q : Nat := num / den
    let r : Nat := num % den
    let q1 : Nat := if den < 2 * r ∨ (2 * r = den ∧ q % 2 = 1) then q + 1 else q
    let m : Nat := if q1 = 16777216 then 8388608 else q1
    let e1 : Int := if q1 = 16777216 then e + 1 else e
    if 104 < e1 then F32.inf neg else F32.fin neg m e1

/-- The integer `(-1)^neg * m * 2^(e - e0)` for `e0 ≤ e`. -/
def F32.scaled (neg : Bool) (m : Nat) (e e0 : Int) : Int :=
  if neg then -((m * 2 ^ (e - e0).toNat : Nat) : Int) else ((m * 2 ^ (e - e0).toNat : Nat) : Int)

/-- Negation `-x`. -/
def F32.neg : F32 → F32
  | F32.fin s m e => F32.fin (!s) m e
  | F32.inf s => F32.inf (!s)
  | F32.nan => F32.nan

/-- Addition `x + y`: the exact sum, rounded; an exact zero sum is `+0` unless
both operands are `-0`. -/
def F32.add : F32 → F32 → F32
  | F32.fin sa ma ea, F32.fin sb mb eb =>
    let e0 := min ea eb
    let s : Int := F32.scaled sa ma ea e0 + F32.scaled sb mb eb e0
    if s = 0 then F32.fin (sa && sb) 0 (-149) else F32.round (decide (s < 0)) s.natAbs 1 e0
  | F32.fin _ _ _, F32.inf s => F32.inf s
  | F32.inf s, F32.fin _ _ _ => F32.inf s
  | F32.inf sa, F32.inf sb => if sa = sb then F32.inf sa else F32.nan
  | F32.nan, _ => F32.nan
  | _, F32.nan => F32.nan

/-- Multiplication `x * y`: the exact product, rounded. -/
def F32.mul : F32 → F32 → F32
  | F32.fin sa ma ea, F32.fin sb mb eb => F32.round (xor sa sb) (ma * mb) 1 (ea + eb)
  | F32.fin sa ma _, F32.inf sb => if ma = 0 then F32.nan else F32.inf (xor sa sb)
  | F32.inf sa, F32.fin sb mb _ => if mb = 0 then F32.nan else F32.inf (xor sa sb)
  | F32.inf sa, F32.inf sb => F32.inf (xor sa sb)
  | F32.nan, _ => F32.nan
  | _, F32.nan => F32.nan

/-- Division `x / y`: the exact quotient, rounded. -/
def F32.div : F32 → F32 → F32
  | F32.fin sa ma ea, F32.fin sb mb eb =>
    if mb = 0 then (if ma = 0 then F32.nan else F32.inf (xor sa sb))
    else F32.round (xor sa sb) ma mb (ea - eb)
  | F32.fin sa _ _, F32.inf sb => F32.fin (xor sa sb) 0 (-149)
  | F32.inf sa, F32.fin sb _ _ => F32.inf (xor sa sb)
  | F32.inf _, F32.inf _ => F32.nan
  | F32.nan, _ => F32.nan
  | _, F32.nan => F32.nan

/-- Conversion `(float) n` of an integer. -/
def F32.ofInt (n : Int) : F32 := F32.round (decide (n < 0)) n.natAbs 1 0

/-- Conversion `(int) x`: truncation toward zero; where C leaves the conversion
undefined (NaN, infinities, values outside `int`) the value is `INT_MIN`, as
the x86 conversion instruction gives. -/
def F32.toInt : F32 → Int
  | F32.fin s m e =>
    let a : Nat := if 0 ≤ e then m * 2 ^ e.toNat else m / 2 ^ (-e).toNat
    let v : Int := if s then -(a : Int) else (a : Int)
    if v < -2147483648 ∨ 2147483647 < v then -2147483648 else v
  | _ => -2147483648

/-- The function `fabsf`. -/
def F32.fabsf : F32 → F32
  | F32.fin _ m e => F32.fin false m e
  | F32.inf _ => F32.inf false
  | F32.nan => F32.nan

/-- The comparison `x > y`. -/
def F32.gt : F32 → F32 → Bool
  | F32.fin sa ma ea, F32.fin sb mb eb =>
    decide (F32.scaled sb mb eb (min ea eb) < F32.scaled sa ma ea (min ea eb))
  | F32.fin _ _ _, F32.inf sb => sb
  | F32.inf sa, F32.fin _ _ _ => !sa
  | F32.inf sa, F32.inf sb => !sa && sb
  | F32.nan, _ => false
  | _, F32.nan => false

instance : Zero F32 := ⟨F32.fin false 0 (-149)⟩

instance : One F32 := ⟨F32.fin false 8388608 (-23)⟩

instance : Add F32 := ⟨F32.add⟩

instance : Sub F32 := ⟨fun x y => F32.add x (F32.neg y)⟩

instance : Mul F32 := ⟨F32.mul⟩

instance : Div F32 := ⟨F32.div⟩

instance : IntCast F32 := ⟨F32.ofInt⟩

instance : FloatOps F32 where
  toInt := F32.toInt
  fabsf := F32.fabsf
  gt := F32.gt

/-- The rational number a finite binary32 value stands for (zero for the
infinities and NaN). -/
def F32.toRat : F32 → ℚ
  | F32.fin s m e => (if s then -1 else 1) * (m : ℚ) * (2 : ℚ) ^ e
  | _ => 0

/-- The engine with every field zero: empty queues, empty stores, zero matrices. -/
def zeroState : GPU ℚ where
  cmd_fifo := fun _ => 0
  cmd_fifosize := 0
  param_fifo := fun _ => 0
  param_fifosize := 0
  params_pending := 0
  mtx_mode := 0
  projmtx := fun _ _ => 0
  posmtx := fun _ _ => 0
  vecmtx := fun _ _ => 0
  clipmtx := fun _ _ => 0
  projmtx_stk := fun _ _ _ => 0
  posmtx_stk := fun _ _ _ => 0
  vecmtx_stk := fun _ _ _ => 0
  projstk_size := 0
  mtxstk_size := 0
  cur_vtx := fun _ => 0
  cur_vtx_ct := 0
  poly_mode := 0
  vertexram := fun _ _ => 0
  n_verts := 0
  polygonram := fun _ => ⟨none, none, none, none⟩
  n_polys := 0
  screen := fun _ _ => 0
  boxtest := false
  stat_mtxstk_size := 0
  stat_projstk_size := 0
  mtxstk_error := false
  gxfifo_size := 0
  gxfifo_half := false
  gxfifo_empty := false
  irq_half := false
  irq_empty := false
  ifl_gxfifo := false
  clipmtx_result := fun _ _ => 0
  vecmtx_result := fun _ _ => 0
  pos_result := fun _ => 0

/-- Submission of a sequence of words, oldest first. -/
def submit {F : Type} [Zero F] [One F] [Add F] [Sub F] [Mul F] [Div F] [IntCast F] [FloatOps F]
    (K : Hdr) (s : GPU F) (ws : List Nat) : GPU F :=
  ws.foldl (gxfifo_write K) s

/-- Both queues are empty and no parameter is owed. -/
def Idle {F : Type} (s : GPU F) : Prop :=
  s.params_pending = 0 ∧ s.cmd_fifosize = 0 ∧ s.param_fifosize = 0

/-- The state `gxfifo_write` hands to `gxcmd_execute` when the single opcode
`op` and its parameter words `ps` have arrived at an idle engine: `op` at the
head of the command queue, `ps` at the head of the parameter queue. -/
def loaded {F : Type} (s : GPU F) (op : Nat) (ps : List Nat) (sz : Nat) (e h f : Bool) : GPU F :=
  { s with
    cmd_fifo := Function.update s.cmd_fifo 0 op
    cmd_fifosize := 1
    param_fifo := fun i => if i < ps.length then ps.getD i 0 % 4294967296 else s.param_fifo i
    param_fifosize := ps.length
    params_pending := 0
    gxfifo_size := sz
    gxfifo_empty := e
    gxfifo_half := h
    ifl_gxfifo := f }

/-- The state after `ps` more words were queued as parameters on top of `a`,
with `m` parameters still owed and the fill-level fields as given. -/
def fed {F : Type} (a : GPU F) (ps : List Nat) (m sz : Nat) (e h f : Bool) : GPU F :=
  { a with
    param_fifo := fun i =>
      if a.param_fifosize ≤ i ∧ i < a.param_fifosize + ps.length then
        ps.getD (i - a.param_fifosize) 0 % 4294967296
      else a.param_fifo i
    param_fifosize := a.param_fifosize + ps.length
    params_pending := m
    gxfifo_size := sz
    gxfifo_empty := e
    gxfifo_half := h
    ifl_gxfifo := f }

/-- The state after an idle engine queued the single opcode `op`, which owes
`n` parameters. -/
def queued {F : Type} (s : GPU F) (op n : Nat) : GPU F :=
  { s with
    cmd_fifo := Function.update s.cmd_fifo 0 op
    cmd_fifosize := 1
    params_pending := n }

/-- The state after one more word `p` was stored at the tail of the parameter
queue, `m` parameters being still owed. -/
def pushed (K : Hdr) {F : Type} (a : GPU F) (p m : Nat) : GPU F :=
  { a with
    param_fifo := Function.update a.param_fifo a.param_fifosize (p % 4294967296)
    param_fifosize := a.param_fifosize + 1
    params_pending := m
    gxfifo_size := wrapU K.gxfifo_size_bits ((a.gxfifo_size : Int) + 1) }

/-- An engine about to execute `SWAP_BUFFERS` (byte `0x50` of `ndsHdr`) with
five vertices and one polygon stored. -/
def swapState : GPU ℚ :=
  { zeroState with
    cmd_fifo := fun _ => 0x50
    cmd_fifosize := 1
    gxfifo_size := 1
    mtx_mode := 2
    mtxstk_size := 3
    n_verts := 5
    n_polys := 1
    polygonram := fun _ => ⟨some 0, some 1, some 2, none⟩ }

/-- The low six bits of `p` read as a two's complement number, in `[-32, 31]`
(the count field of `MTX_POP` as the specification words it). -/
def sext6 (p : Nat) : Int :=
  if p % 64 < 32 then ((p % 64 : Nat) : Int) else ((p % 64 : Nat) : Int) - 64

/-- An engine in Position mode at stack depth 5 about to execute `MTX_POP`
(byte `0x12` of `ndsHdr`) with parameter `0x3e`, whose count field is -2. -/
def popState : GPU ℚ :=
  { zeroState with
    cmd_fifo := fun _ => 0x12
    cmd_fifosize := 1
    param_fifo := fun _ => 0x3e
    param_fifosize := 1
    gxfifo_size := 1
    mtx_mode := 1
    mtxstk_size := 5
    posmtx_stk := fun i _ _ => (i : ℚ) }

/-- An idle engine in Position mode with an empty Position/Vector stack. -/
def pushState : GPU ℚ :=
  { zeroState with
    mtx_mode := 1
    posmtx := fun i j => if i = j then 1 else 0 }

instance {F : Type} (s : GPU F) : Decidable (Idle s) := by
  unfold Idle; infer_instance

/-- An idle engine in Position mode at stack depth 2 whose stack slots 0 and 1
hold different matrices (all entries 1, all entries 2). -/
def roundTripState : GPU ℚ :=
  { zeroState with
    mtx_mode := 1
    mtxstk_size := 2
    posmtx_stk := fun i _ _ => if i = 0 then 1 else 2 }

/-- A command packet: an opcode byte and the parameter words that follow it. -/
abbrev Packet := Nat × List Nat

/-- The words of a sequence of packets, each opcode in a word of its own
followed by its parameters. -/
def packetWords : List Packet → List Nat
  | [] => []
  | c :: cs => (c.1 :: c.2) ++ packetWords cs

/-- Packet `c` is a vertex command of header `K` with the number of parameter
words the table gives its opcode. -/
def VtxPacket (K : Hdr) (c : Packet) : Prop :=
  (c.1 = K.VTX_16 ∨ c.1 = K.VTX_10 ∨ c.1 = K.VTX_XY ∨ c.1 = K.VTX_XZ ∨ c.1 = K.VTX_YZ ∨
    c.1 = K.VTX_DIFF) ∧
  0 < c.1 ∧ c.1 < 256 ∧ c.2.length = nparms c.1

instance (K : Hdr) (c : Packet) : Decidable (VtxPacket K c) := by
  unfold VtxPacket; infer_instance

/-- The polygon entry of a triangle on the vertices stored at indices `a`, `b`,
`c` of the vertex store: fourth pointer `NULL`. -/
def triangle (a b c : Nat) : Poly := ⟨some (a : Int), some (b : Int), some (c : Int), none⟩

/-- Six vertex packets of `ndsHdr`, of four different kinds (`VTX_16`,
`VTX_10`, `VTX_XY`, `VTX_DIFF`). -/
def sixVertices : List Packet :=
  [(0x23, [0x10000000, 0]), (0x24, [0x40]), (0x25, [0x1000]), (0x23, [0x1000, 0x1000]),
   (0x28, [1]), (0x23, [0, 0x1000])]

/-- Five vertex packets of `ndsHdr`. -/
def fiveVertices : List Packet :=
  [(0x23, [0x10000000, 0]), (0x24, [0x40]), (0x26, [0x1000]), (0x27, [0x1000]), (0x28, [1])]

/-! ## Execution traces -/

/-- One call of `gxcmd_execute`, as seen from outside: the opcode byte it read
from `cmd_fifo[0]`, the value of `params_pending` at the call, and the words it
removed from the head of the parameter queue. -/
structure Event where
  op : Nat
  pending : Nat
  params : List Nat
deriving DecidableEq

/-- History of a run of `gxfifo_write`: the opcodes in the order they were
appended to `cmd_fifo`, the words in the order they were appended to
`param_fifo`, and the calls of `gxcmd_execute` in order. -/
structure Trace where
  unpacked : List Nat
  arrived : List Nat
  executed : List Event
deriving DecidableEq

/-- The opcode bytes the unpacking loop of `gxfifo_write` takes from a word,
low byte first, stopping when the rest of the word is zero. -/
def unpack_ops : Nat → Nat → List Nat
  | 0, _ => []
  | fuel + 1, command =>
    if command = 0 then [] else (command % 256) :: unpack_ops fuel (command >>> 8)

/-- The content of the command queue, head first. -/
def cmdq {F : Type} (s : GPU F) : List Nat := (List.range s.cmd_fifosize).map s.cmd_fifo

/-- The content of the parameter queue, head first. -/
def paramq {F : Type} (s : GPU F) : List Nat := (List.range s.param_fifosize).map s.param_fifo

section Traced

variable {F : Type} [Zero F] [One F] [Add F] [Sub F] [Mul F] [Div F] [IntCast F] [FloatOps F]

/-- The loop `drain` with a record of each call of `gxcmd_execute`. -/
def drain_log (K : Hdr) : Nat → GPU F → List Event → GPU F × List Event
  | 0, s, log => (s, log)
  | fuel + 1, s, log =>
    if s.cmd_fifosize = 0 then (s, log)
    else
      drain_log K fuel (gxcmd_execute K s)
        (log ++ [⟨s.cmd_fifo 0 % 256, s.params_pending,
          (paramq s).take (s.param_fifosize - (gxcmd_execute K s).param_fifosize)⟩])

/-- Function `gxfifo_write` with the history of the run threaded through. -/
def gxfifo_write_log (K : Hdr) (st : GPU F × Trace) (command : Nat) : GPU F × Trace :=
  let s := st.1
  let c := command % 4294967296
  let s1 := gxfifo_enqueue K s c
  let unpacked := if s.params_pending ≠ 0 then st.2.unpacked else st.2.unpacked ++ unpack_ops 4 c
  let arrived := if s.params_pending ≠ 0 then st.2.arrived ++ [c] else st.2.arrived
  let r := if s1.params_pending = 0 then drain_log K s1.cmd_fifosize s1 st.2.executed
    else (s1, st.2.executed)
  (gxfifo_flags r.1, ⟨unpacked, arrived, r.2⟩)

/-- A run of `gxfifo_write_log` over a sequence of words, from an empty history. -/
def submit_log (K : Hdr) (s : GPU F) (ws : List Nat) : GPU F × Trace :=
  ws.foldl (gxfifo_write_log K) (s, ⟨[], [], []⟩)

end Traced

/-- For every case of `gxcmd_execute` that reads `param_fifo`, the table gives
the opcode of that case at least as many parameters as the highest index read
plus one. -/
def Hdr.ArityOk (K : Hdr) : Prop :=
  1 ≤ nparms K.MTX_MODE ∧ 1 ≤ nparms K.MTX_POP ∧ 1 ≤ nparms K.MTX_STORE ∧
  1 ≤ nparms K.MTX_RESTORE ∧ 16 ≤ nparms K.MTX_LOAD_44 ∧ 12 ≤ nparms K.MTX_LOAD_43 ∧
  16 ≤ nparms K.MTX_MULT_44 ∧ 12 ≤ nparms K.MTX_MULT_43 ∧ 9 ≤ nparms K.MTX_MULT_33 ∧
  3 ≤ nparms K.MTX_SCALE ∧ 3 ≤ nparms K.MTX_TRANS ∧ 2 ≤ nparms K.VTX_16 ∧
  1 ≤ nparms K.VTX_10 ∧ 1 ≤ nparms K.VTX_XY ∧ 1 ≤ nparms K.VTX_XZ ∧ 1 ≤ nparms K.VTX_YZ ∧
  1 ≤ nparms K.VTX_DIFF ∧ 1 ≤ nparms K.BEGIN_VTXS ∧ 2 ≤ nparms K.POS_TEST

instance (K : Hdr) : Decidable K.ArityOk := by
  unfold Hdr.ArityOk; infer_instance

/-- The relation between an engine state and the history of the run that
produced it: the executed opcodes followed by the queued ones are the unpacked
ones; every call of `gxcmd_execute` saw `params_pending = 0` and removed as
many words as the table gives its opcode; the removed words followed by the
queued ones are the arrived ones; queued opcodes are bytes; and the queued
opcodes take as many parameters as are queued or still owed. -/
def TraceInv {F : Type} (st : GPU F × Trace) : Prop :=
  st.2.executed.map Event.op ++ cmdq st.1 = st.2.unpacked ∧
  (∀ e ∈ st.2.executed, e.pending = 0 ∧ e.params.length = nparms e.op) ∧
  (st.2.executed.map Event.params).flatten ++ paramq st.1 = st.2.arrived ∧
  (∀ c ∈ cmdq st.1, c < 256) ∧
  ((cmdq st.1).map nparms).sum = st.1.param_fifosize + st.1.params_pending

/-- A word stream for `ndsHdr`: `MTX_MODE 2`, then `MTX_PUSH` and
`MTX_IDENTITY` packed in one word, then `MTX_SCALE` with three parameters,
then the start of a `VTX_16` whose parameters have not all arrived. -/
def sampleStream : List Nat := [0x10, 2, 0x1511, 0x1b, 4096, 8192, 4096, 0x23, 7]

/-- An idle engine whose Projection matrix scales x, y and z by 2 and whose
Position matrix translates x by 1. -/
def clipState : GPU ℚ :=
  { zeroState with
    projmtx := fun i j => if i = j then (if i = 3 then 1 else 2) else 0
    posmtx := fun i j => if i = j then 1 else if i = 0 ∧ j = 3 then 1 else 0 }

/-- The engine `clipState` about to execute `VTX_16` (byte `0x23` of `ndsHdr`). -/
def vtxState : GPU ℚ :=
  { clipState with
    cmd_fifo := fun _ => 0x23
    cmd_fifosize := 1
    param_fifo := fun i => if i = 0 then 0x10001000 else 0x1000
    param_fifosize := 2
    gxfifo_size := 2
    clipmtx := fun i j => if i = j then 3 else 0 }

/-- An engine in Position mode whose Position matrix translates x by 1, about
to execute `MTX_MULT_44` (byte `0x18` of `ndsHdr`) with the sixteen parameter
words of the matrix that scales x by 2. -/
def multState : GPU ℚ :=
  { zeroState with
    cmd_fifo := fun _ => 0x18
    cmd_fifosize := 1
    param_fifo := fun i =>
      if i = 0 then 0x2000 else if i = 5 ∨ i = 10 ∨ i = 15 then 0x1000 else 0
    param_fifosize := 16
    gxfifo_size := 16
    mtx_mode := 1
    posmtx := fun i j => if i = j then 1 else if i = 0 ∧ j = 3 then 1 else 0 }

/-- Each current matrix `C` that the matrix mode of `s` selects is, in `t`,
the matrix `matmul` computes from `C` and `m`: entry `[i][j]` is the sum,
accumulated from `0` in the arithmetic of `float`, of `C[i][k] * m[k][j]` for
`k = 0..3`, that is row `i` of `C` against column `j` of `m` (the product
`C x m`); the other current matrices are those of `s`. -/
def RightMultiplied {F : Type} [Zero F] [Add F] [Mul F] (K : Hdr) (s t : GPU F) (m : Mat4 F) :
    Prop :=
  (s.mtx_mode = K.MM_PROJ →
    (∀ i j : Fin 4, t.projmtx i j =
      0 + s.projmtx i 0 * m 0 j + s.projmtx i 1 * m 1 j + s.projmtx i 2 * m 2 j +
        s.projmtx i 3 * m 3 j) ∧
    t.posmtx = s.posmtx ∧ t.vecmtx = s.vecmtx) ∧
  (s.mtx_mode = K.MM_POS →
    (∀ i j : Fin 4, t.posmtx i j =
      0 + s.posmtx i 0 * m 0 j + s.posmtx i 1 * m 1 j + s.posmtx i 2 * m 2 j +
        s.posmtx i 3 * m 3 j) ∧
    t.projmtx = s.projmtx ∧ t.vecmtx = s.vecmtx) ∧
  (s.mtx_mode = K.MM_POSVEC →
    (∀ i j : Fin 4, t.posmtx i j =
      0 + s.posmtx i 0 * m 0 j + s.posmtx i 1 * m 1 j + s.posmtx i 2 * m 2 j +
        s.posmtx i 3 * m 3 j) ∧
    (∀ i j : Fin 4, t.vecmtx i j =
      0 + s.vecmtx i 0 * m 0 j + s.vecmtx i 1 * m 1 j + s.vecmtx i 2 * m 2 j +
        s.vecmtx i 3 * m 3 j) ∧
    t.projmtx = s.projmtx)

/-- An engine in PositionAndVector mode whose Position and Vector matrices are
the identity, about to execute `MTX_TRANS` (byte `0x1c` of `ndsHdr`) with
parameters encoding the translation `(1, 0, 0)`. -/
def transState : GPU ℚ :=
  { zeroState with
    cmd_fifo := fun _ => 0x1c
    cmd_fifosize := 1
    param_fifo := fun i => if i = 0 then 0x1000 else 0
    param_fifosize := 3
    gxfifo_size := 3
    mtx_mode := 2
    posmtx := fun i j => if i = j then 1 else 0
    vecmtx := fun i j => if i = j then 1 else 0 }

/-- An engine in Position mode at stack depth 1 with the stack-error flag
clear, about to execute `MTX_POP` (byte `0x12` of `ndsHdr`) with count 2. -/
def underflowState : GPU ℚ :=
  { zeroState with
    cmd_fifo := fun _ => 0x12
    cmd_fifosize := 1
    param_fifo := fun _ => 2
    param_fifosize := 1
    gxfifo_size := 1
    mtx_mode := 1
    mtxstk_size := 1 }

/-- An engine in Projection mode with an empty Projection stack whose
Projection matrix has all entries 5, about to execute `MTX_PUSH` (byte `0x11`
of `ndsHdr`). -/
def projPushState : GPU ℚ :=
  { zeroState with
    cmd_fifo := fun _ => 0x11
    cmd_fifosize := 1
    gxfifo_size := 1
    projmtx := fun _ _ => 5 }

/-- The engine `projPushState` with the Projection stack full. -/
def projFullState : GPU ℚ :=
  { projPushState with projstk_size := 1 }

/-- An engine in Projection mode with the Projection stack full and all
entries of slot 0 equal to 7, about to execute `MTX_POP` (byte `0x12` of
`ndsHdr`) with parameter 9. -/
def projPopState : GPU ℚ :=
  { zeroState with
    cmd_fifo := fun _ => 0x12
    cmd_fifosize := 1
    param_fifo := fun _ => 9
    param_fifosize := 1
    gxfifo_size := 1
    projstk_size := 1
    projmtx_stk := fun i _ _ => if i = 0 then 7 else 0 }

/-- Packet `c` is one of the commands that reset, load, multiply, scale or
translate the current matrix, of header `K`, with the number of parameter
words the table gives its opcode. -/
def MtxPacket (K : Hdr) (c : Packet) : Prop :=
  (c.1 = K.MTX_IDENTITY ∨ c.1 = K.MTX_LOAD_44 ∨ c.1 = K.MTX_LOAD_43 ∨ c.1 = K.MTX_MULT_44 ∨
    c.1 = K.MTX_MULT_43 ∨ c.1 = K.MTX_MULT_33 ∨ c.1 = K.MTX_SCALE ∨ c.1 = K.MTX_TRANS) ∧
  0 < c.1 ∧ c.1 < 256 ∧ c.2.length = nparms c.1

instance (K : Hdr) (c : Packet) : Decidable (MtxPacket K c) := by
  unfold MtxPacket; infer_instance

/-- An idle engine in Position mode whose Position matrix has all entries 3 and
whose Vector matrix has all entries 4. -/
def storeState : GPU ℚ :=
  { zeroState with
    mtx_mode := 1
    posmtx := fun _ _ => 3
    vecmtx := fun _ _ => 4 }

/-- Three matrix packets of `ndsHdr`: identity, a scale and a translation. -/
def matrixPackets : List Packet :=
  [(0x15, []), (0x1b, [0x2000, 0x2000, 0x2000]), (0x1c, [1, 2, 3])]

/-- The engine `storeState` about to execute `MTX_STORE` (byte `0x13` of
`ndsHdr`) with parameter `0x25`, which designates slot 5. -/
def storeExecState : GPU ℚ :=
  { storeState with
    cmd_fifo := fun _ => 0x13
    cmd_fifosize := 1
    param_fifo := fun _ => 0x25
    param_fifosize := 1
    gxfifo_size := 1
    mtxstk_size := 2 }

/-- The engine `storeExecState` about to execute `MTX_RESTORE` (byte `0x14`
of `ndsHdr`) instead. -/
def restoreExecState : GPU ℚ :=
  { storeExecState with
    cmd_fifo := fun _ => 0x14
    posmtx_stk := fun i _ _ => (i : ℚ) }

/-- The polygon entry of a quadrilateral on the vertices stored at indices `a`,
`b`, `c`, `d` of the vertex store, in the order of the four pointers. -/
def quad (a b c d : Nat) : Poly :=
  ⟨some (a : Int), some (b : Int), some (c : Int), some (d : Int)⟩

/-- Nine vertex packets of `ndsHdr`. -/
def nineVertices : List Packet :=
  sixVertices ++ [(0x26, [0x1000]), (0x27, [0x1000]), (0x28, [1])]

/-- An engine whose vertex store and polygon store are both full, in Triangles
mode with a per-primitive counter of 2, about to execute `VTX_16` (byte `0x23`
of `ndsHdr`). -/
def fullState : GPU ℚ :=
  { zeroState with
    cmd_fifo := fun _ => 0x23
    cmd_fifosize := 1
    param_fifo := fun _ => 0x1000
    param_fifosize := 2
    gxfifo_size := 2
    cur_vtx_ct := 2
    n_verts := 6144
    n_polys := 2048 }

/-- The vertex count and the polygon count of `s` do not exceed the capacities
`MAX_VTX` and `MAX_POLY` of the two stores. -/
def WithinCapacity {F : Type} (K : Hdr) (s : GPU F) : Prop :=
  s.n_verts ≤ K.MAX_VTX ∧ s.n_polys ≤ K.MAX_POLY

/-- The low 16 bits of `h` read as a two's complement number, in
`[-32768, 32767]` (sign extension of a 16-bit field as the specification words
it). -/
def s16 (h : Nat) : Int :=
  if h % 65536 < 32768 then ((h % 65536 : Nat) : Int) else ((h % 65536 : Nat) : Int) - 65536

/-- An engine whose accumulator is (5, 6, 7, 1), about to execute `VTX_XY`
(byte `0x25` of `ndsHdr`) with the parameter word `0xf0001000`: low half
`0x1000` (1.0), high half `0xf000` (-1.0). -/
def vtxXYState : GPU ℚ :=
  { zeroState with
    cmd_fifo := fun _ => 0x25
    cmd_fifosize := 1
    param_fifo := fun _ => 0xf0001000
    param_fifosize := 1
    gxfifo_size := 1
    cur_vtx := fun i => if i = 0 then 5 else if i = 1 then 6 else if i = 2 then 7 else 1 }

/-- The engine `vtxXYState` about to execute `VTX_XZ` (byte `0x26`) instead. -/
def vtxXZState : GPU ℚ :=
  { vtxXYState with cmd_fifo := fun _ => 0x26 }

/-- The engine `vtxXYState` about to execute `VTX_YZ` (byte `0x27`) instead. -/
def vtxYZState : GPU ℚ :=
  { vtxXYState with cmd_fifo := fun _ => 0x27 }

/-- The low 10 bits of `h` read as a two's complement number, in `[-512, 511]`
(sign extension of a 10-bit field as the specification words it). -/
def s10 (h : Nat) : Int :=
  if h % 1024 < 512 then ((h % 1024 : Nat) : Int) else ((h % 1024 : Nat) : Int) - 1024

/-- An engine about to execute `VTX_10` (byte `0x24` of `ndsHdr`) with the
parameter word `0x1f0040`: fields `0x040` (64), `0x3c0` (-64) and `0x001`. -/
def vtx10State : GPU ℚ :=
  { zeroState with
    cmd_fifo := fun _ => 0x24
    cmd_fifosize := 1
    param_fifo := fun _ => 0x1f0040
    param_fifosize := 1
    gxfifo_size := 1 }

/-- An engine whose accumulator is (5, 6, 7, 3), about to execute `VTX_DIFF`
(byte `0x28` of `ndsHdr`) with the parameter word `0xffc01`: fields `0x001`
(1), `0x3ff` (-1) and `0x000`. -/
def vtxDiffState : GPU ℚ :=
  { zeroState with
    cmd_fifo := fun _ => 0x28
    cmd_fifosize := 1
    param_fifo := fun _ => 0xffc01
    param_fifosize := 1
    gxfifo_size := 1
    cur_vtx := fun i => if i = 0 then 5 else if i = 1 then 6 else if i = 2 then 7 else 3 }

/-- An engine in Position mode with matrices, stacks, vertices and polygons in
use, about to execute the byte `0xff`, which no case of `gxcmd_execute`
handles, with one word in the parameter queue. -/
def unknownState : GPU ℚ :=
  { zeroState with
    cmd_fifo := fun i => if i = 0 then 0xff else 0x11
    cmd_fifosize := 2
    param_fifo := fun _ => 7
    param_fifosize := 1
    gxfifo_size := 3
    mtx_mode := 1
    mtxstk_size := 3
    n_verts := 5
    n_polys := 1 }

/-- The engine `unknownState` about to execute the byte `0x29`, which has no
case either but to which the table gives one parameter. -/
def unhandledState : GPU ℚ :=
  { unknownState with cmd_fifo := fun i => if i = 0 then 0x29 else 0x11 }

/-- The two stack-level fields of `GXSTAT` mirror the depths of the two matrix
stacks, and the depths are within `0..31` and `0..1`. -/
def StackStatus {F : Type} (s : GPU F) : Prop :=
  s.stat_mtxstk_size = s.mtxstk_size ∧ s.stat_projstk_size = s.projstk_size ∧
  s.mtxstk_size ≤ 31 ∧ s.projstk_size ≤ 1

instance {F : Type} (s : GPU F) : Decidable (StackStatus s) := by
  unfold StackStatus; infer_instance

/-- The engine `popState` with the status field mirroring its depth 5. -/
def mirrorPopState : GPU ℚ :=
  { popState with stat_mtxstk_size := 5 }

/-- The engine `projFullState` with the status field mirroring its depth 1. -/
def mirrorProjState : GPU ℚ :=
  { projFullState with stat_projstk_size := 1 }

/-- Packet `c` is a complete command of header `K` other than `BEGIN_VTXS` and
`POS_TEST`: any opcode byte but these two, followed by the number of parameter
words the table gives it. -/
def OtherPacket (K : Hdr) (c : Packet) : Prop :=
  c.1 ≠ K.BEGIN_VTXS ∧ c.1 ≠ K.POS_TEST ∧ 0 < c.1 ∧ c.1 < 256 ∧ c.2.length = nparms c.1

instance (K : Hdr) (c : Packet) : Decidable (OtherPacket K c) := by
  unfold OtherPacket; infer_instance

/-- Packets of `ndsHdr` that replace the Projection matrix by the identity and
store one vertex: `MTX_MODE 0`, `MTX_IDENTITY`, `VTX_16`. -/
def batchPackets : List Packet :=
  [(0x10, [0]), (0x15, []), (0x23, [0x10001000, 0x1000])]

/-- The engine `clipState` with a stale clip matrix, about to execute
`MTX_IDENTITY` (byte `0x15` of `ndsHdr`) in Position mode. -/
def staleState : GPU ℚ :=
  { clipState with
    cmd_fifo := fun _ => 0x15
    cmd_fifosize := 1
    gxfifo_size := 1
    mtx_mode := 1
    clipmtx := fun _ _ => 9 }

/-- An engine about to execute `MTX_MODE` (byte `0x10` of `ndsHdr`) with
parameter 7, whose low two bits are 3. -/
def modeState : GPU ℚ :=
  { zeroState with
    cmd_fifo := fun _ => 0x10
    cmd_fifosize := 1
    param_fifo := fun _ => 7
    param_fifosize := 1
    gxfifo_size := 1 }

/-- An engine in matrix mode 3 at stack depth 31 with non-zero matrices, about
to execute `MTX_PUSH` (byte `0x11` of `ndsHdr`). -/
def mode3PushState : GPU ℚ :=
  { zeroState with
    cmd_fifo := fun _ => 0x11
    cmd_fifosize := 1
    gxfifo_size := 1
    mtx_mode := 3
    mtxstk_size := 31
    projstk_size := 1
    projmtx := fun _ _ => 1
    posmtx := fun _ _ => 2
    vecmtx := fun _ _ => 3 }

/-- The engine `mode3PushState` about to execute `MTX_LOAD_44` (byte `0x16` of
`ndsHdr`) with sixteen parameter words queued. -/
def mode3LoadState : GPU ℚ :=
  { mode3PushState with
    cmd_fifo := fun _ => 0x16
    param_fifo := fun _ => 0x1000
    param_fifosize := 16
    gxfifo_size := 16 }

/-- First endpoint of an edge in clip space: pixel coordinates (10, 195). -/
def edgeA : Vec4 ℚ :=
  fun i => if i = 0 then -59 / 64 else if i = 1 then -33 / 32 else if i = 2 then 0 else 1

/-- Second endpoint of the edge: pixel coordinates (-5, 180). -/
def edgeB : Vec4 ℚ :=
  fun i => if i = 0 then -133 / 128 else if i = 1 then -7 / 8 else if i = 2 then 0 else 1

/-- A word stream for `ndsHdr`: `BEGIN_VTXS` selecting Triangles, two `VTX_16`
vertices, `SWAP_BUFFERS`, and a third `VTX_16` vertex with no `BEGIN_VTXS`
before it. -/
def swapStream : List Nat := [0x40, 0, 0x23, 0, 0, 0x23, 0, 0, 0x50, 0, 0x23, 0, 0]

/-- The number of opcodes in a list to which the table `cmd_parms` gives no
parameter. -/
def zeroArity (l : List Nat) : Nat := l.countP (fun c => decide (nparms c = 0))

/-- The relation `gxfifo_write` keeps between the queues, `params_pending` and
the fill level `gxstat.gxfifo_size`: the queued opcodes are bytes and at most
four, they take as many parameters as are queued or still owed, the fill level
is the number of queued parameter words plus the number of queued opcodes
without parameters, and with no parameter owed the command queue is empty. -/
def FillInv {F : Type} (s : GPU F) : Prop :=
  (∀ c ∈ cmdq s, c < 256) ∧ s.cmd_fifosize ≤ 4 ∧
  ((cmdq s).map nparms).sum = s.param_fifosize + s.params_pending ∧
  s.gxfifo_size = s.param_fifosize + zeroArity (cmdq s) ∧
  (s.params_pending = 0 → s.cmd_fifosize = 0)

/-! ### Binary32 engine states, used in examples -/

/-- The engine with every field zero, its `float` fields being binary32 values. -/
def zeroState32 : GPU F32 where
  cmd_fifo := fun _ => 0
  cmd_fifosize := 0
  param_fifo := fun _ => 0
  param_fifosize := 0
  params_pending := 0
  mtx_mode := 0
  projmtx := fun _ _ => 0
  posmtx := fun _ _ => 0
  vecmtx := fun _ _ => 0
  clipmtx := fun _ _ => 0
  projmtx_stk := fun _ _ _ => 0
  posmtx_stk := fun _ _ _ => 0
  vecmtx_stk := fun _ _ _ => 0
  projstk_size := 0
  mtxstk_size := 0
  cur_vtx := fun _ => 0
  cur_vtx_ct := 0
  poly_mode := 0
  vertexram := fun _ _ => 0
  n_verts := 0
  polygonram := fun _ => ⟨none, none, none, none⟩
  n_polys := 0
  screen := fun _ _ => 0
  boxtest := false
  stat_mtxstk_size := 0
  stat_projstk_size := 0
  mtxstk_error := false
  gxfifo_size := 0
  gxfifo_half := false
  gxfifo_empty := false
  irq_half := false
  irq_empty := false
  ifl_gxfifo := false
  clipmtx_result := fun _ _ => 0
  vecmtx_result := fun _ _ => 0
  pos_result := fun _ => 0

/-- An idle binary32 engine in Position mode whose Position matrix is the
identity. -/
def scaleState32 : GPU F32 :=
  { zeroState32 with
    mtx_mode := 1
    posmtx := identity }

/-- An idle binary32 engine whose Projection matrix scales x, y and z by 2 and
whose Position matrix translates x by 1. -/
def clipState32 : GPU F32 :=
  { zeroState32 with
    projmtx := fun i j => if i = j then (if i = 3 then 1 else ((2 : Int) : F32)) else 0
    posmtx := fun i j => if i = j then 1 else if i = 0 ∧ j = 3 then 1 else 0 }

/-- The engine `clipState32` about to execute `BEGIN_VTXS` (byte `0x40` of
`ndsHdr`) with parameter 5 and a per-primitive counter of 7. -/
def beginState32 : GPU F32 :=
  { clipState32 with
    cmd_fifo := fun _ => 0x40
    cmd_fifosize := 1
    param_fifo := fun _ => 5
    param_fifosize := 1
    gxfifo_size := 1
    cur_vtx_ct := 7 }

/-- The engine `clipState32` about to execute `VTX_16` (byte `0x23` of
`ndsHdr`) on the vertex (1, 1, 1), with a clip matrix that scales by 3. -/
def vtxState32 : GPU F32 :=
  { clipState32 with
    cmd_fifo := fun _ => 0x23
    cmd_fifosize := 1
    param_fifo := fun i => if i = 0 then 0x10001000 else 0x1000
    param_fifosize := 2
    gxfifo_size := 2
    clipmtx := fun i j => if i = j then ((3 : Int) : F32) else 0 }

/-- The engine `clipState32` about to execute `END_VTXS` (byte `0x41` of
`ndsHdr`) with three vertices stored and a per-primitive counter of 3. -/
def endState32 : GPU F32 :=
  { clipState32 with
    cmd_fifo := fun _ => 0x41
    cmd_fifosize := 1
    gxfifo_size := 1
    n_verts := 3
    cur_vtx_ct := 3
    n_polys := 1 }

/-- The words that, written to the zero engine, load the identity scaled in x
by `0x1001 / 4096` into the Projection matrix and into the Position matrix:
for each of the two modes `MTX_MODE`, `MTX_IDENTITY`, `MTX_SCALE`. -/
def assocSetup : List Nat :=
  [0x10, 0, 0x15, 0x1b, 0x1001, 0x1000, 0x1000, 0x10, 1, 0x15, 0x1b, 0x1001, 0x1000, 0x1000]

/-- The words `BEGIN_VTXS 0` and `VTX_16` with the vertex (3, 0, 0). -/
def assocVertex : List Nat := [0x40, 0, 0x23, 0x3000, 0]

/-- A binary32 engine in Position mode whose Position matrix translates x by
1, about to execute `MTX_MULT_44` (byte `0x18` of `ndsHdr`) with the sixteen
parameter words of the matrix that scales x by `0x1001 / 4096`. -/
def multState32 : GPU F32 :=
  { zeroState32 with
    cmd_fifo := fun _ => 0x18
    cmd_fifosize := 1
    param_fifo := fun i =>
      if i = 0 then 0x1001 else if i = 5 ∨ i = 10 ∨ i = 15 then 0x1000 else 0
    param_fifosize := 16
    gxfifo_size := 16
    mtx_mode := 1
    posmtx := fun i j => if i = j then 1 else if i = 0 ∧ j = 3 then 1 else 0 }

/-- The engine `multState32` in Projection mode about to execute `MTX_MULT_43`
(byte `0x19` of `ndsHdr`). -/
def multState43x32 : GPU F32 :=
  { multState32 with cmd_fifo := fun _ => 0x19, mtx_mode := 0 }

/-- The engine `multState32` in PositionAndVector mode about to execute
`MTX_MULT_33` (byte `0x1a` of `ndsHdr`). -/
def multState33x32 : GPU F32 :=
  { multState32 with cmd_fifo := fun _ => 0x1a, mtx_mode := 2 }

/-- A binary32 engine in PositionAndVector mode whose Position and Vector
matrices are the identity, about to execute `MTX_TRANS` (byte `0x1c` of
`ndsHdr`) with parameters encoding the translation `(1, 0, 0)`. -/
def transState32 : GPU F32 :=
  { zeroState32 with
    cmd_fifo := fun _ => 0x1c
    cmd_fifosize := 1
    param_fifo := fun i => if i = 0 then 0x1000 else 0
    param_fifosize := 3
    gxfifo_size := 3
    mtx_mode := 2
    posmtx := identity
    vecmtx := identity }

/-- The engine `clipState32` with three vertices stored and a per-primitive
counter of 2, about to execute `POS_TEST` (byte `0x71` of `ndsHdr`) with the
parameter words of the position (1, 1, 1). -/
def posTestState32 : GPU F32 :=
  { clipState32 with
    cmd_fifo := fun _ => 0x71
    cmd_fifosize := 1
    param_fifo := fun i => if i = 0 then 0x10001000 else 0x1000
    param_fifosize := 2
    gxfifo_size := 2
    n_verts := 3
    cur_vtx_ct := 2
    n_polys := 1 }

/-! # Theorems -/

set_option linter.unusedSectionVars false

section Frame

variable {F : Type} [Zero F] [One F] [Add F] [Sub F] [Mul F] [Div F] [IntCast F] [FloatOps F]

theorem SameQueue.rfl (s : GPU F) : SameQueue s s := by simp [SameQueue]

theorem SameQueue.trans {s t u : GPU F} (h1 : SameQueue s t) (h2 : SameQueue t u) :
    SameQueue s u := by
  simp only [SameQueue] at *
  obtain ⟨a1, a2, a3, a4, a5, a6, a7, a8, a9, a10, a11⟩ := h1
  obtain ⟨b1, b2, b3, b4, b5, b6, b7, b8, b9, b10, b11⟩ := h2
  simp [*]

theorem add_poly_queue (K : Hdr) (s : GPU F) (a b c d : Option Int) :
    SameQueue s (add_poly K s a b c d) := by
  unfold add_poly; split_ifs <;> simp [SameQueue]

theorem add_vtx_queue (K : Hdr) (s : GPU F) : SameQueue s (add_vtx K s) := by
  unfold add_vtx
  simp only []
  split_ifs <;> first
    | exact SameQueue.trans (by simp [SameQueue]) (add_poly_queue K _ _ _ _ _)
    | simp [SameQueue]

theorem set_vtx_queue (s : GPU F) (i : Fin 4) (x : F) : SameQueue s (set_vtx s i x) := by
  simp [SameQueue, set_vtx]

theorem mtx_push_queue (K : Hdr) (s : GPU F) : SameQueue s (mtx_push K s) := by
  unfold mtx_push; simp only []; split_ifs <;> simp [SameQueue]

theorem mtx_pop_queue (K : Hdr) (s : GPU F) : SameQueue s (mtx_pop K s) := by
  unfold mtx_pop; simp only []; split_ifs <;> simp [SameQueue]

theorem mtx_store_queue (K : Hdr) (s : GPU F) : SameQueue s (mtx_store K s) := by
  unfold mtx_store; simp only []; split_ifs <;> simp [SameQueue]

theorem mtx_restore_queue (K : Hdr) (s : GPU F) : SameQueue s (mtx_restore K s) := by
  unfold mtx_restore; simp only []; split_ifs <;> simp [SameQueue]

theorem load_cur_queue (K : Hdr) (s : GPU F) (m : Mat4 F) : SameQueue s (load_cur K s m) := by
  unfold load_cur; split_ifs <;> simp [SameQueue]

theorem mult_cur_queue (K : Hdr) (s : GPU F) (m : Mat4 F) : SameQueue s (mult_cur K s m) := by
  unfold mult_cur; split_ifs <;> simp [SameQueue]

theorem scale_cur_queue (K : Hdr) (s : GPU F) (m : Mat4 F) : SameQueue s (scale_cur K s m) := by
  unfold scale_cur; split_ifs <;> simp [SameQueue]

theorem pos_test_queue (s : GPU F) : SameQueue s (pos_test s) := by
  simp [SameQueue, pos_test, update_mtxs, set_vtx]

theorem vtx_queue (K : Hdr) (s t : GPU F) (h : SameQueue s t) : SameQueue s (add_vtx K t) :=
  SameQueue.trans h (add_vtx_queue K t)

/-- Case analysis on the opcode switch: a property shared by the results of all
its cases holds of the result of `gxcmd_switch`. -/
theorem gxcmd_switch_cases (K : Hdr) (cmd : Nat) (s : GPU F) (P : GPU F → Prop)
    (h_mode : P { s with mtx_mode := s.param_fifo 0 &&& 3 })
    (h_push : P (mtx_push K s)) (h_pop : P (mtx_pop K s))
    (h_store : P (mtx_store K s)) (h_restore : P (mtx_restore K s))
    (h_load : ∀ m, P (load_cur K s m)) (h_mult : ∀ m, P (mult_cur K s m))
    (h_scale : ∀ m, P (scale_cur K s m))
    (h_v16 : P (vtx_16 K s)) (h_v10 : P (vtx_10 K s)) (h_vxy : P (vtx_xy K s))
    (h_vxz : P (vtx_xz K s)) (h_vyz : P (vtx_yz K s)) (h_vdiff : P (vtx_diff K s))
    (h_begin : P (begin_vtxs s)) (h_none : P s) (h_swap : P (swap_buffers K s))
    (h_box : P { s with boxtest := true }) (h_postest : P (pos_test s)) :
    P (gxcmd_switch K cmd s) := by
  unfold gxcmd_switch
  by_cases c0 : cmd = K.MTX_MODE
  · rw [if_pos c0]; exact h_mode
  rw [if_neg c0]
  by_cases c1 : cmd = K.MTX_PUSH
  · rw [if_pos c1]; exact h_push
  rw [if_neg c1]
  by_cases c2 : cmd = K.MTX_POP
  · rw [if_pos c2]; exact h_pop
  rw [if_neg c2]
  by_cases c3 : cmd = K.MTX_STORE
  · rw [if_pos c3]; exact h_store
  rw [if_neg c3]
  by_cases c4 : cmd = K.MTX_RESTORE
  · rw [if_pos c4]; exact h_restore
  rw [if_neg c4]
  by_cases c5 : cmd = K.MTX_IDENTITY
  · rw [if_pos c5]; exact h_load _
  rw [if_neg c5]
  by_cases c6 : cmd = K.MTX_LOAD_44
  · rw [if_pos c6]; exact h_load _
  rw [if_neg c6]
  by_cases c7 : cmd = K.MTX_LOAD_43
  · rw [if_pos c7]; exact h_load _
  rw [if_neg c7]
  by_cases c8 : cmd = K.MTX_MULT_44
  · rw [if_pos c8]; exact h_mult _
  rw [if_neg c8]
  by_cases c9 : cmd = K.MTX_MULT_43
  · rw [if_pos c9]; exact h_mult _
  rw [if_neg c9]
  by_cases c10 : cmd = K.MTX_MULT_33
  · rw [if_pos c10]; exact h_mult _
  rw [if_neg c10]
  by_cases c11 : cmd = K.MTX_SCALE
  · rw [if_pos c11]; exact h_scale _
  rw [if_neg c11]
  by_cases c12 : cmd = K.MTX_TRANS
  · rw [if_pos c12]; exact h_mult _
  rw [if_neg c12]
  by_cases c13 : cmd = K.VTX_16
  · rw [if_pos c13]; exact h_v16
  rw [if_neg c13]
  by_cases c14 : cmd = K.VTX_10
  · rw [if_pos c14]; exact h_v10
  rw [if_neg c14]
  by_cases c15 : cmd = K.VTX_XY
  · rw [if_pos c15]; exact h_vxy
  rw [if_neg c15]
  by_cases c16 : cmd = K.VTX_XZ
  · rw [if_pos c16]; exact h_vxz
  rw [if_neg c16]
  by_cases c17 : cmd = K.VTX_YZ
  · rw [if_pos c17]; exact h_vyz
  rw [if_neg c17]
  by_cases c18 : cmd = K.VTX_DIFF
  · rw [if_pos c18]; exact h_vdiff
  rw [if_neg c18]
  by_cases c19 : cmd = K.BEGIN_VTXS
  · rw [if_pos c19]; exact h_begin
  rw [if_neg c19]
  by_cases c20 : cmd = K.END_VTXS
  · rw [if_pos c20]; exact h_none
  rw [if_neg c20]
  by_cases c21 : cmd = K.SWAP_BUFFERS
  · rw [if_pos c21]; exact h_swap
  rw [if_neg c21]
  by_cases c22 : cmd = K.BOX_TEST
  · rw [if_pos c22]; exact h_box
  rw [if_neg c22]
  by_cases c23 : cmd = K.POS_TEST
  · rw [if_pos c23]; exact h_postest
  rw [if_neg c23]
  exact h_none

theorem gxcmd_switch_queue (K : Hdr) (cmd : Nat) (s : GPU F) :
    SameQueue s (gxcmd_switch K cmd s) := by
  apply gxcmd_switch_cases K cmd s (fun t => SameQueue s t)
  · simp [SameQueue]
  · exact mtx_push_queue K s
  · exact mtx_pop_queue K s
  · exact mtx_store_queue K s
  · exact mtx_restore_queue K s
  · exact load_cur_queue K s
  · exact mult_cur_queue K s
  · exact scale_cur_queue K s
  · exact vtx_queue K _ _ (by simp [SameQueue, set_vtx])
  · exact vtx_queue K _ _ (by simp [SameQueue, set_vtx])
  · exact vtx_queue K _ _ (by simp [SameQueue, set_vtx])
  · exact vtx_queue K _ _ (by simp [SameQueue, set_vtx])
  · exact vtx_queue K _ _ (by simp [SameQueue, set_vtx])
  · exact vtx_queue K _ _ (by simp [SameQueue, set_vtx])
  · simp [SameQueue, begin_vtxs, update_mtxs]
  · exact SameQueue.rfl s
  · simp [SameQueue, swap_buffers, gpu_render]
  · simp [SameQueue]
  · exact pos_test_queue s

end Frame

section Queue

variable {F : Type} [Zero F] [One F] [Add F] [Sub F] [Mul F] [Div F] [IntCast F] [FloatOps F]

/-- Unpacking a word that holds one opcode byte. -/
theorem unpack_single (K : Hdr) (s : GPU F) (op : Nat) (h0 : 0 < op) (h1 : op < 256) :
    unpack K 4 op s =
      { s with
        cmd_fifo := Function.update s.cmd_fifo s.cmd_fifosize op
        cmd_fifosize := s.cmd_fifosize + 1
        params_pending := s.params_pending + nparms op
        gxfifo_size :=
          if nparms op = 0 then wrapU K.gxfifo_size_bits ((s.gxfifo_size : Int) + 1)
          else s.gxfifo_size } := by
  have h2 : op % 256 = op := Nat.mod_eq_of_lt h1
  have h3 : op >>> 8 = 0 := by
    rw [Nat.shiftRight_eq_div_pow]; exact Nat.div_eq_of_lt (by simpa using h1)
  have h4 : op ≠ 0 := by omega
  simp [unpack, h2, h3, h4]

theorem gxcmd_execute_head (K : Hdr) (s : GPU F) (op : Nat) (h : s.cmd_fifo 0 % 256 = op) :
    gxcmd_execute K s = gxcmd_dequeue K op (gxcmd_switch K op s) := by
  simp [gxcmd_execute, h]

/-- A word holding one opcode without parameters, written to an idle engine,
is executed at once. -/
theorem write_op0 (K : Hdr) (s : GPU F) (op : Nat) (hi : Idle s) (h0 : 0 < op) (h1 : op < 256)
    (ha : nparms op = 0) :
    gxfifo_write K s op =
      gxfifo_flags (gxcmd_execute K
        (loaded s op [] (wrapU K.gxfifo_size_bits ((s.gxfifo_size : Int) + 1))
          s.gxfifo_empty s.gxfifo_half s.ifl_gxfifo)) := by
  obtain ⟨hp, hc, hq⟩ := hi
  have h2 : op % 4294967296 = op := Nat.mod_eq_of_lt (by omega)
  simp only [gxfifo_write, gxfifo_enqueue, h2, hp, ne_eq, not_true_eq_false, if_false,
    unpack_single K s op h0 h1, ha, add_zero, if_true, hc, zero_add]
  simp only [drain]
  simp only [one_ne_zero, if_false]
  congr 2
  simp only [loaded]
  ext <;> simp [hp, hc, hq]

/-- A word written while at least two parameters are owed is queued as a
parameter, and nothing is executed. -/
theorem write_param (K : Hdr) (a : GPU F) (p : Nat) (h : 2 ≤ a.params_pending) :
    gxfifo_write K a p = gxfifo_flags (pushed K a p (a.params_pending - 1)) := by
  have h1 : a.params_pending ≠ 0 := by omega
  have h2 : a.params_pending - 1 ≠ 0 := by omega
  simp [gxfifo_write, gxfifo_enqueue, h1, h2, pushed]

/-- Words written while more parameters are owed than arrive are appended to
the parameter queue. -/
theorem feed_params (K : Hdr) (ps : List Nat) (m : Nat) (hm : 1 ≤ m) :
    ∀ a : GPU F, a.params_pending = m + ps.length →
      ∃ (sz : Nat) (e h f : Bool), submit K a ps = fed a ps m sz e h f := by
  induction ps with
  | nil =>
    intro a ha
    refine ⟨a.gxfifo_size, a.gxfifo_empty, a.gxfifo_half, a.ifl_gxfifo, ?_⟩
    simp only [List.length_nil, add_zero] at ha
    ext i <;> simp [submit, ha, fed]
    rw [if_neg (by omega)]
  | cons p ps ih =>
    intro a ha
    simp only [List.length_cons] at ha
    have hw := write_param K a p (by omega)
    obtain ⟨sz, e, h, f, heq⟩ := ih (gxfifo_write K a p)
      (by rw [hw]; simp [gxfifo_flags, pushed]; omega)
    refine ⟨sz, e, h, f, ?_⟩
    simp only [submit, List.foldl_cons] at heq ⊢
    rw [heq, hw]
    ext i <;> simp [gxfifo_flags, fed, pushed]
    · by_cases h1 : i = a.param_fifosize
      · subst h1; simp
      · by_cases h2 : a.param_fifosize + 1 ≤ i ∧ i < a.param_fifosize + 1 + ps.length
        · have h3 : a.param_fifosize ≤ i ∧ i < a.param_fifosize + (ps.length + 1) := by omega
          have h4 : i - a.param_fifosize = (i - (a.param_fifosize + 1)) + 1 := by omega
          simp [h2, h3, h4]
        · have h3 : ¬ (a.param_fifosize ≤ i ∧ i < a.param_fifosize + (ps.length + 1)) := by omega
          simp [h2, h3, Function.update, h1]
    · omega

/-- A word holding one opcode that takes parameters, written to an idle engine,
is queued and nothing is executed. -/
theorem write_opn (K : Hdr) (s : GPU F) (op : Nat) (hi : Idle s) (h0 : 0 < op) (h1 : op < 256)
    (ha : nparms op ≠ 0) :
    gxfifo_write K s op = gxfifo_flags (queued s op (nparms op)) := by
  obtain ⟨hp, hc, hq⟩ := hi
  have h2 : op % 4294967296 = op := Nat.mod_eq_of_lt (by omega)
  simp only [gxfifo_write, gxfifo_enqueue, h2, hp, ne_eq, not_true_eq_false, if_false,
    unpack_single K s op h0 h1, ha, hc, zero_add, queued]

/-- The word that brings the last owed parameter triggers the drain loop. -/
theorem write_last_param (K : Hdr) (a : GPU F) (p : Nat) (h : a.params_pending = 1) :
    gxfifo_write K a p = gxfifo_flags (drain K a.cmd_fifosize (pushed K a p 0)) := by
  simp [gxfifo_write, gxfifo_enqueue, h, pushed]

/-- One opcode followed by exactly its parameter words, submitted to an idle
engine: the opcode is executed once, on the queues holding just that opcode
and those words. -/
theorem write_packet (K : Hdr) (s : GPU F) (op : Nat) (ps : List Nat) (hi : Idle s)
    (h0 : 0 < op) (h1 : op < 256) (hn : ps.length = nparms op) :
    ∃ (sz : Nat) (e h f : Bool),
      submit K s (op :: ps) = gxfifo_flags (gxcmd_execute K (loaded s op ps sz e h f)) := by
  rcases List.eq_nil_or_concat ps with hnil | ⟨L, b, hL⟩
  · subst hnil
    exact ⟨_, _, _, _, write_op0 K s op hi h0 h1 (by simpa using hn.symm)⟩
  · rw [List.concat_eq_append] at hL
    subst hL
    have hn : L.length + 1 = nparms op := by simpa using hn
    have hw := write_opn K s op hi h0 h1 (by omega)
    obtain ⟨hp, hc, hq⟩ := hi
    have hsub : submit K s (op :: (L ++ [b])) =
        gxfifo_write K (submit K (gxfifo_write K s op) L) b := by
      simp [submit, List.foldl_append]
    rw [hsub, hw]
    obtain ⟨sz, e, h, f, heq⟩ := feed_params K L 1 (le_refl 1)
      (gxfifo_flags (queued s op (nparms op)))
      (by simp [gxfifo_flags, queued]; omega)
    refine ⟨wrapU K.gxfifo_size_bits ((sz : Int) + 1), e, h, f, ?_⟩
    rw [heq, write_last_param K _ b (by simp [fed])]
    have hcs : (fed (gxfifo_flags (queued s op (nparms op))) L 1 sz e h f).cmd_fifosize = 1 := by
      simp [fed, gxfifo_flags, queued]
    rw [hcs]
    simp only [drain, pushed]
    rw [if_neg (by simp [fed, gxfifo_flags, queued])]
    congr 2
    simp only [loaded]
    ext i <;> simp [fed, gxfifo_flags, queued]
    · simp only [hq, zero_add, Function.update, eq_rec_constant, dite_eq_ite, Nat.sub_zero,
        Nat.zero_le, true_and]
      by_cases h1 : i < L.length
      · have h2 : i ≠ L.length := by omega
        have h3 : i < L.length + 1 := by omega
        simp [h1, h2, h3, List.getElem_append_left]
      · by_cases h2 : i = L.length
        · subst h2; simp [List.getD_append_right]
        · have h3 : ¬ i < L.length + 1 := by omega
          simp [h1, h2, h3]
    · exact hq

end Queue

section Dispatch

variable {F : Type} [Zero F] [One F] [Add F] [Sub F] [Mul F] [Div F] [IntCast F] [FloatOps F]

/-- The labels of the matrix-mode switches are pairwise different. -/
theorem Hdr.Distinct.modes {K : Hdr} (hK : K.Distinct) :
    K.MM_POS ≠ K.MM_PROJ ∧ K.MM_POSVEC ≠ K.MM_PROJ ∧ K.MM_POSVEC ≠ K.MM_POS := by
  obtain ⟨-, h, -⟩ := hK
  simp only [List.pairwise_cons, List.mem_cons, List.mem_singleton, forall_eq_or_imp,
    forall_eq, List.not_mem_nil, ne_eq] at h
  simp [h]

/-- The labels of the polygon-mode switch are pairwise different. -/
theorem Hdr.Distinct.polys {K : Hdr} (hK : K.Distinct) :
    K.POLY_QUADS ≠ K.POLY_TRIS ∧ K.POLY_TRI_STRIP ≠ K.POLY_TRIS ∧
    K.POLY_TRI_STRIP ≠ K.POLY_QUADS ∧ K.POLY_QUAD_STRIP ≠ K.POLY_TRIS ∧
    K.POLY_QUAD_STRIP ≠ K.POLY_QUADS ∧ K.POLY_QUAD_STRIP ≠ K.POLY_TRI_STRIP := by
  obtain ⟨-, -, h⟩ := hK
  simp only [List.pairwise_cons, List.mem_cons, List.mem_singleton, forall_eq_or_imp,
    forall_eq, List.not_mem_nil, ne_eq] at h
  simp [h]

theorem switch_MTX_MODE (K : Hdr) (hK : K.Distinct) (s : GPU F) :
    gxcmd_switch K K.MTX_MODE s = { s with mtx_mode := s.param_fifo 0 &&& 3 } := by
  obtain ⟨h, -, -⟩ := hK
  simp only [Hdr.opcodes, List.pairwise_cons, List.mem_cons, List.mem_singleton,
    forall_eq_or_imp, forall_eq, List.not_mem_nil, ne_eq] at h
  simp [gxcmd_switch, h]

theorem switch_MTX_PUSH (K : Hdr) (hK : K.Distinct) (s : GPU F) :
    gxcmd_switch K K.MTX_PUSH s = mtx_push K s := by
  obtain ⟨h, -, -⟩ := hK
  simp only [Hdr.opcodes, List.pairwise_cons, List.mem_cons, List.mem_singleton,
    forall_eq_or_imp, forall_eq, List.not_mem_nil, ne_eq] at h
  simp [gxcmd_switch, h]

theorem switch_MTX_POP (K : Hdr) (hK : K.Distinct) (s : GPU F) :
    gxcmd_switch K K.MTX_POP s = mtx_pop K s := by
  obtain ⟨h, -, -⟩ := hK
  simp only [Hdr.opcodes, List.pairwise_cons, List.mem_cons, List.mem_singleton,
    forall_eq_or_imp, forall_eq, List.not_mem_nil, ne_eq] at h
  simp [gxcmd_switch, h]

theorem switch_MTX_STORE (K : Hdr) (hK : K.Distinct) (s : GPU F) :
    gxcmd_switch K K.MTX_STORE s = mtx_store K s := by
  obtain ⟨h, -, -⟩ := hK
  simp only [Hdr.opcodes, List.pairwise_cons, List.mem_cons, List.mem_singleton,
    forall_eq_or_imp, forall_eq, List.not_mem_nil, ne_eq] at h
  simp [gxcmd_switch, h]

theorem switch_MTX_RESTORE (K : Hdr) (hK : K.Distinct) (s : GPU F) :
    gxcmd_switch K K.MTX_RESTORE s = mtx_restore K s := by
  obtain ⟨h, -, -⟩ := hK
  simp only [Hdr.opcodes, List.pairwise_cons, List.mem_cons, List.mem_singleton,
    forall_eq_or_imp, forall_eq, List.not_mem_nil, ne_eq] at h
  simp [gxcmd_switch, h]

theorem switch_MTX_IDENTITY (K : Hdr) (hK : K.Distinct) (s : GPU F) :
    gxcmd_switch K K.MTX_IDENTITY s = load_cur K s identity := by
  obtain ⟨h, -, -⟩ := hK
  simp only [Hdr.opcodes, List.pairwise_cons, List.mem_cons, List.mem_singleton,
    forall_eq_or_imp, forall_eq, List.not_mem_nil, ne_eq] at h
  simp [gxcmd_switch, h]

theorem switch_MTX_LOAD_44 (K : Hdr) (hK : K.Distinct) (s : GPU F) :
    gxcmd_switch K K.MTX_LOAD_44 s = load_cur K s (operand44 s.param_fifo) := by
  obtain ⟨h, -, -⟩ := hK
  simp only [Hdr.opcodes, List.pairwise_cons, List.mem_cons, List.mem_singleton,
    forall_eq_or_imp, forall_eq, List.not_mem_nil, ne_eq] at h
  simp [gxcmd_switch, h]

theorem switch_MTX_LOAD_43 (K : Hdr) (hK : K.Distinct) (s : GPU F) :
    gxcmd_switch K K.MTX_LOAD_43 s = load_cur K s (operand43 s.param_fifo) := by
  obtain ⟨h, -, -⟩ := hK
  simp only [Hdr.opcodes, List.pairwise_cons, List.mem_cons, List.mem_singleton,
    forall_eq_or_imp, forall_eq, List.not_mem_nil, ne_eq] at h
  simp [gxcmd_switch, h]

theorem switch_MTX_MULT_44 (K : Hdr) (hK : K.Distinct) (s : GPU F) :
    gxcmd_switch K K.MTX_MULT_44 s = mult_cur K s (operand44 s.param_fifo) := by
  obtain ⟨h, -, -⟩ := hK
  simp only [Hdr.opcodes, List.pairwise_cons, List.mem_cons, List.mem_singleton,
    forall_eq_or_imp, forall_eq, List.not_mem_nil, ne_eq] at h
  simp [gxcmd_switch, h]

theorem switch_MTX_MULT_43 (K : Hdr) (hK : K.Distinct) (s : GPU F) :
    gxcmd_switch K K.MTX_MULT_43 s = mult_cur K s (operand43 s.param_fifo) := by
  obtain ⟨h, -, -⟩ := hK
  simp only [Hdr.opcodes, List.pairwise_cons, List.mem_cons, List.mem_singleton,
    forall_eq_or_imp, forall_eq, List.not_mem_nil, ne_eq] at h
  simp [gxcmd_switch, h]

theorem switch_MTX_MULT_33 (K : Hdr) (hK : K.Distinct) (s : GPU F) :
    gxcmd_switch K K.MTX_MULT_33 s = mult_cur K s (operand33 s.param_fifo) := by
  obtain ⟨h, -, -⟩ := hK
  simp only [Hdr.opcodes, List.pairwise_cons, List.mem_cons, List.mem_singleton,
    forall_eq_or_imp, forall_eq, List.not_mem_nil, ne_eq] at h
  simp [gxcmd_switch, h]

theorem switch_MTX_SCALE (K : Hdr) (hK : K.Distinct) (s : GPU F) :
    gxcmd_switch K K.MTX_SCALE s = scale_cur K s (operandScale s.param_fifo) := by
  obtain ⟨h, -, -⟩ := hK
  simp only [Hdr.opcodes, List.pairwise_cons, List.mem_cons, List.mem_singleton,
    forall_eq_or_imp, forall_eq, List.not_mem_nil, ne_eq] at h
  simp [gxcmd_switch, h]

theorem switch_MTX_TRANS (K : Hdr) (hK : K.Distinct) (s : GPU F) :
    gxcmd_switch K K.MTX_TRANS s = mult_cur K s (operandTrans s.param_fifo) := by
  obtain ⟨h, -, -⟩ := hK
  simp only [Hdr.opcodes, List.pairwise_cons, List.mem_cons, List.mem_singleton,
    forall_eq_or_imp, forall_eq, List.not_mem_nil, ne_eq] at h
  simp [gxcmd_switch, h]

theorem switch_VTX_16 (K : Hdr) (hK : K.Distinct) (s : GPU F) :
    gxcmd_switch K K.VTX_16 s = vtx_16 K s := by
  obtain ⟨h, -, -⟩ := hK
  simp only [Hdr.opcodes, List.pairwise_cons, List.mem_cons, List.mem_singleton,
    forall_eq_or_imp, forall_eq, List.not_mem_nil, ne_eq] at h
  simp [gxcmd_switch, h]

theorem switch_VTX_10 (K : Hdr) (hK : K.Distinct) (s : GPU F) :
    gxcmd_switch K K.VTX_10 s = vtx_10 K s := by
  obtain ⟨h, -, -⟩ := hK
  simp only [Hdr.opcodes, List.pairwise_cons, List.mem_cons, List.mem_singleton,
    forall_eq_or_imp, forall_eq, List.not_mem_nil, ne_eq] at h
  simp [gxcmd_switch, h]

theorem switch_VTX_XY (K : Hdr) (hK : K.Distinct) (s : GPU F) :
    gxcmd_switch K K.VTX_XY s = vtx_xy K s := by
  obtain ⟨h, -, -⟩ := hK
  simp only [Hdr.opcodes, List.pairwise_cons, List.mem_cons, List.mem_singleton,
    forall_eq_or_imp, forall_eq, List.not_mem_nil, ne_eq] at h
  simp [gxcmd_switch, h]

theorem switch_VTX_XZ (K : Hdr) (hK : K.Distinct) (s : GPU F) :
    gxcmd_switch K K.VTX_XZ s = vtx_xz K s := by
  obtain ⟨h, -, -⟩ := hK
  simp only [Hdr.opcodes, List.pairwise_cons, List.mem_cons, List.mem_singleton,
    forall_eq_or_imp, forall_eq, List.not_mem_nil, ne_eq] at h
  simp [gxcmd_switch, h]

theorem switch_VTX_YZ (K : Hdr) (hK : K.Distinct) (s : GPU F) :
    gxcmd_switch K K.VTX_YZ s = vtx_yz K s := by
  obtain ⟨h, -, -⟩ := hK
  simp only [Hdr.opcodes, List.pairwise_cons, List.mem_cons, List.mem_singleton,
    forall_eq_or_imp, forall_eq, List.not_mem_nil, ne_eq] at h
  simp [gxcmd_switch, h]

theorem switch_VTX_DIFF (K : Hdr) (hK : K.Distinct) (s : GPU F) :
    gxcmd_switch K K.VTX_DIFF s = vtx_diff K s := by
  obtain ⟨h, -, -⟩ := hK
  simp only [Hdr.opcodes, List.pairwise_cons, List.mem_cons, List.mem_singleton,
    forall_eq_or_imp, forall_eq, List.not_mem_nil, ne_eq] at h
  simp [gxcmd_switch, h]

theorem switch_BEGIN_VTXS (K : Hdr) (hK : K.Distinct) (s : GPU F) :
    gxcmd_switch K K.BEGIN_VTXS s = begin_vtxs s := by
  obtain ⟨h, -, -⟩ := hK
  simp only [Hdr.opcodes, List.pairwise_cons, List.mem_cons, List.mem_singleton,
    forall_eq_or_imp, forall_eq, List.not_mem_nil, ne_eq] at h
  simp [gxcmd_switch, h]

theorem switch_END_VTXS (K : Hdr) (hK : K.Distinct) (s : GPU F) :
    gxcmd_switch K K.END_VTXS s = s := by
  obtain ⟨h, -, -⟩ := hK
  simp only [Hdr.opcodes, List.pairwise_cons, List.mem_cons, List.mem_singleton,
    forall_eq_or_imp, forall_eq, List.not_mem_nil, ne_eq] at h
  simp [gxcmd_switch, h]

theorem switch_SWAP_BUFFERS (K : Hdr) (hK : K.Distinct) (s : GPU F) :
    gxcmd_switch K K.SWAP_BUFFERS s = swap_buffers K s := by
  obtain ⟨h, -, -⟩ := hK
  simp only [Hdr.opcodes, List.pairwise_cons, List.mem_cons, List.mem_singleton,
    forall_eq_or_imp, forall_eq, List.not_mem_nil, ne_eq] at h
  simp [gxcmd_switch, h]

theorem switch_BOX_TEST (K : Hdr) (hK : K.Distinct) (s : GPU F) :
    gxcmd_switch K K.BOX_TEST s = { s with boxtest := true } := by
  obtain ⟨h, -, -⟩ := hK
  simp only [Hdr.opcodes, List.pairwise_cons, List.mem_cons, List.mem_singleton,
    forall_eq_or_imp, forall_eq, List.not_mem_nil, ne_eq] at h
  simp [gxcmd_switch, h]

theorem switch_POS_TEST (K : Hdr) (hK : K.Distinct) (s : GPU F) :
    gxcmd_switch K K.POS_TEST s = pos_test s := by
  obtain ⟨h, -, -⟩ := hK
  simp only [Hdr.opcodes, List.pairwise_cons, List.mem_cons, List.mem_singleton,
    forall_eq_or_imp, forall_eq, List.not_mem_nil, ne_eq] at h
  simp [gxcmd_switch, h]

end Dispatch

section Flags

variable {F : Type} [Zero F] [One F] [Add F] [Sub F] [Mul F] [Div F] [IntCast F] [FloatOps F]

theorem gxcmd_execute_irq (K : Hdr) (s : GPU F) :
    (gxcmd_execute K s).irq_empty = s.irq_empty ∧ (gxcmd_execute K s).irq_half = s.irq_half := by
  have h := gxcmd_switch_queue K (s.cmd_fifo 0 % 256) s
  simp only [SameQueue] at h
  simp [gxcmd_execute, gxcmd_dequeue, h]

theorem drain_irq (K : Hdr) (n : Nat) :
    ∀ s : GPU F, (drain K n s).irq_empty = s.irq_empty ∧ (drain K n s).irq_half = s.irq_half := by
  induction n with
  | zero => intro s; simp [drain]
  | succ n ih =>
    intro s
    simp only [drain]
    split_ifs
    · simp
    · rw [(ih _).1, (ih _).2]; exact gxcmd_execute_irq K s

theorem unpack_irq (K : Hdr) (n : Nat) :
    ∀ (c : Nat) (s : GPU F),
      (unpack K n c s).irq_empty = s.irq_empty ∧ (unpack K n c s).irq_half = s.irq_half := by
  induction n with
  | zero => intro c s; simp [unpack]
  | succ n ih =>
    intro c s
    simp only [unpack]
    by_cases hc : c = 0
    · simp [hc]
    · rw [if_neg hc]
      exact ⟨((ih _ _).1).trans rfl, ((ih _ _).2).trans rfl⟩

theorem gxfifo_enqueue_irq (K : Hdr) (s : GPU F) (c : Nat) :
    (gxfifo_enqueue K s c).irq_empty = s.irq_empty ∧
    (gxfifo_enqueue K s c).irq_half = s.irq_half := by
  unfold gxfifo_enqueue
  split_ifs
  · simp
  · exact unpack_irq K 4 c s

/-- C10: after every `gxfifo_write`, `gxfifo_empty` is set exactly when the fill
level `gxfifo_size` is zero, `gxfifo_half` is set exactly when the fill level
is below 128, and `ifl.gxfifo` is overwritten with `(irq_empty && gxfifo_empty)
|| (irq_half && gxfifo_half)` (the enable bits being those the caller set), so
it is cleared when neither condition holds. -/
theorem gxfifo_write_status (K : Hdr) (s : GPU F) (w : Nat) :
    ((gxfifo_write K s w).gxfifo_empty = true ↔ (gxfifo_write K s w).gxfifo_size = 0) ∧
    ((gxfifo_write K s w).gxfifo_half = true ↔ (gxfifo_write K s w).gxfifo_size < 128) ∧
    (gxfifo_write K s w).ifl_gxfifo =
      ((s.irq_empty && (gxfifo_write K s w).gxfifo_empty) ||
        (s.irq_half && (gxfifo_write K s w).gxfifo_half)) ∧
    (gxfifo_write K s w).irq_empty = s.irq_empty ∧
    (gxfifo_write K s w).irq_half = s.irq_half ∧
    ((¬ (s.irq_empty = true ∧ (gxfifo_write K s w).gxfifo_size = 0) ∧
      ¬ (s.irq_half = true ∧ (gxfifo_write K s w).gxfifo_size < 128)) →
      (gxfifo_write K s w).ifl_gxfifo = false) := by
  have he := gxfifo_enqueue_irq K s (w % 4294967296)
  have hd := drain_irq K (gxfifo_enqueue K s (w % 4294967296)).cmd_fifosize
    (gxfifo_enqueue K s (w % 4294967296))
  have hirq : (gxfifo_write K s w).irq_empty = s.irq_empty ∧
      (gxfifo_write K s w).irq_half = s.irq_half := by
    simp only [gxfifo_write, gxfifo_flags]
    split_ifs
    · exact ⟨hd.1.trans he.1, hd.2.trans he.2⟩
    · exact he
  have hfl : ∀ t : GPU F,
      ((gxfifo_flags t).gxfifo_empty = true ↔ (gxfifo_flags t).gxfifo_size = 0) ∧
      ((gxfifo_flags t).gxfifo_half = true ↔ (gxfifo_flags t).gxfifo_size < 128) ∧
      (gxfifo_flags t).ifl_gxfifo =
        (((gxfifo_flags t).irq_empty && (gxfifo_flags t).gxfifo_empty) ||
          ((gxfifo_flags t).irq_half && (gxfifo_flags t).gxfifo_half)) := by
    intro t
    simp [gxfifo_flags]
  have h := hfl (if (gxfifo_enqueue K s (w % 4294967296)).params_pending = 0 then
      drain K (gxfifo_enqueue K s (w % 4294967296)).cmd_fifosize
        (gxfifo_enqueue K s (w % 4294967296))
    else gxfifo_enqueue K s (w % 4294967296))
  have hw : gxfifo_write K s w = gxfifo_flags
      (if (gxfifo_enqueue K s (w % 4294967296)).params_pending = 0 then
        drain K (gxfifo_enqueue K s (w % 4294967296)).cmd_fifosize
          (gxfifo_enqueue K s (w % 4294967296))
      else gxfifo_enqueue K s (w % 4294967296)) := rfl
  rw [← hw] at h
  obtain ⟨h1, h2, h3⟩ := h
  rw [hirq.1, hirq.2] at h3
  refine ⟨h1, h2, h3, hirq.1, hirq.2, ?_⟩
  rintro ⟨n1, n2⟩
  rw [h3]
  rw [← h1] at n1
  rw [← h2] at n2
  have key : ∀ a b c d : Bool, ¬ (a = true ∧ c = true) → ¬ (b = true ∧ d = true) →
      (a && c || b && d) = false := by decide
  exact key _ _ _ _ n1 n2

/-- C9, as the code has it: after every `gxfifo_write`, `gxfifo_half` is true
when the fill level is below 128 and false otherwise, and `gxfifo_empty` is
true if and only if the fill level is exactly 0. -/
theorem gxfifo_write_half_empty (K : Hdr) (s : GPU F) (w : Nat) :
    (gxfifo_write K s w).gxfifo_half = decide ((gxfifo_write K s w).gxfifo_size < 128) ∧
    ((gxfifo_write K s w).gxfifo_empty = true ↔ (gxfifo_write K s w).gxfifo_size = 0) := by
  have hw : gxfifo_write K s w = gxfifo_flags
      (if (gxfifo_enqueue K s (w % 4294967296)).params_pending = 0 then
        drain K (gxfifo_enqueue K s (w % 4294967296)).cmd_fifosize
          (gxfifo_enqueue K s (w % 4294967296))
      else gxfifo_enqueue K s (w % 4294967296)) := rfl
  rw [hw]
  simp [gxfifo_flags]

end Flags

/-- C9 fails as stated: writing the word `0x11` to the zero engine leaves the
fill level at 0, which is fewer than 128, and `gxfifo_half` is true, not
false. -/
theorem gxfifo_half_counterexample :
    (gxfifo_write ndsHdr zeroState 0x11).gxfifo_size < 128 ∧
    (gxfifo_write ndsHdr zeroState 0x11).gxfifo_half = true := by
  decide

section Swap

variable {F : Type} [Zero F] [One F] [Add F] [Sub F] [Mul F] [Div F] [IntCast F] [FloatOps F]

/-- C8: executing `SWAP_BUFFERS` from any state leaves the vertex count and the
polygon count both 0 and leaves the matrix mode, the current Projection,
Position and Vector matrices, the clip matrix, all matrix stack slots and both
stack depths unchanged. -/
theorem swap_buffers_effect (K : Hdr) (hK : K.Distinct) (s : GPU F)
    (hcmd : s.cmd_fifo 0 % 256 = K.SWAP_BUFFERS) :
    (gxcmd_execute K s).n_verts = 0 ∧ (gxcmd_execute K s).n_polys = 0 ∧
    (gxcmd_execute K s).mtx_mode = s.mtx_mode ∧
    (gxcmd_execute K s).projmtx = s.projmtx ∧
    (gxcmd_execute K s).posmtx = s.posmtx ∧
    (gxcmd_execute K s).vecmtx = s.vecmtx ∧
    (gxcmd_execute K s).clipmtx = s.clipmtx ∧
    (gxcmd_execute K s).projmtx_stk = s.projmtx_stk ∧
    (gxcmd_execute K s).posmtx_stk = s.posmtx_stk ∧
    (gxcmd_execute K s).vecmtx_stk = s.vecmtx_stk ∧
    (gxcmd_execute K s).projstk_size = s.projstk_size ∧
    (gxcmd_execute K s).mtxstk_size = s.mtxstk_size := by
  rw [gxcmd_execute_head K s _ hcmd, switch_SWAP_BUFFERS K hK]
  simp [gxcmd_dequeue, swap_buffers, gpu_render]

end Swap

/-- Instance of `swap_buffers_effect` on `swapState`. -/
theorem swap_buffers_effect_witness :
    ndsHdr.Distinct ∧ swapState.cmd_fifo 0 % 256 = ndsHdr.SWAP_BUFFERS ∧
    (gxcmd_execute ndsHdr swapState).n_verts = 0 ∧
    (gxcmd_execute ndsHdr swapState).n_polys = 0 ∧
    (gxcmd_execute ndsHdr swapState).mtx_mode = swapState.mtx_mode ∧
    (gxcmd_execute ndsHdr swapState).projmtx = swapState.projmtx ∧
    (gxcmd_execute ndsHdr swapState).posmtx = swapState.posmtx ∧
    (gxcmd_execute ndsHdr swapState).vecmtx = swapState.vecmtx ∧
    (gxcmd_execute ndsHdr swapState).clipmtx = swapState.clipmtx ∧
    (gxcmd_execute ndsHdr swapState).projmtx_stk = swapState.projmtx_stk ∧
    (gxcmd_execute ndsHdr swapState).posmtx_stk = swapState.posmtx_stk ∧
    (gxcmd_execute ndsHdr swapState).vecmtx_stk = swapState.vecmtx_stk ∧
    (gxcmd_execute ndsHdr swapState).projstk_size = swapState.projstk_size ∧
    (gxcmd_execute ndsHdr swapState).mtxstk_size = swapState.mtxstk_size :=
  ⟨by decide, by decide, swap_buffers_effect ndsHdr (by decide) swapState (by decide)⟩

/-- The expression `(s32) p << 26 >> 26` is the two's complement reading of the
low six bits of `p`. -/
theorem pop_count_eq (p : Nat) :
    pop_count p = if p % 64 < 32 then ((p % 64 : Nat) : Int) else ((p % 64 : Nat) : Int) - 64 := by
  unfold pop_count sar32 shl32 s32
  norm_num
  split_ifs <;> omega

theorem pop_count_range (p : Nat) : -32 ≤ pop_count p ∧ pop_count p ≤ 31 := by
  rw [pop_count_eq]; split_ifs <;> omega

theorem pop_count_sext6 (p : Nat) : pop_count p = sext6 p := pop_count_eq p

theorem sext6_range (p : Nat) : -32 ≤ sext6 p ∧ sext6 p ≤ 31 := by
  unfold sext6; split_ifs <;> omega

section Pop

variable {F : Type} [Zero F] [One F] [Add F] [Sub F] [Mul F] [Div F] [IntCast F] [FloatOps F]

/-- Case `MTX_POP` in Position or PositionAndVector mode. -/
theorem mtx_pop_pos (K : Hdr) (hK : K.Distinct) (s : GPU F)
    (hmode : s.mtx_mode = K.MM_POS ∨ s.mtx_mode = K.MM_POSVEC) :
    mtx_pop K s =
      { s with
        mtxstk_size := (((s.mtxstk_size : Int) - sext6 (s.param_fifo 0)) % 32).toNat
        posmtx := s.posmtx_stk (((s.mtxstk_size : Int) - sext6 (s.param_fifo 0)) % 32).toNat
        vecmtx := s.vecmtx_stk (((s.mtxstk_size : Int) - sext6 (s.param_fifo 0)) % 32).toNat
        stat_mtxstk_size := wrapU K.mtxstk_size_bits
          ((((s.mtxstk_size : Int) - sext6 (s.param_fifo 0)) % 32).toNat : Nat) } := by
  obtain ⟨h1, h2, -⟩ := hK.modes
  have hne : s.mtx_mode ≠ K.MM_PROJ := by
    rcases hmode with h | h <;> rw [h] <;> assumption
  simp [mtx_pop, hne, hmode, pop_count_sext6]

/-- C5: in Position or PositionAndVector mode, `MTX_POP` with parameter `p`
sets the stack depth to `(d - n) mod 32`, where `d` is the prior depth and `n`
is the low 6 bits of `p` sign-extended to a signed integer in `[-32, 31]`, and
then sets both the current Position matrix and the current Vector matrix to the
stack slots at that new index; the stack slots themselves are unchanged. -/
theorem mtx_pop_effect (K : Hdr) (hK : K.Distinct) (s : GPU F)
    (hcmd : s.cmd_fifo 0 % 256 = K.MTX_POP)
    (hmode : s.mtx_mode = K.MM_POS ∨ s.mtx_mode = K.MM_POSVEC) :
    pop_count (s.param_fifo 0) = sext6 (s.param_fifo 0) ∧
    -32 ≤ sext6 (s.param_fifo 0) ∧ sext6 (s.param_fifo 0) ≤ 31 ∧
    ((gxcmd_execute K s).mtxstk_size : Int) =
      ((s.mtxstk_size : Int) - sext6 (s.param_fifo 0)) % 32 ∧
    (gxcmd_execute K s).posmtx = s.posmtx_stk (gxcmd_execute K s).mtxstk_size ∧
    (gxcmd_execute K s).vecmtx = s.vecmtx_stk (gxcmd_execute K s).mtxstk_size ∧
    (gxcmd_execute K s).posmtx_stk = s.posmtx_stk ∧
    (gxcmd_execute K s).vecmtx_stk = s.vecmtx_stk ∧
    (gxcmd_execute K s).projmtx_stk = s.projmtx_stk := by
  rw [gxcmd_execute_head K s _ hcmd, switch_MTX_POP K hK, mtx_pop_pos K hK s hmode]
  refine ⟨pop_count_sext6 _, (sext6_range _).1, (sext6_range _).2, ?_, ?_⟩
  · simp only [gxcmd_dequeue]
    rw [Int.toNat_of_nonneg (Int.emod_nonneg _ (by norm_num))]
  · simp [gxcmd_dequeue]

end Pop

/-- Instance of `mtx_pop_effect` on `popState`: count -2 at depth 5 gives
depth 7. -/
theorem mtx_pop_effect_witness :
    ndsHdr.Distinct ∧ popState.cmd_fifo 0 % 256 = ndsHdr.MTX_POP ∧
    (popState.mtx_mode = ndsHdr.MM_POS ∨ popState.mtx_mode = ndsHdr.MM_POSVEC) ∧
    sext6 (popState.param_fifo 0) = -2 ∧
    ((gxcmd_execute ndsHdr popState).mtxstk_size : Int) =
      ((popState.mtxstk_size : Int) - sext6 (popState.param_fifo 0)) % 32 ∧
    (gxcmd_execute ndsHdr popState).posmtx =
      popState.posmtx_stk (gxcmd_execute ndsHdr popState).mtxstk_size ∧
    (gxcmd_execute ndsHdr popState).posmtx_stk = popState.posmtx_stk :=
  have h := mtx_pop_effect ndsHdr (by decide) popState (by decide) (by decide)
  ⟨by decide, by decide, by decide, by decide, h.2.2.2.1, h.2.2.2.2.1, h.2.2.2.2.2.2.1⟩

section Packets

variable {F : Type} [Zero F] [One F] [Add F] [Sub F] [Mul F] [Div F] [IntCast F] [FloatOps F]

theorem submit_append (K : Hdr) (s : GPU F) (xs ys : List Nat) :
    submit K s (xs ++ ys) = submit K (submit K s xs) ys := by
  simp [submit, List.foldl_append]

theorem submit_nil (K : Hdr) (s : GPU F) : submit K s [] = s := rfl

theorem submit_cons (K : Hdr) (s : GPU F) (x : Nat) (xs : List Nat) :
    submit K s (x :: xs) = submit K (gxfifo_write K s x) xs := rfl

/-- One opcode followed by exactly its parameter words, submitted to an idle
engine: the case of the opcode runs on the loaded queues, then the opcode and
its parameters are dequeued and the status bits recomputed. -/
theorem submit_packet (K : Hdr) (s : GPU F) (op : Nat) (ps : List Nat) (hi : Idle s)
    (h0 : 0 < op) (h1 : op < 256) (hn : ps.length = nparms op) :
    ∃ (sz : Nat) (e h f : Bool),
      submit K s (op :: ps) =
        gxfifo_flags (gxcmd_dequeue K op (gxcmd_switch K op (loaded s op ps sz e h f))) := by
  obtain ⟨sz, e, h, f, heq⟩ := write_packet K s op ps hi h0 h1 hn
  refine ⟨sz, e, h, f, ?_⟩
  rw [heq, gxcmd_execute_head K _ op (by simp [loaded, Nat.mod_eq_of_lt h1])]

/-- After a complete packet the engine is idle again. -/
theorem submit_packet_idle (K : Hdr) (s : GPU F) (op : Nat) (ps : List Nat) (hi : Idle s)
    (h0 : 0 < op) (h1 : op < 256) (hn : ps.length = nparms op) :
    Idle (submit K s (op :: ps)) := by
  obtain ⟨sz, e, h, f, heq⟩ := submit_packet K s op ps hi h0 h1 hn
  rw [heq]
  have hq := gxcmd_switch_queue K op (loaded s op ps sz e h f)
  simp only [SameQueue] at hq
  obtain ⟨-, q2, -, q4, q5, -⟩ := hq
  simp only [Idle, gxfifo_flags, gxcmd_dequeue, q2, q4, q5]
  simp [loaded, hn]

end Packets

section Push

variable {F : Type} [Zero F] [One F] [Add F] [Sub F] [Mul F] [Div F] [IntCast F] [FloatOps F]

/-- Case `MTX_PUSH` in Position or PositionAndVector mode. -/
theorem mtx_push_pos (K : Hdr) (hK : K.Distinct) (s : GPU F)
    (hmode : s.mtx_mode = K.MM_POS ∨ s.mtx_mode = K.MM_POSVEC) :
    mtx_push K s =
      if s.mtxstk_size = 31 then
        { s with
          mtxstk_error := true
          stat_mtxstk_size := wrapU K.mtxstk_size_bits s.mtxstk_size }
      else
        { s with
          posmtx_stk := Function.update s.posmtx_stk s.mtxstk_size s.posmtx
          vecmtx_stk := Function.update s.vecmtx_stk s.mtxstk_size s.vecmtx
          mtxstk_size := s.mtxstk_size + 1
          stat_mtxstk_size := wrapU K.mtxstk_size_bits ((s.mtxstk_size + 1 : Nat) : Int) } := by
  obtain ⟨h1, h2, -⟩ := hK.modes
  have hne : s.mtx_mode ≠ K.MM_PROJ := by
    rcases hmode with h | h <;> rw [h] <;> assumption
  simp only [mtx_push, hne, hmode, if_false, if_true]
  split_ifs <;> rfl

/-- One `MTX_PUSH` word written to an idle engine in Position or
PositionAndVector mode. -/
theorem write_push (K : Hdr) (hK : K.Distinct) (hb : 0 < K.MTX_PUSH ∧ K.MTX_PUSH < 256)
    (ha : nparms K.MTX_PUSH = 0) (s : GPU F) (hi : Idle s)
    (hmode : s.mtx_mode = K.MM_POS ∨ s.mtx_mode = K.MM_POSVEC) :
    Idle (gxfifo_write K s K.MTX_PUSH) ∧
    (gxfifo_write K s K.MTX_PUSH).mtx_mode = s.mtx_mode ∧
    (gxfifo_write K s K.MTX_PUSH).projmtx = s.projmtx ∧
    (gxfifo_write K s K.MTX_PUSH).posmtx = s.posmtx ∧
    (gxfifo_write K s K.MTX_PUSH).vecmtx = s.vecmtx ∧
    (gxfifo_write K s K.MTX_PUSH).projmtx_stk = s.projmtx_stk ∧
    (s.mtxstk_size ≠ 31 →
      (gxfifo_write K s K.MTX_PUSH).mtxstk_size = s.mtxstk_size + 1 ∧
      (gxfifo_write K s K.MTX_PUSH).mtxstk_error = s.mtxstk_error ∧
      (gxfifo_write K s K.MTX_PUSH).posmtx_stk =
        Function.update s.posmtx_stk s.mtxstk_size s.posmtx ∧
      (gxfifo_write K s K.MTX_PUSH).vecmtx_stk =
        Function.update s.vecmtx_stk s.mtxstk_size s.vecmtx) ∧
    (s.mtxstk_size = 31 →
      (gxfifo_write K s K.MTX_PUSH).mtxstk_size = 31 ∧
      (gxfifo_write K s K.MTX_PUSH).mtxstk_error = true ∧
      (gxfifo_write K s K.MTX_PUSH).posmtx_stk = s.posmtx_stk ∧
      (gxfifo_write K s K.MTX_PUSH).vecmtx_stk = s.vecmtx_stk) := by
  have hidle := submit_packet_idle K s K.MTX_PUSH [] hi hb.1 hb.2 (by simp [ha])
  obtain ⟨sz, e, h, f, heq⟩ := submit_packet K s K.MTX_PUSH [] hi hb.1 hb.2 (by simp [ha])
  simp only [submit_cons, submit_nil] at heq hidle
  refine ⟨hidle, ?_⟩
  rw [heq, switch_MTX_PUSH K hK, mtx_push_pos K hK _ (by simpa [loaded] using hmode)]
  by_cases h31 : s.mtxstk_size = 31
  · rw [if_pos (by simpa [loaded] using h31)]
    simp [gxfifo_flags, gxcmd_dequeue, loaded, h31]
  · rw [if_neg (by simpa [loaded] using h31)]
    simp [gxfifo_flags, gxcmd_dequeue, loaded, h31]

/-- After `k <= 31` `MTX_PUSH` words from depth 0 the depth is `k` and the
error flag is still clear. -/
theorem pushes_from_zero (K : Hdr) (hK : K.Distinct) (hb : 0 < K.MTX_PUSH ∧ K.MTX_PUSH < 256)
    (ha : nparms K.MTX_PUSH = 0) (s : GPU F) (hi : Idle s)
    (hmode : s.mtx_mode = K.MM_POS ∨ s.mtx_mode = K.MM_POSVEC)
    (hd : s.mtxstk_size = 0) (he : s.mtxstk_error = false) (k : Nat) (hk : k ≤ 31) :
    Idle (submit K s (List.replicate k K.MTX_PUSH)) ∧
    (submit K s (List.replicate k K.MTX_PUSH)).mtx_mode = s.mtx_mode ∧
    (submit K s (List.replicate k K.MTX_PUSH)).mtxstk_size = k ∧
    (submit K s (List.replicate k K.MTX_PUSH)).mtxstk_error = false := by
  induction k with
  | zero => exact ⟨hi, rfl, hd, he⟩
  | succ k ih =>
    obtain ⟨i1, i2, i3, i4⟩ := ih (by omega)
    rw [List.replicate_succ', submit_append, submit_cons, submit_nil]
    obtain ⟨w1, w2, -, -, -, -, w7, -⟩ :=
      write_push K hK hb ha (submit K s (List.replicate k K.MTX_PUSH)) i1 (by rw [i2]; exact hmode)
    obtain ⟨v1, v2, -, -⟩ := w7 (by omega)
    exact ⟨w1, w2.trans i2, by rw [v1, i3], by rw [v2, i4]⟩

/-- C4: in Position or PositionAndVector mode, starting from position/vector
stack depth 0 with the stack-error flag clear, 31 consecutive `MTX_PUSH`
commands leave the error flag clear and bring the depth to 31; a 32nd
`MTX_PUSH` sets the error flag and leaves the depth (31), every stack slot and
the current matrices unchanged. -/
theorem push_overflow (K : Hdr) (hK : K.Distinct) (hb : 0 < K.MTX_PUSH ∧ K.MTX_PUSH < 256)
    (ha : nparms K.MTX_PUSH = 0) (s : GPU F) (hi : Idle s)
    (hmode : s.mtx_mode = K.MM_POS ∨ s.mtx_mode = K.MM_POSVEC)
    (hd : s.mtxstk_size = 0) (he : s.mtxstk_error = false) :
    (submit K s (List.replicate 31 K.MTX_PUSH)).mtxstk_error = false ∧
    (submit K s (List.replicate 31 K.MTX_PUSH)).mtxstk_size = 31 ∧
    (submit K s (List.replicate 32 K.MTX_PUSH)).mtxstk_error = true ∧
    (submit K s (List.replicate 32 K.MTX_PUSH)).mtxstk_size = 31 ∧
    (submit K s (List.replicate 32 K.MTX_PUSH)).posmtx_stk =
      (submit K s (List.replicate 31 K.MTX_PUSH)).posmtx_stk ∧
    (submit K s (List.replicate 32 K.MTX_PUSH)).vecmtx_stk =
      (submit K s (List.replicate 31 K.MTX_PUSH)).vecmtx_stk ∧
    (submit K s (List.replicate 32 K.MTX_PUSH)).projmtx_stk =
      (submit K s (List.replicate 31 K.MTX_PUSH)).projmtx_stk ∧
    (submit K s (List.replicate 32 K.MTX_PUSH)).projmtx =
      (submit K s (List.replicate 31 K.MTX_PUSH)).projmtx ∧
    (submit K s (List.replicate 32 K.MTX_PUSH)).posmtx =
      (submit K s (List.replicate 31 K.MTX_PUSH)).posmtx ∧
    (submit K s (List.replicate 32 K.MTX_PUSH)).vecmtx =
      (submit K s (List.replicate 31 K.MTX_PUSH)).vecmtx := by
  obtain ⟨i1, i2, i3, i4⟩ := pushes_from_zero K hK hb ha s hi hmode hd he 31 (le_refl 31)
  have h32 : submit K s (List.replicate 32 K.MTX_PUSH) =
      gxfifo_write K (submit K s (List.replicate 31 K.MTX_PUSH)) K.MTX_PUSH := by
    rw [List.replicate_succ', submit_append, submit_cons, submit_nil]
  obtain ⟨-, -, w3, w4, w5, w6, -, w8⟩ :=
    write_push K hK hb ha (submit K s (List.replicate 31 K.MTX_PUSH)) i1 (by rw [i2]; exact hmode)
  obtain ⟨v1, v2, v3, v4⟩ := w8 i3
  rw [h32]
  exact ⟨i4, i3, v2, v1, v3, v4, w6, w3, w4, w5⟩

end Push

/-- Instance of `push_overflow`: 32 `MTX_PUSH` words (`0x11`) written to
`pushState`. -/
theorem push_overflow_witness :
    ndsHdr.Distinct ∧ (0 < ndsHdr.MTX_PUSH ∧ ndsHdr.MTX_PUSH < 256) ∧
    nparms ndsHdr.MTX_PUSH = 0 ∧ Idle pushState ∧
    (pushState.mtx_mode = ndsHdr.MM_POS ∨ pushState.mtx_mode = ndsHdr.MM_POSVEC) ∧
    pushState.mtxstk_size = 0 ∧ pushState.mtxstk_error = false ∧
    (submit ndsHdr pushState (List.replicate 31 0x11)).mtxstk_error = false ∧
    (submit ndsHdr pushState (List.replicate 31 0x11)).mtxstk_size = 31 ∧
    (submit ndsHdr pushState (List.replicate 32 0x11)).mtxstk_error = true ∧
    (submit ndsHdr pushState (List.replicate 32 0x11)).mtxstk_size = 31 :=
  have h := push_overflow ndsHdr (by decide) (by decide) (by decide) pushState
    (by decide) (by decide) (by decide) (by decide)
  ⟨by decide, by decide, by decide, by decide, by decide, by decide, by decide,
    h.1, h.2.1, h.2.2.1, h.2.2.2.1⟩

section RoundTrip

variable {F : Type} [Zero F] [One F] [Add F] [Sub F] [Mul F] [Div F] [IntCast F] [FloatOps F]

/-- Effect of `k` `MTX_PUSH` words on an idle engine whose stack has room
for them: the depth grows by `k` and the `k` new slots all receive the current
matrices. -/
theorem pushes_fill (K : Hdr) (hK : K.Distinct) (hb : 0 < K.MTX_PUSH ∧ K.MTX_PUSH < 256)
    (ha : nparms K.MTX_PUSH = 0) (s : GPU F) (hi : Idle s)
    (hmode : s.mtx_mode = K.MM_POS ∨ s.mtx_mode = K.MM_POSVEC) (k : Nat)
    (hk : s.mtxstk_size + k ≤ 31) :
    Idle (submit K s (List.replicate k K.MTX_PUSH)) ∧
    (submit K s (List.replicate k K.MTX_PUSH)).mtx_mode = s.mtx_mode ∧
    (submit K s (List.replicate k K.MTX_PUSH)).mtxstk_size = s.mtxstk_size + k ∧
    (submit K s (List.replicate k K.MTX_PUSH)).posmtx = s.posmtx ∧
    (submit K s (List.replicate k K.MTX_PUSH)).vecmtx = s.vecmtx ∧
    (∀ i, (submit K s (List.replicate k K.MTX_PUSH)).posmtx_stk i =
      if s.mtxstk_size ≤ i ∧ i < s.mtxstk_size + k then s.posmtx else s.posmtx_stk i) ∧
    (∀ i, (submit K s (List.replicate k K.MTX_PUSH)).vecmtx_stk i =
      if s.mtxstk_size ≤ i ∧ i < s.mtxstk_size + k then s.vecmtx else s.vecmtx_stk i) := by
  induction k with
  | zero =>
    refine ⟨hi, rfl, rfl, rfl, rfl, ?_, ?_⟩ <;> intro i <;> rw [if_neg (by omega)] <;> rfl
  | succ k ih =>
    obtain ⟨i1, i2, i3, i4, i5, i6, i7⟩ := ih (by omega)
    rw [List.replicate_succ', submit_append, submit_cons, submit_nil]
    obtain ⟨w1, w2, -, w4, w5, -, w7, -⟩ :=
      write_push K hK hb ha (submit K s (List.replicate k K.MTX_PUSH)) i1 (by rw [i2]; exact hmode)
    obtain ⟨v1, -, v3, v4⟩ := w7 (by omega)
    refine ⟨w1, w2.trans i2, by rw [v1, i3]; omega, w4.trans i4, w5.trans i5, ?_, ?_⟩
    · intro i
      rw [v3, i3, i4]
      by_cases hi2 : i = s.mtxstk_size + k
      · subst hi2
        rw [Function.update_same, if_pos (by omega)]
      · rw [Function.update_noteq hi2, i6]
        by_cases h3 : s.mtxstk_size ≤ i ∧ i < s.mtxstk_size + k
        · rw [if_pos h3, if_pos (by omega)]
        · rw [if_neg h3, if_neg (by omega)]
    · intro i
      rw [v4, i3, i5]
      by_cases hi2 : i = s.mtxstk_size + k
      · subst hi2
        rw [Function.update_same, if_pos (by omega)]
      · rw [Function.update_noteq hi2, i7]
        by_cases h3 : s.mtxstk_size ≤ i ∧ i < s.mtxstk_size + k
        · rw [if_pos h3, if_pos (by omega)]
        · rw [if_neg h3, if_neg (by omega)]

/-- The packet `MTX_POP, p` written to an idle engine in Position or
PositionAndVector mode. -/
theorem write_pop (K : Hdr) (hK : K.Distinct) (hb : 0 < K.MTX_POP ∧ K.MTX_POP < 256)
    (ha : nparms K.MTX_POP = 1) (s : GPU F) (hi : Idle s)
    (hmode : s.mtx_mode = K.MM_POS ∨ s.mtx_mode = K.MM_POSVEC) (p : Nat) :
    Idle (submit K s [K.MTX_POP, p]) ∧
    (submit K s [K.MTX_POP, p]).mtx_mode = s.mtx_mode ∧
    (submit K s [K.MTX_POP, p]).mtxstk_size =
      (((s.mtxstk_size : Int) - sext6 (p % 4294967296)) % 32).toNat ∧
    (submit K s [K.MTX_POP, p]).posmtx =
      s.posmtx_stk (((s.mtxstk_size : Int) - sext6 (p % 4294967296)) % 32).toNat ∧
    (submit K s [K.MTX_POP, p]).vecmtx =
      s.vecmtx_stk (((s.mtxstk_size : Int) - sext6 (p % 4294967296)) % 32).toNat ∧
    (submit K s [K.MTX_POP, p]).posmtx_stk = s.posmtx_stk ∧
    (submit K s [K.MTX_POP, p]).vecmtx_stk = s.vecmtx_stk := by
  have hidle := submit_packet_idle K s K.MTX_POP [p] hi hb.1 hb.2 (by simp [ha])
  obtain ⟨sz, e, h, f, heq⟩ := submit_packet K s K.MTX_POP [p] hi hb.1 hb.2 (by simp [ha])
  refine ⟨hidle, ?_⟩
  rw [heq, switch_MTX_POP K hK, mtx_pop_pos K hK _ (by simpa [loaded] using hmode)]
  simp [gxfifo_flags, gxcmd_dequeue, loaded]

/-- C6, as the code has it: in Position or PositionAndVector mode with stack
depth `d <= 31`, for every `N` with `1 <= N <= d`, `MTX_POP` with count `N`
followed by `N` `MTX_PUSH` commands returns the stack depth to `d` and leaves
every slot from `d - N` to `d - 1`, the top slot included, holding the value
slot `d - N` held before the pop, the other slots being unchanged; so the top
slot keeps its prior value when `N = 1`. -/
theorem pop_push_round_trip (K : Hdr) (hK : K.Distinct)
    (hbpop : 0 < K.MTX_POP ∧ K.MTX_POP < 256) (hapop : nparms K.MTX_POP = 1)
    (hbpush : 0 < K.MTX_PUSH ∧ K.MTX_PUSH < 256) (hapush : nparms K.MTX_PUSH = 0)
    (s : GPU F) (hi : Idle s)
    (hmode : s.mtx_mode = K.MM_POS ∨ s.mtx_mode = K.MM_POSVEC)
    (N : Nat) (hN : 1 ≤ N) (hNd : N ≤ s.mtxstk_size) (hd : s.mtxstk_size ≤ 31) :
    (submit K s ([K.MTX_POP, N] ++ List.replicate N K.MTX_PUSH)).mtxstk_size = s.mtxstk_size ∧
    (∀ i, (submit K s ([K.MTX_POP, N] ++ List.replicate N K.MTX_PUSH)).posmtx_stk i =
      if s.mtxstk_size - N ≤ i ∧ i < s.mtxstk_size then s.posmtx_stk (s.mtxstk_size - N)
      else s.posmtx_stk i) ∧
    (∀ i, (submit K s ([K.MTX_POP, N] ++ List.replicate N K.MTX_PUSH)).vecmtx_stk i =
      if s.mtxstk_size - N ≤ i ∧ i < s.mtxstk_size then s.vecmtx_stk (s.mtxstk_size - N)
      else s.vecmtx_stk i) ∧
    (N = 1 →
      (submit K s ([K.MTX_POP, N] ++ List.replicate N K.MTX_PUSH)).posmtx_stk
          (s.mtxstk_size - 1) = s.posmtx_stk (s.mtxstk_size - 1) ∧
      (submit K s ([K.MTX_POP, N] ++ List.replicate N K.MTX_PUSH)).vecmtx_stk
          (s.mtxstk_size - 1) = s.vecmtx_stk (s.mtxstk_size - 1)) := by
  obtain ⟨p1, p2, p3, p4, p5, p6, p7⟩ := write_pop K hK hbpop hapop s hi hmode N
  have hsx : sext6 (N % 4294967296) = (N : Int) := by
    unfold sext6
    have h1 : N % 4294967296 = N := Nat.mod_eq_of_lt (by omega)
    have h2 : N % 64 = N := Nat.mod_eq_of_lt (by omega)
    rw [h1, h2, if_pos (by omega)]
  have hdep : (((s.mtxstk_size : Int) - sext6 (N % 4294967296)) % 32).toNat =
      s.mtxstk_size - N := by
    rw [hsx]; omega
  rw [hdep] at p3 p4 p5
  obtain ⟨q1, q2, q3, q4, q5, q6, q7⟩ :=
    pushes_fill K hK hbpush hapush (submit K s [K.MTX_POP, N]) p1 (by rw [p2]; exact hmode) N
      (by rw [p3]; omega)
  rw [submit_append]
  have hsize : (submit K (submit K s [K.MTX_POP, N]) (List.replicate N K.MTX_PUSH)).mtxstk_size =
      s.mtxstk_size := by rw [q3, p3]; omega
  have hpos : ∀ i, (submit K (submit K s [K.MTX_POP, N])
      (List.replicate N K.MTX_PUSH)).posmtx_stk i =
      if s.mtxstk_size - N ≤ i ∧ i < s.mtxstk_size then s.posmtx_stk (s.mtxstk_size - N)
      else s.posmtx_stk i := by
    intro i
    rw [q6, p3, p4, p6]
    by_cases h3 : s.mtxstk_size - N ≤ i ∧ i < s.mtxstk_size
    · rw [if_pos h3, if_pos (by omega)]
    · rw [if_neg h3, if_neg (by omega)]
  have hvec : ∀ i, (submit K (submit K s [K.MTX_POP, N])
      (List.replicate N K.MTX_PUSH)).vecmtx_stk i =
      if s.mtxstk_size - N ≤ i ∧ i < s.mtxstk_size then s.vecmtx_stk (s.mtxstk_size - N)
      else s.vecmtx_stk i := by
    intro i
    rw [q7, p3, p5, p7]
    by_cases h3 : s.mtxstk_size - N ≤ i ∧ i < s.mtxstk_size
    · rw [if_pos h3, if_pos (by omega)]
    · rw [if_neg h3, if_neg (by omega)]
  refine ⟨hsize, hpos, hvec, ?_⟩
  intro h1
  subst h1
  rw [hpos, hvec, if_pos (by omega), if_pos (by omega)]
  exact ⟨rfl, rfl⟩

end RoundTrip

/-- Instance of `pop_push_round_trip`: `MTX_POP 2` then two `MTX_PUSH` on
`roundTripState`. -/
theorem pop_push_round_trip_witness :
    ndsHdr.Distinct ∧ Idle roundTripState ∧
    (roundTripState.mtx_mode = ndsHdr.MM_POS ∨ roundTripState.mtx_mode = ndsHdr.MM_POSVEC) ∧
    (submit ndsHdr roundTripState ([0x12, 2] ++ List.replicate 2 0x11)).mtxstk_size = 2 ∧
    (submit ndsHdr roundTripState ([0x12, 2] ++ List.replicate 2 0x11)).posmtx_stk 1 =
      roundTripState.posmtx_stk 0 :=
  have h := pop_push_round_trip ndsHdr (by decide) (by decide) (by decide) (by decide)
    (by decide) roundTripState (by decide) (by decide) 2 (by decide) (by decide) (by decide)
  ⟨by decide, by decide, by decide, h.1, h.2.1 1⟩

/-- C6 fails as stated: on `roundTripState` (depth 2, slots 0 and 1 different),
`MTX_POP 2` followed by two `MTX_PUSH` returns to depth 2 but the top slot
(index 1) no longer holds the value it held before the pop. -/
theorem pop_push_counterexample :
    roundTripState.mtx_mode = ndsHdr.MM_POS ∧ roundTripState.mtxstk_size = 2 ∧
    (submit ndsHdr roundTripState [0x12, 2, 0x11, 0x11]).mtxstk_size = 2 ∧
    (submit ndsHdr roundTripState [0x12, 2, 0x11, 0x11]).posmtx_stk 1 ≠
      roundTripState.posmtx_stk 1 := by
  refine ⟨by decide, by decide, by decide, ?_⟩
  intro h
  exact absurd (congrFun (congrFun h 0) 0) (by decide)

section VtxFrame

variable {F : Type} [Zero F] [One F] [Add F] [Sub F] [Mul F] [Div F] [IntCast F] [FloatOps F]

/-- Function `add_poly` writes only the polygon store and its count. -/
theorem add_poly_eq (K : Hdr) (s : GPU F) (a b c d : Option Int) :
    add_poly K s a b c d =
      { s with
        polygonram := (add_poly K s a b c d).polygonram
        n_polys := (add_poly K s a b c d).n_polys } := by
  unfold add_poly; split_ifs <;> rfl

/-- Function `add_vtx` below capacity appends the transformed accumulator to
the vertex store, counts it, and otherwise writes only the polygon store and
its count. -/
theorem add_vtx_eq (K : Hdr) (s : GPU F) (h : s.n_verts ≠ K.MAX_VTX) :
    add_vtx K s =
      { s with
        vertexram := Function.update s.vertexram s.n_verts (vecmul s.clipmtx s.cur_vtx)
        n_verts := s.n_verts + 1
        cur_vtx_ct := s.cur_vtx_ct + 1
        polygonram := (add_vtx K s).polygonram
        n_polys := (add_vtx K s).n_polys } := by
  unfold add_vtx
  rw [if_neg h]
  simp only []
  split_ifs <;> first
    | rfl
    | (rw [add_poly_eq])

/-- Function `add_vtx` at capacity does nothing. -/
theorem add_vtx_full (K : Hdr) (s : GPU F) (h : s.n_verts = K.MAX_VTX) : add_vtx K s = s := by
  unfold add_vtx; rw [if_pos h]

end VtxFrame

section Scale

variable {F : Type} [Zero F] [One F] [Add F] [Sub F] [Mul F] [Div F] [IntCast F] [FloatOps F]

end Scale

section ScaleExample

set_option maxRecDepth 16384

end ScaleExample

section Assembly

variable {F : Type} [Zero F] [One F] [Add F] [Sub F] [Mul F] [Div F] [IntCast F] [FloatOps F]

theorem packetWords_append (cs ds : List Packet) :
    packetWords (cs ++ ds) = packetWords cs ++ packetWords ds := by
  induction cs with
  | nil => rfl
  | cons c cs ih => simp [packetWords, ih]

theorem packetWords_single (c : Packet) : packetWords [c] = c.1 :: c.2 := by
  simp [packetWords]

theorem set_vtx_eq (s : GPU F) (i : Fin 4) (x : F) :
    set_vtx s i x = { s with cur_vtx := Function.update s.cur_vtx i x } := rfl

/-- Every vertex case is `add_vtx` applied to the state with a new accumulator. -/
theorem vtx_switch (K : Hdr) (hK : K.Distinct) (s : GPU F) (op : Nat)
    (hop : op = K.VTX_16 ∨ op = K.VTX_10 ∨ op = K.VTX_XY ∨ op = K.VTX_XZ ∨ op = K.VTX_YZ ∨
      op = K.VTX_DIFF) :
    ∃ v : Vec4 F, gxcmd_switch K op s = add_vtx K { s with cur_vtx := v } := by
  rcases hop with h | h | h | h | h | h <;> subst h
  · rw [switch_VTX_16 K hK]; unfold vtx_16
    rw [set_vtx_eq, set_vtx_eq, set_vtx_eq, set_vtx_eq]
    exact ⟨_, rfl⟩
  · rw [switch_VTX_10 K hK]; unfold vtx_10
    rw [set_vtx_eq, set_vtx_eq, set_vtx_eq, set_vtx_eq]
    exact ⟨_, rfl⟩
  · rw [switch_VTX_XY K hK]; unfold vtx_xy
    rw [set_vtx_eq, set_vtx_eq]
    exact ⟨_, rfl⟩
  · rw [switch_VTX_XZ K hK]; unfold vtx_xz
    rw [set_vtx_eq, set_vtx_eq]
    exact ⟨_, rfl⟩
  · rw [switch_VTX_YZ K hK]; unfold vtx_yz
    rw [set_vtx_eq, set_vtx_eq]
    exact ⟨_, rfl⟩
  · rw [switch_VTX_DIFF K hK]; unfold vtx_diff
    rw [set_vtx_eq, set_vtx_eq, set_vtx_eq, set_vtx_eq]
    exact ⟨_, rfl⟩

/-- A vertex packet written to an idle engine runs `add_vtx` once, on a state
that differs from the engine in the queues, the fill-level fields and the
accumulator only. -/
theorem vtx_packet (K : Hdr) (hK : K.Distinct) (s : GPU F) (c : Packet) (hi : Idle s)
    (hc : VtxPacket K c) :
    ∃ u : GPU F, submit K s (c.1 :: c.2) = gxfifo_flags (gxcmd_dequeue K c.1 (add_vtx K u)) ∧
      Idle (submit K s (c.1 :: c.2)) ∧
      u.poly_mode = s.poly_mode ∧ u.cur_vtx_ct = s.cur_vtx_ct ∧ u.n_verts = s.n_verts ∧
      u.n_polys = s.n_polys ∧ u.polygonram = s.polygonram ∧ u.vertexram = s.vertexram ∧
      u.clipmtx = s.clipmtx := by
  obtain ⟨hop, h0, h1, hn⟩ := hc
  obtain ⟨sz, e, h, f, q⟩ := submit_packet K s c.1 c.2 hi h0 h1 hn
  obtain ⟨v, hv⟩ := vtx_switch K hK (loaded s c.1 c.2 sz e h f) c.1 hop
  refine ⟨_, by rw [q, hv], submit_packet_idle K s c.1 c.2 hi h0 h1 hn, ?_⟩
  simp [loaded]

end Assembly

section Triangles

variable {F : Type} [Zero F] [One F] [Add F] [Sub F] [Mul F] [Div F] [IntCast F] [FloatOps F]

/-- The polygon part of `add_vtx` in Triangles mode, below vertex capacity. -/
theorem add_vtx_tris (K : Hdr) (u : GPU F) (hm : u.poly_mode = K.POLY_TRIS)
    (hn : u.n_verts ≠ K.MAX_VTX) :
    (add_vtx K u).n_polys =
      (if (u.cur_vtx_ct + 1) % 3 = 0 ∧ u.n_polys ≠ K.MAX_POLY then u.n_polys + 1
        else u.n_polys) ∧
    (add_vtx K u).polygonram =
      (if (u.cur_vtx_ct + 1) % 3 = 0 ∧ u.n_polys ≠ K.MAX_POLY then
        Function.update u.polygonram u.n_polys
          ⟨some (((u.n_verts + 1 : Nat) : Int) - 3), some (((u.n_verts + 1 : Nat) : Int) - 2),
            some (((u.n_verts + 1 : Nat) : Int) - 1), none⟩
        else u.polygonram) := by
  unfold add_vtx
  rw [if_neg hn]
  simp only [hm, if_true]
  by_cases h3 : (u.cur_vtx_ct + 1) % 3 = 0
  · rw [if_pos h3]
    unfold add_poly
    by_cases hp : u.n_polys = K.MAX_POLY
    · simp [hp]
    · simp [hp, h3]
  · rw [if_neg h3]
    simp [h3]

/-- One vertex packet written to an idle engine below vertex capacity. -/
theorem vtx_step (K : Hdr) (hK : K.Distinct) (t : GPU F) (c : Packet) (hi : Idle t)
    (hc : VtxPacket K c) (hn : t.n_verts ≠ K.MAX_VTX) :
    Idle (submit K t (c.1 :: c.2)) ∧
    (submit K t (c.1 :: c.2)).poly_mode = t.poly_mode ∧
    (submit K t (c.1 :: c.2)).cur_vtx_ct = t.cur_vtx_ct + 1 ∧
    (submit K t (c.1 :: c.2)).n_verts = t.n_verts + 1 ∧
    (submit K t (c.1 :: c.2)).clipmtx = t.clipmtx ∧
    (∀ j, j ≠ t.n_verts → (submit K t (c.1 :: c.2)).vertexram j = t.vertexram j) ∧
    ∃ u : GPU F, u.poly_mode = t.poly_mode ∧ u.cur_vtx_ct = t.cur_vtx_ct ∧
      u.n_verts = t.n_verts ∧ u.n_polys = t.n_polys ∧ u.polygonram = t.polygonram ∧
      (submit K t (c.1 :: c.2)).n_polys = (add_vtx K u).n_polys ∧
      (submit K t (c.1 :: c.2)).polygonram = (add_vtx K u).polygonram := by
  obtain ⟨u, hu, hidle, u1, u2, u3, u4, u5, u6, u7⟩ := vtx_packet K hK t c hi hc
  have hnu : u.n_verts ≠ K.MAX_VTX := by rw [u3]; exact hn
  have e := add_vtx_eq K u hnu
  refine ⟨hidle, ?_, ?_, ?_, ?_, ?_, u, u1, u2, u3, u4, u5, ?_, ?_⟩
  · rw [hu, e]; simpa [gxfifo_flags, gxcmd_dequeue] using u1
  · rw [hu, e]; simpa [gxfifo_flags, gxcmd_dequeue] using u2
  · rw [hu, e]; simpa [gxfifo_flags, gxcmd_dequeue] using u3
  · rw [hu, e]; simpa [gxfifo_flags, gxcmd_dequeue] using u7
  · intro j hj
    rw [hu, e]
    simp only [gxfifo_flags, gxcmd_dequeue]
    rw [Function.update_noteq (by rw [u3]; exact hj), u6]
  · rw [hu]; rfl
  · rw [hu]; rfl

end Triangles

section TrianglesRun

variable {F : Type} [Zero F] [One F] [Add F] [Sub F] [Mul F] [Div F] [IntCast F] [FloatOps F]

/-- The packet `BEGIN_VTXS, q` written to an idle engine. -/
theorem write_begin (K : Hdr) (hK : K.Distinct)
    (hbg : 0 < K.BEGIN_VTXS ∧ K.BEGIN_VTXS < 256 ∧ nparms K.BEGIN_VTXS = 1)
    (s : GPU F) (hi : Idle s) (q : Nat) (hq : q < 4294967296) :
    Idle (submit K s [K.BEGIN_VTXS, q]) ∧
    (submit K s [K.BEGIN_VTXS, q]).poly_mode = q &&& 3 ∧
    (submit K s [K.BEGIN_VTXS, q]).cur_vtx_ct = 0 ∧
    (submit K s [K.BEGIN_VTXS, q]).n_verts = s.n_verts ∧
    (submit K s [K.BEGIN_VTXS, q]).n_polys = s.n_polys ∧
    (submit K s [K.BEGIN_VTXS, q]).polygonram = s.polygonram ∧
    (submit K s [K.BEGIN_VTXS, q]).vertexram = s.vertexram ∧
    (submit K s [K.BEGIN_VTXS, q]).clipmtx = matmul s.posmtx s.projmtx := by
  have hidle := submit_packet_idle K s K.BEGIN_VTXS [q] hi hbg.1 hbg.2.1 (by simp [hbg.2.2])
  obtain ⟨sz, e, h, f, heq⟩ :=
    submit_packet K s K.BEGIN_VTXS [q] hi hbg.1 hbg.2.1 (by simp [hbg.2.2])
  refine ⟨hidle, ?_⟩
  rw [heq, switch_BEGIN_VTXS K hK]
  simp [gxfifo_flags, gxcmd_dequeue, loaded, begin_vtxs, update_mtxs, Nat.mod_eq_of_lt hq]

/-- State of the engine after `cs.length` vertex packets in Triangles mode. -/
theorem tris_run (K : Hdr) (hK : K.Distinct) (s0 : GPU F) (hi : Idle s0)
    (hm : s0.poly_mode = K.POLY_TRIS) (hct : s0.cur_vtx_ct = 0) (cs : List Packet) :
    (∀ c ∈ cs, VtxPacket K c) → s0.n_verts + cs.length ≤ K.MAX_VTX →
    s0.n_polys + cs.length / 3 ≤ K.MAX_POLY →
    Idle (submit K s0 (packetWords cs)) ∧
    (submit K s0 (packetWords cs)).poly_mode = K.POLY_TRIS ∧
    (submit K s0 (packetWords cs)).cur_vtx_ct = cs.length ∧
    (submit K s0 (packetWords cs)).n_verts = s0.n_verts + cs.length ∧
    (submit K s0 (packetWords cs)).n_polys = s0.n_polys + cs.length / 3 ∧
    (∀ j, (submit K s0 (packetWords cs)).polygonram j =
      if s0.n_polys ≤ j ∧ j < s0.n_polys + cs.length / 3 then
        triangle (s0.n_verts + 3 * (j - s0.n_polys)) (s0.n_verts + 3 * (j - s0.n_polys) + 1)
          (s0.n_verts + 3 * (j - s0.n_polys) + 2)
      else s0.polygonram j) ∧
    (∀ i, i < cs.length → (submit K s0 (packetWords cs)).vertexram (s0.n_verts + i) =
      (submit K s0 (packetWords (cs.take (i + 1)))).vertexram (s0.n_verts + i)) := by
  induction cs using List.reverseRecOn with
  | nil =>
    intro _ _ _
    refine ⟨hi, hm, hct, rfl, rfl, ?_, ?_⟩
    · intro j; rw [if_neg (by simp)]; rfl
    · intro i h; simp at h
  | append_singleton cs c ih =>
    intro hcs hV hP
    rw [List.length_append, List.length_singleton] at hV hP
    have hP0 : s0.n_polys + cs.length / 3 ≤ K.MAX_POLY := by
      have : cs.length / 3 ≤ (cs.length + 1) / 3 := Nat.div_le_div_right (Nat.le_succ _)
      omega
    obtain ⟨i1, i2, i3, i4, i5, i6, i7⟩ :=
      ih (fun d hd => hcs d (List.mem_append_left _ hd)) (by omega) hP0
    have hc : VtxPacket K c := hcs c (by simp)
    rw [packetWords_append, packetWords_single, submit_append]
    obtain ⟨w1, w2, w3, w4, -, w6, u, u1, u2, u3, u4, u5, w7, w8⟩ :=
      vtx_step K hK (submit K s0 (packetWords cs)) c i1 hc (by rw [i4]; omega)
    obtain ⟨a1, a2⟩ := add_vtx_tris K u (by rw [u1, i2]) (by rw [u3, i4]; omega)
    simp only [u2, u3, u4, u5, i3, i4, i5] at a1 a2
    rw [List.length_append, List.length_singleton]
    refine ⟨w1, w2.trans i2, by rw [w3, i3], by rw [w4, i4]; omega, ?_, ?_, ?_⟩
    · rw [w7, a1]
      by_cases h3 : (cs.length + 1) % 3 = 0
      · rw [if_pos ⟨h3, by omega⟩]; omega
      · rw [if_neg (fun h => h3 h.1)]; omega
    · intro j
      rw [w8, a2]
      by_cases h3 : (cs.length + 1) % 3 = 0
      · rw [if_pos ⟨h3, by omega⟩]
        by_cases hj : j = s0.n_polys + cs.length / 3
        · subst hj
          rw [Function.update_same, if_pos (by omega)]
          unfold triangle
          congr 2 <;> push_cast <;> omega
        · rw [Function.update_noteq hj, i6]
          by_cases h4 : s0.n_polys ≤ j ∧ j < s0.n_polys + cs.length / 3
          · rw [if_pos h4, if_pos (by omega)]
          · rw [if_neg h4, if_neg (by omega)]
      · rw [if_neg (fun h => h3 h.1), i6]
        by_cases h4 : s0.n_polys ≤ j ∧ j < s0.n_polys + cs.length / 3
        · rw [if_pos h4, if_pos (by omega)]
        · rw [if_neg h4, if_neg (by omega)]
    · intro i hil
      by_cases hlast : i = cs.length
      · subst hlast
        rw [List.take_of_length_le (by simp), packetWords_append, packetWords_single,
          submit_append]
      · have hlt : i < cs.length := by omega
        rw [w6 _ (by rw [i4]; omega), i7 i hlt, List.take_append_of_le_length (by omega)]

end TrianglesRun

section TrianglesClaim

variable {F : Type} [Zero F] [One F] [Add F] [Sub F] [Mul F] [Div F] [IntCast F] [FloatOps F]

/-- C2: after `BEGIN_VTXS` selecting Triangles, for every `n` vertex commands
`V0..V(n-1)` (with vertex and polygon stores below capacity), exactly
`floor(n/3)` polygons are appended, the `k`-th being the triangle
`(V(3k), V(3k+1), V(3k+2))` with a null 4th reference.  Vertex `Vi` is the
entry `n_verts + i` of the vertex store, written by the `i`-th command and not
rewritten afterwards; the polygons stored before are untouched. -/
theorem triangles_assembly (K : Hdr) (hK : K.Distinct)
    (hbg : 0 < K.BEGIN_VTXS ∧ K.BEGIN_VTXS < 256 ∧ nparms K.BEGIN_VTXS = 1)
    (s : GPU F) (hi : Idle s) (q : Nat) (hq32 : q < 4294967296) (hq : q &&& 3 = K.POLY_TRIS)
    (cs : List Packet) (hcs : ∀ c ∈ cs, VtxPacket K c)
    (hV : s.n_verts + cs.length ≤ K.MAX_VTX) (hP : s.n_polys + cs.length / 3 ≤ K.MAX_POLY) :
    (submit K s ([K.BEGIN_VTXS, q] ++ packetWords cs)).n_verts = s.n_verts + cs.length ∧
    (submit K s ([K.BEGIN_VTXS, q] ++ packetWords cs)).n_polys = s.n_polys + cs.length / 3 ∧
    (∀ k, k < cs.length / 3 →
      (submit K s ([K.BEGIN_VTXS, q] ++ packetWords cs)).polygonram (s.n_polys + k) =
        triangle (s.n_verts + 3 * k) (s.n_verts + 3 * k + 1) (s.n_verts + 3 * k + 2)) ∧
    (∀ j, j < s.n_polys →
      (submit K s ([K.BEGIN_VTXS, q] ++ packetWords cs)).polygonram j = s.polygonram j) ∧
    (∀ i, i < cs.length →
      (submit K s ([K.BEGIN_VTXS, q] ++ packetWords cs)).vertexram (s.n_verts + i) =
        (submit K s ([K.BEGIN_VTXS, q] ++ packetWords (cs.take (i + 1)))).vertexram
          (s.n_verts + i)) := by
  obtain ⟨b1, b2, b3, b4, b5, b6, -, -⟩ := write_begin K hK hbg s hi q hq32
  obtain ⟨-, -, -, r4, r5, r6, r7⟩ :=
    tris_run K hK (submit K s [K.BEGIN_VTXS, q]) b1 (by rw [b2, hq]) b3 cs hcs
      (by rw [b4]; exact hV) (by rw [b5]; exact hP)
  simp only [b4, b5] at r4 r5 r6 r7
  rw [submit_append]
  refine ⟨r4, r5, ?_, ?_, ?_⟩
  · intro k hk
    rw [r6, if_pos (by omega), Nat.add_sub_cancel_left]
  · intro j hj
    rw [r6, if_neg (by omega), b6]
  · intro i hil
    rw [submit_append]
    exact r7 i hil

end TrianglesClaim

/-- Instance of `triangles_assembly`: six vertices `V0..V5` sent to the zero
engine in Triangles mode yield exactly the two polygons `(V0,V1,V2)` and
`(V3,V4,V5)`. -/
theorem triangles_assembly_witness :
    ndsHdr.Distinct ∧ Idle zeroState ∧ (0 : Nat) &&& 3 = ndsHdr.POLY_TRIS ∧
    (∀ c ∈ sixVertices, VtxPacket ndsHdr c) ∧
    (submit ndsHdr zeroState ([0x40, 0] ++ packetWords sixVertices)).n_verts = 6 ∧
    (submit ndsHdr zeroState ([0x40, 0] ++ packetWords sixVertices)).n_polys = 2 ∧
    (submit ndsHdr zeroState ([0x40, 0] ++ packetWords sixVertices)).polygonram 0 =
      triangle 0 1 2 ∧
    (submit ndsHdr zeroState ([0x40, 0] ++ packetWords sixVertices)).polygonram 1 =
      triangle 3 4 5 :=
  have h := triangles_assembly ndsHdr (by decide) (by decide) zeroState (by decide) 0
    (by decide) (by decide) sixVertices (by decide) (by decide) (by decide)
  ⟨by decide, by decide, by decide, by decide, h.1, h.2.1, h.2.2.1 0 (by decide),
    h.2.2.1 1 (by decide)⟩

section Strip

variable {F : Type} [Zero F] [One F] [Add F] [Sub F] [Mul F] [Div F] [IntCast F] [FloatOps F]

/-- The polygon part of `add_vtx` in TriangleStrip mode, below vertex capacity. -/
theorem add_vtx_strip (K : Hdr) (hK : K.Distinct) (u : GPU F)
    (hm : u.poly_mode = K.POLY_TRI_STRIP) (hn : u.n_verts ≠ K.MAX_VTX) :
    (add_vtx K u).n_polys =
      (if 3 ≤ u.cur_vtx_ct + 1 ∧ u.n_polys ≠ K.MAX_POLY then u.n_polys + 1 else u.n_polys) ∧
    (add_vtx K u).polygonram =
      (if 3 ≤ u.cur_vtx_ct + 1 ∧ u.n_polys ≠ K.MAX_POLY then
        Function.update u.polygonram u.n_polys
          (if (u.cur_vtx_ct + 1) % 2 = 1 then
            ⟨some (((u.n_verts + 1 : Nat) : Int) - 3), some (((u.n_verts + 1 : Nat) : Int) - 2),
              some (((u.n_verts + 1 : Nat) : Int) - 1), none⟩
          else
            ⟨some (((u.n_verts + 1 : Nat) : Int) - 2), some (((u.n_verts + 1 : Nat) : Int) - 3),
              some (((u.n_verts + 1 : Nat) : Int) - 1), none⟩)
        else u.polygonram) := by
  obtain ⟨-, p2, p3, -, -, -⟩ := hK.polys
  unfold add_vtx
  rw [if_neg hn]
  simp only [hm, if_true, p2, p3, if_false, Nat.and_one_is_mod]
  by_cases h3 : 3 ≤ u.cur_vtx_ct + 1
  · rw [if_pos h3]
    by_cases hodd : (u.cur_vtx_ct + 1) % 2 = 1
    · have hne : (u.cur_vtx_ct + 1) % 2 ≠ 0 := by omega
      rw [if_pos hne]
      unfold add_poly
      by_cases hp : u.n_polys = K.MAX_POLY
      · simp [hp]
      · simp [hp, h3, hodd]
    · have hne : ¬ (u.cur_vtx_ct + 1) % 2 ≠ 0 := by omega
      rw [if_neg hne]
      unfold add_poly
      by_cases hp : u.n_polys = K.MAX_POLY
      · simp [hp]
      · simp [hp, h3, hodd]
  · rw [if_neg h3]
    simp [h3]

/-- State of the engine after `cs.length` vertex packets in TriangleStrip mode. -/
theorem strip_run (K : Hdr) (hK : K.Distinct) (s0 : GPU F) (hi : Idle s0)
    (hm : s0.poly_mode = K.POLY_TRI_STRIP) (hct : s0.cur_vtx_ct = 0) (cs : List Packet) :
    (∀ c ∈ cs, VtxPacket K c) → s0.n_verts + cs.length ≤ K.MAX_VTX →
    s0.n_polys + (cs.length - 2) ≤ K.MAX_POLY →
    Idle (submit K s0 (packetWords cs)) ∧
    (submit K s0 (packetWords cs)).poly_mode = K.POLY_TRI_STRIP ∧
    (submit K s0 (packetWords cs)).cur_vtx_ct = cs.length ∧
    (submit K s0 (packetWords cs)).n_verts = s0.n_verts + cs.length ∧
    (submit K s0 (packetWords cs)).n_polys = s0.n_polys + (cs.length - 2) ∧
    (∀ j, (submit K s0 (packetWords cs)).polygonram j =
      if s0.n_polys ≤ j ∧ j < s0.n_polys + (cs.length - 2) then
        (if (j - s0.n_polys) % 2 = 0 then
          triangle (s0.n_verts + (j - s0.n_polys)) (s0.n_verts + (j - s0.n_polys) + 1)
            (s0.n_verts + (j - s0.n_polys) + 2)
        else
          triangle (s0.n_verts + (j - s0.n_polys) + 1) (s0.n_verts + (j - s0.n_polys))
            (s0.n_verts + (j - s0.n_polys) + 2))
      else s0.polygonram j) ∧
    (∀ i, i < cs.length → (submit K s0 (packetWords cs)).vertexram (s0.n_verts + i) =
      (submit K s0 (packetWords (cs.take (i + 1)))).vertexram (s0.n_verts + i)) := by
  induction cs using List.reverseRecOn with
  | nil =>
    intro _ _ _
    refine ⟨hi, hm, hct, rfl, rfl, ?_, ?_⟩
    · intro j; rw [if_neg (by simp)]; rfl
    · intro i h; simp at h
  | append_singleton cs c ih =>
    intro hcs hV hP
    rw [List.length_append, List.length_singleton] at hV hP
    obtain ⟨i1, i2, i3, i4, i5, i6, i7⟩ :=
      ih (fun d hd => hcs d (List.mem_append_left _ hd)) (by omega) (by omega)
    have hc : VtxPacket K c := hcs c (by simp)
    rw [packetWords_append, packetWords_single, submit_append]
    obtain ⟨w1, w2, w3, w4, -, w6, u, u1, u2, u3, u4, u5, w7, w8⟩ :=
      vtx_step K hK (submit K s0 (packetWords cs)) c i1 hc (by rw [i4]; omega)
    obtain ⟨a1, a2⟩ := add_vtx_strip K hK u (by rw [u1, i2]) (by rw [u3, i4]; omega)
    simp only [u2, u3, u4, u5, i3, i4, i5] at a1 a2
    rw [List.length_append, List.length_singleton]
    refine ⟨w1, w2.trans i2, by rw [w3, i3], by rw [w4, i4]; omega, ?_, ?_, ?_⟩
    · rw [w7, a1]
      by_cases h3 : 3 ≤ cs.length + 1
      · have hne : s0.n_polys + (cs.length - 2) ≠ K.MAX_POLY := by omega
        rw [if_pos ⟨h3, hne⟩]; omega
      · rw [if_neg (fun h => h3 h.1)]; omega
    · intro j
      rw [w8, a2]
      by_cases h3 : 3 ≤ cs.length + 1
      · have hne : s0.n_polys + (cs.length - 2) ≠ K.MAX_POLY := by omega
        rw [if_pos ⟨h3, hne⟩]
        by_cases hj : j = s0.n_polys + (cs.length - 2)
        · subst hj
          rw [Function.update_same]
          have hk : s0.n_polys + (cs.length - 2) - s0.n_polys = cs.length - 2 := by omega
          have hr : s0.n_polys ≤ s0.n_polys + (cs.length - 2) ∧
              s0.n_polys + (cs.length - 2) < s0.n_polys + (cs.length + 1 - 2) := by omega
          rw [if_pos hr, hk]
          by_cases hodd : (cs.length + 1) % 2 = 1
          · have he : (cs.length - 2) % 2 = 0 := by omega
            rw [if_pos hodd, if_pos he]
            unfold triangle
            congr 2 <;> omega
          · have he : ¬ (cs.length - 2) % 2 = 0 := by omega
            rw [if_neg hodd, if_neg he]
            unfold triangle
            congr 2 <;> omega
        · rw [Function.update_noteq hj, i6]
          by_cases h4 : s0.n_polys ≤ j ∧ j < s0.n_polys + (cs.length - 2)
          · have h5 : s0.n_polys ≤ j ∧ j < s0.n_polys + (cs.length + 1 - 2) := by omega
            rw [if_pos h4, if_pos h5]
          · have h5 : ¬ (s0.n_polys ≤ j ∧ j < s0.n_polys + (cs.length + 1 - 2)) := by omega
            rw [if_neg h4, if_neg h5]
      · rw [if_neg (fun h => h3 h.1), i6]
        by_cases h4 : s0.n_polys ≤ j ∧ j < s0.n_polys + (cs.length - 2)
        · have h5 : s0.n_polys ≤ j ∧ j < s0.n_polys + (cs.length + 1 - 2) := by omega
          rw [if_pos h4, if_pos h5]
        · have h5 : ¬ (s0.n_polys ≤ j ∧ j < s0.n_polys + (cs.length + 1 - 2)) := by omega
          rw [if_neg h4, if_neg h5]
    · intro i hil
      by_cases hlast : i = cs.length
      · subst hlast
        rw [List.take_of_length_le (by simp), packetWords_append, packetWords_single,
          submit_append]
      · have hlt : i < cs.length := by omega
        rw [w6 _ (by rw [i4]; omega), i7 i hlt, List.take_append_of_le_length (by omega)]

/-- C3: after `BEGIN_VTXS` selecting TriangleStrip, for every `n >= 3` vertex
commands `V0..V(n-1)` (stores below capacity), exactly `n-2` triangles are
appended, the `k`-th (`k` from 0) being `(Vk, V(k+1), V(k+2))` when `k` is even
and `(V(k+1), Vk, V(k+2))` when `k` is odd (`n - 2` is read as 0 when `n < 3`:
nothing is appended then).  Vertex `Vi` is the entry
`n_verts + i` of the vertex store, written by the `i`-th command and not
rewritten afterwards; the polygons stored before are untouched. -/
theorem strip_assembly (K : Hdr) (hK : K.Distinct)
    (hbg : 0 < K.BEGIN_VTXS ∧ K.BEGIN_VTXS < 256 ∧ nparms K.BEGIN_VTXS = 1)
    (s : GPU F) (hi : Idle s) (q : Nat) (hq32 : q < 4294967296)
    (hq : q &&& 3 = K.POLY_TRI_STRIP)
    (cs : List Packet) (hcs : ∀ c ∈ cs, VtxPacket K c)
    (hV : s.n_verts + cs.length ≤ K.MAX_VTX) (hP : s.n_polys + (cs.length - 2) ≤ K.MAX_POLY) :
    (submit K s ([K.BEGIN_VTXS, q] ++ packetWords cs)).n_verts = s.n_verts + cs.length ∧
    (submit K s ([K.BEGIN_VTXS, q] ++ packetWords cs)).n_polys = s.n_polys + (cs.length - 2) ∧
    (∀ k, k < cs.length - 2 → k % 2 = 0 →
      (submit K s ([K.BEGIN_VTXS, q] ++ packetWords cs)).polygonram (s.n_polys + k) =
        triangle (s.n_verts + k) (s.n_verts + k + 1) (s.n_verts + k + 2)) ∧
    (∀ k, k < cs.length - 2 → k % 2 = 1 →
      (submit K s ([K.BEGIN_VTXS, q] ++ packetWords cs)).polygonram (s.n_polys + k) =
        triangle (s.n_verts + k + 1) (s.n_verts + k) (s.n_verts + k + 2)) ∧
    (∀ j, j < s.n_polys →
      (submit K s ([K.BEGIN_VTXS, q] ++ packetWords cs)).polygonram j = s.polygonram j) ∧
    (∀ i, i < cs.length →
      (submit K s ([K.BEGIN_VTXS, q] ++ packetWords cs)).vertexram (s.n_verts + i) =
        (submit K s ([K.BEGIN_VTXS, q] ++ packetWords (cs.take (i + 1)))).vertexram
          (s.n_verts + i)) := by
  obtain ⟨b1, b2, b3, b4, b5, b6, -, -⟩ := write_begin K hK hbg s hi q hq32
  obtain ⟨-, -, -, r4, r5, r6, r7⟩ :=
    strip_run K hK (submit K s [K.BEGIN_VTXS, q]) b1 (by rw [b2, hq]) b3 cs hcs
      (by rw [b4]; exact hV) (by rw [b5]; exact hP)
  simp only [b4, b5] at r4 r5 r6 r7
  rw [submit_append]
  refine ⟨r4, r5, ?_, ?_, ?_, ?_⟩
  · intro k hk he
    rw [r6, if_pos (by omega), Nat.add_sub_cancel_left, if_pos he]
  · intro k hk ho
    rw [r6, if_pos (by omega), Nat.add_sub_cancel_left, if_neg (by omega)]
  · intro j hj
    rw [r6, if_neg (by omega), b6]
  · intro i hil
    rw [submit_append]
    exact r7 i hil

end Strip

/-- Instance of `strip_assembly`: five vertices `V0..V4` sent to the zero
engine in TriangleStrip mode yield `(V0,V1,V2)`, `(V2,V1,V3)`, `(V2,V3,V4)` in
that order. -/
theorem strip_assembly_witness :
    ndsHdr.Distinct ∧ Idle zeroState ∧ (2 : Nat) &&& 3 = ndsHdr.POLY_TRI_STRIP ∧
    (∀ c ∈ fiveVertices, VtxPacket ndsHdr c) ∧
    (submit ndsHdr zeroState ([0x40, 2] ++ packetWords fiveVertices)).n_polys = 3 ∧
    (submit ndsHdr zeroState ([0x40, 2] ++ packetWords fiveVertices)).polygonram 0 =
      triangle 0 1 2 ∧
    (submit ndsHdr zeroState ([0x40, 2] ++ packetWords fiveVertices)).polygonram 1 =
      triangle 2 1 3 ∧
    (submit ndsHdr zeroState ([0x40, 2] ++ packetWords fiveVertices)).polygonram 2 =
      triangle 2 3 4 :=
  have h := strip_assembly ndsHdr (by decide) (by decide) zeroState (by decide) 2
    (by decide) (by decide) fiveVertices (by decide) (by decide) (by decide)
  ⟨by decide, by decide, by decide, by decide, h.2.1, h.2.2.1 0 (by decide) (by decide),
    h.2.2.2.1 1 (by decide) (by decide), h.2.2.1 2 (by decide) (by decide)⟩

section QueueLists

theorem qmap_succ (f : Nat → Nat) (n : Nat) :
    (List.range (n + 1)).map f = f 0 :: (List.range n).map (fun i => f (i + 1)) := by
  rw [List.range_succ_eq_map, List.map_cons, List.map_map]
  rfl

theorem qmap_drop (f : Nat → Nat) (k : Nat) :
    ∀ n, ((List.range (n + k)).map f).drop k = (List.range n).map (fun i => f (i + k)) := by
  induction k generalizing f with
  | zero => intro n; simp
  | succ k ih =>
    intro n
    rw [show n + (k + 1) = (n + k) + 1 from rfl, qmap_succ, List.drop_succ_cons, ih]
    apply List.map_congr_left
    intro i _
    show f (i + k + 1) = f (i + (k + 1))
    rfl

theorem qmap_snoc (f : Nat → Nat) (n x : Nat) :
    (List.range (n + 1)).map (Function.update f n x) = (List.range n).map f ++ [x] := by
  rw [List.range_succ, List.map_append]
  congr 1
  · apply List.map_congr_left
    intro i hi
    rw [List.mem_range] at hi
    exact Function.update_noteq (by omega) _ _
  · simp

theorem qmap_congr (f g : Nat → Nat) (n : Nat) (h : ∀ i, i < n → f i = g i) :
    (List.range n).map f = (List.range n).map g := by
  apply List.map_congr_left
  intro i hi
  exact h i (List.mem_range.mp hi)

end QueueLists

section ExecQueues

variable {F : Type} [Zero F] [One F] [Add F] [Sub F] [Mul F] [Div F] [IntCast F] [FloatOps F]

theorem cmdq_length (s : GPU F) : (cmdq s).length = s.cmd_fifosize := by simp [cmdq]

theorem paramq_length (s : GPU F) : (paramq s).length = s.param_fifosize := by simp [paramq]

/-- The tail of `gxcmd_execute` removes the head of the command queue. -/
theorem dequeue_cmdq (K : Hdr) (cmd : Nat) (s : GPU F) (h : 1 ≤ s.cmd_fifosize) :
    cmdq (gxcmd_dequeue K cmd s) = (cmdq s).tail := by
  obtain ⟨n, hn⟩ : ∃ n, s.cmd_fifosize = n + 1 := ⟨s.cmd_fifosize - 1, by omega⟩
  simp only [cmdq, gxcmd_dequeue, hn, Nat.add_sub_cancel, qmap_succ, List.tail_cons]
  apply qmap_congr
  intro i hi
  simp [hi]

/-- The tail of `gxcmd_execute` removes `nparms cmd` words from the head of the
parameter queue. -/
theorem dequeue_paramq (K : Hdr) (cmd : Nat) (s : GPU F) (h : nparms cmd ≤ s.param_fifosize) :
    paramq (gxcmd_dequeue K cmd s) = (paramq s).drop (nparms cmd) := by
  obtain ⟨n, hn⟩ : ∃ n, s.param_fifosize = n + nparms cmd :=
    ⟨s.param_fifosize - nparms cmd, by omega⟩
  simp only [paramq, gxcmd_dequeue, hn, Nat.add_sub_cancel, qmap_drop]
  by_cases h0 : nparms cmd = 0
  · simp [h0]
  · simp only [ne_eq, h0, not_false_eq_true, if_true]
    apply qmap_congr
    intro i hi
    simp [hi]

/-- Effect of one `gxcmd_execute` on the two queues. -/
theorem execute_queues (K : Hdr) (s : GPU F) (h1 : 1 ≤ s.cmd_fifosize)
    (h2 : nparms (s.cmd_fifo 0 % 256) ≤ s.param_fifosize) :
    cmdq (gxcmd_execute K s) = (cmdq s).tail ∧
    paramq (gxcmd_execute K s) = (paramq s).drop (nparms (s.cmd_fifo 0 % 256)) ∧
    (gxcmd_execute K s).params_pending = s.params_pending ∧
    (gxcmd_execute K s).cmd_fifosize = s.cmd_fifosize - 1 ∧
    (gxcmd_execute K s).param_fifosize = s.param_fifosize - nparms (s.cmd_fifo 0 % 256) := by
  have hq := gxcmd_switch_queue K (s.cmd_fifo 0 % 256) s
  simp only [SameQueue] at hq
  obtain ⟨q1, q2, q3, q4, q5, -⟩ := hq
  have hc : cmdq (gxcmd_switch K (s.cmd_fifo 0 % 256) s) = cmdq s := by
    simp [cmdq, q1, q2]
  have hp : paramq (gxcmd_switch K (s.cmd_fifo 0 % 256) s) = paramq s := by
    simp [paramq, q3, q4]
  unfold gxcmd_execute
  refine ⟨?_, ?_, ?_, ?_, ?_⟩
  · rw [dequeue_cmdq K _ _ (by rw [q2]; exact h1), hc]
  · rw [dequeue_paramq K _ _ (by rw [q4]; exact h2), hp]
  · simp [gxcmd_dequeue, q5]
  · simp [gxcmd_dequeue, q2]
  · simp [gxcmd_dequeue, q4]

end ExecQueues

section Trace

variable {F : Type} [Zero F] [One F] [Add F] [Sub F] [Mul F] [Div F] [IntCast F] [FloatOps F]

theorem unpack_ops_lt (n : Nat) : ∀ c b, b ∈ unpack_ops n c → b < 256 := by
  induction n with
  | zero => intro c b h; simp [unpack_ops] at h
  | succ n ih =>
    intro c b h
    simp only [unpack_ops] at h
    by_cases hc : c = 0
    · simp [hc] at h
    · rw [if_neg hc, List.mem_cons] at h
      rcases h with h | h
      · rw [h]; exact Nat.mod_lt _ (by norm_num)
      · exact ih _ _ h

/-- The unpacking loop appends the bytes `unpack_ops` lists to the command
queue, leaves the parameter queue alone and adds their arities to
`params_pending`. -/
theorem unpack_queues (K : Hdr) (n : Nat) :
    ∀ (c : Nat) (s : GPU F),
      cmdq (unpack K n c s) = cmdq s ++ unpack_ops n c ∧
      paramq (unpack K n c s) = paramq s ∧
      (unpack K n c s).param_fifosize = s.param_fifosize ∧
      (unpack K n c s).params_pending =
        s.params_pending + ((unpack_ops n c).map nparms).sum := by
  induction n with
  | zero => intro c s; simp [unpack, unpack_ops]
  | succ n ih =>
    intro c s
    simp only [unpack, unpack_ops]
    by_cases hc : c = 0
    · simp [hc]
    · rw [if_neg hc, if_neg hc]
      obtain ⟨i1, i2, i3, i4⟩ := ih (c >>> 8)
        { s with
          cmd_fifo := Function.update s.cmd_fifo s.cmd_fifosize (c % 256)
          cmd_fifosize := s.cmd_fifosize + 1
          params_pending := s.params_pending + nparms (c % 256)
          gxfifo_size :=
            if nparms (c % 256) = 0 then wrapU K.gxfifo_size_bits ((s.gxfifo_size : Int) + 1)
            else s.gxfifo_size }
      refine ⟨?_, ?_, ?_, ?_⟩
      · rw [i1]
        simp only [cmdq, qmap_snoc, List.append_assoc, List.singleton_append]
      · rw [i2]; rfl
      · rw [i3]
      · rw [i4]; simp [Nat.add_assoc]

/-- The traced loop computes the same state as `drain`. -/
theorem drain_log_fst (K : Hdr) (n : Nat) :
    ∀ (s : GPU F) (log : List Event), (drain_log K n s log).1 = drain K n s := by
  induction n with
  | zero => intro s log; rfl
  | succ n ih =>
    intro s log
    simp only [drain_log, drain]
    by_cases h : s.cmd_fifosize = 0
    · simp [h]
    · rw [if_neg h, if_neg h, ih]

/-- The drain loop, entered with no parameter owed and with as many queued
parameter words as the queued opcodes take, executes every queued opcode in
queue order, each on exactly its parameters, and leaves both queues empty. -/
theorem drain_log_spec (K : Hdr) (n : Nat) :
    ∀ (s : GPU F) (log : List Event), s.cmd_fifosize = n → s.params_pending = 0 →
      (∀ c ∈ cmdq s, c < 256) → ((cmdq s).map nparms).sum = s.param_fifosize →
      (drain_log K n s log).1.cmd_fifosize = 0 ∧
      (drain_log K n s log).1.param_fifosize = 0 ∧
      (drain_log K n s log).1.params_pending = 0 ∧
      ∃ evs : List Event, (drain_log K n s log).2 = log ++ evs ∧
        evs.map Event.op = cmdq s ∧
        (∀ e ∈ evs, e.pending = 0 ∧ e.params.length = nparms e.op) ∧
        (evs.map Event.params).flatten = paramq s := by
  induction n with
  | zero =>
    intro s log hn hp _ hsum
    have hc : cmdq s = [] := by simp [cmdq, hn]
    rw [hc] at hsum
    have hps : s.param_fifosize = 0 := by simpa using hsum.symm
    refine ⟨hn, hps, hp, [], by simp [drain_log], by simp [hc], by simp, ?_⟩
    simp [paramq, hps]
  | succ n ih =>
    intro s log hn hp hlt hsum
    have hcq : cmdq s = s.cmd_fifo 0 :: (cmdq s).tail := by
      simp only [cmdq, hn, qmap_succ, List.tail_cons]
    have hb : s.cmd_fifo 0 < 256 := hlt _ (by rw [hcq]; exact List.mem_cons_self _ _)
    have hmod : s.cmd_fifo 0 % 256 = s.cmd_fifo 0 := Nat.mod_eq_of_lt hb
    have hsum2 : nparms (s.cmd_fifo 0) + (((cmdq s).tail).map nparms).sum = s.param_fifosize := by
      rw [hcq] at hsum
      simpa using hsum
    obtain ⟨e1, e2, e3, e4, e5⟩ :=
      execute_queues K s (by omega) (by rw [hmod]; omega)
    rw [hmod] at e2 e5
    simp only [drain_log]
    rw [if_neg (by omega)]
    obtain ⟨r1, r2, r3, evs, r4, r5, r6, r7⟩ :=
      ih (gxcmd_execute K s)
        (log ++ [⟨s.cmd_fifo 0 % 256, s.params_pending,
          (paramq s).take (s.param_fifosize - (gxcmd_execute K s).param_fifosize)⟩])
        (by rw [e4, hn]; rfl) (by rw [e3, hp])
        (by rw [e1]; intro c hc; exact hlt c (List.mem_of_mem_tail hc))
        (by rw [e1, e5]; omega)
    have htake : s.param_fifosize - (gxcmd_execute K s).param_fifosize = nparms (s.cmd_fifo 0) := by
      rw [e5]; omega
    refine ⟨r1, r2, r3,
      ⟨s.cmd_fifo 0 % 256, s.params_pending,
        (paramq s).take (s.param_fifosize - (gxcmd_execute K s).param_fifosize)⟩ :: evs,
      ?_, ?_, ?_, ?_⟩
    · rw [r4]; simp
    · rw [List.map_cons, r5, e1, hmod]; exact hcq.symm
    · intro e he
      rw [List.mem_cons] at he
      rcases he with he | he
      · subst he
        refine ⟨hp, ?_⟩
        simp only [List.length_take, paramq_length, htake, hmod]
        omega
      · exact r6 e he
    · rw [List.map_cons, List.flatten_cons, r7, e2, htake]
      exact List.take_append_drop _ _

end Trace

section TraceInv

variable {F : Type} [Zero F] [One F] [Add F] [Sub F] [Mul F] [Div F] [IntCast F] [FloatOps F]

theorem gxfifo_flags_cmdq (s : GPU F) : cmdq (gxfifo_flags s) = cmdq s := rfl

theorem gxfifo_flags_paramq (s : GPU F) : paramq (gxfifo_flags s) = paramq s := rfl

/-- The first `if` of `gxfifo_write` keeps the trace invariant, with the word
recorded as a parameter or as unpacked opcodes. -/
theorem enqueue_inv (K : Hdr) (s : GPU F) (tr : Trace) (c : Nat) (h : TraceInv (s, tr)) :
    TraceInv (gxfifo_enqueue K s c,
      (⟨if s.params_pending ≠ 0 then tr.unpacked else tr.unpacked ++ unpack_ops 4 c,
        if s.params_pending ≠ 0 then tr.arrived ++ [c] else tr.arrived,
        tr.executed⟩ : Trace)) := by
  obtain ⟨h1, h2, h3, h4, h5⟩ := h
  simp only at h1 h2 h3 h4 h5
  by_cases hp : s.params_pending ≠ 0
  · have hc : cmdq (gxfifo_enqueue K s c) = cmdq s := by
      simp [gxfifo_enqueue, hp, cmdq]
    have hq : paramq (gxfifo_enqueue K s c) = paramq s ++ [c] := by
      rw [gxfifo_enqueue, if_pos hp]
      simp only [paramq, qmap_snoc]
    refine ⟨?_, h2, ?_, ?_, ?_⟩
    · simp only [if_pos hp]; rw [hc]; exact h1
    · simp only [if_pos hp]; rw [hq, ← List.append_assoc, h3]
    · simp only; rw [hc]; exact h4
    · simp only; rw [hc, h5]
      simp only [gxfifo_enqueue, if_pos hp]
      omega
  · have hp0 : s.params_pending = 0 := by simpa using hp
    obtain ⟨u1, u2, u3, u4⟩ := unpack_queues K 4 c s
    have he : gxfifo_enqueue K s c = unpack K 4 c s := by
      simp [gxfifo_enqueue, hp0]
    refine ⟨?_, h2, ?_, ?_, ?_⟩
    · simp only [if_neg hp]; rw [he, u1, ← List.append_assoc, h1]
    · simp only [if_neg hp]; rw [he, u2]; exact h3
    · simp only; rw [he, u1]
      intro b hb
      rw [List.mem_append] at hb
      rcases hb with hb | hb
      · exact h4 b hb
      · exact unpack_ops_lt 4 c b hb
    · simp only; rw [he, u1, u3, u4, List.map_append, List.sum_append, h5]
      omega

/-- The drain step and the status update of `gxfifo_write` keep the trace
invariant. -/
theorem finish_inv (K : Hdr) (s1 : GPU F) (tr1 : Trace) (h : TraceInv (s1, tr1)) :
    TraceInv
      (gxfifo_flags (if s1.params_pending = 0 then
          drain_log K s1.cmd_fifosize s1 tr1.executed else (s1, tr1.executed)).1,
        (⟨tr1.unpacked, tr1.arrived,
          (if s1.params_pending = 0 then
            drain_log K s1.cmd_fifosize s1 tr1.executed else (s1, tr1.executed)).2⟩ : Trace)) := by
  obtain ⟨h1, h2, h3, h4, h5⟩ := h
  simp only at h1 h2 h3 h4 h5
  by_cases hp : s1.params_pending = 0
  · rw [if_pos hp]
    obtain ⟨r1, r2, r3, evs, r4, r5, r6, r7⟩ :=
      drain_log_spec K s1.cmd_fifosize s1 tr1.executed rfl hp h4 (by rw [h5, hp]; rfl)
    have hc : cmdq (drain_log K s1.cmd_fifosize s1 tr1.executed).1 = [] := by
      simp [cmdq, r1]
    have hq : paramq (drain_log K s1.cmd_fifosize s1 tr1.executed).1 = [] := by
      simp [paramq, r2]
    refine ⟨?_, ?_, ?_, ?_, ?_⟩
    · simp only [gxfifo_flags_cmdq]
      rw [hc, r4, List.map_append, r5, List.append_nil]; exact h1
    · simp only
      rw [r4]
      intro e he
      rw [List.mem_append] at he
      rcases he with he | he
      · exact h2 e he
      · exact r6 e he
    · simp only [gxfifo_flags_paramq]
      rw [hq, r4, List.map_append, List.flatten_append, r7, List.append_nil]; exact h3
    · simp only [gxfifo_flags_cmdq]
      rw [hc]; intro c hc2; simp at hc2
    · simp only [gxfifo_flags_cmdq]
      rw [hc]
      simp [gxfifo_flags, r2, r3]
  · rw [if_neg hp]
    exact ⟨h1, h2, h3, h4, h5⟩

/-- One `gxfifo_write` keeps the trace invariant. -/
theorem write_log_inv (K : Hdr) (st : GPU F × Trace) (w : Nat) (h : TraceInv st) :
    TraceInv (gxfifo_write_log K st w) := by
  have h1 := enqueue_inv K st.1 st.2 (w % 4294967296) h
  exact finish_inv K _ _ h1

/-- The traced `gxfifo_write` computes the same state as `gxfifo_write`. -/
theorem write_log_fst (K : Hdr) (st : GPU F × Trace) (w : Nat) :
    (gxfifo_write_log K st w).1 = gxfifo_write K st.1 w := by
  simp only [gxfifo_write_log, gxfifo_write]
  by_cases hp : (gxfifo_enqueue K st.1 (w % 4294967296)).params_pending = 0
  · rw [if_pos hp, if_pos hp, drain_log_fst]
  · rw [if_neg hp, if_neg hp]

theorem submit_log_snoc (K : Hdr) (s : GPU F) (ws : List Nat) (w : Nat) :
    submit_log K s (ws ++ [w]) = gxfifo_write_log K (submit_log K s ws) w := by
  simp [submit_log, List.foldl_append]

/-- The traced run computes the same state as `submit`. -/
theorem submit_log_fst (K : Hdr) (s : GPU F) (ws : List Nat) :
    (submit_log K s ws).1 = submit K s ws := by
  induction ws using List.reverseRecOn with
  | nil => rfl
  | append_singleton ws w ih =>
    rw [submit_log_snoc, write_log_fst, ih, submit_append]
    rfl

/-- The trace invariant holds along every run that starts idle. -/
theorem submit_log_inv (K : Hdr) (s : GPU F) (hi : Idle s) (ws : List Nat) :
    TraceInv (submit_log K s ws) := by
  induction ws using List.reverseRecOn with
  | nil =>
    obtain ⟨hp, hc, hq⟩ := hi
    simp [TraceInv, submit_log, cmdq, paramq, hp, hc, hq]
  | append_singleton ws w ih =>
    rw [submit_log_snoc]
    exact write_log_inv K _ w ih

end TraceInv

section ReadsBelowArity

variable {F : Type} [Zero F] [One F] [Add F] [Sub F] [Mul F] [Div F] [IntCast F] [FloatOps F]

theorem add_poly_pf (K : Hdr) (g : GPU F) (pf : Nat → Nat) (a b c d : Option Int) :
    add_poly K { g with param_fifo := pf } a b c d =
      { add_poly K g a b c d with param_fifo := pf } := by
  unfold add_poly; split_ifs <;> rfl

theorem add_vtx_pf (K : Hdr) (g : GPU F) (pf : Nat → Nat) :
    add_vtx K { g with param_fifo := pf } = { add_vtx K g with param_fifo := pf } := by
  unfold add_vtx
  simp only []
  split_ifs <;> first
    | rfl
    | exact add_poly_pf K
        { g with
          vertexram := Function.update g.vertexram g.n_verts (vecmul g.clipmtx g.cur_vtx)
          n_verts := g.n_verts + 1
          cur_vtx_ct := g.cur_vtx_ct + 1 } pf _ _ _ _

theorem mtx_push_pf (K : Hdr) (g : GPU F) (pf : Nat → Nat) :
    mtx_push K { g with param_fifo := pf } = { mtx_push K g with param_fifo := pf } := by
  unfold mtx_push; simp only []; split_ifs <;> rfl

theorem mtx_pop_pf (K : Hdr) (g : GPU F) (pf : Nat → Nat) (h : pf 0 = g.param_fifo 0) :
    mtx_pop K { g with param_fifo := pf } = { mtx_pop K g with param_fifo := pf } := by
  unfold mtx_pop; simp only [h]; split_ifs <;> rfl

theorem mtx_store_pf (K : Hdr) (g : GPU F) (pf : Nat → Nat) (h : pf 0 = g.param_fifo 0) :
    mtx_store K { g with param_fifo := pf } = { mtx_store K g with param_fifo := pf } := by
  unfold mtx_store; simp only [h]; split_ifs <;> rfl

theorem mtx_restore_pf (K : Hdr) (g : GPU F) (pf : Nat → Nat) (h : pf 0 = g.param_fifo 0) :
    mtx_restore K { g with param_fifo := pf } = { mtx_restore K g with param_fifo := pf } := by
  unfold mtx_restore; simp only [h]; split_ifs <;> rfl

theorem load_cur_pf (K : Hdr) (g : GPU F) (pf : Nat → Nat) (m : Mat4 F) :
    load_cur K { g with param_fifo := pf } m = { load_cur K g m with param_fifo := pf } := by
  unfold load_cur; split_ifs <;> rfl

theorem mult_cur_pf (K : Hdr) (g : GPU F) (pf : Nat → Nat) (m : Mat4 F) :
    mult_cur K { g with param_fifo := pf } m = { mult_cur K g m with param_fifo := pf } := by
  unfold mult_cur; split_ifs <;> rfl

theorem scale_cur_pf (K : Hdr) (g : GPU F) (pf : Nat → Nat) (m : Mat4 F) :
    scale_cur K { g with param_fifo := pf } m = { scale_cur K g m with param_fifo := pf } := by
  unfold scale_cur; split_ifs <;> rfl

theorem operand44_pf (pf qf : Nat → Nat) (h : ∀ i, i < 16 → pf i = qf i) :
    (operand44 pf : Mat4 F) = operand44 qf := by
  funext i j
  simp only [operand44]
  rw [h _ (by omega)]

theorem operand43_pf (pf qf : Nat → Nat) (h : ∀ i, i < 12 → pf i = qf i) :
    (operand43 pf : Mat4 F) = operand43 qf := by
  funext i j
  simp only [operand43]
  split_ifs
  · rw [h _ (by omega)]
  · rfl
  · rfl

theorem operand33_pf (pf qf : Nat → Nat) (h : ∀ i, i < 9 → pf i = qf i) :
    (operand33 pf : Mat4 F) = operand33 qf := by
  funext i j
  simp only [operand33]
  split_ifs
  · rw [h _ (by omega)]
  · rfl
  · rfl

theorem operandScale_pf (pf qf : Nat → Nat) (h : ∀ i, i < 3 → pf i = qf i) :
    (operandScale pf : Mat4 F) = operandScale qf := by
  funext i j
  simp only [operandScale]
  split_ifs
  · rw [h _ (by omega)]
  · rfl
  · rfl

theorem operandTrans_pf (pf qf : Nat → Nat) (h : ∀ i, i < 3 → pf i = qf i) :
    (operandTrans pf : Mat4 F) = operandTrans qf := by
  funext i j
  simp only [operandTrans]
  split_ifs with h1 h2
  · rfl
  · have : i.val < 3 := by
      have := i.isLt
      have := j.isLt
      by_contra hc
      apply h1
      ext
      omega
    rw [h _ this]
  · rfl

end ReadsBelowArity

section ReadsBelowArity2

variable {F : Type} [Zero F] [One F] [Add F] [Sub F] [Mul F] [Div F] [IntCast F] [FloatOps F]

theorem set_vtx_pf (g : GPU F) (pf : Nat → Nat) (i : Fin 4) (x : F) :
    set_vtx { g with param_fifo := pf } i x = { set_vtx g i x with param_fifo := pf } := rfl

theorem add_vtx_set2_pf (K : Hdr) (g : GPU F) (pf : Nat → Nat) (i j : Fin 4) (a b : F) :
    add_vtx K (set_vtx (set_vtx { g with param_fifo := pf } i a) j b) =
      { add_vtx K (set_vtx (set_vtx g i a) j b) with param_fifo := pf } :=
  add_vtx_pf K (set_vtx (set_vtx g i a) j b) pf

theorem add_vtx_set4_pf (K : Hdr) (g : GPU F) (pf : Nat → Nat) (i j k l : Fin 4)
    (a b c d : F) :
    add_vtx K (set_vtx (set_vtx (set_vtx (set_vtx { g with param_fifo := pf } i a) j b) k c)
        l d) =
      { add_vtx K (set_vtx (set_vtx (set_vtx (set_vtx g i a) j b) k c) l d) with
        param_fifo := pf } :=
  add_vtx_pf K (set_vtx (set_vtx (set_vtx (set_vtx g i a) j b) k c) l d) pf

theorem vtx_16_pf (K : Hdr) (g : GPU F) (pf : Nat → Nat) (h0 : pf 0 = g.param_fifo 0)
    (h1 : pf 1 = g.param_fifo 1) :
    vtx_16 K { g with param_fifo := pf } = { vtx_16 K g with param_fifo := pf } := by
  unfold vtx_16
  have e0 : ({ g with param_fifo := pf } : GPU F).param_fifo 0 = g.param_fifo 0 := h0
  have e1 : ({ g with param_fifo := pf } : GPU F).param_fifo 1 = g.param_fifo 1 := h1
  rw [e0, e1]
  exact add_vtx_set4_pf K g pf _ _ _ _ _ _ _ _

theorem vtx_10_pf (K : Hdr) (g : GPU F) (pf : Nat → Nat) (h0 : pf 0 = g.param_fifo 0) :
    vtx_10 K { g with param_fifo := pf } = { vtx_10 K g with param_fifo := pf } := by
  unfold vtx_10
  have e0 : ({ g with param_fifo := pf } : GPU F).param_fifo 0 = g.param_fifo 0 := h0
  rw [e0]
  exact add_vtx_set4_pf K g pf _ _ _ _ _ _ _ _

theorem vtx_xy_pf (K : Hdr) (g : GPU F) (pf : Nat → Nat) (h0 : pf 0 = g.param_fifo 0) :
    vtx_xy K { g with param_fifo := pf } = { vtx_xy K g with param_fifo := pf } := by
  unfold vtx_xy
  have e0 : ({ g with param_fifo := pf } : GPU F).param_fifo 0 = g.param_fifo 0 := h0
  rw [e0]
  exact add_vtx_set2_pf K g pf _ _ _ _

theorem vtx_xz_pf (K : Hdr) (g : GPU F) (pf : Nat → Nat) (h0 : pf 0 = g.param_fifo 0) :
    vtx_xz K { g with param_fifo := pf } = { vtx_xz K g with param_fifo := pf } := by
  unfold vtx_xz
  have e0 : ({ g with param_fifo := pf } : GPU F).param_fifo 0 = g.param_fifo 0 := h0
  rw [e0]
  exact add_vtx_set2_pf K g pf _ _ _ _

theorem vtx_yz_pf (K : Hdr) (g : GPU F) (pf : Nat → Nat) (h0 : pf 0 = g.param_fifo 0) :
    vtx_yz K { g with param_fifo := pf } = { vtx_yz K g with param_fifo := pf } := by
  unfold vtx_yz
  have e0 : ({ g with param_fifo := pf } : GPU F).param_fifo 0 = g.param_fifo 0 := h0
  rw [e0]
  exact add_vtx_set2_pf K g pf _ _ _ _

theorem vtx_diff_pf (K : Hdr) (g : GPU F) (pf : Nat → Nat) (h0 : pf 0 = g.param_fifo 0) :
    vtx_diff K { g with param_fifo := pf } = { vtx_diff K g with param_fifo := pf } := by
  unfold vtx_diff
  have e0 : ({ g with param_fifo := pf } : GPU F).param_fifo 0 = g.param_fifo 0 := h0
  rw [e0]
  exact add_vtx_set4_pf K g pf _ _ _ _ _ _ _ _

theorem begin_vtxs_pf (g : GPU F) (pf : Nat → Nat) (h0 : pf 0 = g.param_fifo 0) :
    begin_vtxs { g with param_fifo := pf } = { begin_vtxs g with param_fifo := pf } := by
  unfold begin_vtxs update_mtxs
  simp only [h0]

theorem swap_buffers_pf (K : Hdr) (g : GPU F) (pf : Nat → Nat) :
    swap_buffers K { g with param_fifo := pf } = { swap_buffers K g with param_fifo := pf } := rfl

theorem pos_test_pf (g : GPU F) (pf : Nat → Nat) (h0 : pf 0 = g.param_fifo 0)
    (h1 : pf 1 = g.param_fifo 1) :
    pos_test { g with param_fifo := pf } = { pos_test g with param_fifo := pf } := by
  unfold pos_test
  simp only [h0, h1]
  rfl

end ReadsBelowArity2

section ReadsBelowArity3

variable {F : Type} [Zero F] [One F] [Add F] [Sub F] [Mul F] [Div F] [IntCast F] [FloatOps F]

/-- An opcode that is no case label falls to `default`. -/
theorem switch_default (K : Hdr) (cmd : Nat) (s : GPU F) (h : cmd ∉ K.opcodes) :
    gxcmd_switch K cmd s = s := by
  simp only [Hdr.opcodes, List.mem_cons, List.mem_singleton, List.not_mem_nil, or_false,
    not_or] at h
  obtain ⟨c0, c1, c2, c3, c4, c5, c6, c7, c8, c9, c10, c11, c12, c13, c14, c15, c16, c17, c18, c19, c20, c21, c22, c23⟩ := h
  unfold gxcmd_switch
  rw [if_neg c0]
  rw [if_neg c1]
  rw [if_neg c2]
  rw [if_neg c3]
  rw [if_neg c4]
  rw [if_neg c5]
  rw [if_neg c6]
  rw [if_neg c7]
  rw [if_neg c8]
  rw [if_neg c9]
  rw [if_neg c10]
  rw [if_neg c11]
  rw [if_neg c12]
  rw [if_neg c13]
  rw [if_neg c14]
  rw [if_neg c15]
  rw [if_neg c16]
  rw [if_neg c17]
  rw [if_neg c18]
  rw [if_neg c19]
  rw [if_neg c20]
  rw [if_neg c21]
  rw [if_neg c22]
  rw [if_neg c23]

/-- The case of an opcode depends on the parameter queue only through the
entries below the opcode's arity: replacing the queue by one that agrees with
it below `nparms cmd` changes nothing in what the case computes. -/
theorem switch_reads_below_arity (K : Hdr) (hK : K.Distinct) (hA : K.ArityOk) (cmd : Nat)
    (g : GPU F) (pf : Nat → Nat) (h : ∀ i, i < nparms cmd → pf i = g.param_fifo i) :
    gxcmd_switch K cmd { g with param_fifo := pf } =
      { gxcmd_switch K cmd g with param_fifo := pf } := by
  obtain ⟨a_MTX_MODE, a_MTX_POP, a_MTX_STORE, a_MTX_RESTORE, a_MTX_LOAD_44, a_MTX_LOAD_43, a_MTX_MULT_44, a_MTX_MULT_43, a_MTX_MULT_33, a_MTX_SCALE, a_MTX_TRANS, a_VTX_16, a_VTX_10, a_VTX_XY, a_VTX_XZ, a_VTX_YZ, a_VTX_DIFF, a_BEGIN_VTXS, a_POS_TEST⟩ := hA
  by_cases c0 : cmd = K.MTX_MODE
  · subst c0
    rw [switch_MTX_MODE K hK, switch_MTX_MODE K hK]
    have e : pf 0 = g.param_fifo 0 := h 0 (by omega)
    show ({ g with param_fifo := pf, mtx_mode := pf 0 &&& 3 } : GPU F) = _
    rw [e]
  by_cases c1 : cmd = K.MTX_PUSH
  · subst c1
    rw [switch_MTX_PUSH K hK, switch_MTX_PUSH K hK]
    exact mtx_push_pf K g pf
  by_cases c2 : cmd = K.MTX_POP
  · subst c2
    rw [switch_MTX_POP K hK, switch_MTX_POP K hK]
    exact mtx_pop_pf K g pf (h 0 (by omega))
  by_cases c3 : cmd = K.MTX_STORE
  · subst c3
    rw [switch_MTX_STORE K hK, switch_MTX_STORE K hK]
    exact mtx_store_pf K g pf (h 0 (by omega))
  by_cases c4 : cmd = K.MTX_RESTORE
  · subst c4
    rw [switch_MTX_RESTORE K hK, switch_MTX_RESTORE K hK]
    exact mtx_restore_pf K g pf (h 0 (by omega))
  by_cases c5 : cmd = K.MTX_IDENTITY
  · subst c5
    rw [switch_MTX_IDENTITY K hK, switch_MTX_IDENTITY K hK]
    exact load_cur_pf K g pf identity
  by_cases c6 : cmd = K.MTX_LOAD_44
  · subst c6
    rw [switch_MTX_LOAD_44 K hK, switch_MTX_LOAD_44 K hK]
    show load_cur K { g with param_fifo := pf } (operand44 pf) = _
    rw [operand44_pf pf g.param_fifo (fun i hi => h i (by omega))]
    exact load_cur_pf K g pf _
  by_cases c7 : cmd = K.MTX_LOAD_43
  · subst c7
    rw [switch_MTX_LOAD_43 K hK, switch_MTX_LOAD_43 K hK]
    show load_cur K { g with param_fifo := pf } (operand43 pf) = _
    rw [operand43_pf pf g.param_fifo (fun i hi => h i (by omega))]
    exact load_cur_pf K g pf _
  by_cases c8 : cmd = K.MTX_MULT_44
  · subst c8
    rw [switch_MTX_MULT_44 K hK, switch_MTX_MULT_44 K hK]
    show mult_cur K { g with param_fifo := pf } (operand44 pf) = _
    rw [operand44_pf pf g.param_fifo (fun i hi => h i (by omega))]
    exact mult_cur_pf K g pf _
  by_cases c9 : cmd = K.MTX_MULT_43
  · subst c9
    rw [switch_MTX_MULT_43 K hK, switch_MTX_MULT_43 K hK]
    show mult_cur K { g with param_fifo := pf } (operand43 pf) = _
    rw [operand43_pf pf g.param_fifo (fun i hi => h i (by omega))]
    exact mult_cur_pf K g pf _
  by_cases c10 : cmd = K.MTX_MULT_33
  · subst c10
    rw [switch_MTX_MULT_33 K hK, switch_MTX_MULT_33 K hK]
    show mult_cur K { g with param_fifo := pf } (operand33 pf) = _
    rw [operand33_pf pf g.param_fifo (fun i hi => h i (by omega))]
    exact mult_cur_pf K g pf _
  by_cases c11 : cmd = K.MTX_SCALE
  · subst c11
    rw [switch_MTX_SCALE K hK, switch_MTX_SCALE K hK]
    show scale_cur K { g with param_fifo := pf } (operandScale pf) = _
    rw [operandScale_pf pf g.param_fifo (fun i hi => h i (by omega))]
    exact scale_cur_pf K g pf _
  by_cases c12 : cmd = K.MTX_TRANS
  · subst c12
    rw [switch_MTX_TRANS K hK, switch_MTX_TRANS K hK]
    show mult_cur K { g with param_fifo := pf } (operandTrans pf) = _
    rw [operandTrans_pf pf g.param_fifo (fun i hi => h i (by omega))]
    exact mult_cur_pf K g pf _
  by_cases c13 : cmd = K.VTX_16
  · subst c13
    rw [switch_VTX_16 K hK, switch_VTX_16 K hK]
    exact vtx_16_pf K g pf (h 0 (by omega)) (h 1 (by omega))
  by_cases c14 : cmd = K.VTX_10
  · subst c14
    rw [switch_VTX_10 K hK, switch_VTX_10 K hK]
    exact vtx_10_pf K g pf (h 0 (by omega))
  by_cases c15 : cmd = K.VTX_XY
  · subst c15
    rw [switch_VTX_XY K hK, switch_VTX_XY K hK]
    exact vtx_xy_pf K g pf (h 0 (by omega))
  by_cases c16 : cmd = K.VTX_XZ
  · subst c16
    rw [switch_VTX_XZ K hK, switch_VTX_XZ K hK]
    exact vtx_xz_pf K g pf (h 0 (by omega))
  by_cases c17 : cmd = K.VTX_YZ
  · subst c17
    rw [switch_VTX_YZ K hK, switch_VTX_YZ K hK]
    exact vtx_yz_pf K g pf (h 0 (by omega))
  by_cases c18 : cmd = K.VTX_DIFF
  · subst c18
    rw [switch_VTX_DIFF K hK, switch_VTX_DIFF K hK]
    exact vtx_diff_pf K g pf (h 0 (by omega))
  by_cases c19 : cmd = K.BEGIN_VTXS
  · subst c19
    rw [switch_BEGIN_VTXS K hK, switch_BEGIN_VTXS K hK]
    exact begin_vtxs_pf g pf (h 0 (by omega))
  by_cases c20 : cmd = K.END_VTXS
  · subst c20
    rw [switch_END_VTXS K hK, switch_END_VTXS K hK]
  by_cases c21 : cmd = K.SWAP_BUFFERS
  · subst c21
    rw [switch_SWAP_BUFFERS K hK, switch_SWAP_BUFFERS K hK]
    exact swap_buffers_pf K g pf
  by_cases c22 : cmd = K.BOX_TEST
  · subst c22
    rw [switch_BOX_TEST K hK, switch_BOX_TEST K hK]
  by_cases c23 : cmd = K.POS_TEST
  · subst c23
    rw [switch_POS_TEST K hK, switch_POS_TEST K hK]
    exact pos_test_pf g pf (h 0 (by omega)) (h 1 (by omega))
  have hno : cmd ∉ K.opcodes := by
    simp only [Hdr.opcodes, List.mem_cons, List.mem_singleton, List.not_mem_nil, or_false,
      not_or]
    exact ⟨c0, c1, c2, c3, c4, c5, c6, c7, c8, c9, c10, c11, c12, c13, c14, c15, c16, c17, c18, c19, c20, c21, c22, c23⟩
  rw [switch_default K cmd _ hno, switch_default K cmd _ hno]

end ReadsBelowArity3

section Dispatch1

variable {F : Type} [Zero F] [One F] [Add F] [Sub F] [Mul F] [Div F] [IntCast F] [FloatOps F]

/-- C1: for every sequence of 32-bit words passed to `gxfifo_write` starting
from empty command and parameter queues with `params_pending = 0`: the traced
run computes the states of the plain run; opcodes are executed in the order
they were unpacked, low byte first (executed opcodes followed by the queued
ones are the unpacked ones); `gxcmd_execute` is only ever called when
`params_pending = 0`; each executed opcode removes from the front of the
parameter queue exactly `cmd_parms[h][l]` words (0 when the high nibble
`h >= 8`), these being the next not-yet-consumed parameter words in arrival
order (removed words followed by the queued ones are the arrived ones); and
the case of an opcode reads `param_fifo` only at indices below that arity. -/
theorem fifo_dispatch (K : Hdr) (hK : K.Distinct) (hA : K.ArityOk) (s : GPU F) (hi : Idle s)
    (ws : List Nat) :
    (submit_log K s ws).1 = submit K s ws ∧
    (submit_log K s ws).2.executed.map Event.op ++ cmdq (submit K s ws) =
      (submit_log K s ws).2.unpacked ∧
    (∀ e ∈ (submit_log K s ws).2.executed, e.pending = 0) ∧
    (∀ e ∈ (submit_log K s ws).2.executed, e.params.length = nparms e.op) ∧
    ((submit_log K s ws).2.executed.map Event.params).flatten ++ paramq (submit K s ws) =
      (submit_log K s ws).2.arrived ∧
    (∀ cmd, 8 ≤ cmd >>> 4 → nparms cmd = 0) ∧
    (∀ (cmd : Nat) (g : GPU F) (pf : Nat → Nat),
      (∀ i, i < nparms cmd → pf i = g.param_fifo i) →
      gxcmd_switch K cmd { g with param_fifo := pf } =
        { gxcmd_switch K cmd g with param_fifo := pf }) := by
  have hfst := submit_log_fst K s ws
  obtain ⟨h1, h2, h3, -, -⟩ := submit_log_inv K s hi ws
  rw [hfst] at h1 h3
  refine ⟨hfst, h1, fun e he => (h2 e he).1, fun e he => (h2 e he).2, h3, ?_, ?_⟩
  · intro cmd hc
    unfold nparms
    simp only []
    rw [if_neg (by omega)]
  · intro cmd g pf h
    exact switch_reads_below_arity K hK hA cmd g pf h

end Dispatch1

/-- Instance of `fifo_dispatch` on `sampleStream`: four opcodes have been
executed, in the order unpacked, and `VTX_16` waits with one parameter. -/
theorem fifo_dispatch_witness :
    ndsHdr.Distinct ∧ ndsHdr.ArityOk ∧ Idle zeroState ∧
    (submit_log ndsHdr zeroState sampleStream).2.unpacked = [0x10, 0x11, 0x15, 0x1b, 0x23] ∧
    (submit_log ndsHdr zeroState sampleStream).2.arrived = [2, 4096, 8192, 4096, 7] ∧
    (submit_log ndsHdr zeroState sampleStream).2.executed.map Event.op ++
        cmdq (submit ndsHdr zeroState sampleStream) =
      (submit_log ndsHdr zeroState sampleStream).2.unpacked ∧
    ((submit_log ndsHdr zeroState sampleStream).2.executed.map Event.params).flatten ++
        paramq (submit ndsHdr zeroState sampleStream) =
      (submit_log ndsHdr zeroState sampleStream).2.arrived :=
  have h := fifo_dispatch ndsHdr (by decide) (by decide) zeroState (by decide) sampleStream
  ⟨by decide, by decide, by decide, by decide, by decide, h.2.1, h.2.2.2.2.1⟩

/-- The history of the run on `sampleStream`, evaluated. -/
theorem sampleStream_executed :
    (submit_log ndsHdr zeroState sampleStream).2.executed =
      [⟨0x10, 0, [2]⟩, ⟨0x11, 0, []⟩, ⟨0x15, 0, []⟩, ⟨0x1b, 0, [4096, 8192, 4096]⟩] := by
  decide

section Fuel

variable {F : Type} [Zero F] [One F] [Add F] [Sub F] [Mul F] [Div F] [IntCast F] [FloatOps F]

theorem unpack_zero (K : Hdr) (n : Nat) (s : GPU F) : unpack K n 0 s = s := by
  cases n <;> simp [unpack]

/-- More iterations than the word has bytes change nothing: the unpacking loop
has stopped by then. -/
theorem unpack_fuel (K : Hdr) (k : Nat) :
    ∀ (n c : Nat) (s : GPU F), c < 256 ^ k → k ≤ n → unpack K n c s = unpack K k c s := by
  induction k with
  | zero =>
    intro n c s hc _
    have : c = 0 := by simpa using hc
    subst this
    rw [unpack_zero, unpack_zero]
  | succ k ih =>
    intro n c s hc hn
    obtain ⟨m, rfl⟩ : ∃ m, n = m + 1 := ⟨n - 1, by omega⟩
    simp only [unpack]
    by_cases h0 : c = 0
    · rw [if_pos h0, if_pos h0]
    · rw [if_neg h0, if_neg h0]
      apply ih
      · rw [Nat.shiftRight_eq_div_pow]
        apply Nat.div_lt_of_lt_mul
        rw [pow_succ] at hc
        omega
      · omega

/-- The four iterations `gxfifo_write` is given consume every `u32`. -/
theorem unpack_u32 (K : Hdr) (n c : Nat) (s : GPU F) (hc : c < 4294967296) (hn : 4 ≤ n) :
    unpack K n c s = unpack K 4 c s :=
  unpack_fuel K 4 n c s (by simpa using hc) hn

theorem gxcmd_execute_cmd_fifosize (K : Hdr) (s : GPU F) :
    (gxcmd_execute K s).cmd_fifosize = s.cmd_fifosize - 1 := by
  have hq := gxcmd_switch_queue K (s.cmd_fifo 0 % 256) s
  simp only [SameQueue] at hq
  simp [gxcmd_execute, gxcmd_dequeue, hq.2.1]

/-- The drain loop, given `cmd_fifosize` iterations, ends with the command
queue empty, which is the exit condition of `while (gpu->cmd_fifosize)`. -/
theorem drain_terminates (K : Hdr) (n : Nat) :
    ∀ s : GPU F, s.cmd_fifosize ≤ n → (drain K n s).cmd_fifosize = 0 := by
  induction n with
  | zero => intro s h; simpa [drain] using h
  | succ n ih =>
    intro s h
    simp only [drain]
    by_cases h0 : s.cmd_fifosize = 0
    · rw [if_pos h0]; exact h0
    · rw [if_neg h0]
      apply ih
      rw [gxcmd_execute_cmd_fifosize]
      omega

end Fuel


section VtxRun

variable {F : Type} [Zero F] [One F] [Add F] [Sub F] [Mul F] [Div F] [IntCast F] [FloatOps F]

/-- One vertex packet written to an idle engine below vertex capacity stores
the clip matrix applied to the accumulator the packet leaves. -/
theorem vtx_step_store (K : Hdr) (hK : K.Distinct) (t : GPU F) (c : Packet) (hi : Idle t)
    (hc : VtxPacket K c) (hn : t.n_verts ≠ K.MAX_VTX) :
    (submit K t (c.1 :: c.2)).vertexram t.n_verts =
      vecmul t.clipmtx (submit K t (c.1 :: c.2)).cur_vtx := by
  obtain ⟨u, hu, -, -, -, u3, -, -, -, u7⟩ := vtx_packet K hK t c hi hc
  have hnu : u.n_verts ≠ K.MAX_VTX := by rw [u3]; exact hn
  rw [hu, add_vtx_eq K u hnu]
  simp only [gxfifo_flags, gxcmd_dequeue]
  rw [← u3, Function.update_same, u7]

/-- State of the engine after `cs.length` vertex packets, in any primitive
mode: what concerns the vertex store. -/
theorem vtx_run (K : Hdr) (hK : K.Distinct) (s0 : GPU F) (hi : Idle s0) (cs : List Packet) :
    (∀ c ∈ cs, VtxPacket K c) → s0.n_verts + cs.length ≤ K.MAX_VTX →
    Idle (submit K s0 (packetWords cs)) ∧
    (submit K s0 (packetWords cs)).poly_mode = s0.poly_mode ∧
    (submit K s0 (packetWords cs)).cur_vtx_ct = s0.cur_vtx_ct + cs.length ∧
    (submit K s0 (packetWords cs)).n_verts = s0.n_verts + cs.length ∧
    (submit K s0 (packetWords cs)).clipmtx = s0.clipmtx ∧
    (∀ j, j < s0.n_verts → (submit K s0 (packetWords cs)).vertexram j = s0.vertexram j) ∧
    (∀ i, i < cs.length → (submit K s0 (packetWords cs)).vertexram (s0.n_verts + i) =
      vecmul s0.clipmtx (submit K s0 (packetWords (cs.take (i + 1)))).cur_vtx) := by
  induction cs using List.reverseRecOn with
  | nil =>
    intro _ _
    refine ⟨hi, rfl, rfl, rfl, rfl, fun _ _ => rfl, ?_⟩
    intro i h; simp at h
  | append_singleton cs c ih =>
    intro hcs hV
    rw [List.length_append, List.length_singleton] at hV
    obtain ⟨i1, i2, i3, i4, i5, i6, i7⟩ :=
      ih (fun d hd => hcs d (List.mem_append_left _ hd)) (by omega)
    have hc : VtxPacket K c := hcs c (by simp)
    have hne : (submit K s0 (packetWords cs)).n_verts ≠ K.MAX_VTX := by rw [i4]; omega
    have hst := vtx_step_store K hK (submit K s0 (packetWords cs)) c i1 hc hne
    obtain ⟨w1, w2, w3, w4, w5, w6, -⟩ :=
      vtx_step K hK (submit K s0 (packetWords cs)) c i1 hc hne
    rw [packetWords_append, packetWords_single, submit_append]
    rw [List.length_append, List.length_singleton]
    refine ⟨w1, w2.trans i2, by rw [w3, i3]; omega, by rw [w4, i4]; omega, w5.trans i5, ?_, ?_⟩
    · intro j hj
      rw [w6 j (by rw [i4]; omega), i6 j hj]
    · intro i hil
      by_cases hlast : i = cs.length
      · subst hlast
        rw [List.take_of_length_le (by simp), packetWords_append, packetWords_single,
          submit_append, ← i4, hst, i5]
      · have hlt : i < cs.length := by omega
        rw [w6 _ (by rw [i4]; omega), i7 i hlt, List.take_append_of_le_length (by omega)]

end VtxRun

section BeginEnd

variable {F : Type} [Zero F] [One F] [Add F] [Sub F] [Mul F] [Div F] [IntCast F] [FloatOps F]

/-- C11 (amended): `BEGIN_VTXS` with parameter `p` sets the per-primitive
vertex counter to 0, the primitive mode to `p & 3` and the clip matrix to the
product Projection x Position as `matmul` computes it (entry `[i][j]` is the
sum accumulated from `0` of `Projection[i][k] * Position[k][j]`); every vertex
appended to the vertex store is `vecmul(clip, v)` for the accumulator `v`
taken as a column vector, and for the vertex commands that follow a
`BEGIN_VTXS` the clip matrix is the one computed at the `BEGIN_VTXS`;
`END_VTXS` changes no matrix, vertex, polygon or counter state.  Every
operation is the one of `float`, whatever its rounding: no law of arithmetic
is assumed, and the stored vertex is not claimed to equal
`Projection * (Position * v)`. -/
theorem begin_end_vtxs (K : Hdr) (hK : K.Distinct)
    (hbg : 0 < K.BEGIN_VTXS ∧ K.BEGIN_VTXS < 256 ∧ nparms K.BEGIN_VTXS = 1) :
    (∀ s : GPU F, s.cmd_fifo 0 % 256 = K.BEGIN_VTXS →
      (gxcmd_execute K s).cur_vtx_ct = 0 ∧
      (gxcmd_execute K s).poly_mode = s.param_fifo 0 &&& 3 ∧
      (gxcmd_execute K s).clipmtx = matmul s.posmtx s.projmtx ∧
      ∀ i j : Fin 4, (gxcmd_execute K s).clipmtx i j =
        0 + s.projmtx i 0 * s.posmtx 0 j + s.projmtx i 1 * s.posmtx 1 j +
          s.projmtx i 2 * s.posmtx 2 j + s.projmtx i 3 * s.posmtx 3 j) ∧
    (∀ u : GPU F,
      (u.cmd_fifo 0 % 256 = K.VTX_16 ∨ u.cmd_fifo 0 % 256 = K.VTX_10 ∨
        u.cmd_fifo 0 % 256 = K.VTX_XY ∨ u.cmd_fifo 0 % 256 = K.VTX_XZ ∨
        u.cmd_fifo 0 % 256 = K.VTX_YZ ∨ u.cmd_fifo 0 % 256 = K.VTX_DIFF) →
      u.n_verts ≠ K.MAX_VTX →
      (gxcmd_execute K u).n_verts = u.n_verts + 1 ∧
      (gxcmd_execute K u).vertexram u.n_verts =
        vecmul u.clipmtx (gxcmd_execute K u).cur_vtx ∧
      ∀ i : Fin 4, (gxcmd_execute K u).vertexram u.n_verts i =
        0 + u.clipmtx i 0 * (gxcmd_execute K u).cur_vtx 0 +
          u.clipmtx i 1 * (gxcmd_execute K u).cur_vtx 1 +
          u.clipmtx i 2 * (gxcmd_execute K u).cur_vtx 2 +
          u.clipmtx i 3 * (gxcmd_execute K u).cur_vtx 3) ∧
    (∀ (s : GPU F) (q : Nat) (cs : List Packet), Idle s → q < 4294967296 →
      (∀ c ∈ cs, VtxPacket K c) → s.n_verts + cs.length ≤ K.MAX_VTX →
      (submit K s [K.BEGIN_VTXS, q]).clipmtx = matmul s.posmtx s.projmtx ∧
      ∀ i, i < cs.length →
        (submit K s ([K.BEGIN_VTXS, q] ++ packetWords cs)).vertexram (s.n_verts + i) =
          vecmul (matmul s.posmtx s.projmtx)
            (submit K s ([K.BEGIN_VTXS, q] ++ packetWords (cs.take (i + 1)))).cur_vtx) ∧
    (∀ s : GPU F, s.cmd_fifo 0 % 256 = K.END_VTXS →
      (gxcmd_execute K s).mtx_mode = s.mtx_mode ∧
      (gxcmd_execute K s).projmtx = s.projmtx ∧
      (gxcmd_execute K s).posmtx = s.posmtx ∧
      (gxcmd_execute K s).vecmtx = s.vecmtx ∧
      (gxcmd_execute K s).clipmtx = s.clipmtx ∧
      (gxcmd_execute K s).projmtx_stk = s.projmtx_stk ∧
      (gxcmd_execute K s).posmtx_stk = s.posmtx_stk ∧
      (gxcmd_execute K s).vecmtx_stk = s.vecmtx_stk ∧
      (gxcmd_execute K s).projstk_size = s.projstk_size ∧
      (gxcmd_execute K s).mtxstk_size = s.mtxstk_size ∧
      (gxcmd_execute K s).cur_vtx = s.cur_vtx ∧
      (gxcmd_execute K s).cur_vtx_ct = s.cur_vtx_ct ∧
      (gxcmd_execute K s).poly_mode = s.poly_mode ∧
      (gxcmd_execute K s).vertexram = s.vertexram ∧
      (gxcmd_execute K s).n_verts = s.n_verts ∧
      (gxcmd_execute K s).polygonram = s.polygonram ∧
      (gxcmd_execute K s).n_polys = s.n_polys) := by
  refine ⟨?_, ?_, ?_, ?_⟩
  · intro s hcmd
    rw [gxcmd_execute_head K s _ hcmd, switch_BEGIN_VTXS K hK]
    exact ⟨rfl, rfl, rfl, fun i j => rfl⟩
  · intro u hop hn
    obtain ⟨v, hv⟩ := vtx_switch K hK u (u.cmd_fifo 0 % 256) hop
    rw [gxcmd_execute_head K u _ rfl, hv, add_vtx_eq K { u with cur_vtx := v } hn]
    refine ⟨rfl, ?_, ?_⟩
    · simp only [gxcmd_dequeue, Function.update_same]
    · intro i
      simp only [gxcmd_dequeue, Function.update_same]
      rfl
  · intro s q cs hi hq hcs hV
    obtain ⟨b1, -, -, b4, -, -, -, b8⟩ := write_begin K hK hbg s hi q hq
    refine ⟨b8, ?_⟩
    intro i hil
    obtain ⟨-, -, -, -, -, -, r7⟩ :=
      vtx_run K hK (submit K s [K.BEGIN_VTXS, q]) b1 cs hcs (by rw [b4]; exact hV)
    have h := r7 i hil
    rw [b4, b8, ← submit_append, ← submit_append] at h
    exact h
  · intro s hcmd
    rw [gxcmd_execute_head K s _ hcmd, switch_END_VTXS K hK]
    simp [gxcmd_dequeue]

end BeginEnd

section BeginEndExample

set_option maxRecDepth 16384

/-- Instance of `begin_end_vtxs` in binary32 on `beginState32`, `vtxState32`,
`clipState32` with one `VTX_16` packet, and `endState32`: the position
(1, 1, 1) is translated to (2, 1, 1) and scaled to (4, 2, 2, 1). -/
theorem begin_end_vtxs_witness :
    ndsHdr.Distinct ∧
    (0 < ndsHdr.BEGIN_VTXS ∧ ndsHdr.BEGIN_VTXS < 256 ∧ nparms ndsHdr.BEGIN_VTXS = 1) ∧
    beginState32.cmd_fifo 0 % 256 = ndsHdr.BEGIN_VTXS ∧
    vtxState32.cmd_fifo 0 % 256 = ndsHdr.VTX_16 ∧ vtxState32.n_verts ≠ ndsHdr.MAX_VTX ∧
    Idle clipState32 ∧ (∀ c ∈ [((0x23 : Nat), [0x10001000, 0x1000])], VtxPacket ndsHdr c) ∧
    endState32.cmd_fifo 0 % 256 = ndsHdr.END_VTXS ∧
    (gxcmd_execute ndsHdr beginState32).cur_vtx_ct = 0 ∧
    (gxcmd_execute ndsHdr beginState32).poly_mode = 5 &&& 3 ∧
    (gxcmd_execute ndsHdr beginState32).clipmtx =
      matmul beginState32.posmtx beginState32.projmtx ∧
    (gxcmd_execute ndsHdr vtxState32).vertexram 0 =
      vecmul vtxState32.clipmtx (gxcmd_execute ndsHdr vtxState32).cur_vtx ∧
    (submit ndsHdr clipState32
        ([0x40, 1] ++ packetWords [(0x23, [0x10001000, 0x1000])])).vertexram 0 =
      vecmul (matmul clipState32.posmtx clipState32.projmtx)
        (submit ndsHdr clipState32
          ([0x40, 1] ++ packetWords [(0x23, [0x10001000, 0x1000])])).cur_vtx ∧
    (∀ i : Fin 4, (submit ndsHdr clipState32
        ([0x40, 1] ++ packetWords [(0x23, [0x10001000, 0x1000])])).vertexram 0 i =
      if i = 0 then ((4 : Int) : F32) else if i = 3 then 1 else ((2 : Int) : F32)) ∧
    (gxcmd_execute ndsHdr endState32).clipmtx = endState32.clipmtx ∧
    (gxcmd_execute ndsHdr endState32).n_verts = 3 ∧
    (gxcmd_execute ndsHdr endState32).cur_vtx_ct = 3 ∧
    (gxcmd_execute ndsHdr endState32).n_polys = 1 :=
  have h := begin_end_vtxs (F := F32) ndsHdr (by decide) (by decide)
  have h1 := h.1 beginState32 (by decide)
  have h2 := h.2.1 vtxState32 (Or.inl (by decide)) (by decide)
  have h3 := (h.2.2.1 clipState32 1 [(0x23, [0x10001000, 0x1000])] (by decide) (by decide)
    (by decide) (by decide)).2 0 (by decide)
  have h4 := h.2.2.2 endState32 (by decide)
  ⟨by decide, by decide, by decide, by decide, by decide, by decide, by decide, by decide,
    h1.1, h1.2.1, h1.2.2.1, h2.2.1, h3, by decide, h4.2.2.2.2.1,
    h4.2.2.2.2.2.2.2.2.2.2.2.2.2.2.1, h4.2.2.2.2.2.2.2.2.2.2.2.1,
    h4.2.2.2.2.2.2.2.2.2.2.2.2.2.2.2.2⟩

/-- Claim C11 as stated fails in binary32 on the words `assocSetup`, which
make the Projection and the Position matrix both the identity scaled in x by
`a = 4097 / 4096`, followed by `BEGIN_VTXS` and the vertex (3, 0, 0): the
clip entry `[0][0]` is `a * a` rounded, `8392704 / 2^23 = 1 + 2^-11`, and the
stored `x` component `clip * v` is `12589056 / 2^22 = 3.00146484375`, whereas
`Projection * (Position * v)`, with the same `vecmul`, has `x` component
`12589057 / 2^22`. -/
theorem clip_assoc_counterexample :
    Idle zeroState32 ∧ Idle (submit ndsHdr zeroState32 assocSetup) ∧
    (submit ndsHdr zeroState32 (assocSetup ++ assocVertex)).projmtx =
      (submit ndsHdr zeroState32 assocSetup).projmtx ∧
    (submit ndsHdr zeroState32 (assocSetup ++ assocVertex)).posmtx =
      (submit ndsHdr zeroState32 assocSetup).posmtx ∧
    (submit ndsHdr zeroState32 (assocSetup ++ assocVertex)).clipmtx 0 0 =
      F32.fin false 8392704 (-23) ∧
    (submit ndsHdr zeroState32 (assocSetup ++ assocVertex)).vertexram 0 0 =
      F32.fin false 12589056 (-22) ∧
    vecmul (submit ndsHdr zeroState32 assocSetup).projmtx
      (vecmul (submit ndsHdr zeroState32 assocSetup).posmtx
        (submit ndsHdr zeroState32 (assocSetup ++ assocVertex)).cur_vtx) 0 =
      F32.fin false 12589057 (-22) ∧
    (submit ndsHdr zeroState32 (assocSetup ++ assocVertex)).vertexram 0 ≠
      vecmul (submit ndsHdr zeroState32 assocSetup).projmtx
        (vecmul (submit ndsHdr zeroState32 assocSetup).posmtx
          (submit ndsHdr zeroState32 (assocSetup ++ assocVertex)).cur_vtx) := by
  have e1 : (submit ndsHdr zeroState32 (assocSetup ++ assocVertex)).vertexram 0 0 =
      F32.fin false 12589056 (-22) := by decide
  have e2 : vecmul (submit ndsHdr zeroState32 assocSetup).projmtx
      (vecmul (submit ndsHdr zeroState32 assocSetup).posmtx
        (submit ndsHdr zeroState32 (assocSetup ++ assocVertex)).cur_vtx) 0 =
      F32.fin false 12589057 (-22) := by decide
  refine ⟨by decide, by decide, ?_, ?_, by decide, e1, e2, ?_⟩
  · funext i j
    revert i j
    decide
  · funext i j
    revert i j
    decide
  · intro h
    have h3 := congrFun h 0
    rw [e1, e2] at h3
    exact absurd h3 (by decide)

end BeginEndExample

section MultOrder

variable {F : Type} [Zero F] [One F] [Add F] [Sub F] [Mul F] [Div F] [IntCast F] [FloatOps F]

/-- The mode switch of the multiply commands: each current matrix of the mode
becomes the value `matmul` computes from it and the operand, the operand on
the right. -/
theorem mult_cur_spec (K : Hdr) (hK : K.Distinct) (s : GPU F) (m : Mat4 F) :
    RightMultiplied K s (mult_cur K s m) m := by
  obtain ⟨h1, h2, h3⟩ := hK.modes
  refine ⟨?_, ?_, ?_⟩
  · intro h
    simp only [mult_cur, h, if_true]
    exact ⟨fun i j => rfl, trivial, trivial⟩
  · intro h
    simp only [mult_cur, h, if_neg h1, if_true]
    exact ⟨fun i j => rfl, trivial, trivial⟩
  · intro h
    simp only [mult_cur, h, if_neg h2, if_neg h3, if_true]
    exact ⟨fun i j => rfl, fun i j => rfl, trivial⟩

theorem dequeue_right_multiplied (K : Hdr) (s t : GPU F) (cmd : Nat) (m : Mat4 F)
    (h : RightMultiplied K s t m) : RightMultiplied K s (gxcmd_dequeue K cmd t) m := h

/-- C12 (amended): for `MTX_MULT_44`, `MTX_MULT_43` and `MTX_MULT_33` in each
of the three matrix modes, the new current matrix is the product `C x M` as
`matmul` computes it, where `C` is the prior current matrix and `M` the
decoded operand matrix: entry `[i][j]` of the result is the sum accumulated
from `0` of `C[i][k] * M[k][j]`, and entry `[i][j]` of `M` is
`(s32) p / 4096.0f` for the parameter word `p` at index `4*j+i`, or `3*j+i`
for the affine forms, the affine forms completed by bottom row `(0,0,0,1)`
and, for 3x3, last column `(0,0,0,1)`: the current matrix is multiplied on the
right by the operand.  In PositionAndVector mode this holds of the Position
and of the Vector matrix.  Every operation, the conversion of the parameter
word included, is the one of `float`, whatever its rounding: no law of
arithmetic is assumed. -/
theorem mult_right_product (K : Hdr) (hK : K.Distinct) (s : GPU F) :
    (s.cmd_fifo 0 % 256 = K.MTX_MULT_44 →
      RightMultiplied K s (gxcmd_execute K s) (operand44 s.param_fifo)) ∧
    (s.cmd_fifo 0 % 256 = K.MTX_MULT_43 →
      RightMultiplied K s (gxcmd_execute K s) (operand43 s.param_fifo)) ∧
    (s.cmd_fifo 0 % 256 = K.MTX_MULT_33 →
      RightMultiplied K s (gxcmd_execute K s) (operand33 s.param_fifo)) ∧
    (∀ i j : Fin 4, (operand44 s.param_fifo : Mat4 F) i j =
      ((s32 (s.param_fifo (4 * j.val + i.val)) : Int) : F) / ((4096 : Int) : F)) ∧
    (∀ i j : Fin 4, (operand43 s.param_fifo : Mat4 F) i j =
      if i = 3 then (if j = 3 then 1 else 0)
      else ((s32 (s.param_fifo (3 * j.val + i.val)) : Int) : F) / ((4096 : Int) : F)) ∧
    (∀ i j : Fin 4, (operand33 s.param_fifo : Mat4 F) i j =
      if i = 3 ∨ j = 3 then (if i = 3 ∧ j = 3 then 1 else 0)
      else ((s32 (s.param_fifo (3 * j.val + i.val)) : Int) : F) / ((4096 : Int) : F)) := by
  refine ⟨?_, ?_, ?_, ?_, ?_, ?_⟩
  · intro hcmd
    rw [gxcmd_execute_head K s _ hcmd, switch_MTX_MULT_44 K hK]
    exact dequeue_right_multiplied K s _ _ _ (mult_cur_spec K hK s _)
  · intro hcmd
    rw [gxcmd_execute_head K s _ hcmd, switch_MTX_MULT_43 K hK]
    exact dequeue_right_multiplied K s _ _ _ (mult_cur_spec K hK s _)
  · intro hcmd
    rw [gxcmd_execute_head K s _ hcmd, switch_MTX_MULT_33 K hK]
    exact dequeue_right_multiplied K s _ _ _ (mult_cur_spec K hK s _)
  · intro i j
    rfl
  · intro i j
    fin_cases i <;> fin_cases j <;> simp [operand43, fix12]
  · intro i j
    fin_cases i <;> fin_cases j <;> simp [operand33, fix12]

end MultOrder

theorem fix12_one : (fix12 0x1000 : ℚ) = 1 := by
  rw [fix12, show s32 0x1000 = 4096 from by decide]; norm_num

theorem fix12_two : (fix12 0x2000 : ℚ) = 2 := by
  rw [fix12, show s32 0x2000 = 8192 from by decide]; norm_num

theorem fix12_zero : (fix12 0 : ℚ) = 0 := by
  rw [fix12, show s32 0 = 0 from by decide]; norm_num

/-- Claim C12 as stated fails on `multState`: with `C` the translation of x by
1 and `M` the scaling of x by 2, `MTX_MULT_44` leaves entry `[0][3]` of the
Position matrix equal to 1, the entry of `C x M`, whereas `M x C` has 2 there. -/
theorem mult_order_counterexample :
    multState.cmd_fifo 0 % 256 = ndsHdr.MTX_MULT_44 ∧ multState.mtx_mode = ndsHdr.MM_POS ∧
    (gxcmd_execute ndsHdr multState).posmtx 0 3 = 1 ∧
    (Matrix.of (operand44 multState.param_fifo) * Matrix.of multState.posmtx :
      Matrix (Fin 4) (Fin 4) ℚ) 0 3 = 2 ∧
    (gxcmd_execute ndsHdr multState).posmtx ≠
      Matrix.of (operand44 multState.param_fifo) * Matrix.of multState.posmtx := by
  have e1 : (gxcmd_execute ndsHdr multState).posmtx 0 3 = 1 := by
    rw [gxcmd_execute_head ndsHdr multState _ rfl,
      show multState.cmd_fifo 0 % 256 = ndsHdr.MTX_MULT_44 from by decide,
      switch_MTX_MULT_44 ndsHdr (by decide)]
    simp [gxcmd_dequeue, mult_cur, multState, zeroState, ndsHdr, matmul, operand44, fix12_one,
      fix12_zero, show ((3 : Fin 4) : ℕ) = 3 from rfl]
  have e2 : (Matrix.of (operand44 multState.param_fifo) * Matrix.of multState.posmtx :
      Matrix (Fin 4) (Fin 4) ℚ) 0 3 = 2 := by
    simp [Matrix.mul_apply, Fin.sum_univ_four, multState, zeroState, operand44, fix12_two,
      fix12_zero, show ((3 : Fin 4) : ℕ) = 3 from rfl]
  refine ⟨by decide, by decide, e1, e2, ?_⟩
  intro h
  have h3 := congrFun (congrFun h 0) 3
  rw [e1, e2] at h3
  norm_num at h3

section MultExample

set_option maxRecDepth 16384

/-- Instance of `mult_right_product` in binary32: `MTX_MULT_44` in Position
mode on `multState32`, `MTX_MULT_43` in Projection mode on `multState43x32`,
`MTX_MULT_33` in PositionAndVector mode on `multState33x32`.  On `multState32`
the Position matrix translates x by 1 and the operand scales x by
`a = 4097 / 4096`: the new entry `[0][0]` is `a` and the new entry `[0][3]` is
1, the entries of `C x M`. -/
theorem mult_right_product_witness :
    ndsHdr.Distinct ∧
    multState32.cmd_fifo 0 % 256 = ndsHdr.MTX_MULT_44 ∧ multState32.mtx_mode = ndsHdr.MM_POS ∧
    multState43x32.cmd_fifo 0 % 256 = ndsHdr.MTX_MULT_43 ∧
    multState43x32.mtx_mode = ndsHdr.MM_PROJ ∧
    multState33x32.cmd_fifo 0 % 256 = ndsHdr.MTX_MULT_33 ∧
    multState33x32.mtx_mode = ndsHdr.MM_POSVEC ∧
    (∀ i j : Fin 4, (gxcmd_execute ndsHdr multState32).posmtx i j =
      0 + multState32.posmtx i 0 * operand44 multState32.param_fifo 0 j +
        multState32.posmtx i 1 * operand44 multState32.param_fifo 1 j +
        multState32.posmtx i 2 * operand44 multState32.param_fifo 2 j +
        multState32.posmtx i 3 * operand44 multState32.param_fifo 3 j) ∧
    (∀ i j : Fin 4, (gxcmd_execute ndsHdr multState43x32).projmtx i j =
      0 + multState43x32.projmtx i 0 * operand43 multState43x32.param_fifo 0 j +
        multState43x32.projmtx i 1 * operand43 multState43x32.param_fifo 1 j +
        multState43x32.projmtx i 2 * operand43 multState43x32.param_fifo 2 j +
        multState43x32.projmtx i 3 * operand43 multState43x32.param_fifo 3 j) ∧
    (∀ i j : Fin 4, (gxcmd_execute ndsHdr multState33x32).vecmtx i j =
      0 + multState33x32.vecmtx i 0 * operand33 multState33x32.param_fifo 0 j +
        multState33x32.vecmtx i 1 * operand33 multState33x32.param_fifo 1 j +
        multState33x32.vecmtx i 2 * operand33 multState33x32.param_fifo 2 j +
        multState33x32.vecmtx i 3 * operand33 multState33x32.param_fifo 3 j) ∧
    (gxcmd_execute ndsHdr multState32).posmtx 0 0 = F32.fin false 8390656 (-23) ∧
    (gxcmd_execute ndsHdr multState32).posmtx 0 3 = 1 :=
  have h1 := ((mult_right_product ndsHdr (by decide) multState32).1 (by decide)).2.1 (by decide)
  have h2 :=
    ((mult_right_product ndsHdr (by decide) multState43x32).2.1 (by decide)).1 (by decide)
  have h3 :=
    ((mult_right_product ndsHdr (by decide) multState33x32).2.2.1 (by decide)).2.2 (by decide)
  ⟨by decide, by decide, by decide, by decide, by decide, by decide, by decide,
    h1.1, h2.1, h3.2.1, by decide, by decide⟩

end MultExample

theorem fin4_val_three : ((3 : Fin 4) : ℕ) = 3 := rfl

section Trans

variable {F : Type} [Zero F] [One F] [Add F] [Sub F] [Mul F] [Div F] [IntCast F] [FloatOps F]

/-- C13 (amended): in PositionAndVector mode, `MTX_TRANS` with any parameters
`(tx, ty, tz)` multiplies the translation matrix into the Position matrix and
into the Vector matrix alike: each becomes the product of its prior value `V`
and the translation matrix `T` as `matmul` computes it, entry `[i][j]` being
the sum accumulated from `0` of `V[i][k] * T[k][j]`, where `T` is the identity
except for `T[k][3] = (s32) p_k / 4096.0f`, `k = 0..2`, from the three
parameter words.  The Projection matrix is unchanged.  Every operation is the
one of `float`, whatever its rounding: no law of arithmetic is assumed (in
exact arithmetic only the last column of the Vector matrix changes, entry
`[i][3]` becoming `V[i][0]*tx + V[i][1]*ty + V[i][2]*tz + V[i][3]`). -/
theorem trans_posvec (K : Hdr) (hK : K.Distinct) (s : GPU F)
    (hcmd : s.cmd_fifo 0 % 256 = K.MTX_TRANS) (hmode : s.mtx_mode = K.MM_POSVEC) :
    (gxcmd_execute K s).posmtx = matmul (operandTrans s.param_fifo) s.posmtx ∧
    (gxcmd_execute K s).vecmtx = matmul (operandTrans s.param_fifo) s.vecmtx ∧
    (∀ i j : Fin 4, (gxcmd_execute K s).posmtx i j =
      0 + s.posmtx i 0 * operandTrans s.param_fifo 0 j +
        s.posmtx i 1 * operandTrans s.param_fifo 1 j +
        s.posmtx i 2 * operandTrans s.param_fifo 2 j +
        s.posmtx i 3 * operandTrans s.param_fifo 3 j) ∧
    (∀ i j : Fin 4, (gxcmd_execute K s).vecmtx i j =
      0 + s.vecmtx i 0 * operandTrans s.param_fifo 0 j +
        s.vecmtx i 1 * operandTrans s.param_fifo 1 j +
        s.vecmtx i 2 * operandTrans s.param_fifo 2 j +
        s.vecmtx i 3 * operandTrans s.param_fifo 3 j) ∧
    (gxcmd_execute K s).projmtx = s.projmtx ∧
    (∀ i j : Fin 4, (operandTrans s.param_fifo : Mat4 F) i j =
      if i = j then 1
      else if j = 3 then ((s32 (s.param_fifo i.val) : Int) : F) / ((4096 : Int) : F)
      else 0) := by
  obtain ⟨h1, h2, h3⟩ := hK.modes
  rw [gxcmd_execute_head K s _ hcmd, switch_MTX_TRANS K hK]
  simp only [gxcmd_dequeue, mult_cur, hmode, if_neg h2, if_neg h3, if_true]
  refine ⟨trivial, trivial, fun i j => rfl, fun i j => rfl, trivial, ?_⟩
  intro i j
  fin_cases i <;> fin_cases j <;> simp [operandTrans, fix12, fin4_val_three]

end Trans

/-- Claim C13 as stated fails on `transState`: `MTX_TRANS` by `(1, 0, 0)` in
PositionAndVector mode changes entry `[0][3]` of the Vector matrix from 0 to 1. -/
theorem trans_vector_counterexample :
    transState.cmd_fifo 0 % 256 = ndsHdr.MTX_TRANS ∧ transState.mtx_mode = ndsHdr.MM_POSVEC ∧
    transState.vecmtx 0 3 = 0 ∧ (gxcmd_execute ndsHdr transState).vecmtx 0 3 = 1 ∧
    (gxcmd_execute ndsHdr transState).vecmtx ≠ transState.vecmtx := by
  have e1 : (gxcmd_execute ndsHdr transState).vecmtx 0 3 = 1 := by
    rw [gxcmd_execute_head ndsHdr transState _ rfl,
      show transState.cmd_fifo 0 % 256 = ndsHdr.MTX_TRANS from by decide,
      switch_MTX_TRANS ndsHdr (by decide)]
    simp [gxcmd_dequeue, mult_cur, transState, zeroState, ndsHdr, matmul, operandTrans,
      fix12_one, fix12_zero, fin4_val_three]
  have e0 : transState.vecmtx 0 3 = 0 := by simp [transState]
  refine ⟨by decide, by decide, e0, e1, ?_⟩
  intro h
  have h3 := congrFun (congrFun h 0) 3
  rw [e1, e0] at h3
  norm_num at h3

section TransExample

set_option maxRecDepth 16384

/-- Instance of `trans_posvec` in binary32 on `transState32`: the translation
by `(1, 0, 0)` changes entry `[0][3]` of the Vector matrix from 0 to 1 and
leaves entry `[1][1]` equal to 1. -/
theorem trans_posvec_witness :
    ndsHdr.Distinct ∧ transState32.cmd_fifo 0 % 256 = ndsHdr.MTX_TRANS ∧
    transState32.mtx_mode = ndsHdr.MM_POSVEC ∧
    (gxcmd_execute ndsHdr transState32).vecmtx =
      matmul (operandTrans transState32.param_fifo) transState32.vecmtx ∧
    (gxcmd_execute ndsHdr transState32).projmtx = transState32.projmtx ∧
    transState32.vecmtx 0 3 = 0 ∧
    (gxcmd_execute ndsHdr transState32).vecmtx 0 3 = 1 ∧
    (gxcmd_execute ndsHdr transState32).vecmtx 1 1 = 1 :=
  have h := trans_posvec ndsHdr (by decide) transState32 (by decide) (by decide)
  ⟨by decide, by decide, by decide, h.2.1, h.2.2.2.2.1, by decide, by decide, by decide⟩

end TransExample

section PopUnderflow

variable {F : Type} [Zero F] [One F] [Add F] [Sub F] [Mul F] [Div F] [IntCast F] [FloatOps F]

/-- Case `MTX_POP` never writes the stack-error flag. -/
theorem mtx_pop_error (K : Hdr) (s : GPU F) : (mtx_pop K s).mtxstk_error = s.mtxstk_error := by
  unfold mtx_pop
  split_ifs <;> rfl

/-- C14 (amended): in Position or PositionAndVector mode, an `MTX_POP` whose
count `n` exceeds the current stack depth `d` (so the index `d - n` underflows
below 0 before wrapping modulo 32) leaves the sticky stack-error flag
`gxstat.mtxstk_error` as it was, set or clear; the depth becomes
`d - n + 32`. -/
theorem pop_underflow_silent (K : Hdr) (hK : K.Distinct) (s : GPU F)
    (hcmd : s.cmd_fifo 0 % 256 = K.MTX_POP)
    (hmode : s.mtx_mode = K.MM_POS ∨ s.mtx_mode = K.MM_POSVEC)
    (hd : s.mtxstk_size ≤ 31)
    (hn : (s.mtxstk_size : Int) < sext6 (s.param_fifo 0)) :
    (gxcmd_execute K s).mtxstk_error = s.mtxstk_error ∧
    ((gxcmd_execute K s).mtxstk_size : Int) =
      (s.mtxstk_size : Int) - sext6 (s.param_fifo 0) + 32 := by
  rw [gxcmd_execute_head K s _ hcmd, switch_MTX_POP K hK]
  refine ⟨mtx_pop_error K s, ?_⟩
  rw [mtx_pop_pos K hK s hmode]
  simp only [gxcmd_dequeue]
  rw [Int.toNat_of_nonneg (Int.emod_nonneg _ (by norm_num))]
  have := sext6_range (s.param_fifo 0)
  omega

end PopUnderflow

/-- Claim C14 as stated fails on `underflowState`: `MTX_POP` with count 2 at
depth 1 in Position mode leaves the stack-error flag clear (and the depth 31). -/
theorem pop_underflow_counterexample :
    underflowState.cmd_fifo 0 % 256 = ndsHdr.MTX_POP ∧ underflowState.mtx_mode = ndsHdr.MM_POS ∧
    underflowState.mtxstk_size = 1 ∧ sext6 (underflowState.param_fifo 0) = 2 ∧
    underflowState.mtxstk_error = false ∧
    (gxcmd_execute ndsHdr underflowState).mtxstk_error = false ∧
    (gxcmd_execute ndsHdr underflowState).mtxstk_size = 31 := by
  refine ⟨by decide, by decide, by decide, by decide, by decide, ?_, ?_⟩
  · rw [gxcmd_execute_head ndsHdr underflowState _ rfl,
      show underflowState.cmd_fifo 0 % 256 = ndsHdr.MTX_POP from by decide,
      switch_MTX_POP ndsHdr (by decide)]
    exact mtx_pop_error ndsHdr underflowState
  · rw [gxcmd_execute_head ndsHdr underflowState _ rfl,
      show underflowState.cmd_fifo 0 % 256 = ndsHdr.MTX_POP from by decide,
      switch_MTX_POP ndsHdr (by decide), mtx_pop_pos ndsHdr (by decide) _ (Or.inl (by decide))]
    simp only [gxcmd_dequeue]
    decide

/-- Instance of `pop_underflow_silent` on `underflowState`. -/
theorem pop_underflow_silent_witness :
    ndsHdr.Distinct ∧ underflowState.cmd_fifo 0 % 256 = ndsHdr.MTX_POP ∧
    (underflowState.mtx_mode = ndsHdr.MM_POS ∨ underflowState.mtx_mode = ndsHdr.MM_POSVEC) ∧
    underflowState.mtxstk_size ≤ 31 ∧
    (underflowState.mtxstk_size : Int) < sext6 (underflowState.param_fifo 0) ∧
    (gxcmd_execute ndsHdr underflowState).mtxstk_error = underflowState.mtxstk_error ∧
    ((gxcmd_execute ndsHdr underflowState).mtxstk_size : Int) =
      (underflowState.mtxstk_size : Int) - sext6 (underflowState.param_fifo 0) + 32 :=
  ⟨by decide, by decide, by decide, by decide, by decide,
    pop_underflow_silent ndsHdr (by decide) underflowState (by decide) (by decide) (by decide)
      (by decide)⟩

section ProjStack

variable {F : Type} [Zero F] [One F] [Add F] [Sub F] [Mul F] [Div F] [IntCast F] [FloatOps F]

/-- C15: in Projection mode, `MTX_PUSH` at depth 0 copies the current
Projection matrix to stack slot 0 and sets the depth to 1 (the matrix and the
error flag stay as they were); `MTX_PUSH` at depth 1 sets the stack-error flag
and leaves the Projection matrix, its stack slot and the depth unchanged;
`MTX_POP`, for every parameter value and every prior depth, sets the depth to 0
and the current Projection matrix to stack slot 0. -/
theorem proj_stack (K : Hdr) (hK : K.Distinct) (s : GPU F) (hmode : s.mtx_mode = K.MM_PROJ) :
    (s.cmd_fifo 0 % 256 = K.MTX_PUSH → s.projstk_size = 0 →
      (gxcmd_execute K s).projmtx_stk 0 = s.projmtx ∧
      (gxcmd_execute K s).projstk_size = 1 ∧
      (gxcmd_execute K s).projmtx = s.projmtx ∧
      (gxcmd_execute K s).mtxstk_error = s.mtxstk_error) ∧
    (s.cmd_fifo 0 % 256 = K.MTX_PUSH → s.projstk_size = 1 →
      (gxcmd_execute K s).mtxstk_error = true ∧
      (gxcmd_execute K s).projmtx = s.projmtx ∧
      (gxcmd_execute K s).projmtx_stk = s.projmtx_stk ∧
      (gxcmd_execute K s).projstk_size = 1) ∧
    (s.cmd_fifo 0 % 256 = K.MTX_POP →
      (gxcmd_execute K s).projstk_size = 0 ∧
      (gxcmd_execute K s).projmtx = s.projmtx_stk 0 ∧
      (gxcmd_execute K s).projmtx_stk = s.projmtx_stk) := by
  refine ⟨?_, ?_, ?_⟩
  · intro hcmd hd
    rw [gxcmd_execute_head K s _ hcmd, switch_MTX_PUSH K hK]
    simp [gxcmd_dequeue, mtx_push, hmode, hd]
  · intro hcmd hd
    rw [gxcmd_execute_head K s _ hcmd, switch_MTX_PUSH K hK]
    simp [gxcmd_dequeue, mtx_push, hmode, hd]
  · intro hcmd
    rw [gxcmd_execute_head K s _ hcmd, switch_MTX_POP K hK]
    simp [gxcmd_dequeue, mtx_pop, hmode]

end ProjStack

/-- Instance of `proj_stack`: a push at depth 0 on `projPushState`, a push at
depth 1 on `projFullState`, a pop with parameter 9 on `projPopState`. -/
theorem proj_stack_witness :
    ndsHdr.Distinct ∧
    projPushState.mtx_mode = ndsHdr.MM_PROJ ∧
    projPushState.cmd_fifo 0 % 256 = ndsHdr.MTX_PUSH ∧ projPushState.projstk_size = 0 ∧
    projFullState.mtx_mode = ndsHdr.MM_PROJ ∧
    projFullState.cmd_fifo 0 % 256 = ndsHdr.MTX_PUSH ∧ projFullState.projstk_size = 1 ∧
    projPopState.mtx_mode = ndsHdr.MM_PROJ ∧
    projPopState.cmd_fifo 0 % 256 = ndsHdr.MTX_POP ∧
    (gxcmd_execute ndsHdr projPushState).projmtx_stk 0 = projPushState.projmtx ∧
    (gxcmd_execute ndsHdr projPushState).projstk_size = 1 ∧
    (gxcmd_execute ndsHdr projFullState).mtxstk_error = true ∧
    (gxcmd_execute ndsHdr projFullState).projmtx_stk = projFullState.projmtx_stk ∧
    (gxcmd_execute ndsHdr projFullState).projstk_size = 1 ∧
    (gxcmd_execute ndsHdr projPopState).projstk_size = 0 ∧
    (gxcmd_execute ndsHdr projPopState).projmtx = projPopState.projmtx_stk 0 :=
  have h1 := (proj_stack ndsHdr (by decide) projPushState (by decide)).1 (by decide) (by decide)
  have h2 :=
    (proj_stack ndsHdr (by decide) projFullState (by decide)).2.1 (by decide) (by decide)
  have h3 := (proj_stack ndsHdr (by decide) projPopState (by decide)).2.2 (by decide)
  ⟨by decide, by decide, by decide, by decide, by decide, by decide, by decide, by decide,
    by decide, h1.1, h1.2.1, h2.1, h2.2.2.1, h2.2.2.2, h3.1, h3.2.1⟩

section MatrixRun

variable {F : Type} [Zero F] [One F] [Add F] [Sub F] [Mul F] [Div F] [IntCast F] [FloatOps F]

/-- The cases that reset, load, multiply, scale or translate the current
matrix write neither the matrix mode nor a stack slot. -/
theorem mtx_switch_frame (K : Hdr) (hK : K.Distinct) (s : GPU F) (op : Nat)
    (hop : op = K.MTX_IDENTITY ∨ op = K.MTX_LOAD_44 ∨ op = K.MTX_LOAD_43 ∨ op = K.MTX_MULT_44 ∨
      op = K.MTX_MULT_43 ∨ op = K.MTX_MULT_33 ∨ op = K.MTX_SCALE ∨ op = K.MTX_TRANS) :
    (gxcmd_switch K op s).mtx_mode = s.mtx_mode ∧
    (gxcmd_switch K op s).posmtx_stk = s.posmtx_stk ∧
    (gxcmd_switch K op s).vecmtx_stk = s.vecmtx_stk := by
  have hl : ∀ m, (load_cur K s m).mtx_mode = s.mtx_mode ∧
      (load_cur K s m).posmtx_stk = s.posmtx_stk ∧ (load_cur K s m).vecmtx_stk = s.vecmtx_stk := by
    intro m; unfold load_cur; split_ifs <;> exact ⟨rfl, rfl, rfl⟩
  have hm : ∀ m, (mult_cur K s m).mtx_mode = s.mtx_mode ∧
      (mult_cur K s m).posmtx_stk = s.posmtx_stk ∧ (mult_cur K s m).vecmtx_stk = s.vecmtx_stk := by
    intro m; unfold mult_cur; split_ifs <;> exact ⟨rfl, rfl, rfl⟩
  have hs : ∀ m, (scale_cur K s m).mtx_mode = s.mtx_mode ∧
      (scale_cur K s m).posmtx_stk = s.posmtx_stk ∧
      (scale_cur K s m).vecmtx_stk = s.vecmtx_stk := by
    intro m; unfold scale_cur; split_ifs <;> exact ⟨rfl, rfl, rfl⟩
  rcases hop with h | h | h | h | h | h | h | h <;> subst h
  · rw [switch_MTX_IDENTITY K hK]; exact hl _
  · rw [switch_MTX_LOAD_44 K hK]; exact hl _
  · rw [switch_MTX_LOAD_43 K hK]; exact hl _
  · rw [switch_MTX_MULT_44 K hK]; exact hm _
  · rw [switch_MTX_MULT_43 K hK]; exact hm _
  · rw [switch_MTX_MULT_33 K hK]; exact hm _
  · rw [switch_MTX_SCALE K hK]; exact hs _
  · rw [switch_MTX_TRANS K hK]; exact hm _

/-- One matrix packet written to an idle engine. -/
theorem mtx_step (K : Hdr) (hK : K.Distinct) (t : GPU F) (c : Packet) (hi : Idle t)
    (hc : MtxPacket K c) :
    Idle (submit K t (c.1 :: c.2)) ∧
    (submit K t (c.1 :: c.2)).mtx_mode = t.mtx_mode ∧
    (submit K t (c.1 :: c.2)).posmtx_stk = t.posmtx_stk ∧
    (submit K t (c.1 :: c.2)).vecmtx_stk = t.vecmtx_stk := by
  obtain ⟨hop, h0, h1, hn⟩ := hc
  obtain ⟨sz, e, h, f, q⟩ := submit_packet K t c.1 c.2 hi h0 h1 hn
  obtain ⟨f1, f2, f3⟩ := mtx_switch_frame K hK (loaded t c.1 c.2 sz e h f) c.1 hop
  refine ⟨submit_packet_idle K t c.1 c.2 hi h0 h1 hn, ?_, ?_, ?_⟩
  · rw [q]; exact f1
  · rw [q]; exact f2
  · rw [q]; exact f3

/-- Any number of matrix packets written to an idle engine. -/
theorem mtx_run (K : Hdr) (hK : K.Distinct) (s0 : GPU F) (hi : Idle s0) (cs : List Packet) :
    (∀ c ∈ cs, MtxPacket K c) →
    Idle (submit K s0 (packetWords cs)) ∧
    (submit K s0 (packetWords cs)).mtx_mode = s0.mtx_mode ∧
    (submit K s0 (packetWords cs)).posmtx_stk = s0.posmtx_stk ∧
    (submit K s0 (packetWords cs)).vecmtx_stk = s0.vecmtx_stk := by
  induction cs using List.reverseRecOn with
  | nil => intro _; exact ⟨hi, rfl, rfl, rfl⟩
  | append_singleton cs c ih =>
    intro hcs
    obtain ⟨i1, i2, i3, i4⟩ := ih (fun d hd => hcs d (List.mem_append_left _ hd))
    obtain ⟨w1, w2, w3, w4⟩ :=
      mtx_step K hK (submit K s0 (packetWords cs)) c i1 (hcs c (by simp))
    rw [packetWords_append, packetWords_single, submit_append]
    exact ⟨w1, w2.trans i2, w3.trans i3, w4.trans i4⟩

end MatrixRun

section StoreRestore

variable {F : Type} [Zero F] [One F] [Add F] [Sub F] [Mul F] [Div F] [IntCast F] [FloatOps F]

/-- Case `MTX_STORE` in Position or PositionAndVector mode. -/
theorem mtx_store_pos (K : Hdr) (hK : K.Distinct) (s : GPU F)
    (hmode : s.mtx_mode = K.MM_POS ∨ s.mtx_mode = K.MM_POSVEC) :
    mtx_store K s =
      { s with
        posmtx_stk := Function.update s.posmtx_stk (s.param_fifo 0 &&& 31) s.posmtx
        vecmtx_stk := Function.update s.vecmtx_stk (s.param_fifo 0 &&& 31) s.vecmtx } := by
  obtain ⟨h1, h2, -⟩ := hK.modes
  have hne : s.mtx_mode ≠ K.MM_PROJ := by
    rcases hmode with h | h <;> rw [h] <;> assumption
  simp [mtx_store, hne, hmode]

/-- Case `MTX_RESTORE` in Position or PositionAndVector mode. -/
theorem mtx_restore_pos (K : Hdr) (hK : K.Distinct) (s : GPU F)
    (hmode : s.mtx_mode = K.MM_POS ∨ s.mtx_mode = K.MM_POSVEC) :
    mtx_restore K s =
      { s with
        posmtx := s.posmtx_stk (s.param_fifo 0 &&& 31)
        vecmtx := s.vecmtx_stk (s.param_fifo 0 &&& 31) } := by
  obtain ⟨h1, h2, -⟩ := hK.modes
  have hne : s.mtx_mode ≠ K.MM_PROJ := by
    rcases hmode with h | h <;> rw [h] <;> assumption
  simp [mtx_restore, hne, hmode]

/-- The packet `MTX_STORE, p` written to an idle engine in Position or
PositionAndVector mode. -/
theorem write_store (K : Hdr) (hK : K.Distinct)
    (hst : 0 < K.MTX_STORE ∧ K.MTX_STORE < 256 ∧ nparms K.MTX_STORE = 1)
    (s : GPU F) (hi : Idle s) (hmode : s.mtx_mode = K.MM_POS ∨ s.mtx_mode = K.MM_POSVEC)
    (p : Nat) (hp : p < 4294967296) :
    Idle (submit K s [K.MTX_STORE, p]) ∧
    (submit K s [K.MTX_STORE, p]).mtx_mode = s.mtx_mode ∧
    (submit K s [K.MTX_STORE, p]).posmtx_stk (p &&& 31) = s.posmtx ∧
    (submit K s [K.MTX_STORE, p]).vecmtx_stk (p &&& 31) = s.vecmtx := by
  have hidle := submit_packet_idle K s K.MTX_STORE [p] hi hst.1 hst.2.1 (by simp [hst.2.2])
  obtain ⟨sz, e, h, f, heq⟩ :=
    submit_packet K s K.MTX_STORE [p] hi hst.1 hst.2.1 (by simp [hst.2.2])
  refine ⟨hidle, ?_⟩
  rw [heq, switch_MTX_STORE K hK, mtx_store_pos K hK _ (by simpa [loaded] using hmode)]
  simp [gxfifo_flags, gxcmd_dequeue, loaded, Nat.mod_eq_of_lt hp]

/-- The packet `MTX_RESTORE, p` written to an idle engine in Position or
PositionAndVector mode. -/
theorem write_restore (K : Hdr) (hK : K.Distinct)
    (hrs : 0 < K.MTX_RESTORE ∧ K.MTX_RESTORE < 256 ∧ nparms K.MTX_RESTORE = 1)
    (s : GPU F) (hi : Idle s) (hmode : s.mtx_mode = K.MM_POS ∨ s.mtx_mode = K.MM_POSVEC)
    (p : Nat) (hp : p < 4294967296) :
    (submit K s [K.MTX_RESTORE, p]).posmtx = s.posmtx_stk (p &&& 31) ∧
    (submit K s [K.MTX_RESTORE, p]).vecmtx = s.vecmtx_stk (p &&& 31) := by
  obtain ⟨sz, e, h, f, heq⟩ :=
    submit_packet K s K.MTX_RESTORE [p] hi hrs.1 hrs.2.1 (by simp [hrs.2.2])
  rw [heq, switch_MTX_RESTORE K hK, mtx_restore_pos K hK _ (by simpa [loaded] using hmode)]
  simp [gxfifo_flags, gxcmd_dequeue, loaded, Nat.mod_eq_of_lt hp]

/-- C16: in Position or PositionAndVector mode, `MTX_STORE` with parameter `p`
writes the current Position and Vector matrices to stack slot `p & 31` (no
other slot changes) and `MTX_RESTORE` with parameter `p` reads them back from
slot `p & 31`; neither changes the stack depth or the stack-error flag; and
`MTX_STORE` with parameter `p` followed later by `MTX_RESTORE` with a
parameter designating the same slot, with only matrix load, multiply, scale,
translate and identity commands in between, restores the current Position and
Vector matrices to their values at the store. -/
theorem store_restore (K : Hdr) (hK : K.Distinct)
    (hst : 0 < K.MTX_STORE ∧ K.MTX_STORE < 256 ∧ nparms K.MTX_STORE = 1)
    (hrs : 0 < K.MTX_RESTORE ∧ K.MTX_RESTORE < 256 ∧ nparms K.MTX_RESTORE = 1) :
    (∀ s : GPU F, s.cmd_fifo 0 % 256 = K.MTX_STORE →
      (s.mtx_mode = K.MM_POS ∨ s.mtx_mode = K.MM_POSVEC) →
      (gxcmd_execute K s).posmtx_stk (s.param_fifo 0 &&& 31) = s.posmtx ∧
      (gxcmd_execute K s).vecmtx_stk (s.param_fifo 0 &&& 31) = s.vecmtx ∧
      (∀ j, j ≠ s.param_fifo 0 &&& 31 →
        (gxcmd_execute K s).posmtx_stk j = s.posmtx_stk j ∧
        (gxcmd_execute K s).vecmtx_stk j = s.vecmtx_stk j) ∧
      (gxcmd_execute K s).posmtx = s.posmtx ∧ (gxcmd_execute K s).vecmtx = s.vecmtx ∧
      (gxcmd_execute K s).mtxstk_size = s.mtxstk_size ∧
      (gxcmd_execute K s).stat_mtxstk_size = s.stat_mtxstk_size ∧
      (gxcmd_execute K s).mtxstk_error = s.mtxstk_error) ∧
    (∀ s : GPU F, s.cmd_fifo 0 % 256 = K.MTX_RESTORE →
      (s.mtx_mode = K.MM_POS ∨ s.mtx_mode = K.MM_POSVEC) →
      (gxcmd_execute K s).posmtx = s.posmtx_stk (s.param_fifo 0 &&& 31) ∧
      (gxcmd_execute K s).vecmtx = s.vecmtx_stk (s.param_fifo 0 &&& 31) ∧
      (gxcmd_execute K s).posmtx_stk = s.posmtx_stk ∧
      (gxcmd_execute K s).vecmtx_stk = s.vecmtx_stk ∧
      (gxcmd_execute K s).mtxstk_size = s.mtxstk_size ∧
      (gxcmd_execute K s).stat_mtxstk_size = s.stat_mtxstk_size ∧
      (gxcmd_execute K s).mtxstk_error = s.mtxstk_error) ∧
    (∀ (s : GPU F) (p r : Nat) (cs : List Packet), Idle s →
      (s.mtx_mode = K.MM_POS ∨ s.mtx_mode = K.MM_POSVEC) →
      p < 4294967296 → r < 4294967296 → r &&& 31 = p &&& 31 → (∀ c ∈ cs, MtxPacket K c) →
      (submit K s ([K.MTX_STORE, p] ++ packetWords cs ++ [K.MTX_RESTORE, r])).posmtx = s.posmtx ∧
      (submit K s ([K.MTX_STORE, p] ++ packetWords cs ++ [K.MTX_RESTORE, r])).vecmtx =
        s.vecmtx) := by
  refine ⟨?_, ?_, ?_⟩
  · intro s hcmd hmode
    rw [gxcmd_execute_head K s _ hcmd, switch_MTX_STORE K hK, mtx_store_pos K hK s hmode]
    simp only [gxcmd_dequeue, Function.update_same]
    refine ⟨trivial, trivial, ?_, trivial, trivial, trivial, trivial, trivial⟩
    intro j hj
    rw [Function.update_noteq hj, Function.update_noteq hj]
    exact ⟨rfl, rfl⟩
  · intro s hcmd hmode
    rw [gxcmd_execute_head K s _ hcmd, switch_MTX_RESTORE K hK, mtx_restore_pos K hK s hmode]
    simp [gxcmd_dequeue]
  · intro s p r cs hi hmode hp hr hrp hcs
    obtain ⟨a1, a2, a3, a4⟩ := write_store K hK hst s hi hmode p hp
    obtain ⟨b1, b2, b3, b4⟩ := mtx_run K hK (submit K s [K.MTX_STORE, p]) a1 cs hcs
    rw [← submit_append] at b1 b2 b3 b4
    have hm : (submit K s ([K.MTX_STORE, p] ++ packetWords cs)).mtx_mode = K.MM_POS ∨
        (submit K s ([K.MTX_STORE, p] ++ packetWords cs)).mtx_mode = K.MM_POSVEC := by
      rw [b2, a2]; exact hmode
    obtain ⟨c1, c2⟩ :=
      write_restore K hK hrs (submit K s ([K.MTX_STORE, p] ++ packetWords cs)) b1 hm r hr
    rw [submit_append, c1, c2, b3, b4, hrp, a3, a4]
    exact ⟨rfl, rfl⟩

end StoreRestore

/-- Instance of `store_restore`: a store to slot 5 on `storeExecState`, a
restore from slot 5 on `restoreExecState`, and on `storeState` a store to slot
5, an identity, a scale, a translation and a restore from slot 5 (sent with
parameter `0x25`). -/
theorem store_restore_witness :
    ndsHdr.Distinct ∧
    (0 < ndsHdr.MTX_STORE ∧ ndsHdr.MTX_STORE < 256 ∧ nparms ndsHdr.MTX_STORE = 1) ∧
    (0 < ndsHdr.MTX_RESTORE ∧ ndsHdr.MTX_RESTORE < 256 ∧ nparms ndsHdr.MTX_RESTORE = 1) ∧
    storeExecState.cmd_fifo 0 % 256 = ndsHdr.MTX_STORE ∧
    (storeExecState.mtx_mode = ndsHdr.MM_POS ∨ storeExecState.mtx_mode = ndsHdr.MM_POSVEC) ∧
    restoreExecState.cmd_fifo 0 % 256 = ndsHdr.MTX_RESTORE ∧
    (restoreExecState.mtx_mode = ndsHdr.MM_POS ∨
      restoreExecState.mtx_mode = ndsHdr.MM_POSVEC) ∧
    Idle storeState ∧
    (storeState.mtx_mode = ndsHdr.MM_POS ∨ storeState.mtx_mode = ndsHdr.MM_POSVEC) ∧
    (0x25 : Nat) &&& 31 = 5 &&& 31 ∧ (∀ c ∈ matrixPackets, MtxPacket ndsHdr c) ∧
    storeExecState.param_fifo 0 &&& 31 = 5 ∧
    (gxcmd_execute ndsHdr storeExecState).posmtx_stk 5 = storeExecState.posmtx ∧
    (gxcmd_execute ndsHdr storeExecState).mtxstk_size = 2 ∧
    (gxcmd_execute ndsHdr restoreExecState).posmtx = restoreExecState.posmtx_stk 5 ∧
    (gxcmd_execute ndsHdr restoreExecState).mtxstk_size = 2 ∧
    (submit ndsHdr storeState ([0x13, 5] ++ packetWords matrixPackets ++ [0x14, 0x25])).posmtx =
      storeState.posmtx ∧
    (submit ndsHdr storeState ([0x13, 5] ++ packetWords matrixPackets ++ [0x14, 0x25])).vecmtx =
      storeState.vecmtx :=
  have h := store_restore (F := ℚ) ndsHdr (by decide) (by decide) (by decide)
  have h1 := h.1 storeExecState (by decide) (by decide)
  have h2 := h.2.1 restoreExecState (by decide) (by decide)
  have h3 := h.2.2 storeState 5 0x25 matrixPackets (by decide) (by decide) (by decide)
    (by decide) (by decide) (by decide)
  ⟨by decide, by decide, by decide, by decide, by decide, by decide, by decide, by decide,
    by decide, by decide, by decide, by decide, h1.1, h1.2.2.2.2.2.1, h2.1, h2.2.2.2.2.1,
    h3.1, h3.2⟩

section Quads

variable {F : Type} [Zero F] [One F] [Add F] [Sub F] [Mul F] [Div F] [IntCast F] [FloatOps F]

/-- The polygon part of `add_vtx` in Quads mode, below vertex capacity. -/
theorem add_vtx_quads (K : Hdr) (hK : K.Distinct) (u : GPU F) (hm : u.poly_mode = K.POLY_QUADS)
    (hn : u.n_verts ≠ K.MAX_VTX) :
    (add_vtx K u).n_polys =
      (if (u.cur_vtx_ct + 1) % 4 = 0 ∧ u.n_polys ≠ K.MAX_POLY then u.n_polys + 1
        else u.n_polys) ∧
    (add_vtx K u).polygonram =
      (if (u.cur_vtx_ct + 1) % 4 = 0 ∧ u.n_polys ≠ K.MAX_POLY then
        Function.update u.polygonram u.n_polys
          ⟨some (((u.n_verts + 1 : Nat) : Int) - 4), some (((u.n_verts + 1 : Nat) : Int) - 3),
            some (((u.n_verts + 1 : Nat) : Int) - 2), some (((u.n_verts + 1 : Nat) : Int) - 1)⟩
        else u.polygonram) := by
  obtain ⟨p1, -, -, -, -, -⟩ := hK.polys
  unfold add_vtx
  rw [if_neg hn]
  simp only [hm, if_true, p1, if_false]
  by_cases h4 : (u.cur_vtx_ct + 1) % 4 = 0
  · rw [if_pos h4]
    unfold add_poly
    by_cases hp : u.n_polys = K.MAX_POLY
    · simp [hp]
    · simp [hp, h4]
  · rw [if_neg h4]
    simp [h4]

/-- State of the engine after `cs.length` vertex packets in Quads mode. -/
theorem quads_run (K : Hdr) (hK : K.Distinct) (s0 : GPU F) (hi : Idle s0)
    (hm : s0.poly_mode = K.POLY_QUADS) (hct : s0.cur_vtx_ct = 0) (cs : List Packet) :
    (∀ c ∈ cs, VtxPacket K c) → s0.n_verts + cs.length ≤ K.MAX_VTX →
    s0.n_polys + cs.length / 4 ≤ K.MAX_POLY →
    Idle (submit K s0 (packetWords cs)) ∧
    (submit K s0 (packetWords cs)).poly_mode = K.POLY_QUADS ∧
    (submit K s0 (packetWords cs)).cur_vtx_ct = cs.length ∧
    (submit K s0 (packetWords cs)).n_verts = s0.n_verts + cs.length ∧
    (submit K s0 (packetWords cs)).n_polys = s0.n_polys + cs.length / 4 ∧
    (∀ j, (submit K s0 (packetWords cs)).polygonram j =
      if s0.n_polys ≤ j ∧ j < s0.n_polys + cs.length / 4 then
        quad (s0.n_verts + 4 * (j - s0.n_polys)) (s0.n_verts + 4 * (j - s0.n_polys) + 1)
          (s0.n_verts + 4 * (j - s0.n_polys) + 2) (s0.n_verts + 4 * (j - s0.n_polys) + 3)
      else s0.polygonram j) := by
  induction cs using List.reverseRecOn with
  | nil =>
    intro _ _ _
    refine ⟨hi, hm, hct, rfl, rfl, ?_⟩
    intro j; rw [if_neg (by simp)]; rfl
  | append_singleton cs c ih =>
    intro hcs hV hP
    rw [List.length_append, List.length_singleton] at hV hP
    have hP0 : s0.n_polys + cs.length / 4 ≤ K.MAX_POLY := by
      have : cs.length / 4 ≤ (cs.length + 1) / 4 := Nat.div_le_div_right (Nat.le_succ _)
      omega
    obtain ⟨i1, i2, i3, i4, i5, i6⟩ :=
      ih (fun d hd => hcs d (List.mem_append_left _ hd)) (by omega) hP0
    have hc : VtxPacket K c := hcs c (by simp)
    rw [packetWords_append, packetWords_single, submit_append]
    obtain ⟨w1, w2, w3, w4, -, -, u, u1, u2, u3, u4, u5, w7, w8⟩ :=
      vtx_step K hK (submit K s0 (packetWords cs)) c i1 hc (by rw [i4]; omega)
    obtain ⟨a1, a2⟩ := add_vtx_quads K hK u (by rw [u1, i2]) (by rw [u3, i4]; omega)
    simp only [u2, u3, u4, u5, i3, i4, i5] at a1 a2
    rw [List.length_append, List.length_singleton]
    refine ⟨w1, w2.trans i2, by rw [w3, i3], by rw [w4, i4]; omega, ?_, ?_⟩
    · rw [w7, a1]
      by_cases h3 : (cs.length + 1) % 4 = 0
      · rw [if_pos ⟨h3, by omega⟩]; omega
      · rw [if_neg (fun h => h3 h.1)]; omega
    · intro j
      rw [w8, a2]
      by_cases h3 : (cs.length + 1) % 4 = 0
      · rw [if_pos ⟨h3, by omega⟩]
        by_cases hj : j = s0.n_polys + cs.length / 4
        · subst hj
          rw [Function.update_same, if_pos (by omega)]
          unfold quad
          congr 2 <;> push_cast <;> omega
        · rw [Function.update_noteq hj, i6]
          by_cases h4 : s0.n_polys ≤ j ∧ j < s0.n_polys + cs.length / 4
          · rw [if_pos h4, if_pos (by omega)]
          · rw [if_neg h4, if_neg (by omega)]
      · rw [if_neg (fun h => h3 h.1), i6]
        by_cases h4 : s0.n_polys ≤ j ∧ j < s0.n_polys + cs.length / 4
        · rw [if_pos h4, if_pos (by omega)]
        · rw [if_neg h4, if_neg (by omega)]

end Quads

section QuadStrip

variable {F : Type} [Zero F] [One F] [Add F] [Sub F] [Mul F] [Div F] [IntCast F] [FloatOps F]

/-- The polygon part of `add_vtx` in QuadStrip mode, below vertex capacity. -/
theorem add_vtx_qstrip (K : Hdr) (hK : K.Distinct) (u : GPU F)
    (hm : u.poly_mode = K.POLY_QUAD_STRIP) (hn : u.n_verts ≠ K.MAX_VTX) :
    (add_vtx K u).n_polys =
      (if (4 ≤ u.cur_vtx_ct + 1 ∧ (u.cur_vtx_ct + 1) % 2 = 0) ∧ u.n_polys ≠ K.MAX_POLY then
        u.n_polys + 1 else u.n_polys) ∧
    (add_vtx K u).polygonram =
      (if (4 ≤ u.cur_vtx_ct + 1 ∧ (u.cur_vtx_ct + 1) % 2 = 0) ∧ u.n_polys ≠ K.MAX_POLY then
        Function.update u.polygonram u.n_polys
          ⟨some (((u.n_verts + 1 : Nat) : Int) - 2), some (((u.n_verts + 1 : Nat) : Int) - 4),
            some (((u.n_verts + 1 : Nat) : Int) - 3), some (((u.n_verts + 1 : Nat) : Int) - 1)⟩
        else u.polygonram) := by
  obtain ⟨-, -, -, p4, p5, p6⟩ := hK.polys
  unfold add_vtx
  rw [if_neg hn]
  simp only [hm, if_true, p4, p5, p6, if_false, Nat.and_one_is_mod]
  by_cases h4 : 4 ≤ u.cur_vtx_ct + 1 ∧ (u.cur_vtx_ct + 1) % 2 = 0
  · have h5 : u.cur_vtx_ct + 1 ≥ 4 ∧ ¬ (u.cur_vtx_ct + 1) % 2 ≠ 0 := by omega
    rw [if_pos h5]
    unfold add_poly
    by_cases hp : u.n_polys = K.MAX_POLY
    · simp [hp]
    · simp [hp, h4]
  · have h5 : ¬ (u.cur_vtx_ct + 1 ≥ 4 ∧ ¬ (u.cur_vtx_ct + 1) % 2 ≠ 0) := by omega
    rw [if_neg h5, if_neg (fun h => h4 h.1), if_neg (fun h => h4 h.1)]
    exact ⟨rfl, rfl⟩

/-- State of the engine after `cs.length` vertex packets in QuadStrip mode. -/
theorem qstrip_run (K : Hdr) (hK : K.Distinct) (s0 : GPU F) (hi : Idle s0)
    (hm : s0.poly_mode = K.POLY_QUAD_STRIP) (hct : s0.cur_vtx_ct = 0) (cs : List Packet) :
    (∀ c ∈ cs, VtxPacket K c) → s0.n_verts + cs.length ≤ K.MAX_VTX →
    s0.n_polys + (cs.length - 2) / 2 ≤ K.MAX_POLY →
    Idle (submit K s0 (packetWords cs)) ∧
    (submit K s0 (packetWords cs)).poly_mode = K.POLY_QUAD_STRIP ∧
    (submit K s0 (packetWords cs)).cur_vtx_ct = cs.length ∧
    (submit K s0 (packetWords cs)).n_verts = s0.n_verts + cs.length ∧
    (submit K s0 (packetWords cs)).n_polys = s0.n_polys + (cs.length - 2) / 2 ∧
    (∀ j, (submit K s0 (packetWords cs)).polygonram j =
      if s0.n_polys ≤ j ∧ j < s0.n_polys + (cs.length - 2) / 2 then
        quad (s0.n_verts + 2 * (j - s0.n_polys) + 2) (s0.n_verts + 2 * (j - s0.n_polys))
          (s0.n_verts + 2 * (j - s0.n_polys) + 1) (s0.n_verts + 2 * (j - s0.n_polys) + 3)
      else s0.polygonram j) := by
  induction cs using List.reverseRecOn with
  | nil =>
    intro _ _ _
    refine ⟨hi, hm, hct, rfl, rfl, ?_⟩
    intro j; rw [if_neg (by simp)]; rfl
  | append_singleton cs c ih =>
    intro hcs hV hP
    rw [List.length_append, List.length_singleton] at hV hP
    obtain ⟨i1, i2, i3, i4, i5, i6⟩ :=
      ih (fun d hd => hcs d (List.mem_append_left _ hd)) (by omega) (by omega)
    have hc : VtxPacket K c := hcs c (by simp)
    rw [packetWords_append, packetWords_single, submit_append]
    obtain ⟨w1, w2, w3, w4, -, -, u, u1, u2, u3, u4, u5, w7, w8⟩ :=
      vtx_step K hK (submit K s0 (packetWords cs)) c i1 hc (by rw [i4]; omega)
    obtain ⟨a1, a2⟩ := add_vtx_qstrip K hK u (by rw [u1, i2]) (by rw [u3, i4]; omega)
    simp only [u2, u3, u4, u5, i3, i4, i5] at a1 a2
    rw [List.length_append, List.length_singleton]
    refine ⟨w1, w2.trans i2, by rw [w3, i3], by rw [w4, i4]; omega, ?_, ?_⟩
    · rw [w7, a1]
      by_cases h3 : 4 ≤ cs.length + 1 ∧ (cs.length + 1) % 2 = 0
      · have hne : s0.n_polys + (cs.length - 2) / 2 ≠ K.MAX_POLY := by omega
        rw [if_pos ⟨h3, hne⟩]; omega
      · rw [if_neg (fun h => h3 h.1)]; omega
    · intro j
      rw [w8, a2]
      by_cases h3 : 4 ≤ cs.length + 1 ∧ (cs.length + 1) % 2 = 0
      · have hne : s0.n_polys + (cs.length - 2) / 2 ≠ K.MAX_POLY := by omega
        rw [if_pos ⟨h3, hne⟩]
        by_cases hj : j = s0.n_polys + (cs.length - 2) / 2
        · subst hj
          have hr : s0.n_polys ≤ s0.n_polys + (cs.length - 2) / 2 ∧
              s0.n_polys + (cs.length - 2) / 2 < s0.n_polys + (cs.length + 1 - 2) / 2 := by omega
          rw [Function.update_same, if_pos hr]
          unfold quad
          congr 2 <;> push_cast <;> omega
        · rw [Function.update_noteq hj, i6]
          by_cases h4 : s0.n_polys ≤ j ∧ j < s0.n_polys + (cs.length - 2) / 2
          · have h5 : s0.n_polys ≤ j ∧ j < s0.n_polys + (cs.length + 1 - 2) / 2 := by omega
            rw [if_pos h4, if_pos h5]
          · have h5 : ¬ (s0.n_polys ≤ j ∧ j < s0.n_polys + (cs.length + 1 - 2) / 2) := by omega
            rw [if_neg h4, if_neg h5]
      · rw [if_neg (fun h => h3 h.1), i6]
        by_cases h4 : s0.n_polys ≤ j ∧ j < s0.n_polys + (cs.length - 2) / 2
        · have h5 : s0.n_polys ≤ j ∧ j < s0.n_polys + (cs.length + 1 - 2) / 2 := by omega
          rw [if_pos h4, if_pos h5]
        · have h5 : ¬ (s0.n_polys ≤ j ∧ j < s0.n_polys + (cs.length + 1 - 2) / 2) := by omega
          rw [if_neg h4, if_neg h5]

end QuadStrip

section QuadsClaim

variable {F : Type} [Zero F] [One F] [Add F] [Sub F] [Mul F] [Div F] [IntCast F] [FloatOps F]

/-- A vertex stored by a run of vertex packets is the one its own packet
stored: later packets of the run do not rewrite it. -/
theorem vtx_run_persist (K : Hdr) (hK : K.Distinct) (s0 : GPU F) (hi : Idle s0)
    (cs : List Packet) (hcs : ∀ c ∈ cs, VtxPacket K c)
    (hV : s0.n_verts + cs.length ≤ K.MAX_VTX) (i : Nat) (hil : i < cs.length) :
    (submit K s0 (packetWords cs)).vertexram (s0.n_verts + i) =
      (submit K s0 (packetWords (cs.take (i + 1)))).vertexram (s0.n_verts + i) := by
  obtain ⟨-, -, -, -, -, -, r7⟩ := vtx_run K hK s0 hi cs hcs hV
  have hlen : (cs.take (i + 1)).length = i + 1 := by
    rw [List.length_take]; omega
  obtain ⟨-, -, -, -, -, -, t7⟩ := vtx_run K hK s0 hi (cs.take (i + 1))
    (fun c hc => hcs c (List.mem_of_mem_take hc)) (by rw [hlen]; omega)
  have h2 := t7 i (by rw [hlen]; omega)
  rw [List.take_take, Nat.min_self] at h2
  rw [r7 i hil, h2]

/-- C17: after `BEGIN_VTXS` selecting Quads, `n` vertices `V0..V(n-1)` yield
exactly `floor(n/4)` quadrilaterals, the `k`-th being
`(V(4k), V(4k+1), V(4k+2), V(4k+3))`; after `BEGIN_VTXS` selecting QuadStrip,
`n` vertices yield exactly `floor((n-2)/2)` quadrilaterals, one at each even
count `c >= 4`, with references `(V(c-2), V(c-4), V(c-3), V(c-1))` (stores
below capacity).  Vertex `Vi` is the entry `n_verts + i` of the vertex store,
written by the `i`-th command and not rewritten afterwards; the polygons
stored before are untouched. -/
theorem quads_assembly (K : Hdr) (hK : K.Distinct)
    (hbg : 0 < K.BEGIN_VTXS ∧ K.BEGIN_VTXS < 256 ∧ nparms K.BEGIN_VTXS = 1)
    (s : GPU F) (hi : Idle s) (q : Nat) (hq32 : q < 4294967296)
    (cs : List Packet) (hcs : ∀ c ∈ cs, VtxPacket K c)
    (hV : s.n_verts + cs.length ≤ K.MAX_VTX) :
    (q &&& 3 = K.POLY_QUADS → s.n_polys + cs.length / 4 ≤ K.MAX_POLY →
      (submit K s ([K.BEGIN_VTXS, q] ++ packetWords cs)).n_polys = s.n_polys + cs.length / 4 ∧
      (∀ k, k < cs.length / 4 →
        (submit K s ([K.BEGIN_VTXS, q] ++ packetWords cs)).polygonram (s.n_polys + k) =
          quad (s.n_verts + 4 * k) (s.n_verts + 4 * k + 1) (s.n_verts + 4 * k + 2)
            (s.n_verts + 4 * k + 3)) ∧
      (∀ j, j < s.n_polys →
        (submit K s ([K.BEGIN_VTXS, q] ++ packetWords cs)).polygonram j = s.polygonram j)) ∧
    (q &&& 3 = K.POLY_QUAD_STRIP → s.n_polys + (cs.length - 2) / 2 ≤ K.MAX_POLY →
      (submit K s ([K.BEGIN_VTXS, q] ++ packetWords cs)).n_polys =
        s.n_polys + (cs.length - 2) / 2 ∧
      (∀ c, 4 ≤ c → c % 2 = 0 → c ≤ cs.length →
        (submit K s ([K.BEGIN_VTXS, q] ++ packetWords cs)).polygonram
            (s.n_polys + (c - 4) / 2) =
          quad (s.n_verts + (c - 2)) (s.n_verts + (c - 4)) (s.n_verts + (c - 3))
            (s.n_verts + (c - 1))) ∧
      (∀ j, j < s.n_polys →
        (submit K s ([K.BEGIN_VTXS, q] ++ packetWords cs)).polygonram j = s.polygonram j)) ∧
    (submit K s ([K.BEGIN_VTXS, q] ++ packetWords cs)).n_verts = s.n_verts + cs.length ∧
    (∀ i, i < cs.length →
      (submit K s ([K.BEGIN_VTXS, q] ++ packetWords cs)).vertexram (s.n_verts + i) =
        (submit K s ([K.BEGIN_VTXS, q] ++ packetWords (cs.take (i + 1)))).vertexram
          (s.n_verts + i)) := by
  obtain ⟨b1, b2, b3, b4, b5, b6, -, -⟩ := write_begin K hK hbg s hi q hq32
  have hV0 : (submit K s [K.BEGIN_VTXS, q]).n_verts + cs.length ≤ K.MAX_VTX := by
    rw [b4]; exact hV
  rw [submit_append]
  refine ⟨?_, ?_, ?_, ?_⟩
  · intro hq hP
    obtain ⟨-, -, -, -, r5, r6⟩ :=
      quads_run K hK (submit K s [K.BEGIN_VTXS, q]) b1 (by rw [b2, hq]) b3 cs hcs hV0
        (by rw [b5]; exact hP)
    simp only [b4, b5] at r5 r6
    refine ⟨r5, ?_, ?_⟩
    · intro k hk
      rw [r6, if_pos (by omega), Nat.add_sub_cancel_left]
    · intro j hj
      rw [r6, if_neg (by omega), b6]
  · intro hq hP
    obtain ⟨-, -, -, -, r5, r6⟩ :=
      qstrip_run K hK (submit K s [K.BEGIN_VTXS, q]) b1 (by rw [b2, hq]) b3 cs hcs hV0
        (by rw [b5]; exact hP)
    simp only [b4, b5] at r5 r6
    refine ⟨r5, ?_, ?_⟩
    · intro c h4 he hc
      have hr : s.n_polys ≤ s.n_polys + (c - 4) / 2 ∧
          s.n_polys + (c - 4) / 2 < s.n_polys + (cs.length - 2) / 2 := by omega
      rw [r6, if_pos hr, Nat.add_sub_cancel_left]
      unfold quad
      congr 2 <;> push_cast <;> omega
    · intro j hj
      rw [r6, if_neg (by omega), b6]
  · obtain ⟨-, -, -, r4, -⟩ := vtx_run K hK (submit K s [K.BEGIN_VTXS, q]) b1 cs hcs hV0
    rw [r4, b4]
  · intro i hil
    have h := vtx_run_persist K hK (submit K s [K.BEGIN_VTXS, q]) b1 cs hcs hV0 i hil
    rw [b4] at h
    rw [submit_append]
    exact h

end QuadsClaim

section QuadsExample

set_option maxRecDepth 4096

/-- Instance of `quads_assembly`: nine vertices sent to the zero engine yield
in Quads mode exactly the two polygons `(V0,V1,V2,V3)` and `(V4,V5,V6,V7)`, and
in QuadStrip mode exactly the three polygons `(V2,V0,V1,V3)`, `(V4,V2,V3,V5)`
and `(V6,V4,V5,V7)`. -/
theorem quads_assembly_witness :
    ndsHdr.Distinct ∧ Idle zeroState ∧ (∀ c ∈ nineVertices, VtxPacket ndsHdr c) ∧
    (1 : Nat) &&& 3 = ndsHdr.POLY_QUADS ∧ (3 : Nat) &&& 3 = ndsHdr.POLY_QUAD_STRIP ∧
    (submit ndsHdr zeroState ([0x40, 1] ++ packetWords nineVertices)).n_polys = 2 ∧
    (submit ndsHdr zeroState ([0x40, 1] ++ packetWords nineVertices)).polygonram 0 =
      quad 0 1 2 3 ∧
    (submit ndsHdr zeroState ([0x40, 1] ++ packetWords nineVertices)).polygonram 1 =
      quad 4 5 6 7 ∧
    (submit ndsHdr zeroState ([0x40, 3] ++ packetWords nineVertices)).n_polys = 3 ∧
    (submit ndsHdr zeroState ([0x40, 3] ++ packetWords nineVertices)).polygonram 0 =
      quad 2 0 1 3 ∧
    (submit ndsHdr zeroState ([0x40, 3] ++ packetWords nineVertices)).polygonram 1 =
      quad 4 2 3 5 ∧
    (submit ndsHdr zeroState ([0x40, 3] ++ packetWords nineVertices)).polygonram 2 =
      quad 6 4 5 7 :=
  have h1 := (quads_assembly ndsHdr (by decide) (by decide) zeroState (by decide) 1
    (by decide) nineVertices (by decide) (by decide)).1 (by decide) (by decide)
  have h2 := (quads_assembly ndsHdr (by decide) (by decide) zeroState (by decide) 3
    (by decide) nineVertices (by decide) (by decide)).2.1 (by decide) (by decide)
  ⟨by decide, by decide, by decide, by decide, by decide, h1.1, h1.2.1 0 (by decide),
    h1.2.1 1 (by decide), h2.1, h2.2.1 4 (by decide) (by decide) (by decide),
    h2.2.1 6 (by decide) (by decide) (by decide), h2.2.1 8 (by decide) (by decide) (by decide)⟩

end QuadsExample

section Capacity

variable {F : Type} [Zero F] [One F] [Add F] [Sub F] [Mul F] [Div F] [IntCast F] [FloatOps F]

theorem add_poly_bound (K : Hdr) (s : GPU F) (a b c d : Option Int) (h : WithinCapacity K s) :
    WithinCapacity K (add_poly K s a b c d) := by
  unfold add_poly
  by_cases hp : s.n_polys = K.MAX_POLY
  · rw [if_pos hp]; exact h
  · rw [if_neg hp]
    exact ⟨h.1, Nat.succ_le_of_lt (Nat.lt_of_le_of_ne h.2 hp)⟩

theorem add_vtx_bound (K : Hdr) (s : GPU F) (h : WithinCapacity K s) :
    WithinCapacity K (add_vtx K s) := by
  unfold add_vtx
  by_cases hv : s.n_verts = K.MAX_VTX
  · rw [if_pos hv]; exact h
  · rw [if_neg hv]
    have h1 : WithinCapacity K
        { s with
          vertexram := Function.update s.vertexram s.n_verts (vecmul s.clipmtx s.cur_vtx)
          n_verts := s.n_verts + 1
          cur_vtx_ct := s.cur_vtx_ct + 1 } :=
      ⟨Nat.succ_le_of_lt (Nat.lt_of_le_of_ne h.1 hv), h.2⟩
    simp only []
    split_ifs <;> first
      | exact h1
      | exact add_poly_bound K _ _ _ _ _ h1

theorem set_vtx_bound (K : Hdr) (s : GPU F) (i : Fin 4) (x : F) (h : WithinCapacity K s) :
    WithinCapacity K (set_vtx s i x) := h

/-- Every case of `gxcmd_execute` keeps the stores within capacity. -/
theorem gxcmd_switch_bound (K : Hdr) (cmd : Nat) (s : GPU F) (h : WithinCapacity K s) :
    WithinCapacity K (gxcmd_switch K cmd s) := by
  apply gxcmd_switch_cases K cmd s (fun t => WithinCapacity K t)
  · exact h
  · unfold mtx_push; split_ifs <;> exact h
  · unfold mtx_pop; split_ifs <;> exact h
  · unfold mtx_store; split_ifs <;> exact h
  · unfold mtx_restore; split_ifs <;> exact h
  · intro m; unfold load_cur; split_ifs <;> exact h
  · intro m; unfold mult_cur; split_ifs <;> exact h
  · intro m; unfold scale_cur; split_ifs <;> exact h
  · exact add_vtx_bound K _ (set_vtx_bound K _ _ _ (set_vtx_bound K _ _ _
      (set_vtx_bound K _ _ _ (set_vtx_bound K _ _ _ h))))
  · exact add_vtx_bound K _ (set_vtx_bound K _ _ _ (set_vtx_bound K _ _ _
      (set_vtx_bound K _ _ _ (set_vtx_bound K _ _ _ h))))
  · exact add_vtx_bound K _ (set_vtx_bound K _ _ _ (set_vtx_bound K _ _ _ h))
  · exact add_vtx_bound K _ (set_vtx_bound K _ _ _ (set_vtx_bound K _ _ _ h))
  · exact add_vtx_bound K _ (set_vtx_bound K _ _ _ (set_vtx_bound K _ _ _ h))
  · exact add_vtx_bound K _ (set_vtx_bound K _ _ _ (set_vtx_bound K _ _ _
      (set_vtx_bound K _ _ _ (set_vtx_bound K _ _ _ h))))
  · exact h
  · exact h
  · exact ⟨Nat.zero_le _, Nat.zero_le _⟩
  · exact h
  · simp only [WithinCapacity, pos_test, update_mtxs, set_vtx]
    exact h

theorem gxcmd_execute_bound (K : Hdr) (s : GPU F) (h : WithinCapacity K s) :
    WithinCapacity K (gxcmd_execute K s) :=
  gxcmd_switch_bound K _ s h

theorem drain_bound (K : Hdr) (n : Nat) :
    ∀ s : GPU F, WithinCapacity K s → WithinCapacity K (drain K n s) := by
  induction n with
  | zero => intro s h; exact h
  | succ n ih =>
    intro s h
    unfold drain
    split_ifs
    · exact h
    · exact ih _ (gxcmd_execute_bound K s h)

theorem unpack_bound (K : Hdr) (n : Nat) :
    ∀ (c : Nat) (s : GPU F), WithinCapacity K s → WithinCapacity K (unpack K n c s) := by
  induction n with
  | zero => intro c s h; exact h
  | succ n ih =>
    intro c s h
    unfold unpack
    by_cases hc : c = 0
    · rw [if_pos hc]; exact h
    · rw [if_neg hc]
      exact ih _ _ h

theorem gxfifo_write_bound (K : Hdr) (s : GPU F) (w : Nat) (h : WithinCapacity K s) :
    WithinCapacity K (gxfifo_write K s w) := by
  have h1 : WithinCapacity K (gxfifo_enqueue K s (w % 4294967296)) := by
    unfold gxfifo_enqueue
    split_ifs
    · exact h
    · exact unpack_bound K 4 _ s h
  have h2 : ∀ t : GPU F, WithinCapacity K t → WithinCapacity K (gxfifo_flags t) :=
    fun t ht => ht
  unfold gxfifo_write
  apply h2
  split_ifs
  · exact drain_bound K _ _ h1
  · exact h1

theorem submit_bound (K : Hdr) (ws : List Nat) :
    ∀ s : GPU F, WithinCapacity K s → WithinCapacity K (submit K s ws) := by
  induction ws with
  | nil => intro s h; exact h
  | cons w ws ih =>
    intro s h
    rw [submit_cons]
    exact ih _ (gxfifo_write_bound K s w h)

end Capacity

section CapacityClaim

variable {F : Type} [Zero F] [One F] [Add F] [Sub F] [Mul F] [Div F] [IntCast F] [FloatOps F]

/-- Function `add_vtx` with the polygon store full leaves the polygon store
and its count as they were. -/
theorem add_vtx_polys_full (K : Hdr) (s : GPU F) (h : s.n_polys = K.MAX_POLY) :
    (add_vtx K s).polygonram = s.polygonram ∧ (add_vtx K s).n_polys = s.n_polys := by
  have hp : ∀ (t : GPU F) (a b c d : Option Int), t.n_polys = K.MAX_POLY →
      (add_poly K t a b c d).polygonram = t.polygonram ∧
      (add_poly K t a b c d).n_polys = t.n_polys := by
    intro t a b c d ht
    unfold add_poly
    rw [if_pos ht]
    exact ⟨rfl, rfl⟩
  unfold add_vtx
  simp only []
  split_ifs <;> first
    | exact ⟨rfl, rfl⟩
    | exact hp _ _ _ _ _ h

/-- C18: capacity limits are silent no-ops.  When the vertex count equals
`MAX_VTX`, a vertex command leaves the vertex store, the vertex count, the
per-primitive counter, the polygon store and the polygon count unchanged; when
the polygon count equals `MAX_POLY`, `add_poly` leaves the polygon store and
count unchanged, and so does a vertex command; consequently vertex count
`<= MAX_VTX` and polygon count `<= MAX_POLY` hold after every command if they
hold before it, and after every sequence of words written to the engine. -/
theorem capacity_limits (K : Hdr) (hK : K.Distinct) (s : GPU F) :
    ((s.cmd_fifo 0 % 256 = K.VTX_16 ∨ s.cmd_fifo 0 % 256 = K.VTX_10 ∨
        s.cmd_fifo 0 % 256 = K.VTX_XY ∨ s.cmd_fifo 0 % 256 = K.VTX_XZ ∨
        s.cmd_fifo 0 % 256 = K.VTX_YZ ∨ s.cmd_fifo 0 % 256 = K.VTX_DIFF) →
      (s.n_verts = K.MAX_VTX →
        (gxcmd_execute K s).vertexram = s.vertexram ∧
        (gxcmd_execute K s).n_verts = s.n_verts ∧
        (gxcmd_execute K s).cur_vtx_ct = s.cur_vtx_ct ∧
        (gxcmd_execute K s).polygonram = s.polygonram ∧
        (gxcmd_execute K s).n_polys = s.n_polys) ∧
      (s.n_polys = K.MAX_POLY →
        (gxcmd_execute K s).polygonram = s.polygonram ∧
        (gxcmd_execute K s).n_polys = s.n_polys)) ∧
    (s.n_polys = K.MAX_POLY → ∀ p0 p1 p2 p3 : Option Int,
      (add_poly K s p0 p1 p2 p3).polygonram = s.polygonram ∧
      (add_poly K s p0 p1 p2 p3).n_polys = s.n_polys) ∧
    (s.n_verts ≤ K.MAX_VTX → s.n_polys ≤ K.MAX_POLY →
      (gxcmd_execute K s).n_verts ≤ K.MAX_VTX ∧ (gxcmd_execute K s).n_polys ≤ K.MAX_POLY) ∧
    (s.n_verts ≤ K.MAX_VTX → s.n_polys ≤ K.MAX_POLY → ∀ ws : List Nat,
      (submit K s ws).n_verts ≤ K.MAX_VTX ∧ (submit K s ws).n_polys ≤ K.MAX_POLY) := by
  refine ⟨?_, ?_, ?_, ?_⟩
  · intro hop
    obtain ⟨v, hv⟩ := vtx_switch K hK s (s.cmd_fifo 0 % 256) hop
    rw [gxcmd_execute_head K s _ rfl, hv]
    constructor
    · intro hn
      rw [add_vtx_full K { s with cur_vtx := v } hn]
      simp [gxcmd_dequeue]
    · intro hp
      exact add_vtx_polys_full K { s with cur_vtx := v } hp
  · intro hp p0 p1 p2 p3
    unfold add_poly
    rw [if_pos hp]
    exact ⟨rfl, rfl⟩
  · intro h1 h2
    exact gxcmd_execute_bound K s ⟨h1, h2⟩
  · intro h1 h2 ws
    exact submit_bound K ws s ⟨h1, h2⟩

end CapacityClaim

/-- Instance of `capacity_limits` on `fullState`, whose two stores are full,
and on the word stream `sampleStream`. -/
theorem capacity_limits_witness :
    ndsHdr.Distinct ∧ fullState.cmd_fifo 0 % 256 = ndsHdr.VTX_16 ∧
    fullState.n_verts = ndsHdr.MAX_VTX ∧ fullState.n_polys = ndsHdr.MAX_POLY ∧
    (gxcmd_execute ndsHdr fullState).vertexram = fullState.vertexram ∧
    (gxcmd_execute ndsHdr fullState).n_verts = 6144 ∧
    (gxcmd_execute ndsHdr fullState).cur_vtx_ct = 2 ∧
    (gxcmd_execute ndsHdr fullState).n_polys = 2048 ∧
    (add_poly ndsHdr fullState (some 0) (some 1) (some 2) none).n_polys = 2048 ∧
    (gxcmd_execute ndsHdr fullState).n_verts ≤ ndsHdr.MAX_VTX ∧
    (submit ndsHdr fullState sampleStream).n_verts ≤ ndsHdr.MAX_VTX ∧
    (submit ndsHdr fullState sampleStream).n_polys ≤ ndsHdr.MAX_POLY :=
  have h := capacity_limits ndsHdr (by decide) fullState
  have h1 := (h.1 (Or.inl (by decide))).1 (by decide)
  have h2 := h.2.1 (by decide) (some 0) (some 1) (some 2) none
  have h3 := h.2.2.1 (by decide) (by decide)
  have h4 := h.2.2.2 (by decide) (by decide) sampleStream
  ⟨by decide, by decide, by decide, by decide, h1.1, h1.2.1, h1.2.2.1, h1.2.2.2.2, h2.2,
    h3.1, h4.1, h4.2⟩

section PosTest

variable {F : Type} [Zero F] [One F] [Add F] [Sub F] [Mul F] [Div F] [IntCast F] [FloatOps F]

/-- Function `add_vtx` does not write the accumulator. -/
theorem add_vtx_cur_vtx {G : Type} [Zero G] [One G] [Add G] [Sub G] [Mul G] [Div G] [IntCast G]
    [FloatOps G] (K : Hdr) (s : GPU G) : (add_vtx K s).cur_vtx = s.cur_vtx := by
  by_cases h : s.n_verts = K.MAX_VTX
  · rw [add_vtx_full K s h]
  · rw [add_vtx_eq K s h]

/-- C19 (amended): `POS_TEST` decodes its two parameter words exactly as
`VTX_16` does (the accumulator becomes the one the case `VTX_16` would leave on
the same parameters), recomputes the clip matrix as the product Projection x
Position that `matmul` computes, and writes into `pos_result[i]`, for
`i = 0..3`, the value `(int) (vecmul(clip, (x, y, z, 1))[i] * 4096)`; it leaves
the vertex store, the vertex count, the polygon store, the polygon count and
the per-primitive vertex counter unchanged.  Every operation is the one of
`float`, whatever its rounding, and the conversion to `int` is the one of C: no
law of arithmetic is assumed, so the value written is `clip * (x, y, z, 1)`
scaled by 4096 up to that rounding and truncation. -/
theorem pos_test_effect (K : Hdr) (hK : K.Distinct) (s : GPU F)
    (hcmd : s.cmd_fifo 0 % 256 = K.POS_TEST) :
    (gxcmd_execute K s).cur_vtx =
      ![fix28 (lo16 (s.param_fifo 0)), fix28 (hi16 (s.param_fifo 0)),
        fix28 (lo16 (s.param_fifo 1)), 1] ∧
    (gxcmd_execute K s).cur_vtx = (gxcmd_switch K K.VTX_16 s).cur_vtx ∧
    (gxcmd_execute K s).clipmtx = matmul s.posmtx s.projmtx ∧
    (∀ i j : Fin 4, (gxcmd_execute K s).clipmtx i j =
      0 + s.projmtx i 0 * s.posmtx 0 j + s.projmtx i 1 * s.posmtx 1 j +
        s.projmtx i 2 * s.posmtx 2 j + s.projmtx i 3 * s.posmtx 3 j) ∧
    (∀ i : Fin 4, (gxcmd_execute K s).pos_result i =
      FloatOps.toInt (vecmul (matmul s.posmtx s.projmtx)
        ![fix28 (lo16 (s.param_fifo 0)), fix28 (hi16 (s.param_fifo 0)),
          fix28 (lo16 (s.param_fifo 1)), 1] i * ((4096 : Int) : F))) ∧
    (gxcmd_execute K s).vertexram = s.vertexram ∧
    (gxcmd_execute K s).n_verts = s.n_verts ∧
    (gxcmd_execute K s).polygonram = s.polygonram ∧
    (gxcmd_execute K s).n_polys = s.n_polys ∧
    (gxcmd_execute K s).cur_vtx_ct = s.cur_vtx_ct := by
  have hv : (pos_test s).cur_vtx =
      ![fix28 (lo16 (s.param_fifo 0)), fix28 (hi16 (s.param_fifo 0)),
        fix28 (lo16 (s.param_fifo 1)), 1] := by
    funext i
    fin_cases i <;> simp [pos_test, update_mtxs, set_vtx, Function.update]
  have hc : (pos_test s).clipmtx = matmul s.posmtx s.projmtx := by
    simp only [pos_test, update_mtxs, set_vtx]
  have h16 : (vtx_16 K s).cur_vtx =
      ![fix28 (lo16 (s.param_fifo 0)), fix28 (hi16 (s.param_fifo 0)),
        fix28 (lo16 (s.param_fifo 1)), 1] := by
    unfold vtx_16
    rw [add_vtx_cur_vtx]
    funext i
    fin_cases i <;> simp [set_vtx, Function.update]
  have hf : (pos_test s).vertexram = s.vertexram ∧ (pos_test s).n_verts = s.n_verts ∧
      (pos_test s).polygonram = s.polygonram ∧ (pos_test s).n_polys = s.n_polys ∧
      (pos_test s).cur_vtx_ct = s.cur_vtx_ct := by
    simp only [pos_test, update_mtxs, set_vtx]
    exact ⟨trivial, trivial, trivial, trivial, trivial⟩
  have hp : ∀ i, (pos_test s).pos_result i =
      FloatOps.toInt (vecmul (pos_test s).clipmtx (pos_test s).cur_vtx i *
        ((4096 : Int) : F)) := by
    intro i
    simp only [pos_test, update_mtxs, set_vtx]
  rw [gxcmd_execute_head K s _ hcmd, switch_POS_TEST K hK, switch_VTX_16 K hK]
  simp only [gxcmd_dequeue]
  refine ⟨hv, hv.trans h16.symm, hc, ?_, ?_, hf⟩
  · intro i j
    rw [hc]
    rfl
  · intro i
    rw [hp, hv, hc]

end PosTest

section PosTestExample

set_option maxRecDepth 16384

/-- Instance of `pos_test_effect` in binary32 on `posTestState32`: the position
(1, 1, 1) is sent by the clip matrix to (4, 2, 2, 1), stored as the fixed-point
integers (16384, 8192, 8192, 4096). -/
theorem pos_test_effect_witness :
    ndsHdr.Distinct ∧ posTestState32.cmd_fifo 0 % 256 = ndsHdr.POS_TEST ∧
    (gxcmd_execute ndsHdr posTestState32).cur_vtx =
      (gxcmd_switch ndsHdr ndsHdr.VTX_16 posTestState32).cur_vtx ∧
    (gxcmd_execute ndsHdr posTestState32).clipmtx =
      matmul posTestState32.posmtx posTestState32.projmtx ∧
    (gxcmd_execute ndsHdr posTestState32).vertexram = posTestState32.vertexram ∧
    (gxcmd_execute ndsHdr posTestState32).n_verts = 3 ∧
    (gxcmd_execute ndsHdr posTestState32).polygonram = posTestState32.polygonram ∧
    (gxcmd_execute ndsHdr posTestState32).n_polys = 1 ∧
    (gxcmd_execute ndsHdr posTestState32).cur_vtx_ct = 2 ∧
    (∀ i : Fin 4, (gxcmd_execute ndsHdr posTestState32).pos_result i =
      if i = 0 then 16384 else if i = 3 then 4096 else 8192) :=
  have h := pos_test_effect ndsHdr (by decide) posTestState32 (by decide)
  ⟨by decide, by decide, h.2.1, h.2.2.1, h.2.2.2.2.2.1, h.2.2.2.2.2.2.1, h.2.2.2.2.2.2.2.1,
    h.2.2.2.2.2.2.2.2.1, h.2.2.2.2.2.2.2.2.2, by decide⟩

/-- Claim C19 as stated fails in binary32 on the position (7, 0, 0) tested
after `MTX_MODE` Projection, `MTX_IDENTITY` and `MTX_SCALE` with the word
`0x00FFFFFF`, the Position matrix being the identity: the Projection matrix
has `sx = 16777215 / 4096` in entry `[0][0]`, so that `clip * (7, 0, 0, 1)`
scaled by 4096 has first component `16777215 * 7 = 117440505`, and the code
writes `pos_result[0] = 117440504`, the product `sx * 7` having been rounded
to 24 significant bits. -/
theorem pos_rounding_counterexample :
    Idle scaleState32 ∧ scaleState32.posmtx = identity ∧
    (submit ndsHdr scaleState32
      [0x10, 0, 0x15, 0x1b, 0xFFFFFF, 0x1000, 0x1000, 0x71, 0x7000, 0]).projmtx 0 0 =
      F32.fin false 16777215 (-12) ∧
    (submit ndsHdr scaleState32
      [0x10, 0, 0x15, 0x1b, 0xFFFFFF, 0x1000, 0x1000, 0x71, 0x7000, 0]).cur_vtx 0 =
      F32.fin false 14680064 (-21) ∧
    (submit ndsHdr scaleState32
      [0x10, 0, 0x15, 0x1b, 0xFFFFFF, 0x1000, 0x1000, 0x71, 0x7000, 0]).pos_result 0 =
      117440504 ∧
    F32.toRat (F32.fin false 16777215 (-12)) * F32.toRat (F32.fin false 14680064 (-21)) * 4096 =
      117440505 := by
  refine ⟨by decide, rfl, by decide, by decide, by decide, ?_⟩
  simp only [F32.toRat]
  norm_num

end PosTestExample

/-- The mask `0xffff` keeps the low half of a word. -/
theorem and_lo16 (p : Nat) : p &&& 0xffff = p % 65536 :=
  Nat.and_pow_two_sub_one_eq_mod p 16

/-- The mask `0xffff0000` keeps the high half of a 32-bit word, in place. -/
theorem and_hi16 (p : Nat) : p &&& 0xffff0000 = (p / 65536 % 65536) * 65536 := by
  have hm : (0xffff0000 : Nat) = (2 ^ 16 - 1) <<< 16 := by decide
  have hr : (p / 65536 % 65536) * 65536 = ((p >>> 16) % 2 ^ 16) <<< 16 := by
    simp [Nat.shiftLeft_eq, Nat.shiftRight_eq_div_pow]
  rw [hm, hr]
  apply Nat.eq_of_testBit_eq
  intro i
  simp only [Nat.testBit_and, Nat.testBit_shiftLeft, Nat.testBit_mod_two_pow,
    Nat.testBit_shiftRight, Nat.testBit_two_pow_sub_one]
  by_cases h : 16 ≤ i
  · have e : 16 + (i - 16) = i := by omega
    simp [h, e]
    exact Bool.and_comm _ _
  · simp [h]

theorem s16_range (h : Nat) : -32768 ≤ s16 h ∧ s16 h < 32768 ∧ (s16 h - (h : Int)) % 65536 = 0 := by
  unfold s16
  split_ifs <;> omega

/-- The expression `((s32) (p & 0xffff) << 16)` is the sign-extended low half
of `p` times `2^16`. -/
theorem lo16_eq (p : Nat) : lo16 p = s16 p * 65536 := by
  unfold lo16 shl32 s32 s16
  rw [and_lo16]
  norm_num
  split_ifs <;> omega

/-- The expression `(s32) (p & 0xffff0000)` is the sign-extended bits 16 to 31
of `p` times `2^16`. -/
theorem hi16_eq (p : Nat) : hi16 p = s16 (p / 65536) * 65536 := by
  unfold hi16 s32 s16
  rw [and_hi16]
  split_ifs <;> omega

section Fixed

variable {F : Type} [Field F] [FloatOps F]

/-- Division by `2^28` of a multiple of `2^16` is division by `2^12`. -/
theorem fix28_shift (a : Int) : (fix28 (a * 65536) : F) = (a : F) / 4096 := by
  unfold fix28
  by_cases h2 : (2 : F) = 0
  · have e1 : ((268435456 : Int) : F) = 0 := by
      have : ((268435456 : Int) : F) = 2 ^ 28 := by norm_num
      rw [this, h2]; norm_num
    have e2 : (4096 : F) = 0 := by
      have : (4096 : F) = 2 ^ 12 := by norm_num
      rw [this, h2]; norm_num
    rw [e1, e2, div_zero, div_zero]
  · have h16 : (65536 : F) ≠ 0 := by
      have : (65536 : F) = 2 ^ 16 := by norm_num
      rw [this]; exact pow_ne_zero _ h2
    have h12 : (4096 : F) ≠ 0 := by
      have : (4096 : F) = 2 ^ 12 := by norm_num
      rw [this]; exact pow_ne_zero _ h2
    have e : ((268435456 : Int) : F) = 4096 * 65536 := by norm_num
    rw [e]
    push_cast
    field_simp
    ring

theorem fix28_lo16 (p : Nat) : (fix28 (lo16 p) : F) = (s16 p : F) / 4096 := by
  rw [lo16_eq, fix28_shift]

theorem fix28_hi16 (p : Nat) : (fix28 (hi16 p) : F) = (s16 (p / 65536) : F) / 4096 := by
  rw [hi16_eq, fix28_shift]

end Fixed

section Vtx16

variable {F : Type} [Field F] [FloatOps F]

/-- C20: 16-bit vertex encodings.  For all parameter words `p0`, `p1`,
`VTX_16` sets the accumulator to
`(s16(p0 bits 0-15)/4096, s16(p0 bits 16-31)/4096, s16(p1 bits 0-15)/4096, 1)`,
where `s16` is two's-complement sign extension (the value in
`[-32768, 32767]` congruent to the field modulo `2^16`); `VTX_XY`, `VTX_XZ` and
`VTX_YZ` set their two named coordinates to `s16(low half)/4096` and
`s16(high half)/4096` of the single parameter word and leave the remaining
third coordinate (and `w`) of the accumulator unchanged.  Arithmetic is exact
(any field). -/
theorem vtx16_encodings (K : Hdr) (hK : K.Distinct) (s : GPU F) :
    (s.cmd_fifo 0 % 256 = K.VTX_16 →
      (gxcmd_execute K s).cur_vtx =
        ![(s16 (s.param_fifo 0) : F) / 4096, (s16 (s.param_fifo 0 / 65536) : F) / 4096,
          (s16 (s.param_fifo 1) : F) / 4096, 1]) ∧
    (s.cmd_fifo 0 % 256 = K.VTX_XY →
      (gxcmd_execute K s).cur_vtx =
        ![(s16 (s.param_fifo 0) : F) / 4096, (s16 (s.param_fifo 0 / 65536) : F) / 4096,
          s.cur_vtx 2, s.cur_vtx 3]) ∧
    (s.cmd_fifo 0 % 256 = K.VTX_XZ →
      (gxcmd_execute K s).cur_vtx =
        ![(s16 (s.param_fifo 0) : F) / 4096, s.cur_vtx 1,
          (s16 (s.param_fifo 0 / 65536) : F) / 4096, s.cur_vtx 3]) ∧
    (s.cmd_fifo 0 % 256 = K.VTX_YZ →
      (gxcmd_execute K s).cur_vtx =
        ![s.cur_vtx 0, (s16 (s.param_fifo 0) : F) / 4096,
          (s16 (s.param_fifo 0 / 65536) : F) / 4096, s.cur_vtx 3]) ∧
    (∀ h : Nat, -32768 ≤ s16 h ∧ s16 h < 32768 ∧ (s16 h - (h : Int)) % 65536 = 0) := by
  refine ⟨?_, ?_, ?_, ?_, s16_range⟩
  · intro hcmd
    rw [gxcmd_execute_head K s _ hcmd, switch_VTX_16 K hK]
    simp only [gxcmd_dequeue]
    unfold vtx_16
    rw [add_vtx_cur_vtx]
    funext i
    fin_cases i <;> simp [set_vtx, Function.update, fix28_lo16, fix28_hi16]
  · intro hcmd
    rw [gxcmd_execute_head K s _ hcmd, switch_VTX_XY K hK]
    simp only [gxcmd_dequeue]
    unfold vtx_xy
    rw [add_vtx_cur_vtx]
    funext i
    fin_cases i <;> simp [set_vtx, Function.update, fix28_lo16, fix28_hi16]
  · intro hcmd
    rw [gxcmd_execute_head K s _ hcmd, switch_VTX_XZ K hK]
    simp only [gxcmd_dequeue]
    unfold vtx_xz
    rw [add_vtx_cur_vtx]
    funext i
    fin_cases i <;> simp [set_vtx, Function.update, fix28_lo16, fix28_hi16]
  · intro hcmd
    rw [gxcmd_execute_head K s _ hcmd, switch_VTX_YZ K hK]
    simp only [gxcmd_dequeue]
    unfold vtx_yz
    rw [add_vtx_cur_vtx]
    funext i
    fin_cases i <;> simp [set_vtx, Function.update, fix28_lo16, fix28_hi16]

end Vtx16

/-- Instance of `vtx16_encodings`: `VTX_16` on `vtxState`, and `VTX_XY`,
`VTX_XZ`, `VTX_YZ` on an accumulator (5, 6, 7, 1) with the word `0xf0001000`,
whose halves read 1.0 and -1.0. -/
theorem vtx16_encodings_witness :
    ndsHdr.Distinct ∧ vtxState.cmd_fifo 0 % 256 = ndsHdr.VTX_16 ∧
    vtxXYState.cmd_fifo 0 % 256 = ndsHdr.VTX_XY ∧ vtxXZState.cmd_fifo 0 % 256 = ndsHdr.VTX_XZ ∧
    vtxYZState.cmd_fifo 0 % 256 = ndsHdr.VTX_YZ ∧
    s16 0xf0001000 = 4096 ∧ s16 (0xf0001000 / 65536) = -4096 ∧
    (gxcmd_execute ndsHdr vtxState).cur_vtx = ![1, 1, 1, 1] ∧
    (gxcmd_execute ndsHdr vtxXYState).cur_vtx = ![1, -1, 7, 1] ∧
    (gxcmd_execute ndsHdr vtxXZState).cur_vtx = ![1, 6, -1, 1] ∧
    (gxcmd_execute ndsHdr vtxYZState).cur_vtx = ![5, 1, -1, 1] := by
  have h1 := (vtx16_encodings ndsHdr (by decide) vtxState).1 (by decide)
  have h2 := (vtx16_encodings ndsHdr (by decide) vtxXYState).2.1 (by decide)
  have h3 := (vtx16_encodings ndsHdr (by decide) vtxXZState).2.2.1 (by decide)
  have h4 := (vtx16_encodings ndsHdr (by decide) vtxYZState).2.2.2.1 (by decide)
  have a0 : vtxState.param_fifo 0 = 0x10001000 := rfl
  have a1 : vtxState.param_fifo 1 = 0x1000 := rfl
  have b0 : vtxXYState.param_fifo 0 = 0xf0001000 := rfl
  have c0 : vtxXZState.param_fifo 0 = 0xf0001000 := rfl
  have d0 : vtxYZState.param_fifo 0 = 0xf0001000 := rfl
  have e1 : s16 0x10001000 = 4096 := by decide
  have e2 : s16 (0x10001000 / 65536) = 4096 := by decide
  have e4 : s16 0xf0001000 = 4096 := by decide
  have e5 : s16 (0xf0001000 / 65536) = -4096 := by decide
  rw [a0, a1, e1, e2] at h1
  rw [b0, e4, e5] at h2
  rw [c0, e4, e5] at h3
  rw [d0, e4, e5] at h4
  refine ⟨by decide, by decide, by decide, by decide, by decide, e4, e5, ?_, ?_, ?_, ?_⟩
  · rw [h1]; norm_num
  · rw [h2, show vtxXYState.cur_vtx 2 = 7 from rfl, show vtxXYState.cur_vtx 3 = 1 from rfl]
    norm_num
  · rw [h3, show vtxXZState.cur_vtx 1 = 6 from rfl, show vtxXZState.cur_vtx 3 = 1 from rfl]
    norm_num
  · rw [h4, show vtxYZState.cur_vtx 0 = 5 from rfl, show vtxYZState.cur_vtx 3 = 1 from rfl]
    norm_num

/-- A mask of `w` ones shifted left by `k` keeps bits `k` to `k + w - 1` of a
word, in place. -/
theorem and_field (p w k : Nat) :
    p &&& ((2 ^ w - 1) <<< k) = (p / 2 ^ k % 2 ^ w) * 2 ^ k := by
  have hr : (p / 2 ^ k % 2 ^ w) * 2 ^ k = ((p >>> k) % 2 ^ w) <<< k := by
    simp [Nat.shiftLeft_eq, Nat.shiftRight_eq_div_pow]
  rw [hr]
  apply Nat.eq_of_testBit_eq
  intro i
  simp only [Nat.testBit_and, Nat.testBit_shiftLeft, Nat.testBit_mod_two_pow,
    Nat.testBit_shiftRight, Nat.testBit_two_pow_sub_one]
  by_cases h : k ≤ i
  · have e : k + (i - k) = i := by omega
    simp [h, e]
    exact Bool.and_comm _ _
  · simp [h]

theorem and_lo10 (p : Nat) : p &&& 0x3ff = p % 1024 :=
  Nat.and_pow_two_sub_one_eq_mod p 10

theorem and_mid10 (p : Nat) : p &&& (0x3ff <<< 10) = (p / 1024 % 1024) * 1024 :=
  and_field p 10 10

theorem and_hi10 (p : Nat) : p &&& (0x3ff <<< 20) = (p / 1048576 % 1024) * 1048576 :=
  and_field p 10 20

/-- The expression `((s32) (p & 0x3ff) << 22)` is the sign-extended bits 0 to
9 of `p` times `2^22`. -/
theorem lo10_eq (p : Nat) : shl32 (s32 (p &&& 0x3ff)) 22 = s10 p * 4194304 := by
  unfold shl32 s32 s10
  rw [and_lo10]
  norm_num
  split_ifs <;> omega

/-- The expression `((s32) (p & (0x3ff << 10)) << 12)` is the sign-extended
bits 10 to 19 of `p` times `2^22`. -/
theorem mid10_eq (p : Nat) :
    shl32 (s32 (p &&& (0x3ff <<< 10))) 12 = s10 (p / 1024) * 4194304 := by
  unfold shl32 s32 s10
  rw [and_mid10]
  norm_num
  split_ifs <;> omega

/-- The expression `((s32) (p & (0x3ff << 20)) << 2)` is the sign-extended
bits 20 to 29 of `p` times `2^22`. -/
theorem hi10_eq (p : Nat) :
    shl32 (s32 (p &&& (0x3ff <<< 20))) 2 = s10 (p / 1048576) * 4194304 := by
  unfold shl32 s32 s10
  rw [and_hi10]
  norm_num
  split_ifs <;> omega

theorem s10_range (h : Nat) : -512 ≤ s10 h ∧ s10 h < 512 ∧ (s10 h - (h : Int)) % 1024 = 0 := by
  unfold s10
  split_ifs <;> omega

/-- The arithmetic shift `>> 6` of a multiple of `2^22`. -/
theorem sar32_shift (a : Int) : sar32 (a * 4194304) 6 = a * 65536 := by
  unfold sar32
  norm_num
  omega

section Vtx10

variable {F : Type} [Field F] [FloatOps F]

/-- Division by `2^28` of a multiple of `2^22` is division by `2^6`. -/
theorem fix28_shift22 (a : Int) : (fix28 (a * 4194304) : F) = (a : F) * 64 / 4096 := by
  unfold fix28
  by_cases h2 : (2 : F) = 0
  · have e1 : ((268435456 : Int) : F) = 0 := by
      have : ((268435456 : Int) : F) = 2 ^ 28 := by norm_num
      rw [this, h2]; norm_num
    have e2 : (4096 : F) = 0 := by
      have : (4096 : F) = 2 ^ 12 := by norm_num
      rw [this, h2]; norm_num
    rw [e1, e2, div_zero, div_zero]
  · have h16 : (65536 : F) ≠ 0 := by
      have : (65536 : F) = 2 ^ 16 := by norm_num
      rw [this]; exact pow_ne_zero _ h2
    have h12 : (4096 : F) ≠ 0 := by
      have : (4096 : F) = 2 ^ 12 := by norm_num
      rw [this]; exact pow_ne_zero _ h2
    have e : ((268435456 : Int) : F) = 4096 * 65536 := by norm_num
    rw [e]
    push_cast
    field_simp
    ring

/-- C21: 10-bit vertex encodings.  For every parameter word `p` with 10-bit
fields `a` = bits 0-9, `b` = bits 10-19, `c` = bits 20-29 and `s10` the
two's-complement sign extension of a 10-bit field (the value in `[-512, 511]`
congruent to the field modulo `2^10`), `VTX_10` sets the accumulator to
`(s10(a)*64/4096, s10(b)*64/4096, s10(c)*64/4096, 1)`, and `VTX_DIFF` adds the
signed deltas `(s10(a)/4096, s10(b)/4096, s10(c)/4096)` to the existing `x`,
`y`, `z` of the accumulator (and stores 1 in `w`).  Arithmetic is exact (any
field). -/
theorem vtx10_encodings (K : Hdr) (hK : K.Distinct) (s : GPU F) :
    (s.cmd_fifo 0 % 256 = K.VTX_10 →
      (gxcmd_execute K s).cur_vtx =
        ![(s10 (s.param_fifo 0) : F) * 64 / 4096, (s10 (s.param_fifo 0 / 1024) : F) * 64 / 4096,
          (s10 (s.param_fifo 0 / 1048576) : F) * 64 / 4096, 1]) ∧
    (s.cmd_fifo 0 % 256 = K.VTX_DIFF →
      (gxcmd_execute K s).cur_vtx =
        ![s.cur_vtx 0 + (s10 (s.param_fifo 0) : F) / 4096,
          s.cur_vtx 1 + (s10 (s.param_fifo 0 / 1024) : F) / 4096,
          s.cur_vtx 2 + (s10 (s.param_fifo 0 / 1048576) : F) / 4096, 1]) ∧
    (∀ h : Nat, -512 ≤ s10 h ∧ s10 h < 512 ∧ (s10 h - (h : Int)) % 1024 = 0) := by
  refine ⟨?_, ?_, s10_range⟩
  · intro hcmd
    rw [gxcmd_execute_head K s _ hcmd, switch_VTX_10 K hK]
    simp only [gxcmd_dequeue]
    unfold vtx_10
    rw [add_vtx_cur_vtx, lo10_eq, mid10_eq, hi10_eq]
    funext i
    fin_cases i <;> simp [set_vtx, Function.update, fix28_shift22]
  · intro hcmd
    rw [gxcmd_execute_head K s _ hcmd, switch_VTX_DIFF K hK]
    simp only [gxcmd_dequeue]
    unfold vtx_diff
    rw [add_vtx_cur_vtx, lo10_eq, mid10_eq, hi10_eq, sar32_shift, sar32_shift, sar32_shift]
    funext i
    fin_cases i <;> simp [set_vtx, Function.update, fix28_shift]

end Vtx10

/-- Instance of `vtx10_encodings`: `VTX_10` on `vtx10State` gives
(1, -1, 1/64, 1), and `VTX_DIFF` on `vtxDiffState` moves (5, 6, 7) by
(1/4096, -1/4096, 0). -/
theorem vtx10_encodings_witness :
    ndsHdr.Distinct ∧ vtx10State.cmd_fifo 0 % 256 = ndsHdr.VTX_10 ∧
    vtxDiffState.cmd_fifo 0 % 256 = ndsHdr.VTX_DIFF ∧
    s10 0x1f0040 = 64 ∧ s10 (0x1f0040 / 1024) = -64 ∧ s10 (0x1f0040 / 1048576) = 1 ∧
    s10 0xffc01 = 1 ∧ s10 (0xffc01 / 1024) = -1 ∧ s10 (0xffc01 / 1048576) = 0 ∧
    (gxcmd_execute ndsHdr vtx10State).cur_vtx = ![1, -1, 1 / 64, 1] ∧
    (gxcmd_execute ndsHdr vtxDiffState).cur_vtx = ![5 + 1 / 4096, 6 - 1 / 4096, 7, 1] := by
  have h1 := (vtx10_encodings ndsHdr (by decide) vtx10State).1 (by decide)
  have h2 := (vtx10_encodings ndsHdr (by decide) vtxDiffState).2.1 (by decide)
  have a0 : vtx10State.param_fifo 0 = 0x1f0040 := rfl
  have b0 : vtxDiffState.param_fifo 0 = 0xffc01 := rfl
  have e1 : s10 0x1f0040 = 64 := by decide
  have e2 : s10 (0x1f0040 / 1024) = -64 := by decide
  have e3 : s10 (0x1f0040 / 1048576) = 1 := by decide
  have e4 : s10 0xffc01 = 1 := by decide
  have e5 : s10 (0xffc01 / 1024) = -1 := by decide
  have e6 : s10 (0xffc01 / 1048576) = 0 := by decide
  rw [a0, e1, e2, e3] at h1
  rw [b0, e4, e5, e6] at h2
  refine ⟨by decide, by decide, by decide, e1, e2, e3, e4, e5, e6, ?_, ?_⟩
  · rw [h1]; norm_num
  · rw [h2, show vtxDiffState.cur_vtx 0 = 5 from rfl, show vtxDiffState.cur_vtx 1 = 6 from rfl,
      show vtxDiffState.cur_vtx 2 = 7 from rfl]
    norm_num

/-- Opcode bytes of the groups 8 to 15 take no parameters. -/
theorem nparms_unknown_group (cmd : Nat) (h : 128 ≤ cmd) : nparms cmd = 0 := by
  unfold nparms
  have h8 : ¬ cmd >>> 4 < 8 := by
    rw [Nat.shiftRight_eq_div_pow]
    omega
  simp only []
  rw [if_neg h8]

section Unknown

variable {F : Type} [Zero F] [One F] [Add F] [Sub F] [Mul F] [Div F] [IntCast F] [FloatOps F]

/-- C22: every opcode byte whose high nibble is 8 or more has arity 0, and
executing it, like executing any opcode with no handler, changes no matrix,
stack, vertex, polygon, mode or status-error state: the state after
`gxcmd_execute` is the state before with only the two queues, their sizes and
the fill level rewritten; the opcode and its table-defined number of
parameters (zero for the groups 8 to 15) leave the queues and the fill level
drops by that number, or by one when it is zero.  That no byte of the groups 8
to 15 has a handler is a fact of `gpu.h`, taken as a hypothesis. -/
theorem unknown_opcode (K : Hdr) (s : GPU F) :
    (∀ cmd : Nat, 128 ≤ cmd → cmd < 256 → nparms cmd = 0) ∧
    (s.cmd_fifo 0 % 256 ∉ K.opcodes →
      gxcmd_execute K s =
        { s with
          cmd_fifosize := s.cmd_fifosize - 1
          param_fifosize := s.param_fifosize - nparms (s.cmd_fifo 0 % 256)
          cmd_fifo := fun i => if i < s.cmd_fifosize - 1 then s.cmd_fifo (i + 1) else s.cmd_fifo i
          param_fifo :=
            if nparms (s.cmd_fifo 0 % 256) ≠ 0 then
              fun i =>
                if i < s.param_fifosize - nparms (s.cmd_fifo 0 % 256) then
                  s.param_fifo (i + nparms (s.cmd_fifo 0 % 256))
                else s.param_fifo i
            else s.param_fifo
          gxfifo_size :=
            if nparms (s.cmd_fifo 0 % 256) ≠ 0 then
              wrapU K.gxfifo_size_bits
                ((s.gxfifo_size : Int) - (nparms (s.cmd_fifo 0 % 256) : Int))
            else wrapU K.gxfifo_size_bits ((s.gxfifo_size : Int) - 1) }) ∧
    ((∀ c ∈ K.opcodes, c < 128) → 128 ≤ s.cmd_fifo 0 % 256 →
      gxcmd_execute K s =
        { s with
          cmd_fifosize := s.cmd_fifosize - 1
          cmd_fifo := fun i => if i < s.cmd_fifosize - 1 then s.cmd_fifo (i + 1) else s.cmd_fifo i
          gxfifo_size := wrapU K.gxfifo_size_bits ((s.gxfifo_size : Int) - 1) }) := by
  refine ⟨fun cmd h _ => nparms_unknown_group cmd h, ?_, ?_⟩
  · intro h
    rw [gxcmd_execute_head K s _ rfl, switch_default K _ s h]
    rfl
  · intro hgrp h
    have hno : s.cmd_fifo 0 % 256 ∉ K.opcodes := fun hm => by
      have := hgrp _ hm
      omega
    rw [gxcmd_execute_head K s _ rfl, switch_default K _ s hno]
    unfold gxcmd_dequeue
    simp only [nparms_unknown_group _ h, Nat.sub_zero, ne_eq, not_true_eq_false, if_false]

end Unknown

/-- Instance of `unknown_opcode`: the byte `0xff` on `unknownState` and the
byte `0x29` on `unhandledState`. -/
theorem unknown_opcode_witness :
    unknownState.cmd_fifo 0 % 256 ∉ ndsHdr.opcodes ∧ (∀ c ∈ ndsHdr.opcodes, c < 128) ∧
    128 ≤ unknownState.cmd_fifo 0 % 256 ∧
    unhandledState.cmd_fifo 0 % 256 ∉ ndsHdr.opcodes ∧
    nparms (unhandledState.cmd_fifo 0 % 256) = 1 ∧ nparms 0xff = 0 ∧
    gxcmd_execute ndsHdr unknownState =
      { unknownState with
        cmd_fifosize := 1
        cmd_fifo := fun i =>
          if i < unknownState.cmd_fifosize - 1 then unknownState.cmd_fifo (i + 1)
          else unknownState.cmd_fifo i
        gxfifo_size := wrapU ndsHdr.gxfifo_size_bits ((unknownState.gxfifo_size : Int) - 1) } ∧
    (gxcmd_execute ndsHdr unhandledState).param_fifosize = 0 ∧
    (gxcmd_execute ndsHdr unhandledState).mtxstk_size = 3 ∧
    (gxcmd_execute ndsHdr unhandledState).n_verts = 5 :=
  have h1 := (unknown_opcode ndsHdr unknownState).2.2 (by decide) (by decide)
  have h2 := (unknown_opcode ndsHdr unhandledState).2.1 (by decide)
  ⟨by decide, by decide, by decide, by decide, by decide,
    (unknown_opcode ndsHdr unknownState).1 0xff (by decide) (by decide), h1,
    congrArg GPU.param_fifosize h2, congrArg GPU.mtxstk_size h2, congrArg GPU.n_verts h2⟩

section Pending

variable {F : Type} [Zero F] [One F] [Add F] [Sub F] [Mul F] [Div F] [IntCast F] [FloatOps F]

/-- A list of arities with a positive sum has a positive member. -/
theorem exists_arity_of_sum (l : List Nat) (h : (l.map nparms).sum ≠ 0) :
    ∃ c ∈ l, nparms c ≠ 0 := by
  induction l with
  | nil => simp at h
  | cons a l ih =>
    by_cases ha : nparms a = 0
    · have h2 : (l.map nparms).sum ≠ 0 := by
        simpa [ha] using h
      obtain ⟨c, hc, hn⟩ := ih h2
      exact ⟨c, List.mem_cons_of_mem _ hc, hn⟩
    · exact ⟨a, List.mem_cons_self _ _, ha⟩

/-- C23 (amended): after every `gxfifo_write`, for every input word sequence
starting from empty queues, `params_pending` equals the sum of the arities of
the queued opcodes minus the number of queued parameter words; it is therefore
nonzero only while the command queue is non-empty and holds an opcode of
nonzero arity whose parameters have not all arrived.  (That opcode need not be
the head of the queue.) -/
theorem pending_invariant (K : Hdr) (s : GPU F) (hi : Idle s) (ws : List Nat) :
    ((cmdq (submit K s ws)).map nparms).sum =
      (submit K s ws).param_fifosize + (submit K s ws).params_pending ∧
    ((submit K s ws).params_pending ≠ 0 →
      (submit K s ws).cmd_fifosize ≠ 0 ∧
      (∃ c ∈ cmdq (submit K s ws), nparms c ≠ 0) ∧
      (submit K s ws).param_fifosize < ((cmdq (submit K s ws)).map nparms).sum) := by
  obtain ⟨-, -, -, -, h5⟩ := submit_log_inv K s hi ws
  rw [submit_log_fst] at h5
  refine ⟨h5, ?_⟩
  intro hp
  have hs : ((cmdq (submit K s ws)).map nparms).sum ≠ 0 := by omega
  refine ⟨?_, exists_arity_of_sum _ hs, by omega⟩
  intro h0
  apply hs
  simp [cmdq, h0]

end Pending

/-- Claim C23 as stated fails on the word `0x1011` written to the zero engine:
it packs `MTX_PUSH` (arity 0) before `MTX_MODE` (arity 1), so afterwards
`params_pending` is 1 while the head of the command queue is the arity-0
opcode `0x11`. -/
theorem pending_head_counterexample :
    Idle zeroState ∧
    (submit ndsHdr zeroState [0x1011]).params_pending = 1 ∧
    (submit ndsHdr zeroState [0x1011]).cmd_fifosize = 2 ∧
    (submit ndsHdr zeroState [0x1011]).cmd_fifo 0 = 0x11 ∧
    nparms ((submit ndsHdr zeroState [0x1011]).cmd_fifo 0) = 0 := by
  decide

/-- Instance of `pending_invariant` on the word stream `sampleStream`, which
ends inside a `VTX_16` packet. -/
theorem pending_invariant_witness :
    Idle zeroState ∧
    ((cmdq (submit ndsHdr zeroState sampleStream)).map nparms).sum =
      (submit ndsHdr zeroState sampleStream).param_fifosize +
        (submit ndsHdr zeroState sampleStream).params_pending ∧
    (submit ndsHdr zeroState sampleStream).params_pending = 1 ∧
    (submit ndsHdr zeroState sampleStream).cmd_fifosize ≠ 0 :=
  have h := pending_invariant ndsHdr zeroState (by decide) sampleStream
  ⟨by decide, h.1, by decide, (h.2 (by decide)).1⟩

/-- A value that fits a bit-field is stored unchanged. -/
theorem wrapU_of_lt (w d : Nat) (h : d < 2 ^ w) : wrapU w (d : Int) = d := by
  unfold wrapU
  have h1 : ((d : Int)) % 2 ^ w = d := by
    apply Int.emod_eq_of_lt (Int.ofNat_nonneg d)
    exact_mod_cast h
  rw [h1]
  rfl

section Mirror

variable {F : Type} [Zero F] [One F] [Add F] [Sub F] [Mul F] [Div F] [IntCast F] [FloatOps F]

theorem add_poly_status (K : Hdr) (s : GPU F) (a b c d : Option Int) (h : StackStatus s) :
    StackStatus (add_poly K s a b c d) := by
  unfold add_poly; split_ifs <;> exact h

theorem add_vtx_status (K : Hdr) (s : GPU F) (h : StackStatus s) :
    StackStatus (add_vtx K s) := by
  unfold add_vtx
  have h1 : StackStatus
      { s with
        vertexram := Function.update s.vertexram s.n_verts (vecmul s.clipmtx s.cur_vtx)
        n_verts := s.n_verts + 1
        cur_vtx_ct := s.cur_vtx_ct + 1 } := h
  simp only []
  split_ifs <;> first
    | exact h
    | exact h1
    | exact add_poly_status K _ _ _ _ _ h1

theorem set_vtx_status (s : GPU F) (i : Fin 4) (x : F) (h : StackStatus s) :
    StackStatus (set_vtx s i x) := h

theorem mtx_push_status (K : Hdr) (hb5 : 5 ≤ K.mtxstk_size_bits) (hb1 : 1 ≤ K.projstk_size_bits)
    (s : GPU F) (h : StackStatus s) : StackStatus (mtx_push K s) := by
  obtain ⟨h1, h2, h3, h4⟩ := h
  have p5 : 32 ≤ 2 ^ K.mtxstk_size_bits :=
    (show 32 = 2 ^ 5 from rfl) ▸ Nat.pow_le_pow_right (by decide) hb5
  have p1 : 2 ≤ 2 ^ K.projstk_size_bits :=
    (show 2 = 2 ^ 1 from rfl) ▸ Nat.pow_le_pow_right (by decide) hb1
  unfold mtx_push
  by_cases hm : s.mtx_mode = K.MM_PROJ
  · rw [if_pos hm]
    by_cases hd : s.projstk_size = 1
    · simp only [hd, if_true]
      exact ⟨h1, wrapU_of_lt _ 1 (by omega), h3, Nat.le_refl 1⟩
    · simp only [hd, if_false]
      have h0 : s.projstk_size = 0 := by omega
      refine ⟨h1, ?_, h3, by show s.projstk_size + 1 ≤ 1; omega⟩
      exact wrapU_of_lt _ (s.projstk_size + 1) (by omega)
  · rw [if_neg hm]
    by_cases hv : s.mtx_mode = K.MM_POS ∨ s.mtx_mode = K.MM_POSVEC
    · rw [if_pos hv]
      by_cases hd : s.mtxstk_size = 31
      · simp only [hd, if_true]
        exact ⟨wrapU_of_lt _ 31 (by omega), h2, Nat.le_refl 31, h4⟩
      · simp only [hd, if_false]
        refine ⟨?_, h2, by show s.mtxstk_size + 1 ≤ 31; omega, h4⟩
        exact wrapU_of_lt _ (s.mtxstk_size + 1) (by omega)
    · rw [if_neg hv]
      exact ⟨h1, h2, h3, h4⟩

theorem mtx_pop_status (K : Hdr) (hb5 : 5 ≤ K.mtxstk_size_bits) (hb1 : 1 ≤ K.projstk_size_bits)
    (s : GPU F) (h : StackStatus s) : StackStatus (mtx_pop K s) := by
  obtain ⟨h1, h2, h3, h4⟩ := h
  have p5 : 32 ≤ 2 ^ K.mtxstk_size_bits :=
    (show 32 = 2 ^ 5 from rfl) ▸ Nat.pow_le_pow_right (by decide) hb5
  have p1 : 2 ≤ 2 ^ K.projstk_size_bits :=
    (show 2 = 2 ^ 1 from rfl) ▸ Nat.pow_le_pow_right (by decide) hb1
  unfold mtx_pop
  by_cases hm : s.mtx_mode = K.MM_PROJ
  · rw [if_pos hm]
    exact ⟨h1, wrapU_of_lt _ 0 (by omega), h3, Nat.zero_le 1⟩
  · rw [if_neg hm]
    by_cases hv : s.mtx_mode = K.MM_POS ∨ s.mtx_mode = K.MM_POSVEC
    · rw [if_pos hv]
      have hd : (((s.mtxstk_size : Int) - pop_count (s.param_fifo 0)) % 32).toNat ≤ 31 := by
        have := Int.emod_lt_of_pos ((s.mtxstk_size : Int) - pop_count (s.param_fifo 0))
          (show (0 : Int) < 32 by norm_num)
        omega
      exact ⟨wrapU_of_lt _ _ (by omega), h2, hd, h4⟩
    · rw [if_neg hv]
      exact ⟨h1, h2, h3, h4⟩

/-- Every case of `gxcmd_execute` keeps the status mirror. -/
theorem gxcmd_switch_status (K : Hdr) (hb5 : 5 ≤ K.mtxstk_size_bits)
    (hb1 : 1 ≤ K.projstk_size_bits) (cmd : Nat) (s : GPU F) (h : StackStatus s) :
    StackStatus (gxcmd_switch K cmd s) := by
  apply gxcmd_switch_cases K cmd s (fun t => StackStatus t)
  · exact h
  · exact mtx_push_status K hb5 hb1 s h
  · exact mtx_pop_status K hb5 hb1 s h
  · unfold mtx_store; split_ifs <;> exact h
  · unfold mtx_restore; split_ifs <;> exact h
  · intro m; unfold load_cur; split_ifs <;> exact h
  · intro m; unfold mult_cur; split_ifs <;> exact h
  · intro m; unfold scale_cur; split_ifs <;> exact h
  · exact add_vtx_status K _ (set_vtx_status _ _ _ (set_vtx_status _ _ _
      (set_vtx_status _ _ _ (set_vtx_status _ _ _ h))))
  · exact add_vtx_status K _ (set_vtx_status _ _ _ (set_vtx_status _ _ _
      (set_vtx_status _ _ _ (set_vtx_status _ _ _ h))))
  · exact add_vtx_status K _ (set_vtx_status _ _ _ (set_vtx_status _ _ _ h))
  · exact add_vtx_status K _ (set_vtx_status _ _ _ (set_vtx_status _ _ _ h))
  · exact add_vtx_status K _ (set_vtx_status _ _ _ (set_vtx_status _ _ _ h))
  · exact add_vtx_status K _ (set_vtx_status _ _ _ (set_vtx_status _ _ _
      (set_vtx_status _ _ _ (set_vtx_status _ _ _ h))))
  · exact h
  · exact h
  · exact h
  · exact h
  · simp only [StackStatus, pos_test, update_mtxs, set_vtx]
    exact h

/-- C24: status mirroring is an invariant of command execution.  If
`gxstat.mtxstk_size` equals the position/vector stack depth,
`gxstat.projstk_size` equals the projection stack depth, the position/vector
depth is in `0..31` and the projection depth is in `0..1` before a command,
then all four facts hold after `gxcmd_execute` of any opcode in any matrix
mode.  The widths of the two status bit-fields, declared in `io.h`, are taken
to be at least 5 and 1 bits. -/
theorem status_mirror (K : Hdr) (hb5 : 5 ≤ K.mtxstk_size_bits) (hb1 : 1 ≤ K.projstk_size_bits)
    (s : GPU F) (h1 : s.stat_mtxstk_size = s.mtxstk_size)
    (h2 : s.stat_projstk_size = s.projstk_size)
    (h3 : s.mtxstk_size ≤ 31) (h4 : s.projstk_size ≤ 1) :
    (gxcmd_execute K s).stat_mtxstk_size = (gxcmd_execute K s).mtxstk_size ∧
    (gxcmd_execute K s).stat_projstk_size = (gxcmd_execute K s).projstk_size ∧
    (gxcmd_execute K s).mtxstk_size ≤ 31 ∧ (gxcmd_execute K s).projstk_size ≤ 1 :=
  gxcmd_switch_status K hb5 hb1 _ s ⟨h1, h2, h3, h4⟩

end Mirror

/-- Instance of `status_mirror`: a pop with count -2 at depth 5 on
`mirrorPopState` (depth and status become 7) and a Projection push at depth 1
on `mirrorProjState`. -/
theorem status_mirror_witness :
    (5 ≤ ndsHdr.mtxstk_size_bits ∧ 1 ≤ ndsHdr.projstk_size_bits) ∧
    StackStatus mirrorPopState ∧ StackStatus mirrorProjState ∧
    (gxcmd_execute ndsHdr mirrorPopState).mtxstk_size = 7 ∧
    (gxcmd_execute ndsHdr mirrorPopState).stat_mtxstk_size =
      (gxcmd_execute ndsHdr mirrorPopState).mtxstk_size ∧
    (gxcmd_execute ndsHdr mirrorProjState).stat_projstk_size =
      (gxcmd_execute ndsHdr mirrorProjState).projstk_size ∧
    (gxcmd_execute ndsHdr mirrorProjState).projstk_size ≤ 1 :=
  have h1 := status_mirror ndsHdr (by decide) (by decide) mirrorPopState (by decide) (by decide)
    (by decide) (by decide)
  have h2 := status_mirror ndsHdr (by decide) (by decide) mirrorProjState (by decide) (by decide)
    (by decide) (by decide)
  ⟨by decide, by decide, by decide, by decide, h1.1, h2.2.1, h2.2.2.2⟩

section Guarded

variable {F : Type} [Zero F] [One F] [Add F] [Sub F] [Mul F] [Div F] [IntCast F] [FloatOps F]

/-- Case analysis on the opcode switch, each case under the equation that
selects it (the first matching label in source order). -/
theorem gxcmd_switch_guarded (K : Hdr) (cmd : Nat) (s : GPU F) (P : GPU F → Prop)
    (h_mode : cmd = K.MTX_MODE → P ({ s with mtx_mode := s.param_fifo 0 &&& 3 }))
    (h_push : cmd = K.MTX_PUSH → P (mtx_push K s))
    (h_pop : cmd = K.MTX_POP → P (mtx_pop K s))
    (h_store : cmd = K.MTX_STORE → P (mtx_store K s))
    (h_restore : cmd = K.MTX_RESTORE → P (mtx_restore K s))
    (h_identity : cmd = K.MTX_IDENTITY → P (load_cur K s identity))
    (h_load44 : cmd = K.MTX_LOAD_44 → P (load_cur K s (operand44 s.param_fifo)))
    (h_load43 : cmd = K.MTX_LOAD_43 → P (load_cur K s (operand43 s.param_fifo)))
    (h_mult44 : cmd = K.MTX_MULT_44 → P (mult_cur K s (operand44 s.param_fifo)))
    (h_mult43 : cmd = K.MTX_MULT_43 → P (mult_cur K s (operand43 s.param_fifo)))
    (h_mult33 : cmd = K.MTX_MULT_33 → P (mult_cur K s (operand33 s.param_fifo)))
    (h_scale : cmd = K.MTX_SCALE → P (scale_cur K s (operandScale s.param_fifo)))
    (h_trans : cmd = K.MTX_TRANS → P (mult_cur K s (operandTrans s.param_fifo)))
    (h_v16 : cmd = K.VTX_16 → P (vtx_16 K s))
    (h_v10 : cmd = K.VTX_10 → P (vtx_10 K s))
    (h_vxy : cmd = K.VTX_XY → P (vtx_xy K s))
    (h_vxz : cmd = K.VTX_XZ → P (vtx_xz K s))
    (h_vyz : cmd = K.VTX_YZ → P (vtx_yz K s))
    (h_vdiff : cmd = K.VTX_DIFF → P (vtx_diff K s))
    (h_begin : cmd = K.BEGIN_VTXS → P (begin_vtxs s))
    (h_end : cmd = K.END_VTXS → P (s))
    (h_swap : cmd = K.SWAP_BUFFERS → P (swap_buffers K s))
    (h_box : cmd = K.BOX_TEST → P ({ s with boxtest := true }))
    (h_postest : cmd = K.POS_TEST → P (pos_test s))
    (h_none : cmd ∉ K.opcodes → P s) :
    P (gxcmd_switch K cmd s) := by
  unfold gxcmd_switch
  by_cases c0 : cmd = K.MTX_MODE
  · rw [if_pos c0]; exact h_mode c0
  rw [if_neg c0]
  by_cases c1 : cmd = K.MTX_PUSH
  · rw [if_pos c1]; exact h_push c1
  rw [if_neg c1]
  by_cases c2 : cmd = K.MTX_POP
  · rw [if_pos c2]; exact h_pop c2
  rw [if_neg c2]
  by_cases c3 : cmd = K.MTX_STORE
  · rw [if_pos c3]; exact h_store c3
  rw [if_neg c3]
  by_cases c4 : cmd = K.MTX_RESTORE
  · rw [if_pos c4]; exact h_restore c4
  rw [if_neg c4]
  by_cases c5 : cmd = K.MTX_IDENTITY
  · rw [if_pos c5]; exact h_identity c5
  rw [if_neg c5]
  by_cases c6 : cmd = K.MTX_LOAD_44
  · rw [if_pos c6]; exact h_load44 c6
  rw [if_neg c6]
  by_cases c7 : cmd = K.MTX_LOAD_43
  · rw [if_pos c7]; exact h_load43 c7
  rw [if_neg c7]
  by_cases c8 : cmd = K.MTX_MULT_44
  · rw [if_pos c8]; exact h_mult44 c8
  rw [if_neg c8]
  by_cases c9 : cmd = K.MTX_MULT_43
  · rw [if_pos c9]; exact h_mult43 c9
  rw [if_neg c9]
  by_cases c10 : cmd = K.MTX_MULT_33
  · rw [if_pos c10]; exact h_mult33 c10
  rw [if_neg c10]
  by_cases c11 : cmd = K.MTX_SCALE
  · rw [if_pos c11]; exact h_scale c11
  rw [if_neg c11]
  by_cases c12 : cmd = K.MTX_TRANS
  · rw [if_pos c12]; exact h_trans c12
  rw [if_neg c12]
  by_cases c13 : cmd = K.VTX_16
  · rw [if_pos c13]; exact h_v16 c13
  rw [if_neg c13]
  by_cases c14 : cmd = K.VTX_10
  · rw [if_pos c14]; exact h_v10 c14
  rw [if_neg c14]
  by_cases c15 : cmd = K.VTX_XY
  · rw [if_pos c15]; exact h_vxy c15
  rw [if_neg c15]
  by_cases c16 : cmd = K.VTX_XZ
  · rw [if_pos c16]; exact h_vxz c16
  rw [if_neg c16]
  by_cases c17 : cmd = K.VTX_YZ
  · rw [if_pos c17]; exact h_vyz c17
  rw [if_neg c17]
  by_cases c18 : cmd = K.VTX_DIFF
  · rw [if_pos c18]; exact h_vdiff c18
  rw [if_neg c18]
  by_cases c19 : cmd = K.BEGIN_VTXS
  · rw [if_pos c19]; exact h_begin c19
  rw [if_neg c19]
  by_cases c20 : cmd = K.END_VTXS
  · rw [if_pos c20]; exact h_end c20
  rw [if_neg c20]
  by_cases c21 : cmd = K.SWAP_BUFFERS
  · rw [if_pos c21]; exact h_swap c21
  rw [if_neg c21]
  by_cases c22 : cmd = K.BOX_TEST
  · rw [if_pos c22]; exact h_box c22
  rw [if_neg c22]
  by_cases c23 : cmd = K.POS_TEST
  · rw [if_pos c23]; exact h_postest c23
  rw [if_neg c23]
  apply h_none
  simp only [Hdr.opcodes, List.mem_cons, List.mem_singleton, List.not_mem_nil, or_false,
    not_or]
  exact ⟨c0, c1, c2, c3, c4, c5, c6, c7, c8, c9, c10, c11, c12, c13, c14, c15, c16, c17, c18, c19,
    c20, c21, c22, c23⟩

end Guarded

section ClipFrame

variable {F : Type} [Zero F] [One F] [Add F] [Sub F] [Mul F] [Div F] [IntCast F] [FloatOps F]

theorem add_vtx_clip (K : Hdr) (s : GPU F) : (add_vtx K s).clipmtx = s.clipmtx := by
  by_cases h : s.n_verts = K.MAX_VTX
  · rw [add_vtx_full K s h]
  · rw [add_vtx_eq K s h]

theorem add_vtx_set2_clip (K : Hdr) (g : GPU F) (i j : Fin 4) (a b : F) :
    (add_vtx K (set_vtx (set_vtx g i a) j b)).clipmtx = g.clipmtx := by
  rw [add_vtx_clip]; rfl

theorem add_vtx_set4_clip (K : Hdr) (g : GPU F) (i j k l : Fin 4) (a b c d : F) :
    (add_vtx K (set_vtx (set_vtx (set_vtx (set_vtx g i a) j b) k c) l d)).clipmtx =
      g.clipmtx := by
  rw [add_vtx_clip]; rfl

/-- Every case of `gxcmd_execute` but `BEGIN_VTXS` and `POS_TEST` leaves the
clip matrix as it was. -/
theorem gxcmd_switch_clip (K : Hdr) (cmd : Nat) (s : GPU F) (hb : cmd ≠ K.BEGIN_VTXS)
    (hp : cmd ≠ K.POS_TEST) : (gxcmd_switch K cmd s).clipmtx = s.clipmtx := by
  have hl : ∀ m, (load_cur K s m).clipmtx = s.clipmtx := by
    intro m; unfold load_cur; split_ifs <;> rfl
  have hm : ∀ m, (mult_cur K s m).clipmtx = s.clipmtx := by
    intro m; unfold mult_cur; split_ifs <;> rfl
  apply gxcmd_switch_guarded K cmd s (fun t => t.clipmtx = s.clipmtx)
  · intro _; rfl
  · intro _; unfold mtx_push; split_ifs <;> rfl
  · intro _; unfold mtx_pop; split_ifs <;> rfl
  · intro _; unfold mtx_store; split_ifs <;> rfl
  · intro _; unfold mtx_restore; split_ifs <;> rfl
  · intro _; exact hl _
  · intro _; exact hl _
  · intro _; exact hl _
  · intro _; exact hm _
  · intro _; exact hm _
  · intro _; exact hm _
  · intro _; unfold scale_cur; split_ifs <;> rfl
  · intro _; exact hm _
  · intro _; exact add_vtx_set4_clip K s _ _ _ _ _ _ _ _
  · intro _; exact add_vtx_set4_clip K s _ _ _ _ _ _ _ _
  · intro _; exact add_vtx_set2_clip K s _ _ _ _
  · intro _; exact add_vtx_set2_clip K s _ _ _ _
  · intro _; exact add_vtx_set2_clip K s _ _ _ _
  · intro _; exact add_vtx_set4_clip K s _ _ _ _ _ _ _ _
  · intro h; exact absurd h hb
  · intro _; rfl
  · intro _; rfl
  · intro _; rfl
  · intro h; exact absurd h hp
  · intro _; rfl

/-- One packet other than `BEGIN_VTXS` and `POS_TEST` written to an idle
engine. -/
theorem other_step (K : Hdr) (t : GPU F) (c : Packet) (hi : Idle t) (hc : OtherPacket K c) :
    Idle (submit K t (c.1 :: c.2)) ∧ (submit K t (c.1 :: c.2)).clipmtx = t.clipmtx := by
  obtain ⟨hb, hp, h0, h1, hn⟩ := hc
  obtain ⟨sz, e, h, f, q⟩ := submit_packet K t c.1 c.2 hi h0 h1 hn
  refine ⟨submit_packet_idle K t c.1 c.2 hi h0 h1 hn, ?_⟩
  rw [q]
  exact gxcmd_switch_clip K c.1 (loaded t c.1 c.2 sz e h f) hb hp

/-- Any number of such packets written to an idle engine. -/
theorem other_run (K : Hdr) (s0 : GPU F) (hi : Idle s0) (cs : List Packet) :
    (∀ c ∈ cs, OtherPacket K c) →
    Idle (submit K s0 (packetWords cs)) ∧
    (submit K s0 (packetWords cs)).clipmtx = s0.clipmtx := by
  induction cs using List.reverseRecOn with
  | nil => intro _; exact ⟨hi, rfl⟩
  | append_singleton cs c ih =>
    intro hcs
    obtain ⟨i1, i2⟩ := ih (fun d hd => hcs d (List.mem_append_left _ hd))
    obtain ⟨w1, w2⟩ := other_step K (submit K s0 (packetWords cs)) c i1 (hcs c (by simp))
    rw [packetWords_append, packetWords_single, submit_append]
    exact ⟨w1, w2.trans i2⟩

/-- C25: the clip matrix is written only by `BEGIN_VTXS` and `POS_TEST`.
Every other opcode (matrix mode, push, pop, store, restore, identity, load,
multiply, scale, translate, all vertex commands, `END_VTXS`, `SWAP_BUFFERS`,
`BOX_TEST`, and every byte without a handler) leaves the clip matrix
unchanged, so after a `BEGIN_VTXS`, whatever commands other than these two
follow, changes of the Projection or Position matrix included, a later vertex
of the batch is stored as the clip matrix of the `BEGIN_VTXS` (the product of
the Projection and Position matrices as they were then) applied to the
accumulator. -/
theorem clip_frame (K : Hdr) (hK : K.Distinct)
    (hbg : 0 < K.BEGIN_VTXS ∧ K.BEGIN_VTXS < 256 ∧ nparms K.BEGIN_VTXS = 1) :
    (∀ s : GPU F, s.cmd_fifo 0 % 256 ≠ K.BEGIN_VTXS → s.cmd_fifo 0 % 256 ≠ K.POS_TEST →
      (gxcmd_execute K s).clipmtx = s.clipmtx) ∧
    (∀ (s : GPU F) (q : Nat) (cs : List Packet) (v : Packet), Idle s → q < 4294967296 →
      (∀ c ∈ cs, OtherPacket K c) → VtxPacket K v →
      (submit K s ([K.BEGIN_VTXS, q] ++ packetWords cs)).n_verts ≠ K.MAX_VTX →
      (submit K s ([K.BEGIN_VTXS, q] ++ packetWords cs)).clipmtx = matmul s.posmtx s.projmtx ∧
      (submit K s ([K.BEGIN_VTXS, q] ++ packetWords cs ++ v.1 :: v.2)).vertexram
          (submit K s ([K.BEGIN_VTXS, q] ++ packetWords cs)).n_verts =
        vecmul (matmul s.posmtx s.projmtx)
          (submit K s ([K.BEGIN_VTXS, q] ++ packetWords cs ++ v.1 :: v.2)).cur_vtx) := by
  constructor
  · intro s hb hp
    rw [gxcmd_execute_head K s _ rfl]
    exact gxcmd_switch_clip K _ s hb hp
  · intro s q cs v hi hq hcs hv hn
    obtain ⟨b1, -, -, -, -, -, -, b8⟩ := write_begin K hK hbg s hi q hq
    obtain ⟨r1, r2⟩ := other_run K (submit K s [K.BEGIN_VTXS, q]) b1 cs hcs
    rw [← submit_append] at r1 r2
    have hc : (submit K s ([K.BEGIN_VTXS, q] ++ packetWords cs)).clipmtx =
        matmul s.posmtx s.projmtx := r2.trans b8
    refine ⟨hc, ?_⟩
    have hst := vtx_step_store K hK (submit K s ([K.BEGIN_VTXS, q] ++ packetWords cs)) v r1 hv hn
    rw [hc, ← submit_append] at hst
    exact hst

end ClipFrame

section ClipExample

set_option maxRecDepth 4096

/-- Instance of `clip_frame`: `MTX_IDENTITY` on `staleState` keeps the stale
clip matrix, and on `clipState` a vertex sent after `BEGIN_VTXS`, a change of
the Projection matrix to the identity and another vertex is still transformed
by the product of the matrices as they were at the `BEGIN_VTXS`. -/
theorem clip_frame_witness :
    ndsHdr.Distinct ∧
    staleState.cmd_fifo 0 % 256 ≠ ndsHdr.BEGIN_VTXS ∧
    staleState.cmd_fifo 0 % 256 ≠ ndsHdr.POS_TEST ∧
    Idle clipState ∧ (∀ c ∈ batchPackets, OtherPacket ndsHdr c) ∧
    VtxPacket ndsHdr (0x23, [0x10001000, 0x1000]) ∧
    (submit ndsHdr clipState ([0x40, 0] ++ packetWords batchPackets)).n_verts = 1 ∧
    (gxcmd_execute ndsHdr staleState).clipmtx = staleState.clipmtx ∧
    (gxcmd_execute ndsHdr staleState).posmtx ≠ staleState.posmtx ∧
    (submit ndsHdr clipState ([0x40, 0] ++ packetWords batchPackets)).clipmtx =
      matmul clipState.posmtx clipState.projmtx ∧
    (submit ndsHdr clipState
        ([0x40, 0] ++ packetWords batchPackets ++ [0x23, 0x10001000, 0x1000])).vertexram
        (submit ndsHdr clipState ([0x40, 0] ++ packetWords batchPackets)).n_verts =
      vecmul (matmul clipState.posmtx clipState.projmtx)
        (submit ndsHdr clipState
          ([0x40, 0] ++ packetWords batchPackets ++ [0x23, 0x10001000, 0x1000])).cur_vtx := by
  have h := clip_frame (F := ℚ) ndsHdr (by decide) (by decide)
  have h1 := h.1 staleState (by decide) (by decide)
  have h2 := h.2 clipState 0 batchPackets (0x23, [0x10001000, 0x1000]) (by decide) (by decide)
    (by decide) (by decide) (by decide)
  refine ⟨by decide, by decide, by decide, by decide, by decide, by decide, by decide, h1, ?_,
    h2.1, h2.2⟩
  intro hp
  have h3 := congrFun (congrFun hp 0) 3
  rw [gxcmd_execute_head ndsHdr staleState _ rfl,
    show staleState.cmd_fifo 0 % 256 = ndsHdr.MTX_IDENTITY from by decide,
    switch_MTX_IDENTITY ndsHdr (by decide)] at h3
  simp [gxcmd_dequeue, load_cur, staleState, clipState, zeroState, ndsHdr, identity] at h3

end ClipExample

section Mode3

variable {F : Type} [Zero F] [One F] [Add F] [Sub F] [Mul F] [Div F] [IntCast F] [FloatOps F]

/-- In a matrix mode that is none of the three labels, every matrix case of
`gxcmd_execute` falls through its mode switch. -/
theorem mode3_cases (K : Hdr) (s : GPU F)
    (hm : s.mtx_mode ≠ K.MM_PROJ ∧ s.mtx_mode ≠ K.MM_POS ∧ s.mtx_mode ≠ K.MM_POSVEC) :
    mtx_push K s = s ∧ mtx_pop K s = s ∧ mtx_store K s = s ∧ mtx_restore K s = s ∧
    (∀ m, load_cur K s m = s) ∧ (∀ m, mult_cur K s m = s) ∧ (∀ m, scale_cur K s m = s) := by
  obtain ⟨h1, h2, h3⟩ := hm
  have h23 : ¬ (s.mtx_mode = K.MM_POS ∨ s.mtx_mode = K.MM_POSVEC) := by
    intro h; rcases h with h | h
    · exact h2 h
    · exact h3 h
  refine ⟨?_, ?_, ?_, ?_, ?_, ?_, ?_⟩
  · unfold mtx_push; rw [if_neg h1, if_neg h23]
  · unfold mtx_pop; rw [if_neg h1, if_neg h23]
  · unfold mtx_store; rw [if_neg h1, if_neg h23]
  · unfold mtx_restore; rw [if_neg h1, if_neg h23]
  · intro m; unfold load_cur; rw [if_neg h1, if_neg h2, if_neg h3]
  · intro m; unfold mult_cur; rw [if_neg h1, if_neg h2, if_neg h3]
  · intro m; unfold scale_cur; rw [if_neg h1, if_neg h23]

/-- In such a mode a matrix opcode only leaves the queues. -/
theorem mode3_execute (K : Hdr) (hK : K.Distinct) (s : GPU F)
    (hm : s.mtx_mode ≠ K.MM_PROJ ∧ s.mtx_mode ≠ K.MM_POS ∧ s.mtx_mode ≠ K.MM_POSVEC)
    (hop : s.cmd_fifo 0 % 256 = K.MTX_PUSH ∨ s.cmd_fifo 0 % 256 = K.MTX_POP ∨
      s.cmd_fifo 0 % 256 = K.MTX_STORE ∨ s.cmd_fifo 0 % 256 = K.MTX_RESTORE ∨
      s.cmd_fifo 0 % 256 = K.MTX_IDENTITY ∨ s.cmd_fifo 0 % 256 = K.MTX_LOAD_44 ∨
      s.cmd_fifo 0 % 256 = K.MTX_LOAD_43 ∨ s.cmd_fifo 0 % 256 = K.MTX_MULT_44 ∨
      s.cmd_fifo 0 % 256 = K.MTX_MULT_43 ∨ s.cmd_fifo 0 % 256 = K.MTX_MULT_33 ∨
      s.cmd_fifo 0 % 256 = K.MTX_SCALE ∨ s.cmd_fifo 0 % 256 = K.MTX_TRANS) :
    gxcmd_execute K s = gxcmd_dequeue K (s.cmd_fifo 0 % 256) s := by
  obtain ⟨m1, m2, m3, m4, m5, m6, m7⟩ := mode3_cases K s hm
  rw [gxcmd_execute_head K s _ rfl]
  rcases hop with h | h | h | h | h | h | h | h | h | h | h | h <;> rw [h]
  · rw [switch_MTX_PUSH K hK, m1]
  · rw [switch_MTX_POP K hK, m2]
  · rw [switch_MTX_STORE K hK, m3]
  · rw [switch_MTX_RESTORE K hK, m4]
  · rw [switch_MTX_IDENTITY K hK, m5]
  · rw [switch_MTX_LOAD_44 K hK, m5]
  · rw [switch_MTX_LOAD_43 K hK, m5]
  · rw [switch_MTX_MULT_44 K hK, m6]
  · rw [switch_MTX_MULT_43 K hK, m6]
  · rw [switch_MTX_MULT_33 K hK, m6]
  · rw [switch_MTX_SCALE K hK, m7]
  · rw [switch_MTX_TRANS K hK, m6]

/-- C29: `MTX_MODE` stores `p & 3`, so the mode can take the value 3, which is
none of Projection, Position, PositionAndVector when these are numbered below
3 (a fact of `gpu.h`, taken as a hypothesis); while the mode is none of the
three, every matrix opcode (push, pop, store, restore, identity, load,
multiply, scale, translate) leaves the Projection, Position and Vector
matrices, all stack slots, both stack depths, their status mirrors and the
stack-error flag unchanged, while still consuming its parameters: the opcode
and its `nparms` parameter words leave the queues. -/
theorem mode_three (K : Hdr) (hK : K.Distinct) (s : GPU F) :
    (s.cmd_fifo 0 % 256 = K.MTX_MODE →
      (gxcmd_execute K s).mtx_mode = s.param_fifo 0 &&& 3 ∧
      (gxcmd_execute K s).mtx_mode ≤ 3 ∧
      (K.MM_PROJ < 3 ∧ K.MM_POS < 3 ∧ K.MM_POSVEC < 3 → s.param_fifo 0 % 4 = 3 →
        (gxcmd_execute K s).mtx_mode = 3 ∧
        (gxcmd_execute K s).mtx_mode ≠ K.MM_PROJ ∧ (gxcmd_execute K s).mtx_mode ≠ K.MM_POS ∧
        (gxcmd_execute K s).mtx_mode ≠ K.MM_POSVEC)) ∧
    (s.mtx_mode ≠ K.MM_PROJ ∧ s.mtx_mode ≠ K.MM_POS ∧ s.mtx_mode ≠ K.MM_POSVEC →
      (s.cmd_fifo 0 % 256 = K.MTX_PUSH ∨ s.cmd_fifo 0 % 256 = K.MTX_POP ∨
        s.cmd_fifo 0 % 256 = K.MTX_STORE ∨ s.cmd_fifo 0 % 256 = K.MTX_RESTORE ∨
        s.cmd_fifo 0 % 256 = K.MTX_IDENTITY ∨ s.cmd_fifo 0 % 256 = K.MTX_LOAD_44 ∨
        s.cmd_fifo 0 % 256 = K.MTX_LOAD_43 ∨ s.cmd_fifo 0 % 256 = K.MTX_MULT_44 ∨
        s.cmd_fifo 0 % 256 = K.MTX_MULT_43 ∨ s.cmd_fifo 0 % 256 = K.MTX_MULT_33 ∨
        s.cmd_fifo 0 % 256 = K.MTX_SCALE ∨ s.cmd_fifo 0 % 256 = K.MTX_TRANS) →
      (gxcmd_execute K s).projmtx = s.projmtx ∧ (gxcmd_execute K s).posmtx = s.posmtx ∧
      (gxcmd_execute K s).vecmtx = s.vecmtx ∧
      (gxcmd_execute K s).projmtx_stk = s.projmtx_stk ∧
      (gxcmd_execute K s).posmtx_stk = s.posmtx_stk ∧
      (gxcmd_execute K s).vecmtx_stk = s.vecmtx_stk ∧
      (gxcmd_execute K s).projstk_size = s.projstk_size ∧
      (gxcmd_execute K s).mtxstk_size = s.mtxstk_size ∧
      (gxcmd_execute K s).stat_projstk_size = s.stat_projstk_size ∧
      (gxcmd_execute K s).stat_mtxstk_size = s.stat_mtxstk_size ∧
      (gxcmd_execute K s).mtxstk_error = s.mtxstk_error ∧
      (gxcmd_execute K s).mtx_mode = s.mtx_mode ∧
      (gxcmd_execute K s).cmd_fifosize = s.cmd_fifosize - 1 ∧
      (gxcmd_execute K s).param_fifosize =
        s.param_fifosize - nparms (s.cmd_fifo 0 % 256)) := by
  constructor
  · intro hcmd
    rw [gxcmd_execute_head K s _ hcmd, switch_MTX_MODE K hK]
    simp only [gxcmd_dequeue]
    have hlt : s.param_fifo 0 &&& 3 = s.param_fifo 0 % 4 :=
      Nat.and_pow_two_sub_one_eq_mod (s.param_fifo 0) 2
    refine ⟨trivial, by rw [hlt]; omega, ?_⟩
    intro hl h3
    rw [hlt, h3]
    refine ⟨rfl, ?_, ?_, ?_⟩ <;> omega
  · intro hm hop
    rw [mode3_execute K hK s hm hop]
    simp [gxcmd_dequeue]

end Mode3

/-- Instance of `mode_three`: `MTX_MODE 7` on `modeState` gives mode 3; in
mode 3, `MTX_PUSH` at depth 31 on `mode3PushState` and `MTX_LOAD_44` on
`mode3LoadState` change no matrix, depth or flag, and the load still removes
its sixteen parameters. -/
theorem mode_three_witness :
    ndsHdr.Distinct ∧ modeState.cmd_fifo 0 % 256 = ndsHdr.MTX_MODE ∧
    (ndsHdr.MM_PROJ < 3 ∧ ndsHdr.MM_POS < 3 ∧ ndsHdr.MM_POSVEC < 3) ∧
    modeState.param_fifo 0 % 4 = 3 ∧
    (mode3PushState.mtx_mode ≠ ndsHdr.MM_PROJ ∧ mode3PushState.mtx_mode ≠ ndsHdr.MM_POS ∧
      mode3PushState.mtx_mode ≠ ndsHdr.MM_POSVEC) ∧
    mode3PushState.cmd_fifo 0 % 256 = ndsHdr.MTX_PUSH ∧
    mode3LoadState.cmd_fifo 0 % 256 = ndsHdr.MTX_LOAD_44 ∧
    (gxcmd_execute ndsHdr modeState).mtx_mode = 3 ∧
    (gxcmd_execute ndsHdr mode3PushState).mtxstk_error = mode3PushState.mtxstk_error ∧
    (gxcmd_execute ndsHdr mode3PushState).projstk_size = 1 ∧
    (gxcmd_execute ndsHdr mode3LoadState).posmtx = mode3LoadState.posmtx ∧
    (gxcmd_execute ndsHdr mode3LoadState).projmtx = mode3LoadState.projmtx ∧
    (gxcmd_execute ndsHdr mode3LoadState).param_fifosize = 0 :=
  have h1 := ((mode_three ndsHdr (by decide) modeState).1 (by decide)).2.2 (by decide)
    (by decide)
  have h2 := (mode_three ndsHdr (by decide) mode3PushState).2 (by decide)
    (Or.inl (by decide))
  have h3 := (mode_three ndsHdr (by decide) mode3LoadState).2 (by decide)
    (Or.inr (Or.inr (Or.inr (Or.inr (Or.inr (Or.inl (by decide)))))))
  ⟨by decide, by decide, by decide, by decide, by decide, by decide, by decide, h1.1,
    h2.2.2.2.2.2.2.2.2.2.2.1, h2.2.2.2.2.2.2.1, h3.2.1, h3.1, h3.2.2.2.2.2.2.2.2.2.2.2.2.2⟩

theorem toInt_intCast (n : Int) : FloatOps.toInt ((n : Int) : ℚ) = n := by
  show Int.tdiv ((n : ℚ)).num ((n : ℚ)).den = n
  simp

theorem toInt_ofNat (n : ℕ) [n.AtLeastTwo] :
    FloatOps.toInt (OfNat.ofNat n : ℚ) = (OfNat.ofNat n : Int) := by
  have h := toInt_intCast (OfNat.ofNat n : Int)
  simpa using h

section RenderCoords

variable {F : Type} [Zero F] [One F] [Add F] [Sub F] [Mul F] [Div F] [IntCast F] [FloatOps F]

/-- Function `render_line` in terms of the pixel coordinates of its endpoints. -/
theorem render_line_coords (K : Hdr) (scr : Nat → Nat → Nat) (v0 v1 : Vec4 F)
    (x0 y0 x1 y1 : Int)
    (hx0 : FloatOps.toInt ((v0 0 / v0 3 + 1) * ((K.NDS_SCREEN_W : Int) : F) / ((2 : Int) : F))
      = x0)
    (hy0 : FloatOps.toInt ((1 - v0 1 / v0 3) * ((K.NDS_SCREEN_H : Int) : F) / ((2 : Int) : F))
      = y0)
    (hx1 : FloatOps.toInt ((v1 0 / v1 3 + 1) * ((K.NDS_SCREEN_W : Int) : F) / ((2 : Int) : F))
      = x1)
    (hy1 : FloatOps.toInt ((1 - v1 1 / v1 3) * ((K.NDS_SCREEN_H : Int) : F) / ((2 : Int) : F))
      = y1) :
    render_line K scr v0 v1 =
      if line_rejected K x0 y0 x1 y1 then scr
      else if FloatOps.gt (FloatOps.fabsf (((y1 - y0 : Int) : F) / ((x1 - x0 : Int) : F))) (1 : F)
      then
        line_by_y K ((if y0 > y1 then y0 else y1) - (if y0 > y1 then y1 else y0) + 1).toNat
          (if y0 > y1 then y1 else y0) (((if y0 > y1 then x1 else x0 : Int) : Int) : F)
          ((1 : F) / (((y1 - y0 : Int) : F) / ((x1 - x0 : Int) : F))) scr
      else
        line_by_x K ((if x0 > x1 then x0 else x1) - (if x0 > x1 then x1 else x0) + 1).toNat
          (if x0 > x1 then x1 else x0) (((if x0 > x1 then y1 else y0 : Int) : Int) : F)
          (((y1 - y0 : Int) : F) / ((x1 - x0 : Int) : F)) scr := by
  subst hx0 hy0 hx1 hy1
  rfl

end RenderCoords

theorem edge_coords :
    FloatOps.toInt ((edgeA 0 / edgeA 3 + 1) * ((ndsHdr.NDS_SCREEN_W : Int) : ℚ) / ((2 : Int) : ℚ))
      = 10 ∧
    FloatOps.toInt ((1 - edgeA 1 / edgeA 3) * ((ndsHdr.NDS_SCREEN_H : Int) : ℚ) / ((2 : Int) : ℚ))
      = 195 ∧
    FloatOps.toInt ((edgeB 0 / edgeB 3 + 1) * ((ndsHdr.NDS_SCREEN_W : Int) : ℚ) / ((2 : Int) : ℚ))
      = -5 ∧
    FloatOps.toInt ((1 - edgeB 1 / edgeB 3) * ((ndsHdr.NDS_SCREEN_H : Int) : ℚ) / ((2 : Int) : ℚ))
      = 180 := by
  have a0 : edgeA 0 = -59 / 64 := rfl
  have a1 : edgeA 1 = -33 / 32 := rfl
  have a3 : edgeA 3 = 1 := rfl
  have b0 : edgeB 0 = -133 / 128 := rfl
  have b1 : edgeB 1 = -7 / 8 := rfl
  have b3 : edgeB 3 = 1 := rfl
  have w : ((ndsHdr.NDS_SCREEN_W : Int) : ℚ) = 256 := by simp [ndsHdr]
  have hh : ((ndsHdr.NDS_SCREEN_H : Int) : ℚ) = 192 := by simp [ndsHdr]
  rw [a0, a1, a3, b0, b1, b3, w, hh]
  refine ⟨?_, ?_, ?_, ?_⟩
  · rw [show ((-59 / 64 / 1 + 1) * 256 / ((2 : Int) : ℚ) : ℚ) = ((10 : Int) : ℚ) by norm_num]
    exact toInt_intCast 10
  · rw [show ((1 - -33 / 32 / 1) * 192 / ((2 : Int) : ℚ) : ℚ) = ((195 : Int) : ℚ) by norm_num]
    exact toInt_intCast 195
  · rw [show ((-133 / 128 / 1 + 1) * 256 / ((2 : Int) : ℚ) : ℚ) = ((-5 : Int) : ℚ) by norm_num]
    exact toInt_intCast (-5)
  · rw [show ((1 - -7 / 8 / 1) * 192 / ((2 : Int) : ℚ) : ℚ) = ((180 : Int) : ℚ) by norm_num]
    exact toInt_intCast 180

theorem edge_slope : (((180 - 195 : Int) : Int) : ℚ) / (((-5 - 10 : Int) : Int) : ℚ) = 1 := by
  norm_num

section Pixels

variable {F : Type} [Zero F] [One F] [Add F] [Sub F] [Mul F] [Div F] [IntCast F] [FloatOps F]

/-- A pixel that is set stays set through `plot`. -/
theorem plot_keeps (K : Hdr) (scr : Nat → Nat → Nat) (sx sy : Int) (r c : Nat)
    (h : scr r c = 0x801f) : plot K scr sx sy r c = 0x801f := by
  unfold plot
  split_ifs
  · exact h
  · by_cases hr : r = sy.toNat
    · subst hr
      rw [Function.update_same]
      by_cases hc : c = sx.toNat
      · subst hc; rw [Function.update_same]
      · rw [Function.update_noteq hc]; exact h
    · rw [Function.update_noteq hr]; exact h

/-- A pixel that is set stays set through the x-major loop of `render_line`. -/
theorem line_by_x_keeps (K : Hdr) (n : Nat) :
    ∀ (x : Int) (y m : F) (scr : Nat → Nat → Nat) (r c : Nat), scr r c = 0x801f →
      line_by_x K n x y m scr r c = 0x801f := by
  induction n with
  | zero => intro x y m scr r c h; exact h
  | succ n ih =>
    intro x y m scr r c h
    exact ih _ _ _ _ r c (plot_keeps K scr _ _ r c h)

/-- Iterations of the x-major loop at negative `x` write nothing. -/
theorem line_by_x_skip (K : Hdr) (k : Nat) :
    ∀ (n : Nat) (x : Int) (y m : F) (scr : Nat → Nat → Nat), x + (k : Int) ≤ 0 →
      ∃ y2 : F, line_by_x K (k + n) x y m scr = line_by_x K n (x + (k : Int)) y2 m scr ∧
        y2 = (List.range k).foldl (fun a _ => a + m) y := by
  induction k with
  | zero =>
    intro n x y m scr _
    refine ⟨y, ?_, rfl⟩
    simp
  | succ k ih =>
    intro n x y m scr hx
    have hneg : x < 0 := by omega
    have hp : plot K scr x (FloatOps.toInt y) = scr := by
      unfold plot
      rw [if_pos (Or.inl hneg)]
    obtain ⟨y2, e1, e2⟩ := ih n (x + 1) (y + m) m scr (by push_cast at hx; omega)
    refine ⟨y2, ?_, ?_⟩
    · rw [show k + 1 + n = (k + n) + 1 from by omega]
      show line_by_x K (k + n) (x + 1) (y + m) m (plot K scr x (FloatOps.toInt y)) = _
      have hx2 : x + 1 + (k : Int) = x + ((k + 1 : Nat) : Int) := by push_cast; omega
      rw [hp, e1, hx2]
    · rw [e2, List.range_succ_eq_map, List.foldl_cons, List.foldl_map]

end Pixels

/-- C26, evaluated on the edge from `edgeA` to `edgeB` on an empty screen: the
endpoints have pixel coordinates (10, 195) and (-5, 180), both outside the
screen box (`195 > NDS_SCREEN_H = 192` and `-5 < 0`); the rejection test of
`render_line` does not fire, because it compares 195 with `NDS_SCREEN_W = 256`,
and the pixel in row 185, column 0 is written. -/
theorem render_line_example :
    ¬ line_rejected ndsHdr 10 195 (-5) 180 ∧
    ((195 : Int) > ndsHdr.NDS_SCREEN_H ∧ (-5 : Int) < 0) ∧
    render_line ndsHdr (fun _ _ => 0) edgeA edgeB 185 0 = 0x801f := by
  refine ⟨by decide, by decide, ?_⟩
  rw [render_line_coords ndsHdr _ edgeA edgeB 10 195 (-5) 180 edge_coords.1 edge_coords.2.1
    edge_coords.2.2.1 edge_coords.2.2.2]
  rw [if_neg (by decide), edge_slope]
  have hg : FloatOps.gt (FloatOps.fabsf (1 : ℚ)) (1 : ℚ) = false := by
    simp [FloatOps.gt, FloatOps.fabsf]
  rw [hg]
  simp only [Bool.false_eq_true, if_false]
  rw [show ((if (10 : Int) > -5 then (10 : Int) else -5) - (if (10 : Int) > -5 then -5 else 10)
    + 1).toNat = 5 + 11 from by decide]
  rw [show (if (10 : Int) > -5 then (-5 : Int) else 10) = -5 from by decide]
  rw [show (if (10 : Int) > -5 then (180 : Int) else 195) = 180 from by decide]
  obtain ⟨y2, e1, e2⟩ := line_by_x_skip ndsHdr 5 11 (-5) (((180 : Int) : Int) : ℚ) 1
    (fun _ _ => 0) (by decide)
  rw [e1]
  have hy : y2 = 185 := by
    rw [e2]; simp [List.range_succ, List.foldl]; norm_num
  rw [hy]
  show line_by_x ndsHdr 10 (-5 + ((5 : Nat) : Int) + 1) (185 + 1) 1
    (plot ndsHdr (fun _ _ => 0) (-5 + ((5 : Nat) : Int)) (FloatOps.toInt (185 : ℚ))) 185 0 = 0x801f
  apply line_by_x_keeps
  rw [toInt_ofNat]
  simp [plot, ndsHdr, Function.update]

/-- C27, evaluated on the word stream `swapStream` from the zero engine: the
vertex sent after `SWAP_BUFFERS` is the third of its primitive (the
per-primitive counter was not reset) and the first of the vertex store, so the
triangle it completes holds the pointers `&vertexram[-2]`, `&vertexram[-1]`,
`&vertexram[0]`: two of its references lie below the vertex store, whose count
is 1. -/
theorem swap_stream_example :
    Idle zeroState ∧
    (submit ndsHdr zeroState swapStream).n_verts = 1 ∧
    (submit ndsHdr zeroState swapStream).n_polys = 1 ∧
    (submit ndsHdr zeroState swapStream).cur_vtx_ct = 3 ∧
    (submit ndsHdr zeroState swapStream).polygonram 0 = ⟨some (-2), some (-1), some 0, none⟩ := by
  decide

section Fill

variable {F : Type} [Zero F] [One F] [Add F] [Sub F] [Mul F] [Div F] [IntCast F] [FloatOps F]

/-- No opcode takes more than 32 parameters. -/
theorem nparms_le (c : Nat) : nparms c ≤ 32 := by
  by_cases h : 128 ≤ c
  · rw [nparms_unknown_group c h]; omega
  · have h2 : ∀ d, d < 128 → nparms d ≤ 32 := by decide
    exact h2 c (by omega)

theorem zeroArity_nil : zeroArity [] = 0 := rfl

theorem zeroArity_cons (a : Nat) (l : List Nat) :
    zeroArity (a :: l) = zeroArity l + (if nparms a = 0 then 1 else 0) := by
  simp [zeroArity, List.countP_cons]

theorem zeroArity_append (l m : List Nat) :
    zeroArity (l ++ m) = zeroArity l + zeroArity m := by
  simp [zeroArity, List.countP_append]

/-- Arities and parameterless opcodes together: each opcode either counts as
parameterless or adds at most 32 to the sum of the arities. -/
theorem arity_bound (l : List Nat) :
    (l.map nparms).sum + 32 * zeroArity l ≤ 32 * l.length := by
  induction l with
  | nil => simp [zeroArity_nil]
  | cons a l ih =>
    rw [zeroArity_cons, List.map_cons, List.sum_cons, List.length_cons]
    have ha := nparms_le a
    by_cases h : nparms a = 0
    · rw [if_pos h, h]; omega
    · rw [if_neg h]; omega

theorem unpack_ops_length (n : Nat) : ∀ c, (unpack_ops n c).length ≤ n := by
  induction n with
  | zero => intro c; simp [unpack_ops]
  | succ n ih =>
    intro c
    simp only [unpack_ops]
    by_cases hc : c = 0
    · simp [hc]
    · rw [if_neg hc, List.length_cons]
      have := ih (c >>> 8)
      omega

/-- The unpacking loop adds one to the fill level for each opcode without
parameters. -/
theorem unpack_fill (K : Hdr) (n : Nat) :
    ∀ (c : Nat) (s : GPU F), s.gxfifo_size + n < 2 ^ K.gxfifo_size_bits →
      (unpack K n c s).gxfifo_size = s.gxfifo_size + zeroArity (unpack_ops n c) := by
  induction n with
  | zero => intro c s _; simp [unpack, unpack_ops, zeroArity_nil]
  | succ n ih =>
    intro c s hs
    simp only [unpack, unpack_ops]
    by_cases hc : c = 0
    · simp [hc, zeroArity_nil]
    · rw [if_neg hc, if_neg hc, zeroArity_cons]
      have hw : wrapU K.gxfifo_size_bits ((s.gxfifo_size : Int) + 1) = s.gxfifo_size + 1 := by
        have h := wrapU_of_lt K.gxfifo_size_bits (s.gxfifo_size + 1) (by omega)
        rw [← h]; push_cast; rfl
      by_cases h0 : nparms (c % 256) = 0
      · rw [ih _ _ (by simp only [h0, if_true, hw]; omega)]
        simp only [h0, if_true, hw]
        omega
      · rw [ih _ _ (by simp only [h0, if_false]; omega)]
        simp only [h0, if_false]
        omega

end Fill

section FillDrain

variable {F : Type} [Zero F] [One F] [Add F] [Sub F] [Mul F] [Div F] [IntCast F] [FloatOps F]

/-- Subtraction in the fill-level bit-field, when nothing wraps. -/
theorem wrapU_sub (w a b : Nat) (hb : b ≤ a) (ha : a < 2 ^ w) :
    wrapU w ((a : Int) - (b : Int)) = a - b := by
  have h := wrapU_of_lt w (a - b) (by omega)
  rw [← h, Nat.cast_sub hb]

/-- One `gxcmd_execute` lowers the fill level by the number of parameter words
it removes, or by one for an opcode without parameters. -/
theorem execute_fill (K : Hdr) (s : GPU F) (h1 : 1 ≤ s.cmd_fifosize)
    (hlt : ∀ c ∈ cmdq s, c < 256)
    (h2 : nparms (s.cmd_fifo 0) ≤ s.param_fifosize)
    (hf : s.gxfifo_size = s.param_fifosize + zeroArity (cmdq s))
    (hw : s.gxfifo_size < 2 ^ K.gxfifo_size_bits) :
    (gxcmd_execute K s).gxfifo_size =
      (gxcmd_execute K s).param_fifosize + zeroArity (cmdq (gxcmd_execute K s)) ∧
    (gxcmd_execute K s).gxfifo_size ≤ s.gxfifo_size := by
  obtain ⟨n, hn⟩ : ∃ n, s.cmd_fifosize = n + 1 := ⟨s.cmd_fifosize - 1, by omega⟩
  have hcq : cmdq s = s.cmd_fifo 0 :: (cmdq s).tail := by
    simp only [cmdq, hn, qmap_succ, List.tail_cons]
  have hb : s.cmd_fifo 0 < 256 := hlt _ (by rw [hcq]; exact List.mem_cons_self _ _)
  have hmod : s.cmd_fifo 0 % 256 = s.cmd_fifo 0 := Nat.mod_eq_of_lt hb
  obtain ⟨e1, -, -, -, e5⟩ := execute_queues K s h1 (by rw [hmod]; exact h2)
  rw [hmod] at e5
  have hq := gxcmd_switch_queue K (s.cmd_fifo 0 % 256) s
  simp only [SameQueue] at hq
  obtain ⟨-, -, -, -, -, q6, -⟩ := hq
  rw [hmod] at q6
  have hz : zeroArity (cmdq s) =
      zeroArity (cmdq s).tail + (if nparms (s.cmd_fifo 0) = 0 then 1 else 0) := by
    conv_lhs => rw [hcq]
    exact zeroArity_cons _ _
  have hsz : (gxcmd_execute K s).gxfifo_size =
      if nparms (s.cmd_fifo 0) ≠ 0 then
        wrapU K.gxfifo_size_bits ((s.gxfifo_size : Int) - (nparms (s.cmd_fifo 0) : Int))
      else wrapU K.gxfifo_size_bits ((s.gxfifo_size : Int) - 1) := by
    simp only [gxcmd_execute, gxcmd_dequeue, hmod, q6]
  rw [hsz, e1, e5]
  by_cases h0 : nparms (s.cmd_fifo 0) = 0
  · rw [if_pos h0] at hz
    have h3 := wrapU_sub K.gxfifo_size_bits s.gxfifo_size 1 (by omega) hw
    simp only [ne_eq, h0, not_true_eq_false, if_false]
    rw [show ((s.gxfifo_size : Int) - 1) = (s.gxfifo_size : Int) - ((1 : Nat) : Int) from rfl, h3]
    omega
  · rw [if_neg h0] at hz
    have h3 := wrapU_sub K.gxfifo_size_bits s.gxfifo_size (nparms (s.cmd_fifo 0)) (by omega) hw
    simp only [ne_eq, h0, not_false_eq_true, if_true]
    rw [h3]
    omega

/-- The drain loop, entered with no parameter owed, ends with the fill level
at zero. -/
theorem drain_fill (K : Hdr) (n : Nat) :
    ∀ s : GPU F, s.cmd_fifosize = n → (∀ c ∈ cmdq s, c < 256) →
      ((cmdq s).map nparms).sum = s.param_fifosize →
      s.gxfifo_size = s.param_fifosize + zeroArity (cmdq s) →
      s.gxfifo_size < 2 ^ K.gxfifo_size_bits →
      (drain K n s).gxfifo_size = 0 := by
  induction n with
  | zero =>
    intro s hn _ hsum hf _
    have hc : cmdq s = [] := by simp [cmdq, hn]
    rw [hc] at hsum hf
    have hps : s.param_fifosize = 0 := by simpa using hsum.symm
    simp only [drain]
    rw [hf, hps, zeroArity_nil]
  | succ n ih =>
    intro s hn hlt hsum hf hw
    have hcq : cmdq s = s.cmd_fifo 0 :: (cmdq s).tail := by
      simp only [cmdq, hn, qmap_succ, List.tail_cons]
    have hb : s.cmd_fifo 0 < 256 := hlt _ (by rw [hcq]; exact List.mem_cons_self _ _)
    have hmod : s.cmd_fifo 0 % 256 = s.cmd_fifo 0 := Nat.mod_eq_of_lt hb
    have hsum2 : nparms (s.cmd_fifo 0) + (((cmdq s).tail).map nparms).sum = s.param_fifosize := by
      rw [hcq] at hsum
      simpa using hsum
    obtain ⟨e1, -, -, e4, e5⟩ := execute_queues K s (by omega) (by rw [hmod]; omega)
    rw [hmod] at e5
    obtain ⟨f1, f2⟩ := execute_fill K s (by omega) hlt (by omega) hf hw
    simp only [drain]
    rw [if_neg (by omega)]
    apply ih
    · rw [e4, hn]; rfl
    · rw [e1]; intro c hc; exact hlt c (List.mem_of_mem_tail hc)
    · rw [e1, e5]; omega
    · exact f1
    · omega

/-- The traced drain loop does not depend on the iteration bound once the
bound covers the command queue. -/
theorem drain_log_fuel (K : Hdr) (n : Nat) :
    ∀ (s : GPU F) (log : List Event), s.cmd_fifosize ≤ n →
      drain_log K n s log = drain_log K s.cmd_fifosize s log := by
  induction n with
  | zero =>
    intro s log h
    have h0 : s.cmd_fifosize = 0 := by omega
    rw [h0]
  | succ n ih =>
    intro s log h
    by_cases h0 : s.cmd_fifosize = 0
    · rw [h0]; simp [drain_log, h0]
    · obtain ⟨m, hm⟩ : ∃ m, s.cmd_fifosize = m + 1 := ⟨s.cmd_fifosize - 1, by omega⟩
      have he : (gxcmd_execute K s).cmd_fifosize = m := by
        rw [gxcmd_execute_cmd_fifosize, hm]; rfl
      rw [hm]
      simp only [drain_log, if_neg h0]
      rw [ih _ _ (by omega), he]

end FillDrain

section FillWrite

variable {F : Type} [Zero F] [One F] [Add F] [Sub F] [Mul F] [Div F] [IntCast F] [FloatOps F]

/-- Under the relation `FillInv` the fill level is at most 127, and with no
parameter owed both queues are empty and the fill level is zero. -/
theorem fill_small (s : GPU F) (h : FillInv s) :
    s.gxfifo_size ≤ 127 ∧
    (s.params_pending = 0 → s.cmd_fifosize = 0 ∧ s.param_fifosize = 0 ∧ s.gxfifo_size = 0) := by
  obtain ⟨-, h2, h3, h4, h5⟩ := h
  have hb := arity_bound (cmdq s)
  rw [cmdq_length] at hb
  have hz : s.params_pending = 0 →
      s.cmd_fifosize = 0 ∧ s.param_fifosize = 0 ∧ s.gxfifo_size = 0 := by
    intro hp
    have hc := h5 hp
    have hq : cmdq s = [] := by simp [cmdq, hc]
    rw [hq] at h3 h4
    simp only [List.map_nil, List.sum_nil, zeroArity_nil] at h3 h4
    exact ⟨hc, by omega, by omega⟩
  refine ⟨?_, hz⟩
  by_cases hp : s.params_pending = 0
  · have := (hz hp).2.2
    omega
  · omega

/-- The first `if` of `gxfifo_write` keeps the relation between the fill level
and the queues; the fill level reaches at most 128. -/
theorem enqueue_fill (K : Hdr) (hb : 8 ≤ K.gxfifo_size_bits) (s : GPU F) (h : FillInv s)
    (c : Nat) :
    (∀ b ∈ cmdq (gxfifo_enqueue K s c), b < 256) ∧
    (gxfifo_enqueue K s c).cmd_fifosize ≤ 4 ∧
    ((cmdq (gxfifo_enqueue K s c)).map nparms).sum =
      (gxfifo_enqueue K s c).param_fifosize + (gxfifo_enqueue K s c).params_pending ∧
    (gxfifo_enqueue K s c).gxfifo_size =
      (gxfifo_enqueue K s c).param_fifosize + zeroArity (cmdq (gxfifo_enqueue K s c)) ∧
    (gxfifo_enqueue K s c).gxfifo_size ≤ 128 := by
  have hpow : 256 ≤ 2 ^ K.gxfifo_size_bits :=
    le_trans (by norm_num) (Nat.pow_le_pow_right (by norm_num : 0 < 2) hb)
  obtain ⟨s1, s2⟩ := fill_small s h
  obtain ⟨h1, h2, h3, h4, -⟩ := h
  by_cases hp : s.params_pending = 0
  · obtain ⟨z1, z2, z3⟩ := s2 hp
    have hq : cmdq s = [] := by simp [cmdq, z1]
    have he : gxfifo_enqueue K s c = unpack K 4 c s := by
      unfold gxfifo_enqueue
      rw [if_neg (by simpa using hp)]
    obtain ⟨u1, -, u3, u4⟩ := unpack_queues K 4 c s
    have u5 := unpack_fill K 4 c s (by omega)
    have hl := unpack_ops_length 4 c
    have ha := arity_bound (unpack_ops 4 c)
    rw [hq, List.nil_append] at u1
    have hcs : (unpack K 4 c s).cmd_fifosize = (unpack_ops 4 c).length := by
      rw [← cmdq_length, u1]
    rw [he, u1, u3, u4, u5, hcs]
    refine ⟨fun b hb2 => unpack_ops_lt 4 c b hb2, hl, by omega, by omega, by omega⟩
  · have he : gxfifo_enqueue K s c =
        { s with
          param_fifo := Function.update s.param_fifo s.param_fifosize c
          param_fifosize := s.param_fifosize + 1
          params_pending := s.params_pending - 1
          gxfifo_size := wrapU K.gxfifo_size_bits ((s.gxfifo_size : Int) + 1) } := by
      unfold gxfifo_enqueue
      rw [if_pos hp]
    have hw : wrapU K.gxfifo_size_bits ((s.gxfifo_size : Int) + 1) = s.gxfifo_size + 1 := by
      have h := wrapU_of_lt K.gxfifo_size_bits (s.gxfifo_size + 1) (by omega)
      rw [← h]; push_cast; rfl
    rw [he]
    refine ⟨h1, h2, ?_, ?_, ?_⟩
    · show ((cmdq s).map nparms).sum = (s.param_fifosize + 1) + (s.params_pending - 1)
      omega
    · show wrapU K.gxfifo_size_bits ((s.gxfifo_size : Int) + 1) =
        (s.param_fifosize + 1) + zeroArity (cmdq s)
      rw [hw]; omega
    · show wrapU K.gxfifo_size_bits ((s.gxfifo_size : Int) + 1) ≤ 128
      rw [hw]; omega

/-- Function `gxfifo_write` keeps the relation `FillInv`. -/
theorem write_fill (K : Hdr) (hb : 8 ≤ K.gxfifo_size_bits) (s : GPU F) (h : FillInv s)
    (w : Nat) : FillInv (gxfifo_write K s w) := by
  have hpow : 256 ≤ 2 ^ K.gxfifo_size_bits :=
    le_trans (by norm_num) (Nat.pow_le_pow_right (by norm_num : 0 < 2) hb)
  obtain ⟨e1, e2, e3, e4, e5⟩ := enqueue_fill K hb s h (w % 4294967296)
  have hfl : ∀ t : GPU F, FillInv t → FillInv (gxfifo_flags t) := fun t ht => ht
  unfold gxfifo_write
  apply hfl
  by_cases hp : (gxfifo_enqueue K s (w % 4294967296)).params_pending = 0
  · simp only [hp, if_true]
    rw [hp, Nat.add_zero] at e3
    obtain ⟨d1, d2, d3, -⟩ :=
      drain_log_spec K _ (gxfifo_enqueue K s (w % 4294967296)) [] rfl hp e1 e3
    rw [drain_log_fst] at d1 d2 d3
    have d4 := drain_fill K _ (gxfifo_enqueue K s (w % 4294967296)) rfl e1 e3 e4 (by omega)
    have hq : cmdq (drain K (gxfifo_enqueue K s (w % 4294967296)).cmd_fifosize
        (gxfifo_enqueue K s (w % 4294967296))) = [] := by
      simp [cmdq, d1]
    refine ⟨?_, ?_, ?_, ?_, ?_⟩
    · rw [hq]; intro c hc; simp at hc
    · rw [d1]; omega
    · rw [hq, d2, d3]; rfl
    · rw [hq, d2, d4]; rfl
    · intro _; exact d1
  · simp only [hp, if_false]
    exact ⟨e1, e2, e3, e4, fun h0 => absurd h0 hp⟩

/-- The relation `FillInv` holds along every run of `gxfifo_write`. -/
theorem submit_fill (K : Hdr) (hb : 8 ≤ K.gxfifo_size_bits) (ws : List Nat) :
    ∀ s : GPU F, FillInv s → FillInv (submit K s ws) := by
  induction ws with
  | nil => intro s h; exact h
  | cons w ws ih =>
    intro s h
    rw [submit_cons]
    exact ih _ (write_fill K hb s h w)

/-- An idle engine with fill level zero satisfies `FillInv`. -/
theorem idle_fill (s : GPU F) (hi : Idle s) (h0 : s.gxfifo_size = 0) : FillInv s := by
  obtain ⟨hp, hc, hq⟩ := hi
  have hcq : cmdq s = [] := by simp [cmdq, hc]
  refine ⟨?_, by omega, ?_, ?_, fun _ => hc⟩
  · rw [hcq]; intro c h; simp at h
  · rw [hcq, hp, hq]; rfl
  · rw [hcq, hq, h0]; rfl

end FillWrite

section FillClaim

variable {F : Type} [Zero F] [One F] [Add F] [Sub F] [Mul F] [Div F] [IntCast F] [FloatOps F]

/-- The bit `gxfifo_half` after `gxfifo_write` tells whether the final fill
level is below 128. -/
theorem write_half (K : Hdr) (r : GPU F) (w : Nat) :
    (gxfifo_write K r w).gxfifo_half =
      if (gxfifo_write K r w).gxfifo_size < 128 then true else false := rfl

/-- C28: starting from empty queues with fill level 0 and `params_pending` 0,
after every `gxfifo_write` (the write of `w` after the words `ws`): if
`params_pending` is 0 then the command queue and the parameter queue are both
empty and the fill level `gxstat.gxfifo_size` is 0; otherwise the fill level
equals the number of queued parameter words plus the number of queued opcodes
of arity zero and is at most 127; in both cases `gxfifo_half` is set.  When the
write leaves no parameter owed, the drain loop `while (gpu->cmd_fifosize)
gxcmd_execute(gpu);`, given any bound `n` on its iterations that covers the
command queue, exits with the command queue empty after exactly as many calls
of `gxcmd_execute` as there were queued opcodes.  The fill-level bit-field is
taken to be at least 8 bits wide. -/
theorem fill_level (K : Hdr) (hb : 8 ≤ K.gxfifo_size_bits) (s : GPU F) (hi : Idle s)
    (h0 : s.gxfifo_size = 0) (ws : List Nat) (w : Nat) :
    ((gxfifo_write K (submit K s ws) w).params_pending = 0 →
      (gxfifo_write K (submit K s ws) w).cmd_fifosize = 0 ∧
      (gxfifo_write K (submit K s ws) w).param_fifosize = 0 ∧
      (gxfifo_write K (submit K s ws) w).gxfifo_size = 0) ∧
    ((gxfifo_write K (submit K s ws) w).params_pending ≠ 0 →
      (gxfifo_write K (submit K s ws) w).gxfifo_size =
        (gxfifo_write K (submit K s ws) w).param_fifosize +
          zeroArity (cmdq (gxfifo_write K (submit K s ws) w)) ∧
      (gxfifo_write K (submit K s ws) w).gxfifo_size ≤ 127) ∧
    (gxfifo_write K (submit K s ws) w).gxfifo_half = true ∧
    ((gxfifo_enqueue K (submit K s ws) (w % 4294967296)).params_pending = 0 →
      ∀ n, (gxfifo_enqueue K (submit K s ws) (w % 4294967296)).cmd_fifosize ≤ n →
        (drain_log K n (gxfifo_enqueue K (submit K s ws) (w % 4294967296)) []).1.cmd_fifosize
          = 0 ∧
        (drain_log K n (gxfifo_enqueue K (submit K s ws) (w % 4294967296)) []).2.length =
          (gxfifo_enqueue K (submit K s ws) (w % 4294967296)).cmd_fifosize) := by
  have hr : FillInv (submit K s ws) := submit_fill K hb ws s (idle_fill s hi h0)
  have ht : FillInv (gxfifo_write K (submit K s ws) w) := write_fill K hb _ hr w
  obtain ⟨t1, t2⟩ := fill_small _ ht
  refine ⟨t2, fun _ => ⟨ht.2.2.2.1, t1⟩, ?_, ?_⟩
  · rw [write_half, if_pos (by omega)]
  · intro hp n hn
    obtain ⟨e1, -, e3, -, -⟩ := enqueue_fill K hb _ hr (w % 4294967296)
    rw [hp, Nat.add_zero] at e3
    obtain ⟨d1, -, -, evs, d4, d5, -, -⟩ :=
      drain_log_spec K _ (gxfifo_enqueue K (submit K s ws) (w % 4294967296)) [] rfl hp e1 e3
    rw [drain_log_fuel K n _ _ hn]
    refine ⟨d1, ?_⟩
    rw [d4, List.nil_append, ← cmdq_length, ← d5, List.length_map]

end FillClaim

/-- Instance of `fill_level` on the zero engine: after `MTX_MODE 2`, the word
`0x1b1511` packs `MTX_PUSH`, `MTX_IDENTITY` and `MTX_SCALE`, and the write of
the first parameter of `MTX_SCALE` leaves two parameters owed, one parameter
word and two parameterless opcodes queued, and a fill level of three. -/
theorem fill_level_witness :
    8 ≤ ndsHdr.gxfifo_size_bits ∧ Idle zeroState ∧ zeroState.gxfifo_size = 0 ∧
    (gxfifo_write ndsHdr (submit ndsHdr zeroState [0x10, 2, 0x1b1511]) 4096).params_pending
      = 2 ∧
    (gxfifo_write ndsHdr (submit ndsHdr zeroState [0x10, 2, 0x1b1511]) 4096).param_fifosize
      = 1 ∧
    zeroArity (cmdq (gxfifo_write ndsHdr (submit ndsHdr zeroState [0x10, 2, 0x1b1511]) 4096))
      = 2 ∧
    (gxfifo_write ndsHdr (submit ndsHdr zeroState [0x10, 2, 0x1b1511]) 4096).gxfifo_size =
      (gxfifo_write ndsHdr (submit ndsHdr zeroState [0x10, 2, 0x1b1511]) 4096).param_fifosize +
        zeroArity
          (cmdq (gxfifo_write ndsHdr (submit ndsHdr zeroState [0x10, 2, 0x1b1511]) 4096)) ∧
    (gxfifo_write ndsHdr (submit ndsHdr zeroState [0x10, 2, 0x1b1511]) 4096).gxfifo_half
      = true :=
  have h := fill_level ndsHdr (by decide) zeroState (by decide) rfl [0x10, 2, 0x1b1511] 4096
  ⟨by decide, by decide, rfl, by decide, by decide, by decide, (h.2.1 (by decide)).1, h.2.2.1⟩

end NtrGpu
